import Mathlib

/-!
# AS3 submission response interpreter, log redaction and declaration compiler

A shallow embedding of `pkg/controller/as3Handler.go` and `pkg/controller/as3Parser.go`
(package `controller`).

* Values decoded by `encoding/json` into `interface{}` are the trees of `JSON`;
  a Go `map[string]interface{}` is an association list read through `mapIndex`
  (the first binding of a key is the binding of the map).
* The handlers talk to the status sink only through
  `am.PostManager.updateTenantResponseCode(code, id, tenant, isDeleted, message)`.
  That method is not part of the translated files, so a handler is embedded as the
  list of calls it makes, in program order, together with the boolean it returns.
* `updateTenantDeletion(tenant, declaration)` is likewise outside the translated
  files; the handlers take it as their first argument and every theorem holds for
  an arbitrary such function.
* Calls to the logger (`log.Debugf`, `log.Errorf`, `log.Infof`) have no effect on
  the interpreter and are dropped.
* The compiler writes into the shared application it is given; an embedded compile
  function returns the shared application it leaves behind, `none` when an unchecked
  type assertion or a slice expression panics.  Constants and helpers declared outside
  the translated files are the fields of `Constants` and `Helpers`, which the
  functions take as arguments.
-/

set_option linter.unusedVariables false

namespace AS3Handler

/-! ## Data model -/

/-- Values produced by `json.Unmarshal` into `interface{}`: `nil`, `bool`, `float64`,
`string`, `[]interface{}` and `map[string]interface{}`.  A number is carried as an
integer: the status codes of the protocol are integral, `float64` represents them
exactly (magnitude below `2^53`) and `int(code)` is then the identity. -/
inductive JSON where
  | null
  | bool (b : Bool)
  | num (n : Int)
  | str (s : String)
  | arr (xs : List JSON)
  | obj (kvs : List (String × JSON))

/-- The Go type `map[string]interface{}`. -/
abbrev JMap := List (String × JSON)

/-- The map index expression `m[k]`: `none` when the key is absent. -/
def mapIndex (m : JMap) (k : String) : Option JSON :=
  match m with
  | [] => none
  | (k', v) :: rest => if k' = k then some v else mapIndex rest k

/-- The map assignment `m[k] = v`. -/
def mapAssign (m : JMap) (k : String) (v : JSON) : JMap :=
  match m with
  | [] => [(k, v)]
  | (k', v') :: rest => if k' = k then (k, v) :: rest else (k', v') :: mapAssign rest k v

/-- The checked type assertion `x.(float64)` on an indexed value (an absent key and
a JSON `null` both give the `nil` interface, on which every assertion fails). -/
def asFloat64 : Option JSON → Option Int
  | some (JSON.num n) => some n
  | _ => none

/-- The checked type assertion `x.(string)`. -/
def asString : Option JSON → Option String
  | some (JSON.str s) => some s
  | _ => none

/-- The checked type assertion `x.([]interface{})`. -/
def asSlice : Option JSON → Option (List JSON)
  | some (JSON.arr xs) => some xs
  | _ => none

/-- The checked type assertion `x.(map[string]interface{})`. -/
def asMap : Option JSON → Option JMap
  | some (JSON.obj kvs) => some kvs
  | _ => none

/-- The unchecked type assertion `x.(interface{})` on an indexed value: it panics, which is
`none`, on the `nil` interface (an absent key or a JSON `null`), and yields the value
otherwise. -/
def assertInterface : Option JSON → Option JSON
  | none => none
  | some JSON.null => none
  | some x => some x

/-! ## Formatting with the verb `%v` -/

/-- Drop the trailing zeros of a digit string. -/
def trimZeros (ds : List Char) : List Char :=
  (ds.reverse.dropWhile (fun c => c = '0')).reverse

/-- The verb `%v` on a `float64` holding an integer (`strconv.FormatFloat(f, 'g', -1, 64)`):
plain decimal digits while the decimal exponent is below 6 and the form `d.ddde+XX`
from `1e+06` on. -/
def formatFloat (n : Int) : String :=
  let neg := if n < 0 then "-" else ""
  let digs := (toString n.natAbs).toList
  let exp := digs.length - 1
  if exp < 6 then neg ++ String.mk digs
  else
    let mant := match trimZeros digs with
      | [] => "0"
      | [d] => String.singleton d
      | d :: ds => String.mk (d :: '.' :: ds)
    neg ++ mant ++ "e+" ++ (if exp < 10 then "0" else "") ++ toString exp

/-- Insert a rendered map entry into a list of entries sorted by key. -/
def insertByKey (e : String × String) : List (String × String) → List (String × String)
  | [] => [e]
  | f :: rest => if e.1 < f.1 then e :: f :: rest else f :: insertByKey e rest

mutual
/-- The verb `%v` on a decoded JSON value: `<nil>`, `true`/`false`, the float format,
the bare string, `[a b c]` for a slice and `map[k:v k:v]` (keys sorted) for a map. -/
def formatV : JSON → String
  | JSON.null => "<nil>"
  | JSON.bool b => if b then "true" else "false"
  | JSON.num n => formatFloat n
  | JSON.str s => s
  | JSON.arr xs => "[" ++ " ".intercalate (formatVList xs) ++ "]"
  | JSON.obj kvs =>
    "map[" ++ " ".intercalate
      (((formatVFields kvs).foldr insertByKey []).map (fun e => e.1 ++ ":" ++ e.2)) ++ "]"
/-- The elements of a slice, each rendered with `%v`. -/
def formatVList : List JSON → List String
  | [] => []
  | x :: xs => formatV x :: formatVList xs
/-- The entries of a map, each value rendered with `%v`. -/
def formatVFields : List (String × JSON) → List (String × String)
  | [] => []
  | (k, v) :: kvs => (k, formatV v) :: formatVFields kvs
end

/-- The verb `%v` on a map index expression such as `err["code"]`. -/
def formatIndexed : Option JSON → String
  | none => "<nil>"
  | some v => formatV v

/-- The text `fmt.Sprintf("Big-IP Responded with error code: %v -- verify the logs for
detailed error", c)`. -/
def errorCodeMessage (c : String) : String :=
  "Big-IP Responded with error code: " ++ c ++ " -- verify the logs for detailed error"

/-! ## The status sink -/

/-- One call `am.PostManager.updateTenantResponseCode(code, id, tenant, isDeleted, message)`. -/
structure TenantUpdate where
  code : Int
  id : String
  tenant : String
  isDeleted : Bool
  message : String
deriving DecidableEq, Repr

/-- What a handler does: the calls made on the status sink so far, in order, and the
current value of the local `unknownResponse`. -/
abbrev Outcome := List TenantUpdate × Bool

/-- The signature of `updateTenantDeletion(tenant, declaration)`. -/
abbrev TenantDeletion := String → JMap → Bool

/-! ## The handlers -/

/-- One iteration of the `for _, value := range results` loop of `handleResponseStatusOK`. -/
def handleResponseStatusOKStep (updateTenantDeletion : TenantDeletion) (declaration : JMap)
    (st : Outcome) (value : JSON) : Outcome :=
  match asMap (some value) with
  | some v =>
    match asFloat64 (mapIndex v "code"), asString (mapIndex v "tenant") with
    | some code, some tenant =>
      (st.1 ++ [⟨code, "", tenant, updateTenantDeletion tenant declaration, ""⟩], st.2)
    | _, _ => (st.1, true)
  | none => (st.1, true)

/-- The function `handleResponseStatusOK(responseMap) bool`: the calls made on the status
sink and the flag returned.  Line 359 reads the declaration as
`(responseMap["declaration"]).(interface{}).(map[string]interface{})`, of which only the
outer assertion is in the comma-ok form: on a body whose `declaration` is absent or `null`
the inner one panics, and the result is `none`. -/
def handleResponseStatusOK (updateTenantDeletion : TenantDeletion) (responseMap : JMap) :
    Option Outcome :=
  match assertInterface (mapIndex responseMap "declaration") with
  | none => none
  | some declaration =>
    match asSlice (mapIndex responseMap "results"), asMap (some declaration) with
    | some results, some declaration =>
      some (results.foldl (handleResponseStatusOKStep updateTenantDeletion declaration)
        ([], false))
    | _, _ => some ([], true)

/-- One iteration of the loop of `handleMultiStatus`. -/
def handleMultiStatusStep (updateTenantDeletion : TenantDeletion) (declaration : JMap)
    (st : Outcome) (value : JSON) : Outcome :=
  match asMap (some value) with
  | some v =>
    match asFloat64 (mapIndex v "code"), asString (mapIndex v "tenant") with
    | some code, some tenant =>
      if code ≠ 200 then
        (st.1 ++ [⟨code, "", tenant, false, errorCodeMessage (formatIndexed (mapIndex v "code"))⟩],
          st.2)
      else
        (st.1 ++ [⟨code, "", tenant, updateTenantDeletion tenant declaration, ""⟩], st.2)
    | _, _ => (st.1, true)
  | none => (st.1, true)

/-- The function `handleMultiStatus(responseMap, id) bool`: the calls made on the status
sink and the flag returned; `none` when the unchecked assertion `.(interface{})` of line 384
panics, which it does on a body whose `declaration` is absent or `null`. -/
def handleMultiStatus (updateTenantDeletion : TenantDeletion) (responseMap : JMap) (id : Int) :
    Option Outcome :=
  match assertInterface (mapIndex responseMap "declaration") with
  | none => none
  | some declaration =>
    match asSlice (mapIndex responseMap "results"), asMap (some declaration) with
    | some results, some declaration =>
      some (results.foldl (handleMultiStatusStep updateTenantDeletion declaration) ([], false))
    | _, _ => some ([], true)

/-- The constants `http.StatusOK`, `http.StatusAccepted`, `http.StatusUnauthorized`,
`http.StatusNotFound` and `http.StatusServiceUnavailable`. -/
abbrev StatusOK : Int := 200
abbrev StatusAccepted : Int := 202
abbrev StatusUnauthorized : Int := 401
abbrev StatusNotFound : Int := 404
abbrev StatusServiceUnavailable : Int := 503

/-- The loop of `getTenantConfigStatus` over `results`.  The second component of the
result is `true` when the loop left the function through its `return` statement. -/
def getTenantConfigStatusLoop (updateTenantDeletion : TenantDeletion) (declaration : JMap) :
    List JSON → Outcome → Outcome × Bool
  | [], st => (st, false)
  | value :: rest, st =>
    match asMap (some value) with
    | some v =>
      match asFloat64 (mapIndex v "code"), asString (mapIndex v "tenant"),
          mapIndex v "message" with
      | some code, some tenant, some msg =>
        if asString (some msg) = some "in progress" then (st, true)
        else
          getTenantConfigStatusLoop updateTenantDeletion declaration rest
            (st.1 ++ [⟨code, "", tenant, updateTenantDeletion tenant declaration, ""⟩], st.2)
      | _, _, _ => getTenantConfigStatusLoop updateTenantDeletion declaration rest (st.1, true)
    | none => getTenantConfigStatusLoop updateTenantDeletion declaration rest (st.1, true)

/-- The function `getTenantConfigStatus(id, httpResp, responseMap)`, given the field
`am.LogResponse` and `httpResp.StatusCode`.  It returns nothing; the result is the list of
calls made on the status sink and whether `am.logResponse(responseMap)` is called at the
end.  It is `none` when, under status 200, the unchecked assertion `.(interface{})` of line
255 panics, which it does on a body whose `declaration` is absent or `null`. -/
def getTenantConfigStatus (updateTenantDeletion : TenantDeletion) (LogResponse : Bool)
    (id : String) (StatusCode : Int) (responseMap : JMap) :
    Option (List TenantUpdate × Bool) :=
  if StatusCode = StatusOK then
    match assertInterface (mapIndex responseMap "declaration") with
    | none => none
    | some declaration =>
      match asSlice (mapIndex responseMap "results"), asMap (some declaration) with
      | some results, some declaration =>
        match getTenantConfigStatusLoop updateTenantDeletion declaration results
            ([], false) with
        | (st, true) => some (st.1, false)
        | (st, false) => some (st.1, !LogResponse && st.2)
      | _, _ => some ([], !LogResponse && true)
  else if StatusCode ≠ StatusServiceUnavailable then
    some ([⟨StatusCode, "", "", false, ""⟩], !LogResponse && false)
  else some ([], !LogResponse && false)

/-- The function `handleResponseAccepted(responseMap) bool`. -/
def handleResponseAccepted (responseMap : JMap) : Outcome :=
  match asString (mapIndex responseMap "id") with
  | some respId => ([⟨StatusAccepted, respId, "", false, ""⟩], true)
  | none => ([], false)

/-- The function `handleResponseStatusServiceUnavailable(responseMap, id) bool`. -/
def handleResponseStatusServiceUnavailable (responseMap : JMap) (id : Int) : Outcome :=
  match asMap (mapIndex responseMap "error") with
  | some err =>
    ([⟨StatusServiceUnavailable, "", "", false,
        errorCodeMessage (formatIndexed (mapIndex err "code"))⟩], true)
  | none => ([⟨StatusServiceUnavailable, "", "", false, ""⟩], false)

/-- The function `handleResponseStatusNotFound(responseMap, id) bool`. -/
def handleResponseStatusNotFound (responseMap : JMap) (id : Int) : Outcome :=
  match asMap (mapIndex responseMap "error") with
  | some err =>
    ([⟨StatusNotFound, "", "", false,
        errorCodeMessage (formatIndexed (mapIndex err "code"))⟩], false)
  | none =>
    ([⟨StatusNotFound, "", "", false,
        "Big-IP Responded with error -- verify the logs for detailed error"⟩], true)

/-- The function `handleResponseStatusUnAuthorized(responseMap, id) bool`. -/
def handleResponseStatusUnAuthorized (responseMap : JMap) (id : Int) : Outcome :=
  match asFloat64 (mapIndex responseMap "code") with
  | some _ =>
    ([⟨StatusUnauthorized, "", "", false,
        "authentication failed, Error response from BIGIP with status code: 401 -- verify the logs for detailed error"⟩],
      false)
  | none =>
    ([⟨StatusUnauthorized, "", "", false,
        "Big-IP Responded with error -- verify the logs for detailed error"⟩], true)

/-- One iteration of the loop of `handleResponseOthers`. -/
def handleResponseOthersStep (st : Outcome) (value : JSON) : Outcome :=
  match asMap (some value) with
  | some v =>
    match asFloat64 (mapIndex v "code"), asString (mapIndex v "tenant") with
    | some code, some tenant =>
      (st.1 ++ [⟨code, "", tenant, false, errorCodeMessage (formatFloat code)⟩], st.2)
    | _, _ => (st.1, true)
  | none => (st.1, true)

/-- The function `handleResponseOthers(responseMap, id) bool`. -/
def handleResponseOthers (responseMap : JMap) (id : Int) : Outcome :=
  match asSlice (mapIndex responseMap "results") with
  | some results => results.foldl handleResponseOthersStep ([], false)
  | none =>
    match asMap (mapIndex responseMap "error") with
    | some err =>
      match asFloat64 (mapIndex err "code") with
      | some code =>
        ([⟨code, "", "", false, errorCodeMessage (formatIndexed (mapIndex err "code"))⟩], false)
      | none => ([], true)
    | none =>
      match asFloat64 (mapIndex responseMap "code") with
      | some code => ([⟨code, "", "", false, errorCodeMessage (formatFloat code)⟩], true)
      | none => ([], true)

/-! ## Redaction before logging -/

/-- The innermost block of `logRequest`: an object whose `class` is the string
`Certificate` gets `certificate`, `privateKey` and `chainCA` overwritten with `""`;
anything else is left alone. -/
def redactCertificate (obj : JSON) : JSON :=
  match asMap (some obj) with
  | some crt =>
    if asString (mapIndex crt "class") = some "Certificate" then
      JSON.obj (mapAssign (mapAssign (mapAssign crt "certificate" (JSON.str ""))
        "privateKey" (JSON.str "")) "chainCA" (JSON.str ""))
    else obj
  | none => obj

/-- The loop `for _, obj := range appMap` applied to a value of a tenant. -/
def redactApplication (value2 : JSON) : JSON :=
  match asMap (some value2) with
  | some appMap => JSON.obj (appMap.map (fun e => (e.1, redactCertificate e.2)))
  | none => value2

/-- The loop `for _, value2 := range tenantMap` applied to a value of the declaration. -/
def redactTenant (value : JSON) : JSON :=
  match asMap (some value) with
  | some tenantMap => JSON.obj (tenantMap.map (fun e => (e.1, redactApplication e.2)))
  | none => value

/-- The function `logRequest(cfg)`, from the document `as3Config` that `json.Unmarshal`
decodes `cfg` into (the empty map when decoding fails).  The result is the document that
is marshalled and handed to `log.Debugf`; it is `none` when the unchecked assertion
`as3Config["declaration"].(map[string]interface{})` panics.  The nested maps are updated
in place in the source, so the logged document is `as3Config` with the redacted
declaration. -/
def logRequest (as3Config : JMap) : Option JMap :=
  match asMap (mapIndex as3Config "declaration") with
  | some adc =>
    some (mapAssign as3Config "declaration"
      (JSON.obj (adc.map (fun e => (e.1, redactTenant e.2)))))
  | none => none

/-! ## Vocabulary of the claims -/

/-- A well-formed result entry: an object carrying a numeric `code` and a string
`tenant`; the value is that code and that tenant. -/
def wellFormedResult (value : JSON) : Option (Int × String) :=
  match value with
  | JSON.obj v =>
    match mapIndex v "code", mapIndex v "tenant" with
    | some (JSON.num code), some (JSON.str tenant) => some (code, tenant)
    | _, _ => none
  | _ => none

/-- The update a status-200 response owes to a result entry: `(code, no task id, tenant,
updateTenantDeletion(tenant, declaration), empty message)` when the entry is well formed. -/
def okUpdate (updateTenantDeletion : TenantDeletion) (declaration : JMap) (value : JSON) :
    Option TenantUpdate :=
  (wellFormedResult value).map
    (fun ct => ⟨ct.1, "", ct.2, updateTenantDeletion ct.2 declaration, ""⟩)

/-- The update a multi-status response owes to a result entry: the success update for
code 200, and for any other code `c` the failure update with the diagnostic message
naming `c`. -/
def multiStatusUpdate (updateTenantDeletion : TenantDeletion) (declaration : JMap)
    (value : JSON) : Option TenantUpdate :=
  (wellFormedResult value).map (fun ct =>
    if ct.1 = 200 then ⟨200, "", ct.2, updateTenantDeletion ct.2 declaration, ""⟩
    else ⟨ct.1, "", ct.2, false,
      "Big-IP Responded with error code: " ++ formatFloat ct.1 ++
        " -- verify the logs for detailed error"⟩)

/-- A well-formed polling result: a well-formed result entry in which the key `message`
is present. -/
def wellFormedPollResult (value : JSON) : Bool :=
  match value with
  | JSON.obj v => (wellFormedResult value).isSome && (mapIndex v "message").isSome
  | _ => false

/-- The entry carries the message `"in progress"`. -/
def hasInProgressMessage (value : JSON) : Bool :=
  match value with
  | JSON.obj v =>
    match mapIndex v "message" with
    | some (JSON.str s) => s = "in progress"
    | _ => false
  | _ => false

/-- The update a polling response owes to a result entry: that of `okUpdate`, for a
well-formed polling result. -/
def pollUpdate (updateTenantDeletion : TenantDeletion) (declaration : JMap) (value : JSON) :
    Option TenantUpdate :=
  if wellFormedPollResult value then okUpdate updateTenantDeletion declaration value else none

mutual
/-- Every object of class `Certificate` found anywhere in the tree, at any nesting depth,
has its `certificate`, `privateKey` and `chainCA` fields equal to the empty string. -/
def certificatesRedacted : JSON → Bool
  | JSON.obj kvs =>
    (if asString (mapIndex kvs "class") = some "Certificate" then
        decide (asString (mapIndex kvs "certificate") = some "" ∧
          asString (mapIndex kvs "privateKey") = some "" ∧
          asString (mapIndex kvs "chainCA") = some "")
      else true) && certificatesRedactedFields kvs
  | JSON.arr xs => certificatesRedactedList xs
  | _ => true
/-- The property `certificatesRedacted` for every element of a slice. -/
def certificatesRedactedList : List JSON → Bool
  | [] => true
  | x :: xs => certificatesRedacted x && certificatesRedactedList xs
/-- The property `certificatesRedacted` for every value of a map. -/
def certificatesRedactedFields : List (String × JSON) → Bool
  | [] => true
  | (_, v) :: kvs => certificatesRedacted v && certificatesRedactedFields kvs
end

/-! ## Sample documents -/

/-- The 207 scenario: tenant `A` succeeded and tenant `B` failed with code 422. -/
def partialFailureResponse : JMap :=
  [("results", JSON.arr
      [JSON.obj [("code", JSON.num 200), ("tenant", JSON.str "A"), ("message", JSON.str "success")],
       JSON.obj [("code", JSON.num 422), ("tenant", JSON.str "B"), ("message", JSON.str "bad")]]),
   ("declaration", JSON.obj [("A", JSON.obj []), ("B", JSON.obj [])])]

/-- A deletion test used in the samples: the tenant has no entry in the declaration. -/
def absentFromDeclaration : TenantDeletion :=
  fun tenant declaration => (mapIndex declaration tenant).isNone

/-- A status-200 body with one well-formed result and one that lacks its tenant. -/
def mixedResponse : JMap :=
  [("results", JSON.arr
      [JSON.obj [("code", JSON.num 200), ("message", JSON.str "no tenant")],
       JSON.obj [("code", JSON.num 200), ("tenant", JSON.str "A"), ("message", JSON.str "success")]]),
   ("declaration", JSON.obj [("A", JSON.obj [])])]

/-- A status-200 body whose result is well formed and whose declaration is a list, not an
object. -/
def responseWithListDeclaration : JMap :=
  [("results", JSON.arr
      [JSON.obj [("code", JSON.num 200), ("tenant", JSON.str "A"), ("message", JSON.str "success")]]),
   ("declaration", JSON.arr [])]

/-- A polling response in which tenant `A` is done and tenant `B` is still in progress. -/
def inProgressAfterSuccess : JMap :=
  [("results", JSON.arr
      [JSON.obj [("code", JSON.num 200), ("tenant", JSON.str "A"), ("message", JSON.str "success")],
       JSON.obj [("code", JSON.num 0), ("tenant", JSON.str "B"),
         ("message", JSON.str "in progress")]]),
   ("declaration", JSON.obj [("A", JSON.obj []), ("B", JSON.obj [])])]

/-- A polling response whose in-progress entry carries no code, followed by a finished
tenant. -/
def inProgressWithoutCode : JMap :=
  [("results", JSON.arr
      [JSON.obj [("tenant", JSON.str "A"), ("message", JSON.str "in progress")],
       JSON.obj [("code", JSON.num 200), ("tenant", JSON.str "B"), ("message", JSON.str "success")]]),
   ("declaration", JSON.obj [("A", JSON.obj []), ("B", JSON.obj [])])]

/-- A polling response with a malformed entry, then an in-progress entry, then a finished
tenant. -/
def inProgressInTheMiddle : JMap :=
  [("results", JSON.arr
      [JSON.obj [("code", JSON.num 200), ("message", JSON.str "no tenant")],
       JSON.obj [("code", JSON.num 0), ("tenant", JSON.str "A"),
         ("message", JSON.str "in progress")],
       JSON.obj [("code", JSON.num 200), ("tenant", JSON.str "B"), ("message", JSON.str "success")]]),
   ("declaration", JSON.obj [("A", JSON.obj []), ("B", JSON.obj [])])]

/-- The final poll of the accepted/poll scenario: tenant `A` is done. -/
def finalPollResponse : JMap :=
  [("results", JSON.arr
      [JSON.obj [("code", JSON.num 200), ("tenant", JSON.str "A"), ("message", JSON.str "done")]]),
   ("declaration", JSON.obj [("A", JSON.obj [])])]

/-- The accepted response of the accepted/poll scenario. -/
def acceptedResponse : JMap := [("id", JSON.str "task-123")]

/-- A 404 body in the `code`/`message` shape. -/
def notFoundCodeBody : JMap :=
  [("code", JSON.num 404), ("message", JSON.str "Public URI path not registered")]

/-- A 404 body carrying an `error` object. -/
def notFoundErrorBody : JMap :=
  [("error", JSON.obj [("code", JSON.num 404), ("message", JSON.str "not found")])]

/-- A body of some other status whose results are all well formed. -/
def unprocessableResponse : JMap :=
  [("results", JSON.arr
      [JSON.obj [("code", JSON.num 422), ("tenant", JSON.str "A"), ("message", JSON.str "bad")]])]

/-- A body of some other status carrying an `error` object with a numeric code. -/
def serverErrorResponse : JMap :=
  [("error", JSON.obj [("code", JSON.num 500)])]

/-- A declaration whose `Shared` application holds a `Certificate` object directly and a
second one inside another object. -/
def nestedCertificateDeclaration : JMap :=
  [("class", JSON.str "ADC"),
   ("t1", JSON.obj
     [("class", JSON.str "Tenant"),
      ("Shared", JSON.obj
        [("class", JSON.str "Application"),
         ("template", JSON.str "shared"),
         ("crt", JSON.obj
           [("class", JSON.str "Certificate"),
            ("certificate", JSON.str "PEM"),
            ("privateKey", JSON.str "KEY")]),
         ("holder", JSON.obj
           [("class", JSON.str "TLS_Server"),
            ("inline", JSON.obj
              [("class", JSON.str "Certificate"),
               ("certificate", JSON.str "PEM"),
               ("privateKey", JSON.str "KEY"),
               ("chainCA", JSON.str "CA")])])])])]

/-- The request carrying `nestedCertificateDeclaration`. -/
def nestedCertificateRequest : JMap :=
  [("class", JSON.str "AS3"), ("declaration", JSON.obj nestedCertificateDeclaration)]

/-- What `logRequest` logs for `nestedCertificateRequest`. -/
def nestedCertificateLogged : JMap :=
  [("class", JSON.str "AS3"),
   ("declaration", JSON.obj
     [("class", JSON.str "ADC"),
      ("t1", JSON.obj
        [("class", JSON.str "Tenant"),
         ("Shared", JSON.obj
           [("class", JSON.str "Application"),
            ("template", JSON.str "shared"),
            ("crt", JSON.obj
              [("class", JSON.str "Certificate"),
               ("certificate", JSON.str ""),
               ("privateKey", JSON.str ""),
               ("chainCA", JSON.str "")]),
            ("holder", JSON.obj
              [("class", JSON.str "TLS_Server"),
               ("inline", JSON.obj
                 [("class", JSON.str "Certificate"),
                  ("certificate", JSON.str "PEM"),
                  ("privateKey", JSON.str "KEY"),
                  ("chainCA", JSON.str "CA")])])])])])]

/-! ## Strings and integers of the Go library -/

/-- The pieces of a character sequence between the occurrences of `sep`. -/
def splitChars (sep : Char) : List Char → List (List Char)
  | [] => [[]]
  | c :: cs =>
    if c = sep then [] :: splitChars sep cs
    else
      match splitChars sep cs with
      | [] => [[c]]
      | piece :: pieces => (c :: piece) :: pieces

/-- The call `strings.Split(s, sep)` for a separator of one character: the substrings
between the separators, so one piece more than there are separators. -/
def Split (s : String) (sep : Char) : List String :=
  (splitChars sep s.toList).map String.mk

/-- The largest `uint64`. -/
def maxUint64 : Nat := 2 ^ 64 - 1

/-- The error of a `strconv` conversion: `nil`, `ErrSyntax` or `ErrRange`. -/
inductive ConvError where
  | nil
  | malformed
  | outOfRange
deriving DecidableEq, Repr

/-- The loop of `strconv.ParseUint(s, 10, 64)` from the accumulated value `n`: a character
that is not a decimal digit ends it with `(0, ErrSyntax)`, an overflow of `uint64` with
`(maxUint64, ErrRange)`, each at the first character where it shows. -/
def parseUintLoop : List Char → Nat → Nat × ConvError
  | [], n => (n, ConvError.nil)
  | c :: cs, n =>
    if '0' ≤ c ∧ c ≤ '9' then
      if n ≥ maxUint64 / 10 + 1 then (maxUint64, ConvError.outOfRange)
      else if n * 10 + (c.toNat - '0'.toNat) > maxUint64 then (maxUint64, ConvError.outOfRange)
      else parseUintLoop cs (n * 10 + (c.toNat - '0'.toNat))
    else (0, ConvError.malformed)

/-- The call `strconv.ParseUint(s, 10, 64)`. -/
def ParseUint (s : List Char) : Nat × ConvError :=
  match s with
  | [] => (0, ConvError.malformed)
  | _ => parseUintLoop s 0

/-- The call `strconv.ParseInt(s, 10, 0)` with a 64-bit `int`: an optional sign, then
`ParseUint`; a magnitude beyond the range gives the nearest bound and `ErrRange`. -/
def ParseInt (s : List Char) : Int × ConvError :=
  match s with
  | [] => (0, ConvError.malformed)
  | c :: cs =>
    let neg := decide (c = '-')
    let digits := if c = '+' ∨ c = '-' then cs else c :: cs
    match ParseUint digits with
    | (_, ConvError.malformed) => (0, ConvError.malformed)
    | (un, _) =>
      if !neg && decide (un ≥ 2 ^ 63) then (2 ^ 63 - 1, ConvError.outOfRange)
      else if neg && decide (un > 2 ^ 63) then (-(2 ^ 63), ConvError.outOfRange)
      else (if neg then -(un : Int) else (un : Int), ConvError.nil)

/-- The call `strconv.Atoi(s)` with a 64-bit `int`.  Its fast path for short strings gives
the value and error of `ParseInt(s, 10, 0)`, which is what the slow path calls. -/
def Atoi (s : String) : Int × ConvError :=
  ParseInt s.toList

/-! ## Address and port of a virtual server (`as3Parser.go`) -/

/-- The method `extractVirtualAddressAndPort(str) (string, int)`. -/
def extractVirtualAddressAndPort (str : String) : String × Int :=
  let destination := Split str '/'
  let ipPort := Split (destination.getLastD "") ':'
  let ipPort := if ipPort.length ≠ 2 then Split (destination.getLastD "") '.' else ipPort
  match ipPort with
  | [ip, text] => (ip, (Atoi text).1)
  | _ => ("", 0)

/-- The last `/`-separated segment of a destination string. -/
def lastSegment (str : String) : String :=
  (Split str '/').getLastD ""

/-- The number written by a sequence of decimal digits, continuing from `n`. -/
def digitsValue (ds : List Char) (n : Nat) : Nat :=
  ds.foldl (fun acc c => acc * 10 + (c.toNat - '0'.toNat)) n

/-- The decimal value of a text: an optional sign followed by at least one decimal digit
and nothing else; `none` when the text is not of that form. -/
def decimalValue (text : List Char) : Option Int :=
  match text with
  | [] => none
  | c :: cs =>
    let digits := if c = '+' ∨ c = '-' then cs else c :: cs
    if digits ≠ [] ∧ ∀ d ∈ digits, '0' ≤ d ∧ d ≤ '9' then
      some (if c = '-' then -(digitsValue digits 0 : Int) else (digitsValue digits 0 : Int))
    else none

/-! ## The version tracker (`UpdateApiVersion`) -/

/-- The struct `as3VersionInfo`; `F` stands for `float64`. -/
structure as3VersionInfo (F : Type) where
  as3Version : F
  as3SchemaVersion : String
  as3Release : String

/-- The fields of the handler that `UpdateApiVersion` writes: `AS3VersionInfo` and the coarse
value `bigIPAS3Version`. -/
structure VersionTracker (F : Type) where
  AS3VersionInfo : as3VersionInfo F
  bigIPAS3Version : F

/-- The call `strings.LastIndex(s, sep)` for a separator of one character: the position of
its last occurrence, `none` for the result -1.  Positions count characters; the source
counts bytes, and `s[:i]` at the position of a separator cuts the same prefix either way. -/
def LastIndex (s : List Char) (sep : Char) : Option Nat :=
  match s with
  | [] => none
  | c :: cs =>
    match LastIndex cs sep with
    | some i => some (i + 1)
    | none => if c = sep then some 0 else none

/-- The method `UpdateApiVersion(version, build, schemaVersion)` on the tracker `am`, given
`strconv.ParseFloat(·, 64)` as `ParseFloat` (its value and its error).  The result is the
tracker after the call; it is `none` when the slice expression
`version[:strings.LastIndex(version, ".")]` panics because the index is -1 (the version
info is assigned before that expression is reached). -/
def UpdateApiVersion {F : Type} (ParseFloat : String → F × ConvError) (am : VersionTracker F)
    (version build schemaVersion : String) : Option (VersionTracker F) :=
  match ParseFloat version with
  | (floatValue, ConvError.nil) =>
    match LastIndex version.toList '.' with
    | none => none
    | some i =>
      some ⟨⟨floatValue, schemaVersion, version ++ "-" ++ build⟩,
        (ParseFloat (String.mk (version.toList.take i))).1⟩
  | _ => some am

/-- A stand-in for `strconv.ParseFloat` on plain decimal numerals, used in the samples: an
optional sign, digits, and at most one `.` followed by digits.  The value is the pair of
the signed digits read as an integer and the number of fraction digits (3.52 is
`(352, 2)`); every other text gets `ErrSyntax`.  The Go function accepts more forms
(exponents, hexadecimal floats, infinities), none of which has two dots. -/
def plainDecimalFloat (s : String) : (Int × Nat) × ConvError :=
  let text := s.toList
  let neg := decide (text.head? = some '-')
  let body := if text.head? = some '+' ∨ text.head? = some '-' then text.tail else text
  match splitChars '.' body with
  | [whole] =>
    if whole ≠ [] ∧ ∀ d ∈ whole, '0' ≤ d ∧ d ≤ '9' then
      ((if neg then -(digitsValue whole 0 : Int) else digitsValue whole 0, 0), ConvError.nil)
    else ((0, 0), ConvError.malformed)
  | [whole, frac] =>
    if whole ++ frac ≠ [] ∧ ∀ d ∈ whole ++ frac, '0' ≤ d ∧ d ≤ '9' then
      ((if neg then -(digitsValue (whole ++ frac) 0 : Int) else digitsValue (whole ++ frac) 0,
        frac.length), ConvError.nil)
    else ((0, 0), ConvError.malformed)
  | _ => ((0, 0), ConvError.malformed)

/-- A tracker holding the values of an earlier update to version 3.50.0. -/
def trackerBefore : VersionTracker (Int × Nat) :=
  ⟨⟨(350, 2), "3.50.0", "3.50-7"⟩, (3, 0)⟩

/-! ## Go maps with string keys, of any value type -/

/-- The index expression `m[k]` on a map with string keys: `none` when the key is absent.
The first binding of a key in the association list is the binding of the map. -/
def lookup {V : Type} (m : List (String × V)) (k : String) : Option V :=
  match m with
  | [] => none
  | (k', v) :: rest => if k' = k then some v else lookup rest k

/-- The assignment `m[k] = v` on a map with string keys. -/
def store {V : Type} (m : List (String × V)) (k : String) (v : V) : List (String × V) :=
  match m with
  | [] => [(k, v)]
  | (k', v') :: rest => if k' = k then (k, v) :: rest else (k', v') :: store rest k v

/-- The keys of a map. -/
def keys {V : Type} (m : List (String × V)) : List String :=
  m.map Prod.fst

/-! ## The declaration envelope (`createAPIDeclaration`) -/

/-- The method `createAPIDeclaration(tenantDeclMap, userAgent)`.  `as3Config` is the
document that `json.Unmarshal` decodes the formatted template `baseAS3Config` into (the
template is not among the translated files; the empty map stands for a failed decoding),
and each `as3Tenant` of `tenantDeclMap` is carried as the JSON object it marshals to.  The
result is the document whose JSON text is returned; it is `none` when the unchecked
assertion `as3Config["declaration"].(map[string]interface{})` panics. -/
def createAPIDeclaration (as3Config : JMap) (tenantDeclMap : List (String × JMap))
    (userAgent : String) : Option JMap :=
  match asMap (mapIndex as3Config "declaration") with
  | none => none
  | some adc =>
    let controlObj : JMap :=
      mapAssign (mapAssign [] "class" (JSON.str "Controls")) "userAgent" (JSON.str userAgent)
    let adc := mapAssign adc "controls" (JSON.obj controlObj)
    let adc := tenantDeclMap.foldl (fun acc e => mapAssign acc e.1 (JSON.obj e.2)) adc
    some (mapAssign as3Config "declaration" (JSON.obj adc))

/-! ## Redaction of the logged response (`logResponse`) -/

/-- The method `logResponse(responseMap)`, given `json.Marshal` as `Marshal` (`none` for
an error).  The result is the response map handed to `log.Debugf`; it is `none` when the
method returns without logging because marshalling failed.  The redaction loops run only
when `responseMap["declaration"]` is a slice (`[]interface{}`); each element of the slice is
walked like a value of the declaration in `logRequest`. -/
def logResponse (Marshal : JSON → Option String) (responseMap : JMap) : Option JMap :=
  match asSlice (mapIndex responseMap "declaration") with
  | some declaration =>
    match Marshal (JSON.arr (declaration.map redactTenant)) with
    | none => none
    | some decl => some (mapAssign responseMap "declaration" (JSON.str decl))
  | none => some responseMap

/-- The template of a declaration of schema version 3.52.0, decoded. -/
def sampleTemplate : JMap :=
  [("class", JSON.str "AS3"),
   ("declaration", JSON.obj
     [("class", JSON.str "ADC"),
      ("schemaVersion", JSON.str "3.52.0"),
      ("id", JSON.str "urn:uuid:85626792-9ee7-46bb-8fc8-4ba708cfdc1d"),
      ("label", JSON.str "CIS Declaration")])]

/-- A response in the documented shape whose declaration holds a certificate. -/
def certificateResponse : JMap :=
  [("results", JSON.arr
      [JSON.obj [("code", JSON.num 200), ("tenant", JSON.str "t1"),
        ("message", JSON.str "success")]]),
   ("declaration", JSON.obj nestedCertificateDeclaration)]

/-! ## Structural equality of declarations (`DeepEqualJSON`) -/

mutual
/-- The call `reflect.DeepEqual(o1, o2)` on two decoded JSON values: equal leaves of the same
kind; slices of equal length with deeply equal elements; maps of equal length such that
every key of the first is a key of the second with a deeply equal value. -/
def DeepEqual : JSON → JSON → Bool
  | JSON.null, o2 => match o2 with
    | JSON.null => true
    | _ => false
  | JSON.bool a, o2 => match o2 with
    | JSON.bool b => a == b
    | _ => false
  | JSON.num a, o2 => match o2 with
    | JSON.num b => a == b
    | _ => false
  | JSON.str a, o2 => match o2 with
    | JSON.str b => a == b
    | _ => false
  | JSON.arr xs, o2 => match o2 with
    | JSON.arr ys => DeepEqualSlice xs ys
    | _ => false
  | JSON.obj m1, o2 => match o2 with
    | JSON.obj m2 => m1.length == m2.length && DeepEqualMap m1 m2
    | _ => false
/-- The slice case of `reflect.DeepEqual`. -/
def DeepEqualSlice : List JSON → List JSON → Bool
  | [], ys => ys.isEmpty
  | x :: xs, ys => match ys with
    | [] => false
    | y :: ys' => DeepEqual x y && DeepEqualSlice xs ys'
/-- The loop over the keys of the first map in `reflect.DeepEqual`. -/
def DeepEqualMap : List (String × JSON) → JMap → Bool
  | [], _ => true
  | (k, v) :: rest, m2 =>
    (match mapIndex m2 k with
      | some v2 => DeepEqual v v2
      | none => false) && DeepEqualMap rest m2
end

/-- The function `DeepEqualJSON(decl1, decl2)` (the method of `AS3Parser` has the same body),
given `json.Unmarshal` into an `interface{}` as `Unmarshal` (`none` for an error). -/
def DeepEqualJSON (Unmarshal : String → Option JSON) (decl1 decl2 : String) : Bool :=
  if decl1 = "" ∧ decl2 = "" then true
  else
    match Unmarshal decl1 with
    | none => false
    | some o1 =>
      match Unmarshal decl2 with
      | none => false
      | some o2 => DeepEqual o1 o2

mutual
/-- Every object of the tree has pairwise distinct keys, as every Go map has. -/
def uniqueKeys : JSON → Bool
  | JSON.obj m => decide (m.map Prod.fst).Nodup && uniqueKeysFields m
  | JSON.arr xs => uniqueKeysList xs
  | _ => true
/-- The property `uniqueKeys` for every element of a slice. -/
def uniqueKeysList : List JSON → Bool
  | [] => true
  | x :: xs => uniqueKeys x && uniqueKeysList xs
/-- The property `uniqueKeys` for every value of a map. -/
def uniqueKeysFields : List (String × JSON) → Bool
  | [] => true
  | (_, v) :: rest => uniqueKeys v && uniqueKeysFields rest
end

mutual
/-- Two parsed trees are structurally equal: equal leaves; lists equal element by element;
objects with the same keys, structurally equal key by key, in whatever order the keys are
listed. -/
def sameTree : JSON → JSON → Bool
  | JSON.null, o2 => match o2 with
    | JSON.null => true
    | _ => false
  | JSON.bool a, o2 => match o2 with
    | JSON.bool b => a == b
    | _ => false
  | JSON.num a, o2 => match o2 with
    | JSON.num b => a == b
    | _ => false
  | JSON.str a, o2 => match o2 with
    | JSON.str b => a == b
    | _ => false
  | JSON.arr xs, o2 => match o2 with
    | JSON.arr ys => sameTreeList xs ys
    | _ => false
  | JSON.obj m1, o2 => match o2 with
    | JSON.obj m2 =>
      sameTreeFields m1 m2 && m2.all (fun e => (mapIndex m1 e.1).isSome)
    | _ => false
/-- Lists of trees that are structurally equal element by element. -/
def sameTreeList : List JSON → List JSON → Bool
  | [], ys => ys.isEmpty
  | x :: xs, ys => match ys with
    | [] => false
    | y :: ys' => sameTree x y && sameTreeList xs ys'
/-- Every entry of the first object has a structurally equal entry under the same key in the
second. -/
def sameTreeFields : List (String × JSON) → JMap → Bool
  | [], _ => true
  | (k, v) :: rest, m2 =>
    (match mapIndex m2 k with
      | some v2 => sameTree v v2
      | none => false) && sameTreeFields rest m2
end

/-- A decoder for three sample texts: an object, the same object with its keys in the other
order and more blanks, and an object with a different value. -/
def sampleUnmarshal (s : String) : Option JSON :=
  if s = "\x7b\"a\":1,\"b\":[null]\x7d" then
    some (JSON.obj [("a", JSON.num 1), ("b", JSON.arr [JSON.null])])
  else if s = "\x7b \"b\": [null], \"a\": 1 \x7d" then
    some (JSON.obj [("b", JSON.arr [JSON.null]), ("a", JSON.num 1)])
  else if s = "\x7b\"a\":2,\"b\":[null]\x7d" then
    some (JSON.obj [("a", JSON.num 2), ("b", JSON.arr [JSON.null])])
  else none

/-! ## Declaration entities
The structs of the declaration carry the fields the translated code assigns; numbers are
integers. -/

/-- The struct `as3ResourcePointer`: a reference by `bigip` path or by `use` path. -/
structure as3ResourcePointer where
  BigIP : String
  Use : String
deriving DecidableEq, Repr

/-- The struct `as3IRules`. -/
structure as3IRules where
  Class : String
  IRule : String
deriving DecidableEq, Repr

/-- The struct `as3Record`. -/
structure as3Record where
  Key : String
  Value : String
deriving DecidableEq, Repr

/-- The struct `as3DataGroup`. -/
structure as3DataGroup where
  Records : List as3Record
  KeyDataType : String
  Class : String
deriving DecidableEq, Repr

/-- The struct `as3GSLBDomainPool`. -/
structure as3GSLBDomainPool where
  Use : String
  Ratio : Int
deriving DecidableEq, Repr

/-- The struct `as3GLSBDomain`. -/
structure as3GLSBDomain where
  Class : String
  DomainName : String
  RecordType : String
  LBMode : String
  PersistenceEnabled : Bool
  PersistCidrIPv4 : Int
  PersistCidrIPv6 : Int
  TTLPersistence : Int
  Pools : List as3GSLBDomainPool
  ClientSubnetPreferred : Option Bool
deriving DecidableEq, Repr

/-- The struct `as3GSLBPoolMemberA`. -/
structure as3GSLBPoolMemberA where
  Enabled : Bool
  Server : as3ResourcePointer
  VirtualServer : String
deriving DecidableEq, Repr

/-- The struct `as3GSLBPool`. -/
structure as3GSLBPool where
  Class : String
  RecordType : String
  LBMode : String
  LBModeFallback : String
  Members : List as3GSLBPoolMemberA
  Monitors : List as3ResourcePointer
deriving DecidableEq, Repr

/-- The struct `as3GSLBMonitor`. -/
structure as3GSLBMonitor where
  Class : String
  Interval : Int
  Type_ : String
  Send : String
  Receive : String
  Timeout : Int
deriving DecidableEq, Repr

/-- The struct `as3PoolMember`. -/
structure as3PoolMember where
  AddressDiscovery : String := ""
  ServerAddresses : List String := []
  ServicePort : Int := 0
  ShareNodes : Bool := false
  AdminState : String := ""
  ConnectionLimit : Int := 0
  Ratio : Int := 0
deriving DecidableEq, Repr

/-- The struct `intstr.IntOrString` of the Kubernetes library: `Type_` is 0 for an integer
held in `IntVal` and 1 for a string held in `StrVal`. -/
structure IntOrString where
  Type_ : Int := 0
  IntVal : Int := 0
  StrVal : String := ""
deriving DecidableEq, Repr

/-- The struct `as3Pool`. -/
structure as3Pool where
  Class : String := ""
  LoadBalancingMode : String := ""
  Members : List as3PoolMember := []
  Monitors : List as3ResourcePointer := []
  ReselectTries : Int := 0
  ServiceDownAction : String := ""
  SlowRampTime : Int := 0
  MinimumMonitors : IntOrString := {}
deriving DecidableEq, Repr

/-- The struct `as3PolicyCompareString`. -/
structure as3PolicyCompareString where
  Values : List String := []
  Operand : String := ""
deriving DecidableEq, Repr

/-- The struct `as3PolicyAddressString`. -/
structure as3PolicyAddressString where
  Values : List String := []
deriving DecidableEq, Repr

/-- The struct `as3Condition`; a nil pointer is `none`. -/
structure as3Condition where
  Name : String := ""
  Type_ : String := ""
  Event : String := ""
  Index : Int := 0
  All : Option as3PolicyCompareString := none
  PathSegment : Option as3PolicyCompareString := none
  Path : Option as3PolicyCompareString := none
  Address : Option as3PolicyAddressString := none
deriving DecidableEq, Repr

/-- The struct `as3LogMessage`. -/
structure as3LogMessage where
  Message : String := ""
deriving DecidableEq, Repr

/-- The struct `as3ActionReplaceMap`. -/
structure as3ActionReplaceMap where
  Value : String := ""
  Name : String := ""
deriving DecidableEq, Repr

/-- The struct `as3ActionForwardSelect`. -/
structure as3ActionForwardSelect where
  Pool : Option as3ResourcePointer := none
deriving DecidableEq, Repr

/-- The struct `PersistMetaData`: the metadata of a persistence action. -/
structure PersistMetaData where
  Netmask : String := ""
  Timeout : Int := 0
  Offset : Int := 0
  Length : Int := 0
  Name : String := ""
  Expiry : String := ""
  Key : String := ""
deriving DecidableEq, Repr

/-- The struct `as3Action`; a nil pointer is `none`. -/
structure as3Action where
  Type_ : String := ""
  Event : String := ""
  Location : String := ""
  Write : Option as3LogMessage := none
  Replace : Option as3ActionReplaceMap := none
  Select : Option as3ActionForwardSelect := none
  Policy : Option as3ResourcePointer := none
  Enabled : Option Bool := none
  SourceAddress : Option PersistMetaData := none
  DestinationAddress : Option PersistMetaData := none
  CookieHash : Option PersistMetaData := none
  CookieInsert : Option PersistMetaData := none
  CookieRewrite : Option PersistMetaData := none
  CookiePassive : Option PersistMetaData := none
  Universal : Option PersistMetaData := none
  Carp : Option PersistMetaData := none
  Hash : Option PersistMetaData := none
  Disable : Option PersistMetaData := none
deriving DecidableEq, Repr

/-- The struct `as3Rule`. -/
structure as3Rule where
  Name : String := ""
  Conditions : List as3Condition := []
  Actions : List as3Action := []
deriving DecidableEq, Repr

/-- The struct `as3EndpointPolicy`. -/
structure as3EndpointPolicy where
  Class : String := ""
  Strategy : String := ""
  Rules : List as3Rule := []
deriving DecidableEq, Repr

/-- The struct `as3ProfileHTTP2`. -/
structure as3ProfileHTTP2 where
  Ingress : Option as3ResourcePointer := none
  Egress : Option as3ResourcePointer := none
deriving DecidableEq, Repr

/-- The struct `as3ProfileTCP`. -/
structure as3ProfileTCP where
  Ingress : Option as3ResourcePointer := none
  Egress : Option as3ResourcePointer := none
deriving DecidableEq, Repr

/-- The values that the translated code assigns to the fields of `as3Service` whose type is
an interface: a string, a resource pointer, a list of resource pointers, or a profile
pair. -/
inductive as3MultiTypeParam where
  | str (s : String)
  | pointer (p : as3ResourcePointer)
  | pointers (ps : List as3ResourcePointer)
  | profileHTTP2 (p : as3ProfileHTTP2)
  | profileTCP (p : as3ProfileTCP)
deriving DecidableEq, Repr

/-- The struct `as3Service`, with the fields that the translated code assigns.  A nil
pointer or nil interface is `none`; `PersistenceMethods` is the field left to the method
`addPersistenceMethod`. -/
structure as3Service where
  Class : String := ""
  Layer4 : String := ""
  Source : String := ""
  TranslateServerAddress : Bool := false
  TranslateServerPort : Bool := false
  PolicyEndpoint : Option as3MultiTypeParam := none
  Pool : Option as3ResourcePointer := none
  PersistenceMethods : Option (List as3MultiTypeParam) := none
  ProfileDOS : Option as3ResourcePointer := none
  ProfileBotDefense : Option as3ResourcePointer := none
  ProfileHTML : Option as3ResourcePointer := none
  HTTPCompressionProfile : Option as3MultiTypeParam := none
  ProfileHTTP2 : Option as3MultiTypeParam := none
  ProfileTCP : Option as3MultiTypeParam := none
  ProfileMultiplex : Option as3ResourcePointer := none
  ServerTLS : Option as3MultiTypeParam := none
  ClientTLS : Option as3MultiTypeParam := none
  Redirect80 : Option Bool := none
  ProfileHTTP : Option as3MultiTypeParam := none
  WAF : Option as3ResourcePointer := none
  VirtualAddresses : List as3MultiTypeParam := []
  VirtualPort : Int := 0
  HttpMrfRoutingEnabled : Bool := false
  AutoLastHop : String := ""
  HttpAnalyticsProfile : Option as3ResourcePointer := none
  ProfileWebSocket : Option as3ResourcePointer := none
  SNAT : Option as3MultiTypeParam := none
  Mirroring : String := ""
  AllowVLANs : List as3ResourcePointer := []
  Firewall : Option as3ResourcePointer := none
  IpIntelligencePolicy : Option as3ResourcePointer := none
  ProfileAccess : Option as3ResourcePointer := none
  PolicyPerRequestAccess : Option as3ResourcePointer := none
  LogProfiles : List as3ResourcePointer := []
  ProfileRequestAdapt : Option as3ResourcePointer := none
  ProfileResponseAdapt : Option as3ResourcePointer := none
  IRules : List as3MultiTypeParam := []
deriving DecidableEq, Repr

/-- The struct `as3ServiceAddress`. -/
structure as3ServiceAddress where
  Class : String := ""
  VirtualAddress : String := ""
  ArpEnabled : Bool := false
  ICMPEcho : String := ""
  RouteAdvertisement : String := ""
  TrafficGroup : String := ""
  SpanningEnabled : Bool := false
deriving DecidableEq, Repr

/-- The struct `as3TLSServerCertificates`: a reference to a certificate of a TLS server,
with the mark of the SNI default. -/
structure as3TLSServerCertificates where
  Certificate : String := ""
  SNIDefault : Bool := false
deriving DecidableEq, Repr

/-- The struct `as3TLSServer`. -/
structure as3TLSServer where
  Class : String := ""
  Certificates : List as3TLSServerCertificates := []
  Ciphers : String := ""
  CipherGroup : Option as3ResourcePointer := none
  TLS1_0Enabled : Option Bool := none
  TLS1_1Enabled : Option Bool := none
  TLS1_2Enabled : Option Bool := none
  TLS1_3Enabled : Bool := false
  RenegotiationEnabled : Option Bool := none
deriving DecidableEq, Repr

/-- The struct `as3TLSClient`. -/
structure as3TLSClient where
  Class : String := ""
  TrustCA : Option as3ResourcePointer := none
  ValidateCertificate : Bool := false
  Ciphers : String := ""
  CipherGroup : Option as3ResourcePointer := none
  TLS1_0Enabled : Option Bool := none
  TLS1_1Enabled : Option Bool := none
  TLS1_2Enabled : Option Bool := none
  TLS1_3Enabled : Bool := false
  RenegotiationEnabled : Option Bool := none
deriving DecidableEq, Repr

/-- The struct `as3Certificate`. -/
structure as3Certificate where
  Class : String := ""
  Certificate : String := ""
  PrivateKey : String := ""
  ChainCA : String := ""
deriving DecidableEq, Repr

/-- The struct `as3CABundle`. -/
structure as3CABundle where
  Class : String := ""
  Bundle : String := ""
deriving DecidableEq, Repr

/-- The values held, as `interface{}`, by the maps `as3ADC`, `as3Tenant` and
`as3Application`; a type assertion succeeds on the constructor of its type only. -/
inductive AS3Value where
  | str (s : String)
  | int (n : Int)
  | application (m : List (String × AS3Value))
  | tenant (m : List (String × AS3Value))
  | iRules (o : as3IRules)
  | dataGroup (o : as3DataGroup)
  | gslbDomain (o : as3GLSBDomain)
  | gslbPool (o : as3GSLBPool)
  | gslbMonitor (o : as3GSLBMonitor)
  | pool (o : as3Pool)
  | endpointPolicy (o : as3EndpointPolicy)
  | service (o : as3Service)
  | serviceAddress (o : as3ServiceAddress)
  | tlsServer (o : as3TLSServer)
  | tlsClient (o : as3TLSClient)
  | certificate (o : as3Certificate)
  | caBundle (o : as3CABundle)

/-- The type `as3Application` (`map[string]interface{}`). -/
abbrev as3Application := List (String × AS3Value)

/-- The type `as3Tenant` (`map[string]interface{}`). -/
abbrev as3Tenant := List (String × AS3Value)

/-- The type `as3ADC` (`map[string]interface{}`). -/
abbrev as3ADC := List (String × AS3Value)

/-- Modelled from the spec: the constant `as3SharedApplication`, whose declaration is not
among the translated files; the shared application of a tenant is its entry `Shared`. -/
def as3SharedApplication : String := "Shared"

/-! ## Desired-state entities
Of the desired state, the structs carry the fields that the embedded functions read. -/

/-- The struct `IRule`. -/
structure IRule where
  Name : String
  Code : String
deriving DecidableEq, Repr

/-- The struct `InternalDataGroupRecord`. -/
structure InternalDataGroupRecord where
  Name : String
  Data : String
deriving DecidableEq, Repr

/-- The struct `InternalDataGroup`. -/
structure InternalDataGroup where
  Name : String
  Type_ : String
  Records : List InternalDataGroupRecord
deriving DecidableEq, Repr

/-- The struct `NameRef`. -/
structure NameRef where
  Name : String
  Partition : String
deriving DecidableEq, Repr

/-- The struct `PoolMember`, with the fields that `createPoolDecl` reads.  The struct itself
is the key of the set by which the members of a pool are deduplicated. -/
structure PoolMember where
  Address : String := ""
  Port : Int := 0
  MemberType : String := ""
  AdminState : String := ""
  ConnectionLimit : Int := 0
  Ratio : Int := 0
deriving DecidableEq, Repr

/-- The struct of an element of `Pool.MonitorNames`. -/
structure MonitorName where
  Name : String := ""
  Reference : String := ""
deriving DecidableEq, Repr

/-- The struct `Pool`. -/
structure Pool where
  Name : String := ""
  Balance : String := ""
  Members : List PoolMember := []
  MonitorNames : List MonitorName := []
  ReselectTries : Int := 0
  ServiceDownAction : String := ""
  SlowRampTime : Int := 0
  MinimumMonitors : IntOrString := {}
deriving DecidableEq, Repr

/-- The struct of an element of `Rule.Conditions`. -/
structure Condition where
  Name : String := ""
  Index : Int := 0
  Values : List String := []
  Host : Bool := false
  HTTPHost : Bool := false
  Equals : Bool := false
  EndsWith : Bool := false
  PathSegment : Bool := false
  Path : Bool := false
  HTTPURI : Bool := false
  Tcp : Bool := false
  Address : Bool := false
  Request : Bool := false
deriving DecidableEq, Repr

/-- The struct of an element of `Rule.Actions`. -/
structure Action where
  Forward : Bool := false
  Log : Bool := false
  Request : Bool := false
  Redirect : Bool := false
  HTTPHost : Bool := false
  HTTPURI : Bool := false
  Replace : Bool := false
  WAF : Bool := false
  Drop : Bool := false
  Location : String := ""
  Message : String := ""
  Value : String := ""
  Pool : String := ""
  Policy : String := ""
  Enabled : Option Bool := none
  PersistMethod : String := ""
  Netmask : String := ""
  Timeout : Int := 0
  Offset : Int := 0
  Length : Int := 0
  Name : String := ""
  Expiry : String := ""
  Key : String := ""
deriving DecidableEq, Repr

/-- The struct `Rule`. -/
structure Rule where
  Name : String := ""
  Conditions : List Condition := []
  Actions : List Action := []
deriving DecidableEq, Repr

/-- The struct `Policy`. -/
structure Policy where
  Name : String := ""
  Strategy : String := ""
  Rules : List Rule := []
deriving DecidableEq, Repr

/-- The struct behind `Virtual.HTTP2` and `Virtual.TCP`: a client and a server profile. -/
structure ProfilePair where
  Client : String := ""
  Server : String := ""
deriving DecidableEq, Repr

/-- The struct of an element of `Virtual.Profiles`. -/
structure ProfileRef where
  Name : String := ""
  Partition : String := ""
  Context : String := ""
  BigIPProfile : Bool := false
deriving DecidableEq, Repr

/-- The struct behind `Virtual.AnalyticsProfiles`. -/
structure AnalyticsProfiles where
  HTTPAnalyticsProfile : String := ""
deriving DecidableEq, Repr

/-- The struct `ProfileAdapt`. -/
structure ProfileAdapt where
  Request : String := ""
  Response : String := ""
deriving DecidableEq, Repr

/-- The struct of an element of `ResourceConfig.ServiceAddress`. -/
structure ServiceAddress where
  ArpEnabled : Bool := false
  ICMPEcho : String := ""
  RouteAdvertisement : String := ""
  TrafficGroup : String := ""
  SpanningEnabled : Bool := false
deriving DecidableEq, Repr

/-- The struct `SecretKey`: the key of a custom profile, the name of the secret and the name
of the resource the profile is attached to. -/
structure SecretKey where
  Name : String := ""
  ResourceName : String := ""
deriving DecidableEq, Repr

/-- The struct of an element of `CustomProfile.Certificates`: the body of a certificate and
its private key. -/
structure Certificate where
  Cert : String := ""
  Key : String := ""
deriving DecidableEq, Repr

/-- The struct `CustomProfile`, with the fields that the translated code reads. -/
structure CustomProfile where
  Name : String := ""
  Certificates : List Certificate := []
  CAFile : String := ""
  Ciphers : String := ""
  CipherGroup : String := ""
  TLS1_0Enabled : Option Bool := none
  TLS1_1Enabled : Option Bool := none
  TLS1_2Enabled : Option Bool := none
  RenegotiationEnabled : Option Bool := none
deriving DecidableEq, Repr

/-- The struct behind `ResourceConfig.MetaData`. -/
structure MetaData where
  ResourceType : String := ""
  Protocol : String := ""
  defaultPoolType : String := ""
deriving DecidableEq, Repr

/-- The struct `Virtual`, with the fields that the translated code reads.  A nil slice is
the empty list (the code tests `AllowVLANs` and `LogProfiles` against nil only before it
ranges over them); `Policies` holds references of which the code reads the name. -/
structure Virtual where
  IRules : List String := []
  Name : String := ""
  Partition : String := ""
  Destination : String := ""
  Policies : List NameRef := []
  PoolName : String := ""
  TLSTermination : String := ""
  IpProtocol : String := ""
  PersistenceProfile : String := ""
  ProfileDOS : String := ""
  ProfileBotDefense : String := ""
  HTMLProfile : String := ""
  HTTPCompressionProfile : String := ""
  HTTP2 : ProfilePair := {}
  TCP : ProfilePair := {}
  ProfileMultiplex : String := ""
  Profiles : List ProfileRef := []
  WAF : String := ""
  AdditionalVirtualAddresses : List String := []
  BigIPRouteDomain : Int := 0
  HttpMrfRoutingEnabled : Option Bool := none
  AutoLastHop : String := ""
  AnalyticsProfiles : AnalyticsProfiles := {}
  ProfileWebSocket : String := ""
  SNAT : String := ""
  ConnectionMirroring : String := ""
  AllowVLANs : List String := []
  Firewall : String := ""
  IpIntelligencePolicy : String := ""
  ProfileAccess : String := ""
  PolicyPerRequestAccess : String := ""
  LogProfiles : List String := []
  ProfileAdapt : ProfileAdapt := {}
deriving DecidableEq, Repr

/-- The struct `ResourceConfig`. -/
structure ResourceConfig where
  Virtual : Virtual := {}
  IRulesMap : List (NameRef × IRule) := []
  IntDgMap : List (NameRef × List (String × InternalDataGroup)) := []
  MetaData : MetaData := {}
  Pools : List Pool := []
  Policies : List Policy := []
  ServiceAddress : List ServiceAddress := []
  customProfiles : List (SecretKey × CustomProfile) := []
deriving DecidableEq, Repr

/-- The type `ResourceMap` (`map[string]*ResourceConfig`). -/
abbrev ResourceMap := List (String × ResourceConfig)

/-- The struct `PartitionConfig`.  `Priority` is a pointer that the code dereferences
without a nil test; the embedding carries the value it points to. -/
structure PartitionConfig where
  ResourceMap : ResourceMap
  Priority : Int
deriving DecidableEq, Repr

/-- The struct `Monitor` of a GSLB pool. -/
structure Monitor where
  Name : String
  Interval : Int
  Type_ : String
  Send : String
  Recv : String
  Timeout : Int
deriving DecidableEq, Repr

/-- The struct `GSLBPool`. -/
structure GSLBPool where
  Name : String
  RecordType : String
  LBMethod : String
  LBModeFallBack : String
  Members : List String
  Monitors : List Monitor
  DataServer : String
  Ratio : Int
deriving DecidableEq, Repr

/-- The struct `WideIP`. -/
structure WideIP where
  DomainName : String
  RecordType : String
  LBMethod : String
  PersistenceEnabled : Bool
  PersistCidrIPv4 : Int
  PersistCidrIPv6 : Int
  TTLPersistence : Int
  Pools : List GSLBPool
  ClientSubnetPreferred : Option Bool
deriving DecidableEq, Repr

/-- The struct `GTMPartitionConfig`. -/
structure GTMPartitionConfig where
  WideIPs : List (String × WideIP)
deriving DecidableEq, Repr

/-- The struct `ResourceConfigRequest`. -/
structure ResourceConfigRequest where
  ltmConfig : List (String × PartitionConfig)
  shareNodes : Bool
  gtmConfig : List (String × GTMPartitionConfig)
  defaultRouteDomain : Int
  poolMemberType : String
deriving DecidableEq, Repr

/-- The struct behind `agent.PrimaryClusterHealthProbeParams`. -/
structure PrimaryClusterHealthProbeParams where
  EndPoint : String
  statusRunning : Bool
  statusChanged : Bool
deriving DecidableEq, Repr

/-- The fields of `agent.LTM` that `createLTMConfigADC` reads or writes. -/
structure LTMState where
  firstPost : Bool
  cachedTenantDeclMap : List (String × as3Tenant)
  tenantPriorityMap : List (String × Int)

/-- The process-wide `agent`: its fields read by the assembler, and its method
`isGTMTenant`, which is not among the translated files. -/
structure Agent where
  Partition : String
  HAMode : Bool
  PrimaryClusterHealthProbeParams : PrimaryClusterHealthProbeParams
  LTM : LTMState
  isGTMTenant : String → Bool

/-- What `createLTMConfigADC` calls and takes here as a parameter: the three compile
passes whose bodies depend on declarations outside the translated files (each returns the
shared application it leaves behind, `none` when it panics), the method
`agent.LTM.removeDeletedTenantsForBigIP(&config, cisLabel)`, and `sort.Slice` on data-group
records compared by key (which is not a stable sort). -/
structure External where
  processResourcesForAS3 :
    ResourceMap → as3Application → Bool → String → String → Option as3Application
  processCustomProfilesForAS3 : ResourceMap → as3Application → Option as3Application
  processProfilesForAS3 : ResourceMap → as3Application → Option as3Application
  removeDeletedTenantsForBigIP : ResourceConfigRequest → String → ResourceConfigRequest
  sortRecordsByKey : List as3Record → List as3Record

/-! ## The declaration assembler (`as3Parser.go`, `as3Handler.go`) -/

/-- The skeleton of a shared application: `class` and `template`. -/
def sharedApplicationSkeleton : as3Application :=
  store (store [] "class" (AS3Value.str "Application")) "template" (AS3Value.str "shared")

/-- The method `getDeletedTenantDeclaration(defaultPartition, tenant, cisLabel, config)`. -/
def getDeletedTenantDeclaration (defaultPartition tenant cisLabel : String)
    (config : ResourceConfigRequest) : as3Tenant :=
  if defaultPartition = tenant then
    [("class", AS3Value.str "Tenant"),
     (as3SharedApplication, AS3Value.application sharedApplicationSkeleton),
     ("defaultRouteDomain", AS3Value.int config.defaultRouteDomain),
     ("label", AS3Value.str cisLabel)]
  else [("class", AS3Value.str "Tenant")]

/-- The method `processIRulesForAS3(rsMap, sharedApp)`.  Its first inner loop, over
`rsCfg.Virtual.IRules`, only executes `continue` and has no effect; the second stores one
`as3IRules` object per entry of `rsCfg.IRulesMap`, under the name of the iRule. -/
def processIRulesForAS3 (rsMap : ResourceMap) (sharedApp : as3Application) : as3Application :=
  rsMap.foldl (fun app rsCfg =>
    rsCfg.2.IRulesMap.foldl (fun app v =>
      store app v.2.Name (AS3Value.iRules ⟨"iRule", v.2.Code⟩)) app) sharedApp

/-- The body of the innermost loop of `processDataGroupForAS3` for one data group `dg`:
a new `as3DataGroup` when the name is free, the records appended to the stored one
otherwise, sorted by key in both cases; `none` when the stored object is not an
`as3DataGroup` and the assertion `.(*as3DataGroup)` panics. -/
def processDataGroup (sortRecordsByKey : List as3Record → List as3Record)
    (sharedApp : as3Application) (dg : InternalDataGroup) : Option as3Application :=
  match lookup sharedApp dg.Name with
  | none =>
    some (store sharedApp dg.Name (AS3Value.dataGroup
      ⟨sortRecordsByKey (dg.Records.map (fun record => ⟨record.Name, record.Data⟩)),
        dg.Type_, "Data_Group"⟩))
  | some (AS3Value.dataGroup dataGroupRecord) =>
    some (store sharedApp dg.Name (AS3Value.dataGroup
      ⟨sortRecordsByKey (dataGroupRecord.Records ++
          dg.Records.map (fun record => ⟨record.Name, record.Data⟩)),
        dataGroupRecord.KeyDataType, dataGroupRecord.Class⟩))
  | some _ => none

/-- The method `processDataGroupForAS3(rsMap, sharedApp)`; its first inner loop has no
effect either. -/
def processDataGroupForAS3 (sortRecordsByKey : List as3Record → List as3Record)
    (rsMap : ResourceMap) (sharedApp : as3Application) : Option as3Application :=
  rsMap.foldlM (fun app rsCfg =>
    rsCfg.2.IntDgMap.foldlM (fun app idg =>
      idg.2.foldlM (fun app dg => processDataGroup sortRecordsByKey app dg.2) app) app)
    sharedApp

/-- Lines 650 to 669 of `createLTMConfigADC`: the shared application of a tenant with
resources, from the skeleton through the five compile passes. -/
def compileSharedApplication (ext : External) (config : ResourceConfigRequest)
    (tenantName : String) (partitionConfig : PartitionConfig) : Option as3Application :=
  (ext.processResourcesForAS3 partitionConfig.ResourceMap sharedApplicationSkeleton
      config.shareNodes tenantName config.poolMemberType).bind fun sharedApp =>
  (ext.processCustomProfilesForAS3 partitionConfig.ResourceMap sharedApp).bind fun sharedApp =>
  (ext.processProfilesForAS3 partitionConfig.ResourceMap sharedApp).bind fun sharedApp =>
  processDataGroupForAS3 ext.sortRecordsByKey partitionConfig.ResourceMap
    (processIRulesForAS3 partitionConfig.ResourceMap sharedApp)

/-- The tenant object the second loop of `createLTMConfigADC` assigns to `adc[tenantName]`:
the deletion stub for an empty resource map, the compiled tenant otherwise. -/
def tenantDeclaration (agent : Agent) (ext : External) (config : ResourceConfigRequest)
    (tenantName : String) (partitionConfig : PartitionConfig) : Option as3Tenant :=
  if partitionConfig.ResourceMap.length = 0 then
    some (getDeletedTenantDeclaration agent.Partition tenantName agent.Partition config)
  else
    (compileSharedApplication ext config tenantName partitionConfig).map fun sharedApp =>
      [("class", AS3Value.str "Tenant"),
       ("defaultRouteDomain", AS3Value.int config.defaultRouteDomain),
       (as3SharedApplication, AS3Value.application sharedApp),
       ("label", AS3Value.str agent.Partition)]

/-- The test of lines 619 to 624: HA mode, and either the first post or a primary cluster
that is configured, not running and has changed status. -/
def deletionScanDue (agent : Agent) : Bool :=
  agent.HAMode &&
    (agent.LTM.firstPost ||
      (decide (agent.PrimaryClusterHealthProbeParams.EndPoint ≠ "") &&
        !agent.PrimaryClusterHealthProbeParams.statusRunning &&
        agent.PrimaryClusterHealthProbeParams.statusChanged))

/-- The request as the loops of `createLTMConfigADC` see it: after
`removeDeletedTenantsForBigIP` when the deletion scan is due, as given otherwise. -/
def requestAfterScan (agent : Agent) (ext : External) (config : ResourceConfigRequest) :
    ResourceConfigRequest :=
  if deletionScanDue agent then ext.removeDeletedTenantsForBigIP config agent.Partition
  else config

/-- The first loop of `createLTMConfigADC`, over `agent.LTM.cachedTenantDeclMap`. -/
def cachedTenantsLoop (agent : Agent) (config : ResourceConfigRequest) : as3ADC :=
  agent.LTM.cachedTenantDeclMap.foldl (fun adc cached =>
    if (lookup config.ltmConfig cached.1).isNone && !agent.isGTMTenant cached.1 then
      store adc cached.1 (AS3Value.tenant
        (getDeletedTenantDeclaration agent.Partition cached.1 agent.Partition config))
    else adc) []

/-- One iteration of the second loop of `createLTMConfigADC`, on the document and the
priority map. -/
def ltmConfigStep (agent : Agent) (ext : External) (config : ResourceConfigRequest)
    (st : as3ADC × List (String × Int)) (entry : String × PartitionConfig) :
    Option (as3ADC × List (String × Int)) :=
  (tenantDeclaration agent ext config entry.1 entry.2).map fun tenantDecl =>
    (store st.1 entry.1 (AS3Value.tenant tenantDecl),
      if entry.2.Priority > 0 then store st.2 entry.1 entry.2.Priority else st.2)

/-- The method `createLTMConfigADC(config)`.  The result is the document returned together
with the fields of `agent.LTM` as the call leaves them (`firstPost`, `tenantPriorityMap`);
it is `none` when a compile pass panics. -/
def createLTMConfigADC (agent : Agent) (ext : External) (config : ResourceConfigRequest) :
    Option (as3ADC × LTMState) :=
  (List.foldlM (ltmConfigStep agent ext (requestAfterScan agent ext config))
      (cachedTenantsLoop agent (requestAfterScan agent ext config),
        agent.LTM.tenantPriorityMap)
      (requestAfterScan agent ext config).ltmConfig).map fun st =>
    (st.1, ⟨if deletionScanDue agent then false else agent.LTM.firstPost,
      agent.LTM.cachedTenantDeclMap, st.2⟩)

/-! ## The GSLB assembler (`createGTMConfigADC`) -/

/-- The call `strings.Replace(s, old, new, -1)` for an `old` of one character. -/
def Replace (s : String) (old : Char) (new : String) : String :=
  String.mk ((s.toList.map (fun c => if c = old then new.toList else [c])).flatten)

/-- The body of the loop over `wideIP.Pools`: the monitors of the pool are stored in the
shared application under their names, then the pool under its name, and a reference to the
pool is appended to the pools of the domain. -/
def gslbPoolStep (st : as3Application × List as3GSLBDomainPool) (pool : GSLBPool) :
    as3Application × List as3GSLBDomainPool :=
  let sharedApp := pool.Monitors.foldl (fun app mon =>
    store app mon.Name (AS3Value.gslbMonitor
      ⟨"GSLB_Monitor", mon.Interval, mon.Type_, mon.Send, mon.Recv, mon.Timeout⟩)) st.1
  (store sharedApp pool.Name (AS3Value.gslbPool
      ⟨"GSLB_Pool", pool.RecordType, pool.LBMethod, pool.LBModeFallBack,
        pool.Members.map (fun mem => ⟨true, ⟨pool.DataServer, ""⟩, mem⟩),
        pool.Monitors.map (fun mon => ⟨"", mon.Name⟩)⟩),
    st.2 ++ [⟨pool.Name, pool.Ratio⟩])

/-- The body of the loop over `gtmPartitionConfig.WideIPs`: the pools, then the domain under
its name with every `*` written `wildcard`. -/
def wideIPStep (sharedApp : as3Application) (entry : String × WideIP) : as3Application :=
  let st := entry.2.Pools.foldl gslbPoolStep (sharedApp, [])
  store st.1 (Replace entry.1 '*' "wildcard") (AS3Value.gslbDomain
    ⟨"GSLB_Domain", entry.2.DomainName, entry.2.RecordType, entry.2.LBMethod,
      entry.2.PersistenceEnabled, entry.2.PersistCidrIPv4, entry.2.PersistCidrIPv6,
      entry.2.TTLPersistence, st.2, entry.2.ClientSubnetPreferred⟩)

/-- The body of the loop over `config.gtmConfig`: the tenant of the partition is taken from
the document when it is there (`none` when it is not an `as3Tenant` or has no
`as3Application` under `Shared` and the unchecked assertions panic) and created otherwise;
the WideIPs are compiled into its shared application. -/
def gtmPartitionStep (adc : as3ADC) (entry : String × GTMPartitionConfig) : Option as3ADC :=
  match lookup adc entry.1 with
  | some obj =>
    match obj with
    | AS3Value.tenant tenantDecl =>
      match lookup tenantDecl as3SharedApplication with
      | some (AS3Value.application sharedApp) =>
        some (store adc entry.1 (AS3Value.tenant
          (store tenantDecl as3SharedApplication
            (AS3Value.application (entry.2.WideIPs.foldl wideIPStep sharedApp)))))
      | _ => none
    | _ => none
  | none =>
    some (store adc entry.1 (AS3Value.tenant
      [("class", AS3Value.str "Tenant"),
       (as3SharedApplication, AS3Value.application
         (entry.2.WideIPs.foldl wideIPStep sharedApplicationSkeleton))]))

/-- The method `createGTMConfigADC(config, adc)`; `DEFAULT_GTM_PARTITION` is a constant
declared outside the translated files and is a parameter.  The result is `none` when an
unchecked type assertion panics. -/
def createGTMConfigADC (agent : Agent) (DEFAULT_GTM_PARTITION : String)
    (config : ResourceConfigRequest) (adc : as3ADC) : Option as3ADC :=
  if config.gtmConfig.length = 0 then
    some (store adc DEFAULT_GTM_PARTITION (AS3Value.tenant
      [("class", AS3Value.str "Tenant"),
       (as3SharedApplication, AS3Value.application sharedApplicationSkeleton),
       ("label", AS3Value.str agent.Partition)]))
  else
    List.foldlM gtmPartitionStep adc config.gtmConfig

/-- An agent of partition `test`, HA mode off, nothing cached, whose GTM tenants are those
named `test_gtm`. -/
def sampleAgent : Agent :=
  ⟨"test", false, ⟨"", false, false⟩, ⟨false, [], []⟩, fun tenant => tenant == "test_gtm"⟩

/-- A request with one GTM partition holding one WideIP with one pool and one monitor. -/
def gtmRequest : ResourceConfigRequest :=
  ⟨[], false,
    [("test_gtm", ⟨[("*.example.com",
      ⟨"*.example.com", "A", "round-robin", true, 24, 64, 3600,
        [⟨"pool1", "A", "round-robin", "return-to-dns", ["/Common/vs1"],
          [⟨"mon1", 10, "http", "GET /", "", 30⟩], "/Common/bigip1", 1⟩],
        none⟩)]⟩)],
    0, "cluster"⟩

/-- A request without GTM configuration. -/
def noGtmRequest : ResourceConfigRequest :=
  ⟨[], false, [], 0, "cluster"⟩

/-- A compile pass keeps the entries `class` and `template` of the shared application it is
given: whenever it returns, they are what they were. -/
def keepsSkeleton (pass : as3Application → Option as3Application) : Prop :=
  ∀ app app', pass app = some app' →
    lookup app' "class" = lookup app "class" ∧ lookup app' "template" = lookup app "template"

/-- No compile pass stores an object of the tenant under the name `class` or `template`:
the three passes that are parameters keep these two entries, and no iRule and no data group
of the tenant's resources bears one of these names. -/
def reservedNamesFree (ext : External) (config : ResourceConfigRequest) (tenantName : String)
    (partitionConfig : PartitionConfig) : Prop :=
  keepsSkeleton (fun app => ext.processResourcesForAS3 partitionConfig.ResourceMap app
      config.shareNodes tenantName config.poolMemberType) ∧
    keepsSkeleton (ext.processCustomProfilesForAS3 partitionConfig.ResourceMap) ∧
    keepsSkeleton (ext.processProfilesForAS3 partitionConfig.ResourceMap) ∧
    (∀ rsCfg ∈ partitionConfig.ResourceMap, ∀ v ∈ rsCfg.2.IRulesMap,
      v.2.Name ≠ "class" ∧ v.2.Name ≠ "template") ∧
    (∀ rsCfg ∈ partitionConfig.ResourceMap, ∀ idg ∈ rsCfg.2.IntDgMap, ∀ dg ∈ idg.2,
      dg.2.Name ≠ "class" ∧ dg.2.Name ≠ "template")

/-- Insert a record before the first record of a sorted list whose key is greater. -/
def insertRecord (r : as3Record) : List as3Record → List as3Record
  | [] => [r]
  | x :: xs => if r.Key < x.Key then r :: x :: xs else x :: insertRecord r xs

/-- The parser on resource configs that carry nothing but iRules and data groups (no pool,
policy, monitor or profile, and a resource type that is neither `VirtualServer` nor
`TransportServer`): on those the passes `processResourcesForAS3`,
`processCustomProfilesForAS3` and `processProfilesForAS3` store nothing.  The deletion scan
is taken to add nothing, and records are sorted by insertion. -/
def iRulesOnlyExternal : External :=
  ⟨fun _ sharedApp _ _ _ => some sharedApp, fun _ sharedApp => some sharedApp,
    fun _ sharedApp => some sharedApp, fun config _ => config,
    fun records => records.foldr insertRecord []⟩

/-- An agent of partition `test`, HA mode off, with the tenants `old` and `test_gtm` cached;
its GTM tenants are those named `test_gtm`. -/
def assemblerAgent : Agent :=
  ⟨"test", false, ⟨"", false, false⟩,
    ⟨false, [("old", [("class", AS3Value.str "Tenant")]),
      ("test_gtm", [("class", AS3Value.str "Tenant")])], []⟩,
    fun tenant => tenant == "test_gtm"⟩

/-- A request in which the default partition `test` and the partition `foo` have no
resources, and the partition `app` has one resource with the iRule `rule1`. -/
def assemblerRequest : ResourceConfigRequest :=
  ⟨[("test", ⟨[], 1⟩), ("foo", ⟨[], 0⟩),
    ("app", ⟨[("vs1", { IRulesMap := [(⟨"rule1", "app"⟩, ⟨"rule1", "when CLIENT_ACCEPTED"⟩)] })],
      2⟩)],
    false, [], 2, "cluster"⟩

/-- A request whose partition `app` has one resource with an iRule named `class`. -/
def classRuleRequest : ResourceConfigRequest :=
  ⟨[("app", ⟨[("vs1", { IRulesMap := [(⟨"class", "app"⟩, ⟨"class", "when CLIENT_ACCEPTED"⟩)] })],
      2⟩)],
    false, [], 2, "cluster"⟩

/-! ## Constants and helpers declared outside the translated files -/

/-- The call `strconv.Itoa(i)`: the decimal numeral of `i`, with a `-` for a negative
number. -/
def Itoa (i : Int) : String :=
  match i with
  | Int.ofNat n => Nat.repr n
  | Int.negSucc n => "-" ++ Nat.repr (n + 1)

/-- The call `strings.HasSuffix(s, suffix)`. -/
def HasSuffix (s suffix : String) : Bool :=
  suffix.toList.isSuffixOf s.toList

/-- The string constants that the parser compares with and that are declared outside the
translated files; they are parameters of the embedded functions. -/
structure Constants where
  BIGIP : String
  Auto : String
  NodePort : String
  VirtualServer : String
  TransportServer : String
  TLSPassthrough : String
  PassthroughHostsDgName : String
  HttpRedirectIRuleName : String
  HttpRedirectNoHostIRuleName : String
  TLSIRuleName : String
  ABPathIRuleName : String
  CustomProfileClient : String
  CustomProfileServer : String
  SourceAddress : String
  DestinationAddress : String
  CookieHash : String
  CookieInsert : String
  CookieRewrite : String
  CookiePassive : String
  Universal : String
  Carp : String
  Hash : String
  Disable : String

/-- The functions that the parser calls and that are declared outside the translated files,
and the comparisons of a `float64` (the type `F`) with the literals 3.52 and 3.44. -/
structure Helpers (F : Type) where
  getRSCfgResName : String → String → String
  getPartitionAndName : String → String × String
  AS3NameFormatter : String → String
  addPersistenceMethod : as3Service → String → as3Service
  below352 : F → Bool
  below344 : F → Bool

/-! ## Pools (`createPoolDecl`) -/

/-- Lines 242 to 257 of `createPoolDecl`: the member declared for the pool member `val`. -/
def poolMember (K : Constants) (shareNodes : Bool) (poolMemberType : String)
    (val : PoolMember) : as3PoolMember :=
  let member : as3PoolMember := {}
  let member := { member with AddressDiscovery := "static", ServicePort := val.Port }
  let member := if val.Ratio > 0 then { member with Ratio := val.Ratio } else member
  let member := { member with ServerAddresses := member.ServerAddresses ++ [val.Address] }
  let member :=
    if shareNodes ∨ (poolMemberType = K.Auto ∧ val.MemberType = K.NodePort) then
      { member with ShareNodes := true }
    else member
  let member :=
    if val.AdminState ≠ "" then { member with AdminState := val.AdminState } else member
  if val.ConnectionLimit ≠ 0 then { member with ConnectionLimit := val.ConnectionLimit }
  else member

/-- The body of the loop over `v.Members` (lines 236 to 259).  The state is the set
`poolMemberSet`, held as the list of the members met so far, and `pool.Members`; a member
that is in the set is skipped. -/
def poolMemberStep (K : Constants) (shareNodes : Bool) (poolMemberType : String)
    (st : List PoolMember × List as3PoolMember) (val : PoolMember) :
    List PoolMember × List as3PoolMember :=
  if val ∈ st.1 then st
  else (val :: st.1, st.2 ++ [poolMember K shareNodes poolMemberType val])

/-- The monitor reference declared for an element of `v.MonitorNames` (lines 261 to 272):
a `bigip` reference by the name as it is, or a `use` reference to the last segment of the
name under the shared application of the tenant. -/
def poolMonitor (K : Constants) (tenant : String) (val : MonitorName) : as3ResourcePointer :=
  if val.Reference = K.BIGIP then { BigIP := val.Name, Use := "" }
  else
    { BigIP := "",
      Use := "/" ++ tenant ++ "/" ++ as3SharedApplication ++ "/" ++
        (Split val.Name '/').getLastD "" }

/-- Lines 275 to 283 of `createPoolDecl`: the value of `minimumMonitors`, given the monitors
declared from `v.MonitorNames`. -/
def minimumMonitors (monitors : List as3ResourcePointer) (v : Pool) : IntOrString :=
  if monitors.length > 0 then
    if v.MinimumMonitors.StrVal ≠ "" ∨ v.MinimumMonitors.IntVal ≠ 0 then v.MinimumMonitors
    else { Type_ := 0, IntVal := 1 }
  else { Type_ := 1, StrVal := "all" }

/-- Lines 229 to 283 of `createPoolDecl`: the pool declared for `v`, before the shared
application is looked at. -/
def poolDecl (K : Constants) (shareNodes : Bool) (tenant poolMemberType : String)
    (v : Pool) : as3Pool :=
  let pool : as3Pool := {}
  let pool :=
    { pool with
      LoadBalancingMode := v.Balance, Class := "Pool", ReselectTries := v.ReselectTries,
      ServiceDownAction := v.ServiceDownAction, SlowRampTime := v.SlowRampTime }
  let pool :=
    { pool with
      Members := (v.Members.foldl (poolMemberStep K shareNodes poolMemberType)
        ([], pool.Members)).2 }
  let pool :=
    { pool with
      Monitors := v.MonitorNames.foldl
        (fun monitors val => monitors ++ [poolMonitor K tenant val]) pool.Monitors }
  { pool with MinimumMonitors := minimumMonitors pool.Monitors v }

/-- Lines 286 to 297 of `createPoolDecl`: every monitor of the pool already stored is
appended to the monitors of the new pool unless `reflect.DeepEqual` finds it there (among
the monitors appended so far as well). -/
def mergeMonitors (monitors existing : List as3ResourcePointer) : List as3ResourcePointer :=
  existing.foldl (fun monitors mon =>
    if monitors.any (fun plMon => decide (mon = plMon)) then monitors
    else monitors ++ [mon]) monitors

/-- The body of the loop of `createPoolDecl` for the pool `v`: the pool is declared, takes
over the monitors of a pool stored under its name, and is stored.  The result is `none`
when the object stored under the name is not an `as3Pool` and the unchecked assertion
`pl.(*as3Pool)` panics. -/
def createPool (K : Constants) (shareNodes : Bool) (tenant poolMemberType : String)
    (sharedApp : as3Application) (v : Pool) : Option as3Application :=
  let pool := poolDecl K shareNodes tenant poolMemberType v
  match lookup sharedApp v.Name with
  | none => some (store sharedApp v.Name (AS3Value.pool pool))
  | some (AS3Value.pool pl) =>
    if pl.Monitors.length > 0 then
      some (store sharedApp v.Name
        (AS3Value.pool { pool with Monitors := mergeMonitors pool.Monitors pl.Monitors }))
    else some (store sharedApp v.Name (AS3Value.pool pool))
  | some _ => none

/-- The method `createPoolDecl(cfg, sharedApp, shareNodes, tenant, poolMemberType)`: the
shared application it leaves behind, `none` when it panics. -/
def createPoolDecl (K : Constants) (cfg : ResourceConfig) (sharedApp : as3Application)
    (shareNodes : Bool) (tenant poolMemberType : String) : Option as3Application :=
  cfg.Pools.foldlM (createPool K shareNodes tenant poolMemberType) sharedApp

/-! ## Policies (`createPoliciesDecl`, `createRuleCondition`, `createRuleAction`) -/

/-- The body of the loop of `createRuleCondition`: the condition declared for `c` on a
virtual server of port `port`. -/
def ruleCondition (c : Condition) (port : Int) : as3Condition :=
  let condition : as3Condition := {}
  let condition :=
    if c.Host then
      let condition := { condition with Name := "host" }
      let values : List String :=
        if port ≠ 80 ∧ port ≠ 443 then
          c.Values.foldl (fun values v => values ++ [v ++ ":" ++ Itoa port]) []
        else
          c.Values.foldl (fun values v => values ++ [v ++ ":" ++ Itoa port, v]) []
      let condition := { condition with All := some { Values := values } }
      let condition :=
        if c.HTTPHost then { condition with Type_ := "httpHeader" } else condition
      let condition :=
        if c.Equals then
          { condition with
            All := condition.All.map (fun all => { all with Operand := "equals" }) }
        else condition
      if c.EndsWith then
        { condition with
          All := condition.All.map (fun all => { all with Operand := "ends-with" }) }
      else condition
    else if c.PathSegment then
      let condition := { condition with PathSegment := some { Values := c.Values } }
      let condition := if c.Name ≠ "" then { condition with Name := c.Name } else condition
      let condition := { condition with Index := c.Index }
      let condition := if c.HTTPURI then { condition with Type_ := "httpUri" } else condition
      if c.Equals then
        { condition with
          PathSegment := condition.PathSegment.map (fun ps => { ps with Operand := "equals" }) }
      else condition
    else if c.Path then
      let condition := { condition with Path := some { Values := c.Values } }
      let condition := if c.Name ≠ "" then { condition with Name := c.Name } else condition
      let condition := { condition with Index := c.Index }
      let condition := if c.HTTPURI then { condition with Type_ := "httpUri" } else condition
      if c.Equals then
        { condition with
          Path := condition.Path.map (fun path => { path with Operand := "equals" }) }
      else condition
    else if c.Tcp then
      if c.Address ∧ c.Values.length > 0 then
        { condition with Type_ := "tcp", Address := some { Values := c.Values } }
      else condition
    else condition
  if c.Request then { condition with Event := "request" } else condition

/-- The method `createRuleCondition(rl, rulesData, port)`: the rule data with one condition
appended per condition of the rule. -/
def createRuleCondition (rl : Rule) (rulesData : as3Rule) (port : Int) : as3Rule :=
  rl.Conditions.foldl (fun rulesData c =>
    { rulesData with Conditions := rulesData.Conditions ++ [ruleCondition c port] }) rulesData

/-- Lines 747 to 820 of `createRuleAction`: the switch over the persist method of the
action `v`.  In the default case the code only logs a warning. -/
def persistAction (K : Constants) (v : Action) (action : as3Action) : as3Action :=
  if v.PersistMethod ≠ "" then
    if v.PersistMethod = K.SourceAddress then
      { action with
        Event := "request", Type_ := "persist",
        SourceAddress := some { Netmask := v.Netmask, Timeout := v.Timeout } }
    else if v.PersistMethod = K.DestinationAddress then
      { action with
        Event := "request", Type_ := "persist",
        DestinationAddress := some { Netmask := v.Netmask, Timeout := v.Timeout } }
    else if v.PersistMethod = K.CookieHash then
      { action with
        Event := "request", Type_ := "persist",
        CookieHash := some
          { Timeout := v.Timeout, Offset := v.Offset, Length := v.Length, Name := v.Name } }
    else if v.PersistMethod = K.CookieInsert then
      { action with
        Event := "request", Type_ := "persist",
        CookieInsert := some { Name := v.Name, Expiry := v.Expiry } }
    else if v.PersistMethod = K.CookieRewrite then
      { action with
        Event := "request", Type_ := "persist",
        CookieRewrite := some { Name := v.Name, Expiry := v.Expiry } }
    else if v.PersistMethod = K.CookiePassive then
      { action with
        Event := "request", Type_ := "persist", CookiePassive := some { Name := v.Name } }
    else if v.PersistMethod = K.Universal then
      { action with
        Event := "request", Type_ := "persist",
        Universal := some { Key := v.Key, Timeout := v.Timeout } }
    else if v.PersistMethod = K.Carp then
      { action with
        Event := "request", Type_ := "persist",
        Carp := some { Key := v.Key, Timeout := v.Timeout } }
    else if v.PersistMethod = K.Hash then
      { action with
        Event := "request", Type_ := "persist",
        Hash := some { Key := v.Key, Timeout := v.Timeout } }
    else if v.PersistMethod = K.Disable then
      { action with Event := "request", Type_ := "persist", Disable := some {} }
    else action
  else action

/-- Lines 681 to 745 of `createRuleAction`: the action declared for `v`, before the switch
over its persist method. -/
def baseAction (v : Action) : as3Action :=
  let action : as3Action := {}
  let action := if v.Forward then { action with Type_ := "forward" } else action
  let action := if v.Log then { action with Type_ := "log" } else action
  let action := if v.Request then { action with Event := "request" } else action
  let action := if v.Redirect then { action with Type_ := "httpRedirect" } else action
  let action := if v.HTTPHost then { action with Type_ := "httpHeader" } else action
  let action := if v.HTTPURI then { action with Type_ := "httpUri" } else action
  let action := if v.Location ≠ "" then { action with Location := v.Location } else action
  let action :=
    if v.Log then { action with Write := some { Message := v.Message } } else action
  let action :=
    if v.Replace ∧ v.HTTPHost then
      { action with Replace := some { Value := v.Value, Name := "host" } }
    else action
  let action :=
    if v.Replace ∧ v.HTTPURI then { action with Replace := some { Value := v.Value } }
    else action
  let p := Split v.Pool '/'
  let action :=
    if v.Pool ≠ "" then
      { action with Select := some { Pool := some { BigIP := "", Use := p.getLastD "" } } }
    else action
  let action := if v.WAF then { action with Type_ := "waf" } else action
  let action :=
    if v.Policy ≠ "" then { action with Policy := some { BigIP := v.Policy, Use := "" } }
    else action
  let action := if v.Enabled ≠ none then { action with Enabled := v.Enabled } else action
  if v.Drop then { action with Type_ := "drop" } else action

/-- The body of the loop of `createRuleAction`: the action declared for `v`. -/
def ruleAction (K : Constants) (v : Action) : as3Action :=
  persistAction K v (baseAction v)

/-- The method `createRuleAction(rl, rulesData)`: the rule data with one action appended
per action of the rule. -/
def createRuleAction (K : Constants) (rl : Rule) (rulesData : as3Rule) : as3Rule :=
  rl.Actions.foldl (fun rulesData v =>
    { rulesData with Actions := rulesData.Actions ++ [ruleAction K v] }) rulesData

/-- The body of the loop over `pl.Rules` in `createPoliciesDecl`: class and strategy of the
endpoint policy are assigned here, once per rule, and the compiled rule is appended. -/
def policyRuleStep (K : Constants) (pl : Policy) (port : Int) (ep : as3EndpointPolicy)
    (rl : Rule) : as3EndpointPolicy :=
  let ep := { ep with Class := "Endpoint_Policy" }
  let s := Split pl.Strategy '/'
  let ep := { ep with Strategy := s.getLastD "" }
  let rulesData : as3Rule := { Name := rl.Name }
  let rulesData := createRuleCondition rl rulesData port
  let rulesData := createRuleAction K rl rulesData
  { ep with Rules := ep.Rules ++ [rulesData] }

/-- The method `createPoliciesDecl(cfg, sharedApp)`: one endpoint policy per policy of the
config, stored under the name of the policy. -/
def createPoliciesDecl (K : Constants) (cfg : ResourceConfig) (sharedApp : as3Application) :
    as3Application :=
  let port := (extractVirtualAddressAndPort cfg.Virtual.Destination).2
  cfg.Policies.foldl (fun sharedApp pl =>
    let ep : as3EndpointPolicy := {}
    let ep := pl.Rules.foldl (policyRuleStep K pl port) ep
    store sharedApp pl.Name (AS3Value.endpointPolicy ep)) sharedApp

/-! ## Services (`createServiceDecl`) -/

/-- The method `updateVirtualToHTTPS(v)`. -/
def updateVirtualToHTTPS (v : as3Service) : as3Service :=
  { v with Class := "Service_HTTPS", Redirect80 := some false }

/-- The method `processIrulesForCRD(cfg, svc)`.  The state of the loop is the local slice
`IRules` and the service; an iRule `none` is skipped, an iRule whose name ends in one of
the four controller names is referenced by its last segment, any other by a `bigip`
pointer, and the slice is assigned to the service in every iteration that is not
skipped. -/
def processIrulesForCRD (K : Constants) (cfg : ResourceConfig) (svc : as3Service) :
    as3Service :=
  (cfg.Virtual.IRules.foldl (fun (st : List as3MultiTypeParam × as3Service) v =>
    if v = "none" then st
    else
      let splits := Split v '/'
      let iRuleName := splits.getLastD ""
      let iRuleNoPort :=
        match LastIndex iRuleName.toList '_' with
        | some lastIndex =>
          if lastIndex > 0 then String.mk (iRuleName.toList.take lastIndex) else iRuleName
        | none => iRuleName
      let IRules :=
        if HasSuffix iRuleNoPort K.HttpRedirectIRuleName ∨
            HasSuffix iRuleNoPort K.HttpRedirectNoHostIRuleName ∨
            HasSuffix iRuleName K.TLSIRuleName ∨
            HasSuffix iRuleName K.ABPathIRuleName then
          st.1 ++ [as3MultiTypeParam.str iRuleName]
        else st.1 ++ [as3MultiTypeParam.pointer { BigIP := v, Use := "" }]
      (IRules, { st.2 with IRules := IRules })) ([], svc)).2

/-- The method `processCommonDecl(cfg, svc)`. -/
def processCommonDecl (K : Constants) (cfg : ResourceConfig) (svc : as3Service) :
    as3Service :=
  let svc :=
    if cfg.Virtual.SNAT = "auto" ∨ cfg.Virtual.SNAT = "none" ∨ cfg.Virtual.SNAT = "self" then
      { svc with SNAT := some (as3MultiTypeParam.str cfg.Virtual.SNAT) }
    else
      { svc with SNAT := some (as3MultiTypeParam.pointer { BigIP := cfg.Virtual.SNAT, Use := "" }) }
  let svc :=
    if cfg.Virtual.ConnectionMirroring ≠ "" then
      { svc with Mirroring := cfg.Virtual.ConnectionMirroring }
    else svc
  let svc :=
    cfg.Virtual.AllowVLANs.foldl (fun svc vlan =>
      { svc with AllowVLANs := svc.AllowVLANs ++ [{ BigIP := vlan, Use := "" }] }) svc
  let svc :=
    if cfg.Virtual.Firewall ≠ "" then
      { svc with Firewall := some { BigIP := cfg.Virtual.Firewall, Use := "" } }
    else svc
  let svc :=
    if cfg.Virtual.IpIntelligencePolicy ≠ "" then
      { svc with
        IpIntelligencePolicy := some { BigIP := cfg.Virtual.IpIntelligencePolicy, Use := "" } }
    else svc
  let svc :=
    if cfg.Virtual.ProfileAccess ≠ "" then
      let svc :=
        { svc with ProfileAccess := some { BigIP := cfg.Virtual.ProfileAccess, Use := "" } }
      if cfg.Virtual.PolicyPerRequestAccess ≠ "" then
        { svc with
          PolicyPerRequestAccess :=
            some { BigIP := cfg.Virtual.PolicyPerRequestAccess, Use := "" } }
      else svc
    else svc
  let svc :=
    cfg.Virtual.LogProfiles.foldl (fun svc lp =>
      { svc with LogProfiles := svc.LogProfiles ++ [{ BigIP := lp, Use := "" }] }) svc
  let svc :=
    if cfg.Virtual.ProfileAdapt ≠ {} then
      let svc :=
        if cfg.Virtual.ProfileAdapt.Request ≠ "" then
          { svc with
            ProfileRequestAdapt := some { BigIP := cfg.Virtual.ProfileAdapt.Request, Use := "" } }
        else svc
      if cfg.Virtual.ProfileAdapt.Response ≠ "" then
        { svc with
          ProfileResponseAdapt :=
            some { BigIP := cfg.Virtual.ProfileAdapt.Response, Use := "" } }
      else svc
    else svc
  processIrulesForCRD K cfg svc

/-- The method `createServiceAddressDecl(cfg, virtualAddress, sharedApp)`: one service
address per element of `cfg.ServiceAddress`, all stored under the name made from the
virtual address; the name is returned, and it is empty when there is no element. -/
def createServiceAddressDecl {F : Type} (H : Helpers F) (cfg : ResourceConfig)
    (virtualAddress : String) (sharedApp : as3Application) : String × as3Application :=
  cfg.ServiceAddress.foldl (fun (st : String × as3Application) sa =>
    let serviceAddress : as3ServiceAddress :=
      { Class := "Service_Address", ArpEnabled := sa.ArpEnabled, ICMPEcho := sa.ICMPEcho,
        RouteAdvertisement := sa.RouteAdvertisement, SpanningEnabled := sa.SpanningEnabled,
        TrafficGroup := sa.TrafficGroup, VirtualAddress := virtualAddress }
    let name := "crd_service_address_" ++ H.AS3NameFormatter virtualAddress
    (name, store st.2 name (AS3Value.serviceAddress serviceAddress))) ("", sharedApp)

/-- Lines 347 to 370 of `createServiceDecl`: the policy endpoint, a path for one policy and
a list of `use` pointers for more than one. -/
def servicePolicyEndpoint (cfg : ResourceConfig) (tenant : String) (svc : as3Service) :
    as3Service :=
  match cfg.Virtual.Policies with
  | [] => svc
  | [policy] =>
    { svc with
      PolicyEndpoint := some (as3MultiTypeParam.str
        ("/" ++ tenant ++ "/" ++ as3SharedApplication ++ "/" ++ policy.Name)) }
  | policies =>
    { svc with
      PolicyEndpoint := some (as3MultiTypeParam.pointers
        (policies.foldl (fun peps pep =>
          peps ++ [{ BigIP := "",
                     Use := "/" ++ tenant ++ "/" ++ as3SharedApplication ++ "/" ++ pep.Name }])
          [])) }

/-- Lines 371 to 385 of `createServiceDecl`: the default pool. -/
def serviceDefaultPool (K : Constants) (cfg : ResourceConfig) (tenant : String)
    (svc : as3Service) : as3Service :=
  if cfg.Virtual.PoolName ≠ "" then
    if cfg.MetaData.defaultPoolType = K.BIGIP then
      { svc with Pool := some { BigIP := cfg.Virtual.PoolName, Use := "" } }
    else
      let ps := Split cfg.Virtual.PoolName '/'
      { svc with
        Pool := some
          { BigIP := "",
            Use := "/" ++ tenant ++ "/" ++ as3SharedApplication ++ "/" ++ ps.getLastD "" } }
  else svc

/-- Lines 387 to 398 of `createServiceDecl`: the class of the service by the TLS
termination of the virtual.  Under passthrough an empty persistence profile of the config
is set to `tls-session-id`: the config is returned with the service. -/
def serviceClass (K : Constants) (cfg : ResourceConfig) (svc : as3Service) :
    ResourceConfig × as3Service :=
  if cfg.Virtual.TLSTermination ≠ K.TLSPassthrough then
    (cfg,
      { svc with
        Layer4 := cfg.Virtual.IpProtocol, Source := "0.0.0.0/0",
        TranslateServerAddress := true, TranslateServerPort := true,
        Class := "Service_HTTP" })
  else
    let cfg :=
      if cfg.Virtual.PersistenceProfile.length = 0 then
        { cfg with Virtual := { cfg.Virtual with PersistenceProfile := "tls-session-id" } }
      else cfg
    (cfg, { svc with Class := "Service_TCP" })

/-- Lines 402 to 426 of `createServiceDecl`: the DoS, bot-defense, HTML and HTTP
compression profiles. -/
def serviceSecurityProfiles (cfg : ResourceConfig) (svc : as3Service) : as3Service :=
  let svc :=
    if cfg.Virtual.ProfileDOS.length > 0 then
      { svc with ProfileDOS := some { BigIP := cfg.Virtual.ProfileDOS, Use := "" } }
    else svc
  let svc :=
    if cfg.Virtual.ProfileBotDefense.length > 0 then
      { svc with ProfileBotDefense := some { BigIP := cfg.Virtual.ProfileBotDefense, Use := "" } }
    else svc
  let svc :=
    if cfg.Virtual.HTMLProfile.length > 0 then
      { svc with ProfileHTML := some { BigIP := cfg.Virtual.HTMLProfile, Use := "" } }
    else svc
  if cfg.Virtual.HTTPCompressionProfile.length > 0 then
    if cfg.Virtual.HTTPCompressionProfile = "basic" ∨
        cfg.Virtual.HTTPCompressionProfile = "wan" then
      { svc with
        HTTPCompressionProfile :=
          some (as3MultiTypeParam.str cfg.Virtual.HTTPCompressionProfile) }
    else
      { svc with
        HTTPCompressionProfile := some (as3MultiTypeParam.pointer
          { BigIP := cfg.Virtual.HTTPCompressionProfile, Use := "" }) }
  else svc

/-- Lines 428 to 456 of `createServiceDecl`: the HTTP/2 profile of an `https` virtual.  When
the client profile is empty the code logs an error and goes on. -/
def serviceProfileHTTP2 (cfg : ResourceConfig) (svc : as3Service) : as3Service :=
  if cfg.MetaData.Protocol = "https" then
    if cfg.Virtual.HTTP2.Client.length > 0 ∨ cfg.Virtual.HTTP2.Server.length > 0 then
      let svc :=
        if cfg.Virtual.HTTP2.Server = "" then
          { svc with
            ProfileHTTP2 := some (as3MultiTypeParam.pointer
              { BigIP := cfg.Virtual.HTTP2.Client, Use := "" }) }
        else svc
      let svc :=
        if cfg.Virtual.HTTP2.Client = "" ∧ cfg.Virtual.HTTP2.Server ≠ "" then
          { svc with
            ProfileHTTP2 := some (as3MultiTypeParam.profileHTTP2
              { Egress := some { BigIP := cfg.Virtual.HTTP2.Server, Use := "" } }) }
        else svc
      if cfg.Virtual.HTTP2.Client ≠ "" ∧ cfg.Virtual.HTTP2.Server ≠ "" then
        { svc with
          ProfileHTTP2 := some (as3MultiTypeParam.profileHTTP2
            { Ingress := some { BigIP := cfg.Virtual.HTTP2.Client, Use := "" },
              Egress := some { BigIP := cfg.Virtual.HTTP2.Server, Use := "" } }) }
      else svc
    else svc
  else svc

/-- Lines 458 to 477 of `createServiceDecl`: the TCP profile.  When the client profile is
empty the code logs an error and goes on. -/
def serviceProfileTCP (cfg : ResourceConfig) (svc : as3Service) : as3Service :=
  if cfg.Virtual.TCP.Client.length > 0 ∨ cfg.Virtual.TCP.Server.length > 0 then
    let svc :=
      if cfg.Virtual.TCP.Server = "" then
        { svc with
          ProfileTCP := some (as3MultiTypeParam.pointer
            { BigIP := cfg.Virtual.TCP.Client, Use := "" }) }
      else svc
    if cfg.Virtual.TCP.Client ≠ "" ∧ cfg.Virtual.TCP.Server ≠ "" then
      { svc with
        ProfileTCP := some (as3MultiTypeParam.profileTCP
          { Ingress := some { BigIP := cfg.Virtual.TCP.Client, Use := "" },
            Egress := some { BigIP := cfg.Virtual.TCP.Server, Use := "" } }) }
    else svc
  else svc

/-- Lines 479 to 497 of `createServiceDecl`: the multiplex profile, and the promotion to an
HTTPS service when the passthrough-hosts data group of the virtual is in the config, with
the server TLS `/Common/clientssl` below version 3.52. -/
def servicePassthrough {F : Type} (K : Constants) (H : Helpers F) (cfg : ResourceConfig)
    (bigipAs3Version : F) (svc : as3Service) : as3Service :=
  let svc :=
    if cfg.Virtual.ProfileMultiplex.length > 0 then
      { svc with ProfileMultiplex := some { BigIP := cfg.Virtual.ProfileMultiplex, Use := "" } }
    else svc
  let name := H.getRSCfgResName cfg.Virtual.Name K.PassthroughHostsDgName
  let mapKey : NameRef := { Name := name, Partition := cfg.Virtual.Partition }
  if cfg.IntDgMap.any (fun e => decide (e.1 = mapKey)) then
    let svc :=
      if H.below352 bigipAs3Version then
        { svc with
          ServerTLS := some (as3MultiTypeParam.pointer
            { BigIP := "/Common/clientssl", Use := "" }) }
      else svc
    updateVirtualToHTTPS svc
  else svc

/-- Lines 499 to 519 of `createServiceDecl`: the HTTP profile of the policy CRD and the WAF
policy. -/
def serviceHTTPProfileAndWAF {F : Type} (H : Helpers F) (cfg : ResourceConfig)
    (svc : as3Service) : as3Service :=
  let svc :=
    cfg.Virtual.Profiles.foldl (fun svc profile =>
      let name := (H.getPartitionAndName profile.Name).2
      if profile.Context = "http" then
        if ¬ profile.BigIPProfile then
          { svc with ProfileHTTP := some (as3MultiTypeParam.str name) }
        else
          { svc with
            ProfileHTTP := some (as3MultiTypeParam.pointer
              { BigIP := profile.Name, Use := "" }) }
      else svc) svc
  if cfg.Virtual.WAF ≠ "" then
    { svc with WAF := some { BigIP := cfg.Virtual.WAF, Use := "" } }
  else svc

/-- The additional virtual address `val` with the route domain of the virtual appended
after a `%` when that domain is positive (lines 528 to 530 and 545 to 547). -/
def withRouteDomain (cfg : ResourceConfig) (val : String) : String :=
  if cfg.Virtual.BigIPRouteDomain > 0 then val ++ "%" ++ Itoa cfg.Virtual.BigIPRouteDomain
  else val

/-- Lines 521 to 559 of `createServiceDecl`: the virtual addresses and the port.  Without
a service address in the config the addresses are literal; with one, every address is a
`use` pointer to the service address that `createServiceAddressDecl` stores. -/
def serviceVirtualAddresses {F : Type} (H : Helpers F) (cfg : ResourceConfig)
    (svc : as3Service) (sharedApp : as3Application) : as3Service × as3Application :=
  let virtualAddress := (extractVirtualAddressAndPort cfg.Virtual.Destination).1
  let port := (extractVirtualAddressAndPort cfg.Virtual.Destination).2
  if virtualAddress ≠ "" ∧ port ≠ 0 then
    if cfg.ServiceAddress.length = 0 then
      let va := svc.VirtualAddresses ++ [as3MultiTypeParam.str virtualAddress]
      let va :=
        cfg.Virtual.AdditionalVirtualAddresses.foldl (fun va val =>
          va ++ [as3MultiTypeParam.str (withRouteDomain cfg val)]) va
      ({ svc with VirtualAddresses := va, VirtualPort := port }, sharedApp)
    else
      let sa := createServiceAddressDecl H cfg virtualAddress sharedApp
      let svc :=
        { svc with
          VirtualAddresses := svc.VirtualAddresses ++
            [as3MultiTypeParam.pointer { BigIP := "", Use := sa.1 }] }
      let st :=
        cfg.Virtual.AdditionalVirtualAddresses.foldl
          (fun (st : as3Service × as3Application) val =>
            let asa := createServiceAddressDecl H cfg (withRouteDomain cfg val) st.2
            ({ st.1 with
               VirtualAddresses := st.1.VirtualAddresses ++
                 [as3MultiTypeParam.pointer { BigIP := "", Use := asa.1 }] }, asa.2))
          (svc, sa.2)
      ({ st.1 with VirtualPort := port }, st.2)
  else (svc, sharedApp)

/-- Lines 560 to 576 of `createServiceDecl`: MRF routing, auto last hop, and the analytics
and websocket profiles. -/
def serviceTrailingProfiles (cfg : ResourceConfig) (svc : as3Service) : as3Service :=
  let svc :=
    match cfg.Virtual.HttpMrfRoutingEnabled with
    | some enabled => { svc with HttpMrfRoutingEnabled := enabled }
    | none => svc
  let svc := { svc with AutoLastHop := cfg.Virtual.AutoLastHop }
  let svc :=
    if cfg.Virtual.AnalyticsProfiles.HTTPAnalyticsProfile ≠ "" then
      { svc with
        HttpAnalyticsProfile :=
          some { BigIP := cfg.Virtual.AnalyticsProfiles.HTTPAnalyticsProfile, Use := "" } }
    else svc
  if cfg.Virtual.ProfileWebSocket ≠ "" then
    { svc with ProfileWebSocket := some { BigIP := cfg.Virtual.ProfileWebSocket, Use := "" } }
  else svc

/-- The service that `createServiceDecl` has built when it calls `processCommonDecl`, with
the config and the shared application as they are then. -/
def serviceBeforeCommon {F : Type} (K : Constants) (H : Helpers F) (cfg : ResourceConfig)
    (sharedApp : as3Application) (tenant : String) (bigipAs3Version : F) :
    ResourceConfig × as3Service × as3Application :=
  let svc : as3Service := {}
  let svc := servicePolicyEndpoint cfg tenant svc
  let svc := serviceDefaultPool K cfg tenant svc
  let st := serviceClass K cfg svc
  let cfg := st.1
  let svc := H.addPersistenceMethod st.2 cfg.Virtual.PersistenceProfile
  let svc := serviceSecurityProfiles cfg svc
  let svc := serviceProfileHTTP2 cfg svc
  let svc := serviceProfileTCP cfg svc
  let svc := servicePassthrough K H cfg bigipAs3Version svc
  let svc := serviceHTTPProfileAndWAF H cfg svc
  let va := serviceVirtualAddresses H cfg svc sharedApp
  (cfg, serviceTrailingProfiles cfg va.1, va.2)

/-- The method `createServiceDecl(cfg, sharedApp, tenant, bigipAs3Version)`: the config as
the call leaves it, and the shared application with the service stored under the name of
the virtual. -/
def createServiceDecl {F : Type} (K : Constants) (H : Helpers F) (cfg : ResourceConfig)
    (sharedApp : as3Application) (tenant : String) (bigipAs3Version : F) :
    ResourceConfig × as3Application :=
  let st := serviceBeforeCommon K H cfg sharedApp tenant bigipAs3Version
  let svc := processCommonDecl K st.1 st.2.1
  (st.1, store st.2.2 st.1.Virtual.Name (AS3Value.service svc))

/-! ## Custom TLS profiles (`processCustomProfilesForAS3`) -/

/-- The index expression `customProfiles[key]` in its comma-ok form: `none` when the key is
absent.  The first binding of a key in the association list is the binding of the map. -/
def lookupProfile (customProfiles : List (SecretKey × CustomProfile)) (key : SecretKey) :
    Option CustomProfile :=
  match customProfiles with
  | [] => none
  | (key', prof) :: rest => if key' = key then some prof else lookupProfile rest key

/-- The method `getSortedCustomProfileKeys(customProfiles)`.  The list `customProfiles` is
the map in the order in which the `range` loop visits it; `Slice` is `sort.Slice` of the Go
library, given the slice of the keys and the comparison of two of its elements, which
reads the names of their profiles in the map. -/
def getSortedCustomProfileKeys
    (Slice : List SecretKey → (SecretKey → SecretKey → Bool) → List SecretKey)
    (customProfiles : List (SecretKey × CustomProfile)) : List SecretKey :=
  Slice (customProfiles.map Prod.fst) (fun ki kj =>
    decide (((lookupProfile customProfiles ki).getD {}).Name <
      ((lookupProfile customProfiles kj).getD {}).Name))

/-- Lines 988 to 1009 of `createUpdateTLSServer`: the new TLS server, with the protocol
switches, the ciphers and the renegotiation switch of the profile. -/
def newTLSServer (prof : CustomProfile) : as3TLSServer :=
  let tlsServer : as3TLSServer := { Class := "TLS_Server", Certificates := [] }
  let tlsServer :=
    if prof.TLS1_0Enabled ≠ none then { tlsServer with TLS1_0Enabled := prof.TLS1_0Enabled }
    else tlsServer
  let tlsServer :=
    if prof.TLS1_1Enabled ≠ none then { tlsServer with TLS1_1Enabled := prof.TLS1_1Enabled }
    else tlsServer
  let tlsServer :=
    if prof.TLS1_2Enabled ≠ none then { tlsServer with TLS1_2Enabled := prof.TLS1_2Enabled }
    else tlsServer
  let tlsServer :=
    if prof.CipherGroup ≠ "" then
      { tlsServer with
        CipherGroup := some { BigIP := prof.CipherGroup, Use := "" }, TLS1_3Enabled := true }
    else { tlsServer with Ciphers := prof.Ciphers }
  if prof.RenegotiationEnabled ≠ none then
    { tlsServer with RenegotiationEnabled := prof.RenegotiationEnabled }
  else tlsServer

/-- The loop over `prof.Certificates` of `createUpdateTLSServer` (lines 1016 to 1029), from
the index `index` on: the entries it appends to `tlsServer.Certificates` before it ends or
returns, and whether it ends, which it does when every certificate has a body and a key. -/
def tlsServerCertificates (name : String) :
    Nat → List Certificate → List as3TLSServerCertificates × Bool
  | _, [] => ([], true)
  | index, certificate :: rest =>
    if certificate.Cert.length > 0 ∧ certificate.Key.length > 0 then
      ({ Certificate := name ++ "_" ++ Itoa (Int.ofNat index) } ::
          (tlsServerCertificates name (index + 1) rest).1,
        (tlsServerCertificates name (index + 1) rest).2)
    else ([], false)

/-- The method `createUpdateTLSServer(resourceType, prof, svcName, sharedApp)`: the boolean
it returns and the shared application it leaves behind; `none` when the unchecked assertion
`sharedApp[svcName].(*as3Service)` panics.  A TLS server that is not there yet is stored,
and referenced by the service, before the certificates of the profile are looked at. -/
def createUpdateTLSServer (K : Constants) (resourceType : String) (prof : CustomProfile)
    (svcName : String) (sharedApp : as3Application) : Option (Bool × as3Application) :=
  if prof.Certificates.length > 0 then
    match lookup sharedApp svcName with
    | none => some (false, sharedApp)
    | some (AS3Value.service svc) =>
      let tlsServerName := svcName ++ "_tls_server"
      let st : as3TLSServer × as3Application :=
        match lookup sharedApp tlsServerName with
        | some (AS3Value.tlsServer tlsServer) => (tlsServer, sharedApp)
        | _ =>
          let sharedApp :=
            store sharedApp tlsServerName (AS3Value.tlsServer (newTLSServer prof))
          let svc := { svc with ServerTLS := some (as3MultiTypeParam.str tlsServerName) }
          let svc := if resourceType = K.VirtualServer then updateVirtualToHTTPS svc else svc
          (newTLSServer prof, store sharedApp svcName (AS3Value.service svc))
      let certificates := tlsServerCertificates prof.Name 0 prof.Certificates
      some (certificates.2,
        store st.2 tlsServerName
          (AS3Value.tlsServer
            { st.1 with Certificates := st.1.Certificates ++ certificates.1 }))
    | some _ => none
  else some (false, sharedApp)

/-- The loop of `createCertificateDecl`, from the index `index` on. -/
def createCertificateDeclFrom (prof : CustomProfile) :
    Nat → List Certificate → as3Application → as3Application
  | _, [], sharedApp => sharedApp
  | index, certificate :: rest, sharedApp =>
    createCertificateDeclFrom prof (index + 1) rest
      (if certificate.Cert.length > 0 ∧ certificate.Key.length > 0 then
        store sharedApp (prof.Name ++ "_" ++ Itoa (Int.ofNat index))
          (AS3Value.certificate
            { Class := "Certificate", Certificate := certificate.Cert,
              PrivateKey := certificate.Key, ChainCA := prof.CAFile })
      else sharedApp)

/-- The method `createCertificateDecl(prof, sharedApp)`. -/
def createCertificateDecl (prof : CustomProfile) (sharedApp : as3Application) :
    as3Application :=
  createCertificateDeclFrom prof 0 prof.Certificates sharedApp

/-- The method `createUpdateCABundle(prof, caBundleName, sharedApp)`: every certificate with
a body and no key is appended, after a newline, to the bundle, which is stored first when
there is none. -/
def createUpdateCABundle (prof : CustomProfile) (caBundleName : String)
    (sharedApp : as3Application) : as3Application :=
  prof.Certificates.foldl (fun sharedApp cert =>
    if cert.Cert.length > 0 ∧ cert.Key.length = 0 then
      let caBundle : as3CABundle :=
        match lookup sharedApp caBundleName with
        | some (AS3Value.caBundle caBundle) => caBundle
        | _ => { Class := "CA_Bundle", Bundle := "" }
      store sharedApp caBundleName
        (AS3Value.caBundle { caBundle with Bundle := caBundle.Bundle ++ ("\n" ++ cert.Cert) })
    else sharedApp) sharedApp

/-- Lines 1084 to 1107 of `createTLSClient`: the new TLS client. -/
def newTLSClient (prof : CustomProfile) (caBundleName : String) : as3TLSClient :=
  let tlsClient : as3TLSClient :=
    { Class := "TLS_Client", TrustCA := some { BigIP := "", Use := caBundleName } }
  let tlsClient :=
    if prof.TLS1_0Enabled ≠ none then { tlsClient with TLS1_0Enabled := prof.TLS1_0Enabled }
    else tlsClient
  let tlsClient :=
    if prof.TLS1_1Enabled ≠ none then { tlsClient with TLS1_1Enabled := prof.TLS1_1Enabled }
    else tlsClient
  let tlsClient :=
    if prof.TLS1_2Enabled ≠ none then { tlsClient with TLS1_2Enabled := prof.TLS1_2Enabled }
    else tlsClient
  let tlsClient :=
    if prof.CipherGroup ≠ "" then
      { tlsClient with
        CipherGroup := some { BigIP := prof.CipherGroup, Use := "" }, TLS1_3Enabled := true }
    else { tlsClient with Ciphers := prof.Ciphers }
  if prof.RenegotiationEnabled ≠ none then
    { tlsClient with RenegotiationEnabled := prof.RenegotiationEnabled }
  else tlsClient

/-- The method `createTLSClient(resourceType, prof, svcName, caBundleName, sharedApp)`: the
client it returns (`nil` is `none`) and the shared application it leaves behind; the outer
`none` is the panic of the unchecked assertion `sharedApp[svcName].(*as3Service)`. -/
def createTLSClient (K : Constants) (resourceType : String) (prof : CustomProfile)
    (svcName caBundleName : String) (sharedApp : as3Application) :
    Option (Option as3TLSClient × as3Application) :=
  if prof.Certificates.any (fun certificate => decide (certificate.Key ≠ "")) then
    some (none, sharedApp)
  else
    match lookup sharedApp svcName with
    | some value =>
      if prof.Certificates.length > 0 then
        match value with
        | AS3Value.service svc =>
          let tlsClientName := svcName ++ "_tls_client"
          let sharedApp :=
            store sharedApp tlsClientName
              (AS3Value.tlsClient (newTLSClient prof caBundleName))
          let svc := { svc with ClientTLS := some (as3MultiTypeParam.str tlsClientName) }
          let svc := if resourceType = K.VirtualServer then updateVirtualToHTTPS svc else svc
          some (some (newTLSClient prof caBundleName),
            store sharedApp svcName (AS3Value.service svc))
        | _ => none
      else some (none, sharedApp)
    | none => some (none, sharedApp)

/-- The body of the loop over the sorted keys in `processCustomProfilesForAS3` (lines 935 to
957).  The state is the shared application and the set `svcNameMap`. -/
def customProfileStep (K : Constants) (rsCfg : ResourceConfig)
    (st : as3Application × List (String × Unit)) (key : SecretKey) :
    Option (as3Application × List (String × Unit)) :=
  let prof := (lookupProfile rsCfg.customProfiles key).getD {}
  let svcName := key.ResourceName
  if svcName = "" then some st
  else
    (createUpdateTLSServer K rsCfg.MetaData.ResourceType prof svcName st.1).bind fun server =>
      if server.1 then
        some (createCertificateDecl prof server.2, store st.2 svcName ())
      else
        (createTLSClient K rsCfg.MetaData.ResourceType prof svcName "serverssl_ca_bundle"
          (createUpdateCABundle prof "serverssl_ca_bundle" server.2)).map fun client =>
          match client.1 with
          | some tlsClient =>
            if (lookupProfile rsCfg.customProfiles { Name := prof.Name ++ "-ca" }).isSome then
              (store client.2 (svcName ++ "_tls_client")
                (AS3Value.tlsClient { tlsClient with ValidateCertificate := true }), st.2)
            else (client.2, st.2)
          | none => (client.2, st.2)

/-- Lines 930 to 959 of `processCustomProfilesForAS3`: the loop over the resources and
their sorted profile keys. -/
def customProfilesLoop (K : Constants)
    (Slice : List SecretKey → (SecretKey → SecretKey → Bool) → List SecretKey)
    (rsMap : ResourceMap) (sharedApp : as3Application) :
    Option (as3Application × List (String × Unit)) :=
  rsMap.foldlM (fun st rsCfg =>
    (getSortedCustomProfileKeys Slice rsCfg.2.customProfiles).foldlM
      (customProfileStep K rsCfg.2) st) (sharedApp, [])

/-- The body of the loop over `svcNameMap` (lines 965 to 974): the first certificate entry
of the TLS server of a service is marked as the SNI default when the server holds more
than one entry. -/
def sniDefaultStep (sharedApp : as3Application) (svcName : String) : as3Application :=
  match lookup sharedApp svcName with
  | some (AS3Value.service _) =>
    match lookup sharedApp (svcName ++ "_tls_server") with
    | some (AS3Value.tlsServer tlsServer) =>
      if tlsServer.Certificates.length > 1 then
        store sharedApp (svcName ++ "_tls_server")
          (AS3Value.tlsServer
            { tlsServer with
              Certificates :=
                match tlsServer.Certificates with
                | first :: rest => { first with SNIDefault := true } :: rest
                | [] => [] })
      else sharedApp
    | _ => sharedApp
  | _ => sharedApp

/-- The method `processCustomProfilesForAS3(rsMap, sharedApp)`, with the tracked version
`ap.AS3VersionInfo.as3Version` as the argument `as3Version`. -/
def processCustomProfilesForAS3 {F : Type} (K : Constants) (H : Helpers F)
    (Slice : List SecretKey → (SecretKey → SecretKey → Bool) → List SecretKey)
    (rsMap : ResourceMap) (sharedApp : as3Application) (as3Version : F) :
    Option as3Application :=
  (customProfilesLoop K Slice rsMap sharedApp).map fun st =>
    if H.below344 as3Version then st.1
    else (keys st.2).foldl sniDefaultStep st.1

/-! ## Tenants left on the device (`removeDeletedTenantsForBigIP`) -/

/-- The method `removeDeletedTenantsForBigIP(as3Config, rsConfig, cisLabel, partition)` of
the handler.  The comparison `label == cisLabel` of an interface value with a string holds
when the value is that string. -/
def removeDeletedTenantsForBigIP (as3Config : JMap) (rsConfig : ResourceConfigRequest)
    (cisLabel partition : String) : ResourceConfigRequest :=
  as3Config.foldl (fun rsConfig entry =>
    match asMap (some entry.2) with
    | some decl =>
      if asString (mapIndex decl "label") = some cisLabel ∧
          entry.1 ≠ partition ++ "_gtm" then
        if (lookup rsConfig.ltmConfig entry.1).isNone then
          { rsConfig with
            ltmConfig := store rsConfig.ltmConfig entry.1 { ResourceMap := [], Priority := 1 } }
        else rsConfig
      else rsConfig
    | none => rsConfig) rsConfig

/-! ## Vocabulary of the claims on pools -/

/-- The distinct elements of a list, each at its first occurrence. -/
def firstOccurrences {α : Type} [DecidableEq α] : List α → List α
  | [] => []
  | x :: xs => x :: (firstOccurrences xs).filter (fun y => decide (y ≠ x))

/-- The object found under a name is a pool, or there is none: the case in which the
assertion `pl.(*as3Pool)` of `createPoolDecl` does not panic. -/
def poolOrAbsent : Option AS3Value → Bool
  | none => true
  | some (AS3Value.pool _) => true
  | some _ => false

/-- The monitors of the pool stored under a name; none when no pool is stored there. -/
def monitorsAt (sharedApp : as3Application) (name : String) : List as3ResourcePointer :=
  match lookup sharedApp name with
  | some (AS3Value.pool pl) => pl.Monitors
  | _ => []

/-- The monitor references declared from the monitor names of the pool `v`. -/
def poolMonitors (K : Constants) (tenant : String) (v : Pool) : List as3ResourcePointer :=
  v.MonitorNames.map (poolMonitor K tenant)

/-- The pool declared for `v` with the monitors of the pool stored under its name merged
in. -/
def mergedPool (K : Constants) (shareNodes : Bool) (tenant poolMemberType : String)
    (sharedApp : as3Application) (v : Pool) : as3Pool :=
  { poolDecl K shareNodes tenant poolMemberType v with
    Monitors := mergeMonitors (poolMonitors K tenant v) (monitorsAt sharedApp v.Name) }

/-- The monitors of the pools named `name`, those of the latest pool first. -/
def laterMonitorsFirst (K : Constants) (tenant name : String) : List Pool →
    List as3ResourcePointer
  | [] => []
  | v :: pools =>
    laterMonitorsFirst K tenant name pools ++
      (if v.Name = name then poolMonitors K tenant v else [])

/-- The shared application after the loop of `createPoolDecl` over `pools` when no
assertion panics: every pool is stored under its name, merged with the pool found there. -/
def storePools (K : Constants) (shareNodes : Bool) (tenant poolMemberType : String)
    (sharedApp : as3Application) (pools : List Pool) : as3Application :=
  pools.foldl (fun app v =>
    store app v.Name (AS3Value.pool (mergedPool K shareNodes tenant poolMemberType app v)))
    sharedApp

/-- Values for the constants declared outside the translated files, used in the samples. -/
def sampleConstants : Constants :=
  { BIGIP := "bigip", Auto := "auto", NodePort := "nodeport",
    VirtualServer := "VirtualServer", TransportServer := "TransportServer",
    TLSPassthrough := "passthrough",
    PassthroughHostsDgName := "ssl_passthrough_servername_dg",
    HttpRedirectIRuleName := "http_redirect_irule",
    HttpRedirectNoHostIRuleName := "http_redirect_irule_nohost",
    TLSIRuleName := "tls_irule", ABPathIRuleName := "ab_deployment_path_irule",
    CustomProfileClient := "clientside", CustomProfileServer := "serverside",
    SourceAddress := "sourceAddress", DestinationAddress := "destinationAddress",
    CookieHash := "cookieHash", CookieInsert := "cookieInsert",
    CookieRewrite := "cookieRewrite", CookiePassive := "cookiePassive",
    Universal := "universal", Carp := "carp", Hash := "hash", Disable := "disable" }

/-- A config whose pool `pool1` lists the same address and port twice, once as a node-port
member and once as a cluster member. -/
def twoMemberTypesConfig : ResourceConfig :=
  { Pools := [{ Name := "pool1",
                Members := [{ Address := "10.0.0.1", Port := 8080, MemberType := "nodeport" },
                            { Address := "10.0.0.1", Port := 8080, MemberType := "cluster" }] }] }

/-- A config whose pool `pool1` lists the member 10.0.0.1:8080 before and after the member
10.0.0.2:8080. -/
def repeatedMemberConfig : ResourceConfig :=
  { Pools := [{ Name := "pool1",
                Members := [{ Address := "10.0.0.1", Port := 8080 },
                            { Address := "10.0.0.2", Port := 8080 },
                            { Address := "10.0.0.1", Port := 8080 }] }] }

/-- A config whose pool `pool1` has no monitor and a configured minimum of 2 monitors. -/
def minimumWithoutMonitorConfig : ResourceConfig :=
  { Pools := [{ Name := "pool1", MinimumMonitors := { Type_ := 0, IntVal := 2 } }] }

/-- A config whose pool `pool1` has the monitors `mon1` and `mon2` and a configured minimum
of 2 monitors. -/
def minimumWithMonitorsConfig : ResourceConfig :=
  { Pools := [{ Name := "pool1",
                MonitorNames := [{ Name := "/test/mon1" }, { Name := "/test/mon2" }],
                MinimumMonitors := { Type_ := 0, IntVal := 2 } }] }

/-- A config whose pool `pool1` lists two monitors of different names with the same last
segment. -/
def sameSegmentMonitorsConfig : ResourceConfig :=
  { Pools := [{ Name := "pool1",
                MonitorNames := [{ Name := "/Common/mon1" }, { Name := "/test/mon1" }] }] }

/-- A shared application that holds a pool `pool1` with the monitors `gslb_mon` and
`mon1`. -/
def applicationWithPool : as3Application :=
  [("pool1", AS3Value.pool
    { Class := "Pool",
      Monitors := [{ BigIP := "/Common/gslb_mon", Use := "" },
                   { BigIP := "", Use := "/test/Shared/mon1" }] })]

/-! ## Vocabulary of the claims on policies -/

/-- The ten persistence blocks of an action, in the order of the switch of
`createRuleAction`. -/
def persistBlocks (a : as3Action) : List (Option PersistMetaData) :=
  [a.SourceAddress, a.DestinationAddress, a.CookieHash, a.CookieInsert, a.CookieRewrite,
    a.CookiePassive, a.Universal, a.Carp, a.Hash, a.Disable]

/-- The ten persist methods that `createRuleAction` recognises, in the order of its
switch. -/
def persistKinds (K : Constants) : List String :=
  [K.SourceAddress, K.DestinationAddress, K.CookieHash, K.CookieInsert, K.CookieRewrite,
    K.CookiePassive, K.Universal, K.Carp, K.Hash, K.Disable]

/-- A rule with a host condition on two hosts. -/
def hostRule : Rule :=
  { Name := "rule1",
    Conditions := [{ Host := true, HTTPHost := true, Equals := true, Request := true,
                     Values := ["a.example.com", "b.example.com"] }] }

/-- A rule with a forward action, a cookie-hash persistence action and an action whose
persist method is not one of the ten. -/
def persistRule : Rule :=
  { Name := "rule1",
    Actions := [{ Forward := true, Request := true, Pool := "/test/pool1" },
                { PersistMethod := "cookieHash", Timeout := 30, Offset := 1, Length := 8,
                  Name := "JSESSIONID", Netmask := "255.255.255.0", Key := "k" },
                { Forward := true, PersistMethod := "sticky", Timeout := 30 }] }

/-- A config with the policy `policy1`, of strategy `/Common/first-match`, without rules. -/
def policyWithoutRulesConfig : ResourceConfig :=
  { Virtual := { Name := "vs1", Destination := "/test/10.1.1.1:80" },
    Policies := [{ Name := "policy1", Strategy := "/Common/first-match" }] }

/-! ## Vocabulary of the claims on services -/

/-- The HTTP/2 profile and the TCP profile of a service. -/
def profilePair (svc : as3Service) : Option as3MultiTypeParam × Option as3MultiTypeParam :=
  (svc.ProfileHTTP2, svc.ProfileTCP)

/-- Stand-ins for the helpers declared outside the translated files, used in the samples:
names are joined with `_`, a name is split at its last `/`, formatting leaves a name as it
is, a non-empty persistence profile becomes the one persistence method of the service, and
a `float64` is a pair of the digits and the number of fraction digits (3.52 is
`(352, 2)`). -/
def sampleHelpers : Helpers (Int × Nat) :=
  { getRSCfgResName := fun rsName resName => rsName ++ "_" ++ resName,
    getPartitionAndName := fun name => ("", (Split name '/').getLastD ""),
    AS3NameFormatter := fun name => name,
    addPersistenceMethod := fun svc persistenceProfile =>
      if persistenceProfile = "" then svc
      else { svc with PersistenceMethods := some [as3MultiTypeParam.str persistenceProfile] },
    below352 := fun v => decide (v.1 * 100 < 352 * 10 ^ v.2),
    below344 := fun v => decide (v.1 * 100 < 344 * 10 ^ v.2) }

/-- An `https` virtual with a client and a server profile for HTTP/2 and for TCP. -/
def bothProfilesConfig : ResourceConfig :=
  { Virtual := { Name := "vs1", Destination := "/test/10.1.1.1:443",
                 HTTP2 := { Client := "/Common/http2-client", Server := "/Common/http2-server" },
                 TCP := { Client := "/Common/tcp-client", Server := "/Common/tcp-server" } },
    MetaData := { ResourceType := "VirtualServer", Protocol := "https" } }

/-- An `https` virtual with only the client profile for HTTP/2 and for TCP. -/
def clientOnlyConfig : ResourceConfig :=
  { Virtual := { Name := "vs1", Destination := "/test/10.1.1.1:443",
                 HTTP2 := { Client := "/Common/http2-client" },
                 TCP := { Client := "/Common/tcp-client" } },
    MetaData := { ResourceType := "VirtualServer", Protocol := "https" } }

/-- An `https` virtual with only the server profile for HTTP/2 and for TCP. -/
def serverOnlyConfig : ResourceConfig :=
  { Virtual := { Name := "vs1", Destination := "/test/10.1.1.1:443",
                 HTTP2 := { Server := "/Common/http2-server" },
                 TCP := { Server := "/Common/tcp-server" } },
    MetaData := { ResourceType := "VirtualServer", Protocol := "https" } }

/-! ## Vocabulary of the later claims on pools, services and iRules -/

/-- A shared application that holds an endpoint policy under the name `pool1`. -/
def applicationWithPolicy : as3Application :=
  [("pool1", AS3Value.endpointPolicy { Class := "Endpoint_Policy" })]

/-- The class of a service and its server TLS. -/
def classPair (svc : as3Service) : String × Option as3MultiTypeParam :=
  (svc.Class, svc.ServerTLS)

/-- The key under which `createServiceDecl` looks for the passthrough-hosts data group of
the virtual in `cfg.IntDgMap`. -/
def passthroughHostsKey {F : Type} (K : Constants) (H : Helpers F) (cfg : ResourceConfig) :
    NameRef :=
  { Name := H.getRSCfgResName cfg.Virtual.Name K.PassthroughHostsDgName,
    Partition := cfg.Virtual.Partition }

/-- A passthrough virtual `vs1` of partition `test` without a persistence profile. -/
def passthroughConfig : ResourceConfig :=
  { Virtual := { Name := "vs1", Partition := "test", TLSTermination := "passthrough" } }

/-- The config `passthroughConfig` with the passthrough-hosts data group of the virtual. -/
def passthroughHostsConfig : ResourceConfig :=
  { passthroughConfig with
    IntDgMap := [({ Name := "vs1_ssl_passthrough_servername_dg", Partition := "test" }, [])] }

/-- A resource whose virtual lists the iRule `none`, with an iRule `rule1` and a data group
`dg1` in its maps. -/
def noneIRuleConfig : ResourceConfig :=
  { Virtual := { Name := "vs1", IRules := ["none"] },
    IRulesMap :=
      [({ Name := "rule1", Partition := "test" },
        { Name := "rule1", Code := "when HTTP_REQUEST" })],
    IntDgMap :=
      [({ Name := "dg1", Partition := "test" },
        [("default",
          { Name := "dg1", Type_ := "string", Records := [{ Name := "k", Data := "v" }] })])] }

/-! ## Vocabulary of the claims on the logged request and the tenants of the device -/

/-- The maps `m` and `logged` have the same keys, and under every key the value of
`logged` is related by `R` to the value of `m`. -/
def sameKeys (R : JSON → JSON → Prop) (m logged : JMap) : Prop :=
  ∀ k, (mapIndex m k = none ∧ mapIndex logged k = none) ∨
    ∃ v w, mapIndex m k = some v ∧ mapIndex logged k = some w ∧ R v w

/-- The logged form of a value found at declaration / tenant / application / object: an
object of class `Certificate` is logged as an object whose fields `certificate`,
`privateKey` and `chainCA` are the empty string and whose other fields are as they were;
any other value is logged as it was. -/
def certificateBlanked (obj logged : JSON) : Prop :=
  (∀ crt, obj = JSON.obj crt → mapIndex crt "class" = some (JSON.str "Certificate") →
      ∃ loggedCrt, logged = JSON.obj loggedCrt ∧
        ∀ field, mapIndex loggedCrt field =
          if field = "certificate" ∨ field = "privateKey" ∨ field = "chainCA" then
            some (JSON.str "")
          else mapIndex crt field) ∧
    ((∀ crt, obj = JSON.obj crt → mapIndex crt "class" ≠ some (JSON.str "Certificate")) →
      logged = obj)

/-- The logged form of a value found at declaration / tenant / application: an object is
logged with the same keys and every value in its logged form; any other value is logged as
it was. -/
def applicationBlanked (value logged : JSON) : Prop :=
  (∀ appMap, value = JSON.obj appMap →
      ∃ loggedApp, logged = JSON.obj loggedApp ∧ sameKeys certificateBlanked appMap loggedApp) ∧
    ((∀ appMap, value ≠ JSON.obj appMap) → logged = value)

/-- The logged form of a value found at declaration / tenant: an object is logged with the
same keys and every value in its logged form; any other value is logged as it was. -/
def tenantBlanked (value logged : JSON) : Prop :=
  (∀ tenantMap, value = JSON.obj tenantMap →
      ∃ loggedTenant, logged = JSON.obj loggedTenant ∧
        sameKeys applicationBlanked tenantMap loggedTenant) ∧
    ((∀ tenantMap, value ≠ JSON.obj tenantMap) → logged = value)

/-- A request whose declaration holds, in the application `Shared` of the tenant `test`, a
certificate and a pool, and besides the tenant the string `class`. -/
def certificateRequest : JMap :=
  [("class", JSON.str "AS3"),
   ("declaration", JSON.obj
     [("class", JSON.str "ADC"),
      ("test", JSON.obj
        [("Shared", JSON.obj
          [("cert1", JSON.obj [("class", JSON.str "Certificate"),
                               ("certificate", JSON.str "PEM"),
                               ("privateKey", JSON.str "KEY"),
                               ("remark", JSON.str "kept")]),
           ("pool1", JSON.obj [("class", JSON.str "Pool"),
                               ("certificate", JSON.str "not a secret")])])])])]

/-- The value under the key `k` of the device configuration is an object whose `label` is
the string `cisLabel`. -/
def ownedTenant (as3Config : JMap) (cisLabel k : String) : Prop :=
  ∃ decl, mapIndex as3Config k = some (JSON.obj decl) ∧
    mapIndex decl "label" = some (JSON.str cisLabel)

/-- A device configuration with a tenant of this controller (`old`), its GTM tenant
(`test_gtm`), a tenant of this controller that is still wanted (`test`), a tenant of another
controller (`other`), a tenant without label (`plain`) and a value that is no object. -/
def deviceConfiguration : JMap :=
  [("old", JSON.obj [("class", JSON.str "Tenant"), ("label", JSON.str "cis")]),
   ("test_gtm", JSON.obj [("class", JSON.str "Tenant"), ("label", JSON.str "cis")]),
   ("test", JSON.obj [("class", JSON.str "Tenant"), ("label", JSON.str "cis")]),
   ("other", JSON.obj [("class", JSON.str "Tenant"), ("label", JSON.str "someone")]),
   ("plain", JSON.obj [("class", JSON.str "Tenant")]),
   ("class", JSON.str "ADC")]

/-- A request that wants the tenant `test`, with priority 3. -/
def deviceRequest : ResourceConfigRequest :=
  { ltmConfig := [("test", { ResourceMap := [], Priority := 3 })], shareNodes := false,
    gtmConfig := [], defaultRouteDomain := 0, poolMemberType := "cluster" }

/-! ## Vocabulary of the claims on sorted keys and records -/

/-- One step of the insertion sort: the element `x` moves left while it is less than its
left neighbour.  The sorted part of the slice is held in reverse, its last element
first. -/
def insertFromRight {α : Type} (less : α → α → Bool) (x : α) : List α → List α
  | [] => [x]
  | y :: ys => if less x y then y :: insertFromRight less x ys else x :: y :: ys

/-- The insertion sort that `sort.Slice` of the Go library runs on a slice of fewer than
twelve elements: from left to right, each element moves left while it is less than its
left neighbour, so that elements that compare equal keep their order. -/
def insertionSort {α : Type} (l : List α) (less : α → α → Bool) : List α :=
  (l.foldl (fun sorted x => insertFromRight less x sorted) []).reverse

/-- The call `sort.Slice` of `processDataGroupForAS3` on a short slice of records: the
insertion sort with the comparison of the keys. -/
def sortRecords (records : List as3Record) : List as3Record :=
  insertionSort records (fun ri rj => decide (ri.Key < rj.Key))

/-- The records of the data group stored under `name` in the shared application that a
compile pass returns; `none` when the pass does not return or stores no data group
there. -/
def recordsAt (result : Option as3Application) (name : String) : Option (List as3Record) :=
  match result with
  | some sharedApp =>
    match lookup sharedApp name with
    | some (AS3Value.dataGroup dataGroup) => some dataGroup.Records
    | _ => none
  | none => none

/-- A resource whose only data group, `group`, holds the one record `key`, `value`. -/
def oneRecordResource (group key value : String) : ResourceConfig :=
  { IntDgMap := [({ Name := group, Partition := "test" },
      [("default", { Name := group, Type_ := "string",
                     Records := [{ Name := key, Data := value }] })])] }

/-! ## Vocabulary of the claims on custom profiles -/

/-- A shared application that holds the HTTP service `vs1` and nothing else. -/
def applicationWithService : as3Application :=
  [("vs1", AS3Value.service { Class := "Service_HTTP" })]

/-- A virtual-server resource with the custom profile `ca` attached to the service `vs1`:
one certificate with a body and no private key. -/
def certOnlyResource : ResourceConfig :=
  { MetaData := { ResourceType := "VirtualServer" },
    customProfiles :=
      [({ Name := "ca", ResourceName := "vs1" },
        { Name := "ca", Certificates := [{ Cert := "PEM" }] })] }

/-- A virtual-server resource with the custom profile `tls` attached to the service `vs1`:
two certificates with body and private key. -/
def twoCertificatesResource : ResourceConfig :=
  { MetaData := { ResourceType := "VirtualServer" },
    customProfiles :=
      [({ Name := "tls", ResourceName := "vs1" },
        { Name := "tls",
          Certificates := [{ Cert := "PEM1", Key := "KEY1" }, { Cert := "PEM2", Key := "KEY2" }] })] }

/-- The resource `twoCertificatesResource` with a third certificate in the profile, which
has a body and no private key. -/
def mixedCertificatesResource : ResourceConfig :=
  { MetaData := { ResourceType := "VirtualServer" },
    customProfiles :=
      [({ Name := "tls", ResourceName := "vs1" },
        { Name := "tls",
          Certificates := [{ Cert := "PEM1", Key := "KEY1" }, { Cert := "PEM2", Key := "KEY2" },
                           { Cert := "PEM3" }] })] }

/-! ## Lemmas -/

theorem foldl_step_filterMap (step : Outcome → JSON → Outcome) (f : JSON → Option TenantUpdate)
    (g : JSON → Bool)
    (hstep : ∀ st e, step st e = (st.1 ++ (f e).toList, st.2 || g e))
    (l : List JSON) (st : Outcome) :
    l.foldl step st = (st.1 ++ l.filterMap f, st.2 || l.any g) := by
  induction l generalizing st with
  | nil => simp
  | cons e rest ih =>
    rw [List.foldl_cons, ih, hstep]
    cases hf : f e <;> simp [List.filterMap_cons, hf, Bool.or_assoc]

theorem handleResponseStatusOKStep_eq (utd : TenantDeletion) (declaration : JMap)
    (st : Outcome) (e : JSON) :
    handleResponseStatusOKStep utd declaration st e =
      (st.1 ++ (okUpdate utd declaration e).toList, st.2 || (wellFormedResult e).isNone) := by
  cases e with
  | obj v =>
    simp only [handleResponseStatusOKStep, okUpdate, wellFormedResult, asMap]
    cases hc : mapIndex v "code" with
    | none => simp [asFloat64]
    | some c =>
      cases c <;> simp [asFloat64]
      cases ht : mapIndex v "tenant" with
      | none => simp [asString]
      | some t => cases t <;> simp [asString]
  | _ => simp [handleResponseStatusOKStep, okUpdate, wellFormedResult, asMap]

theorem handleMultiStatusStep_eq (utd : TenantDeletion) (declaration : JMap)
    (st : Outcome) (e : JSON) :
    handleMultiStatusStep utd declaration st e =
      (st.1 ++ (multiStatusUpdate utd declaration e).toList,
        st.2 || (wellFormedResult e).isNone) := by
  cases e with
  | obj v =>
    simp only [handleMultiStatusStep, multiStatusUpdate, wellFormedResult, asMap]
    cases hc : mapIndex v "code" with
    | none => simp [asFloat64]
    | some c =>
      cases c <;> simp [asFloat64]
      cases ht : mapIndex v "tenant" with
      | none => simp [asString]
      | some t =>
        cases t <;> simp [asString]
        rename_i n s
        by_cases h : n = 200
        · simp [h]
        · simp [h, errorCodeMessage, formatIndexed, formatV]
  | _ => simp [handleMultiStatusStep, multiStatusUpdate, wellFormedResult, asMap]

theorem handleResponseOthersStep_eq (st : Outcome) (e : JSON) :
    handleResponseOthersStep st e =
      (st.1 ++ ((wellFormedResult e).map (fun ct =>
          (⟨ct.1, "", ct.2, false, errorCodeMessage (formatFloat ct.1)⟩ : TenantUpdate))).toList,
        st.2 || (wellFormedResult e).isNone) := by
  cases e with
  | obj v =>
    simp only [handleResponseOthersStep, wellFormedResult, asMap]
    cases hc : mapIndex v "code" with
    | none => simp [asFloat64]
    | some c =>
      cases c <;> simp [asFloat64]
      cases ht : mapIndex v "tenant" with
      | none => simp [asString]
      | some t => cases t <;> simp [asString]
  | _ => simp [handleResponseOthersStep, wellFormedResult, asMap]

theorem errorCodeMessage_ne_generic (c : String) :
    "Big-IP Responded with error code: " ++ c ++ " -- verify the logs for detailed error" ≠
      "Big-IP Responded with error -- verify the logs for detailed error" := by
  intro h
  have h2 := congrArg String.data h
  simp only [String.data_append] at h2
  have h3 := congrArg (fun l => l.get? 28) h2
  simp at h3

theorem getTenantConfigStatusLoop_cons (utd : TenantDeletion) (declaration : JMap)
    (e : JSON) (rest : List JSON) (st : Outcome) :
    getTenantConfigStatusLoop utd declaration (e :: rest) st =
      if (wellFormedPollResult e && hasInProgressMessage e) = true then (st, true)
      else getTenantConfigStatusLoop utd declaration rest
        (st.1 ++ (pollUpdate utd declaration e).toList, st.2 || !wellFormedPollResult e) := by
  cases e with
  | obj v =>
    simp only [getTenantConfigStatusLoop, pollUpdate, okUpdate, wellFormedPollResult,
      hasInProgressMessage, wellFormedResult, asMap]
    cases hc : mapIndex v "code" with
    | none => simp [asFloat64]
    | some c =>
      cases c <;> simp [asFloat64]
      cases ht : mapIndex v "tenant" with
      | none => simp [asString]
      | some t =>
        cases t <;> simp [asString]
        cases hm : mapIndex v "message" with
        | none => simp
        | some m => cases m <;> simp
  | _ =>
    simp [getTenantConfigStatusLoop, pollUpdate, okUpdate, wellFormedPollResult,
      hasInProgressMessage, wellFormedResult, asMap]

theorem getTenantConfigStatusLoop_run (utd : TenantDeletion) (declaration : JMap)
    (l : List JSON) (st : Outcome)
    (hl : ∀ x ∈ l, ¬ (wellFormedPollResult x = true ∧ hasInProgressMessage x = true)) :
    getTenantConfigStatusLoop utd declaration l st =
      ((st.1 ++ l.filterMap (pollUpdate utd declaration),
        st.2 || l.any (fun x => !wellFormedPollResult x)), false) := by
  induction l generalizing st with
  | nil => simp [getTenantConfigStatusLoop]
  | cons e rest ih =>
    have he : ¬ ((wellFormedPollResult e && hasInProgressMessage e) = true) := by
      simpa using hl e (List.mem_cons_self _ _)
    rw [getTenantConfigStatusLoop_cons, if_neg he,
      ih _ (fun x hx => hl x (List.mem_cons_of_mem _ hx))]
    cases hf : pollUpdate utd declaration e <;> simp [List.filterMap_cons, hf, Bool.or_assoc]

theorem getTenantConfigStatusLoop_stop (utd : TenantDeletion) (declaration : JMap)
    (pre post : List JSON) (e : JSON) (st : Outcome)
    (hpre : ∀ x ∈ pre, ¬ (wellFormedPollResult x = true ∧ hasInProgressMessage x = true))
    (he : wellFormedPollResult e = true ∧ hasInProgressMessage e = true) :
    getTenantConfigStatusLoop utd declaration (pre ++ e :: post) st =
      ((st.1 ++ pre.filterMap (pollUpdate utd declaration),
        st.2 || pre.any (fun x => !wellFormedPollResult x)), true) := by
  induction pre generalizing st with
  | nil =>
    have h : (wellFormedPollResult e && hasInProgressMessage e) = true := by simp [he.1, he.2]
    simp [getTenantConfigStatusLoop_cons, h]
  | cons x rest ih =>
    have hx : ¬ ((wellFormedPollResult x && hasInProgressMessage x) = true) := by
      simpa using hpre x (List.mem_cons_self _ _)
    rw [List.cons_append, getTenantConfigStatusLoop_cons, if_neg hx,
      ih _ (fun y hy => hpre y (List.mem_cons_of_mem _ hy))]
    cases hf : pollUpdate utd declaration x <;> simp [List.filterMap_cons, hf, Bool.or_assoc]

theorem mapIndex_mapAssign_self (m : JMap) (k : String) (v : JSON) :
    mapIndex (mapAssign m k v) k = some v := by
  induction m with
  | nil => simp [mapAssign, mapIndex]
  | cons e rest ih =>
    obtain ⟨k', v'⟩ := e
    by_cases h : k' = k <;> simp [mapAssign, mapIndex, h, ih]

theorem mapIndex_mapAssign_ne (m : JMap) (k k' : String) (v : JSON) (hne : k' ≠ k) :
    mapIndex (mapAssign m k v) k' = mapIndex m k' := by
  induction m with
  | nil => simp [mapAssign, mapIndex, Ne.symm hne]
  | cons e rest ih =>
    obtain ⟨k0, v0⟩ := e
    by_cases h : k0 = k
    · subst h
      simp [mapAssign, mapIndex, Ne.symm hne]
    · by_cases h2 : k0 = k'
      · subst h2
        simp [mapAssign, mapIndex, h]
      · simp [mapAssign, mapIndex, h, h2, ih]

theorem mapIndex_map_values (f : JSON → JSON) (m : JMap) (k : String) :
    mapIndex (m.map (fun e => (e.1, f e.2))) k = (mapIndex m k).map f := by
  induction m with
  | nil => simp [mapIndex]
  | cons e rest ih =>
    obtain ⟨k', v'⟩ := e
    by_cases h : k' = k <;> simp [mapIndex, h, ih]

theorem asMap_eq_some {x : Option JSON} {m : JMap} (h : asMap x = some m) :
    x = some (JSON.obj m) := by
  cases x with
  | none => simp [asMap] at h
  | some v => cases v <;> simp_all [asMap]

theorem assertInterface_of_asMap {x : Option JSON} {m : JMap} (h : asMap x = some m) :
    assertInterface x = some (JSON.obj m) := by
  rw [asMap_eq_some h]
  rfl

theorem assertInterface_of_ne_null {x : Option JSON} {d : JSON} (hd : x = some d)
    (hnull : d ≠ JSON.null) : assertInterface x = some d := by
  rw [hd]
  cases d <;> first | rfl | exact absurd rfl hnull

theorem handleResponseStatusOK_of_present (updateTenantDeletion : TenantDeletion)
    (responseMap : JMap) (d : JSON) (hd : mapIndex responseMap "declaration" = some d)
    (hnull : d ≠ JSON.null) :
    handleResponseStatusOK updateTenantDeletion responseMap =
      some (match asSlice (mapIndex responseMap "results"),
          asMap (mapIndex responseMap "declaration") with
        | some results, some declaration =>
          results.foldl (handleResponseStatusOKStep updateTenantDeletion declaration)
            ([], false)
        | _, _ => ([], true)) := by
  simp only [handleResponseStatusOK, assertInterface_of_ne_null hd hnull]
  rw [hd]
  cases hs : asSlice (mapIndex responseMap "results") <;> cases hm : asMap (some d) <;> rfl

theorem statusOK_updates_eq (updateTenantDeletion : TenantDeletion)
    (responseMap : JMap) (results : List JSON) (declaration : JMap)
    (hres : asSlice (mapIndex responseMap "results") = some results)
    (hdecl : asMap (mapIndex responseMap "declaration") = some declaration) :
    handleResponseStatusOK updateTenantDeletion responseMap =
      some (results.filterMap (okUpdate updateTenantDeletion declaration),
        results.any (fun e => (wellFormedResult e).isNone)) := by
  simp only [handleResponseStatusOK, assertInterface_of_asMap hdecl, hres, asMap]
  rw [foldl_step_filterMap _ _ _
    (handleResponseStatusOKStep_eq updateTenantDeletion declaration)]
  simp

theorem redactCertificate_fields (x : JSON) (crt : JMap)
    (hx : redactCertificate x = JSON.obj crt)
    (hclass : asString (mapIndex crt "class") = some "Certificate") :
    mapIndex crt "certificate" = some (JSON.str "") ∧
      mapIndex crt "privateKey" = some (JSON.str "") ∧
      mapIndex crt "chainCA" = some (JSON.str "") := by
  cases x with
  | obj c =>
    by_cases hc : asString (mapIndex c "class") = some "Certificate"
    · simp only [redactCertificate, asMap, hc, if_true, JSON.obj.injEq] at hx
      subst hx
      refine ⟨?_, ?_, ?_⟩
      · rw [mapIndex_mapAssign_ne _ _ _ _ (by decide), mapIndex_mapAssign_ne _ _ _ _ (by decide),
          mapIndex_mapAssign_self]
      · rw [mapIndex_mapAssign_ne _ _ _ _ (by decide), mapIndex_mapAssign_self]
      · rw [mapIndex_mapAssign_self]
    · simp only [redactCertificate, asMap, hc, if_false, JSON.obj.injEq] at hx
      subst hx
      exact absurd hclass hc
  | _ => simp [redactCertificate, asMap] at hx

theorem asMap_mapIndex_map {f : JSON → JSON} {m : JMap} {k : String} {r : JMap}
    (h : asMap (mapIndex (m.map (fun e => (e.1, f e.2))) k) = some r) :
    ∃ x, mapIndex m k = some x ∧ f x = JSON.obj r := by
  rw [mapIndex_map_values] at h
  cases hx : mapIndex m k with
  | none => simp [hx, asMap] at h
  | some x =>
    rw [hx] at h
    have h2 := asMap_eq_some h
    exact ⟨x, rfl, Option.some.inj h2⟩

theorem redactTenant_obj {x : JSON} {tenantMap : JMap} (h : redactTenant x = JSON.obj tenantMap) :
    ∃ tm, x = JSON.obj tm ∧ tenantMap = tm.map (fun e => (e.1, redactApplication e.2)) := by
  cases x with
  | obj tm =>
    simp only [redactTenant, asMap, JSON.obj.injEq] at h
    exact ⟨tm, rfl, h.symm⟩
  | _ => simp [redactTenant, asMap] at h

theorem redactApplication_obj {x : JSON} {appMap : JMap}
    (h : redactApplication x = JSON.obj appMap) :
    ∃ am, x = JSON.obj am ∧ appMap = am.map (fun e => (e.1, redactCertificate e.2)) := by
  cases x with
  | obj am =>
    simp only [redactApplication, asMap, JSON.obj.injEq] at h
    exact ⟨am, rfl, h.symm⟩
  | _ => simp [redactApplication, asMap] at h

theorem digitsValue_ge (ds : List Char) (n : Nat) : n ≤ digitsValue ds n := by
  induction ds generalizing n with
  | nil => simp [digitsValue]
  | cons c cs ih =>
    have h := ih (n * 10 + (c.toNat - '0'.toNat))
    simp only [digitsValue, List.foldl_cons] at h ⊢
    omega

theorem parseUintLoop_digits (ds : List Char) (n : Nat) (hn : n ≤ maxUint64)
    (hds : ∀ d ∈ ds, '0' ≤ d ∧ d ≤ '9') :
    parseUintLoop ds n =
      if digitsValue ds n ≤ maxUint64 then (digitsValue ds n, ConvError.nil)
      else (maxUint64, ConvError.outOfRange) := by
  induction ds generalizing n with
  | nil => simp [parseUintLoop, digitsValue, hn]
  | cons c cs ih =>
    have hc := hds c (List.mem_cons_self _ _)
    have hcs : ∀ d ∈ cs, '0' ≤ d ∧ d ≤ '9' := fun d hd => hds d (List.mem_cons_of_mem _ hd)
    have hge := digitsValue_ge cs (n * 10 + (c.toNat - '0'.toNat))
    have hval : digitsValue (c :: cs) n = digitsValue cs (n * 10 + (c.toNat - '0'.toNat)) := rfl
    rw [parseUintLoop, if_pos hc, hval]
    by_cases h1 : n ≥ maxUint64 / 10 + 1
    · have : ¬ digitsValue cs (n * 10 + (c.toNat - '0'.toNat)) ≤ maxUint64 := by
        simp only [maxUint64] at h1 ⊢
        omega
      rw [if_pos h1, if_neg this]
    · rw [if_neg h1]
      by_cases h2 : n * 10 + (c.toNat - '0'.toNat) > maxUint64
      · have : ¬ digitsValue cs (n * 10 + (c.toNat - '0'.toNat)) ≤ maxUint64 := by omega
        rw [if_pos h2, if_neg this]
      · rw [if_neg h2]
        exact ih _ (by omega) hcs

theorem parseUintLoop_malformed (cs : List Char) (n k : Nat) (hn : n < 10 ^ k)
    (hlen : cs.length + k ≤ 19) (hbad : ∃ c ∈ cs, ¬ ('0' ≤ c ∧ c ≤ '9')) :
    parseUintLoop cs n = (0, ConvError.malformed) := by
  induction cs generalizing n k with
  | nil => simp at hbad
  | cons c cs ih =>
    by_cases hc : '0' ≤ c ∧ c ≤ '9'
    · have hbad2 : ∃ d ∈ cs, ¬ ('0' ≤ d ∧ d ≤ '9') := by
        obtain ⟨d, hd, hnd⟩ := hbad
        rcases List.mem_cons.mp hd with h | h
        · subst h
          exact absurd hc hnd
        · exact ⟨d, h, hnd⟩
      have hk : k ≤ 18 := by simp only [List.length_cons] at hlen; omega
      have hpow : (10 : Nat) ^ k ≤ 10 ^ 18 := Nat.pow_le_pow_right (by norm_num) hk
      have hdig : c.toNat - '0'.toNat ≤ 9 := by
        have h9 : c.toNat ≤ '9'.toNat := hc.2
        have : '9'.toNat = 57 := rfl
        have : '0'.toNat = 48 := rfl
        omega
      have h1 : ¬ n ≥ maxUint64 / 10 + 1 := by
        simp only [maxUint64]
        norm_num at hpow ⊢
        omega
      have h2 : ¬ n * 10 + (c.toNat - '0'.toNat) > maxUint64 := by
        simp only [maxUint64]
        norm_num at hpow ⊢
        omega
      rw [parseUintLoop, if_pos hc, if_neg h1, if_neg h2]
      refine ih (n * 10 + (c.toNat - '0'.toNat)) (k + 1) ?_ ?_ hbad2
      · rw [pow_succ]
        omega
      · simp only [List.length_cons] at hlen
        omega
    · rw [parseUintLoop, if_neg hc]

theorem ParseUint_of_ne_nil (s : List Char) (h : s ≠ []) : ParseUint s = parseUintLoop s 0 := by
  cases s with
  | nil => exact absurd rfl h
  | cons c cs => rfl

theorem ParseInt_of_decimalValue (text : List Char) (v : Int)
    (h : decimalValue text = some v) :
    (ParseInt text).1 =
      if v > 2 ^ 63 - 1 then 2 ^ 63 - 1 else if v < -(2 ^ 63) then -(2 ^ 63) else v := by
  cases text with
  | nil => simp [decimalValue] at h
  | cons c cs =>
    simp only [decimalValue] at h
    simp only [ParseInt]
    generalize (if c = '+' ∨ c = '-' then cs else c :: cs) = digits at h ⊢
    by_cases hd : digits ≠ [] ∧ ∀ d ∈ digits, '0' ≤ d ∧ d ≤ '9'
    · rw [if_pos hd] at h
      obtain ⟨hne, hall⟩ := hd
      simp only [Option.some.injEq] at h
      have hloop := parseUintLoop_digits _ 0 (by simp [maxUint64]) hall
      rw [← ParseUint_of_ne_nil _ hne] at hloop
      rw [hloop]
      by_cases hneg : c = '-'
      · simp only [hneg, if_true] at h ⊢
        subst h
        by_cases hmax : digitsValue digits 0 ≤ maxUint64
        · simp only [hmax, if_true, decide_True, Bool.not_true, Bool.false_and, Bool.true_and,
            decide_eq_true_eq]
          simp only [Bool.false_eq_true, if_false]
          split_ifs <;> omega
        · simp only [hmax, if_false, decide_True, Bool.not_true, Bool.false_and, Bool.true_and,
            decide_eq_true_eq]
          simp only [maxUint64] at hmax ⊢
          simp only [Bool.false_eq_true, if_false]
          split_ifs <;> omega
      · simp only [hneg, if_false] at h ⊢
        subst h
        by_cases hmax : digitsValue digits 0 ≤ maxUint64
        · simp only [hmax, if_true, decide_False, Bool.not_false, Bool.false_and, Bool.true_and,
            decide_eq_true_eq]
          simp only [Bool.false_eq_true, if_false]
          split_ifs <;> omega
        · simp only [hmax, if_false, decide_False, Bool.not_false, Bool.false_and, Bool.true_and,
            decide_eq_true_eq]
          simp only [maxUint64] at hmax ⊢
          simp only [Bool.false_eq_true, if_false]
          split_ifs <;> omega
    · rw [if_neg hd] at h
      simp at h

theorem ParseInt_of_malformed (text : List Char) (h : decimalValue text = none)
    (hlen : text.length ≤ 19) : (ParseInt text).1 = 0 := by
  cases text with
  | nil => rfl
  | cons c cs =>
    simp only [decimalValue] at h
    simp only [ParseInt]
    have hdl : (if c = '+' ∨ c = '-' then cs else c :: cs).length ≤ 19 := by
      simp only [List.length_cons] at hlen
      split_ifs
      · omega
      · simp only [List.length_cons]
        omega
    generalize (if c = '+' ∨ c = '-' then cs else c :: cs) = digits at h hdl ⊢
    by_cases hd : digits ≠ [] ∧ ∀ d ∈ digits, '0' ≤ d ∧ d ≤ '9'
    · rw [if_pos hd] at h
      simp at h
    · have hu : ParseUint digits = (0, ConvError.malformed) := by
        by_cases hne : digits = []
        · rw [hne]
          rfl
        · rw [ParseUint_of_ne_nil _ hne]
          have hbad : ∃ d ∈ digits, ¬ ('0' ≤ d ∧ d ≤ '9') := by
            by_contra hcon
            push_neg at hcon
            exact hd ⟨hne, fun d hdm => by
              by_contra hnot
              exact hnot (hcon d hdm)⟩
          exact parseUintLoop_malformed _ 0 0 (by norm_num) (by omega) hbad
      rw [hu]

theorem splitChars_of_not_mem (sep : Char) (cs : List Char) (h : sep ∉ cs) :
    splitChars sep cs = [cs] := by
  induction cs with
  | nil => rfl
  | cons c rest ih =>
    have hc : c ≠ sep := fun e => h (e ▸ List.mem_cons_self _ _)
    have hrest : sep ∉ rest := fun hm => h (List.mem_cons_of_mem _ hm)
    simp [splitChars, hc, ih hrest]

theorem splitChars_append (sep : Char) (before after : List Char) (h : sep ∉ before) :
    splitChars sep (before ++ sep :: after) = before :: splitChars sep after := by
  induction before with
  | nil => simp [splitChars]
  | cons c rest ih =>
    have hc : c ≠ sep := fun e => h (e ▸ List.mem_cons_self _ _)
    have hrest : sep ∉ rest := fun hm => h (List.mem_cons_of_mem _ hm)
    simp [splitChars, hc, ih hrest]

theorem Split_one_separator (s : String) (sep : Char) (before after : List Char)
    (hs : s.toList = before ++ sep :: after) (hb : sep ∉ before) (ha : sep ∉ after) :
    Split s sep = [String.mk before, String.mk after] := by
  have hd : s.data = before ++ sep :: after := hs
  simp only [Split, String.toList, hd, splitChars_append sep before after hb,
    splitChars_of_not_mem sep after ha, List.map_cons, List.map_nil]

theorem lookup_store_self {V : Type} (m : List (String × V)) (k : String) (v : V) :
    lookup (store m k v) k = some v := by
  induction m with
  | nil => simp [store, lookup]
  | cons e rest ih =>
    obtain ⟨k', v'⟩ := e
    by_cases h : k' = k <;> simp [store, lookup, h, ih]

theorem lookup_store_ne {V : Type} (m : List (String × V)) (k k' : String) (v : V)
    (hne : k' ≠ k) : lookup (store m k v) k' = lookup m k' := by
  induction m with
  | nil => simp [store, lookup, Ne.symm hne]
  | cons e rest ih =>
    obtain ⟨k0, v0⟩ := e
    by_cases h : k0 = k
    · subst h
      simp [store, lookup, Ne.symm hne]
    · by_cases h2 : k0 = k'
      · subst h2
        simp [store, lookup, h]
      · simp [store, lookup, h, h2, ih]

theorem mapIndex_eq_lookup (m : JMap) (k : String) : mapIndex m k = lookup m k := by
  induction m with
  | nil => rfl
  | cons e rest ih =>
    obtain ⟨k', v'⟩ := e
    simp [mapIndex, lookup, ih]

theorem mapAssign_eq_store (m : JMap) (k : String) (v : JSON) : mapAssign m k v = store m k v := by
  induction m with
  | nil => rfl
  | cons e rest ih =>
    obtain ⟨k', v'⟩ := e
    simp [mapAssign, store, ih]

theorem lookup_isSome_iff {V : Type} (m : List (String × V)) (k : String) :
    (lookup m k).isSome = true ↔ k ∈ keys m := by
  induction m with
  | nil => simp [lookup, keys]
  | cons e rest ih =>
    obtain ⟨k', v'⟩ := e
    by_cases h : k' = k
    · simp [lookup, keys, h]
    · have h2 : ¬ k = k' := fun e => h e.symm
      simp only [lookup, h, if_false, ih, keys, List.map_cons, List.mem_cons, h2, false_or]

theorem lookup_of_mem_nodup {V : Type} (m : List (String × V)) (k : String) (v : V)
    (hnd : (keys m).Nodup) (hmem : (k, v) ∈ m) : lookup m k = some v := by
  induction m with
  | nil => simp at hmem
  | cons e rest ih =>
    obtain ⟨k', v'⟩ := e
    simp only [keys, List.map_cons, List.nodup_cons] at hnd
    rcases List.mem_cons.mp hmem with h | h
    · cases h
      simp [lookup]
    · have hk : k ∈ rest.map Prod.fst := List.mem_map.mpr ⟨(k, v), h, rfl⟩
      have hne : k' ≠ k := fun e => hnd.1 (e ▸ hk)
      simp only [lookup, hne, if_false]
      exact ih hnd.2 h

theorem foldl_store_lookup_of_not_mem {V W : Type} (f : W → V) (l : List (String × W))
    (init : List (String × V)) (k : String) (hk : k ∉ keys l) :
    lookup (l.foldl (fun acc e => store acc e.1 (f e.2)) init) k = lookup init k := by
  induction l generalizing init with
  | nil => rfl
  | cons e rest ih =>
    simp only [keys, List.map_cons, List.mem_cons, not_or] at hk
    rw [List.foldl_cons, ih _ hk.2, lookup_store_ne _ _ _ _ hk.1]

theorem foldl_store_lookup_of_mem {V W : Type} (f : W → V) (l : List (String × W))
    (init : List (String × V)) (k : String) (w : W) (hnd : (keys l).Nodup)
    (hmem : (k, w) ∈ l) :
    lookup (l.foldl (fun acc e => store acc e.1 (f e.2)) init) k = some (f w) := by
  induction l generalizing init with
  | nil => simp at hmem
  | cons e rest ih =>
    simp only [keys, List.map_cons, List.nodup_cons] at hnd
    rw [List.foldl_cons]
    rcases List.mem_cons.mp hmem with h | h
    · subst h
      rw [foldl_store_lookup_of_not_mem f rest _ _ hnd.1, lookup_store_self]
    · exact ih _ hnd.2 h

theorem uniqueKeys_of_mapIndex (m : JMap) (k : String) (v : JSON)
    (hm : uniqueKeysFields m = true) (hk : mapIndex m k = some v) : uniqueKeys v = true := by
  induction m with
  | nil => simp [mapIndex] at hk
  | cons e rest ih =>
    obtain ⟨k', v'⟩ := e
    simp only [uniqueKeysFields, Bool.and_eq_true] at hm
    by_cases h : k' = k
    · simp only [mapIndex, h, if_true, Option.some.injEq] at hk
      subst hk
      exact hm.1
    · simp only [mapIndex, h, if_false] at hk
      exact ih hm.2 hk

theorem sameTreeFields_keys (m1 m2 : JMap) (h : sameTreeFields m1 m2 = true) :
    keys m1 ⊆ keys m2 := by
  induction m1 with
  | nil => simp [keys]
  | cons e rest ih =>
    obtain ⟨k, v⟩ := e
    simp only [sameTreeFields, Bool.and_eq_true] at h
    intro x hx
    simp only [keys, List.map_cons, List.mem_cons] at hx
    rcases hx with hx | hx
    · subst hx
      rw [← lookup_isSome_iff, ← mapIndex_eq_lookup]
      cases hl : mapIndex m2 x with
      | none => simp [hl] at h
      | some v2 => rfl
    · exact ih h.2 hx

theorem all_isSome_iff_keys (m1 m2 : JMap) :
    m2.all (fun e => (mapIndex m1 e.1).isSome) = true ↔ keys m2 ⊆ keys m1 := by
  simp only [List.all_eq_true, mapIndex_eq_lookup, lookup_isSome_iff]
  constructor
  · intro h x hx
    obtain ⟨e, he, rfl⟩ := List.mem_map.mp hx
    exact h e he
  · intro h e he
    exact h (List.mem_map.mpr ⟨e, he, rfl⟩)

theorem length_eq_iff_subset (l1 l2 : List String) (h1 : l1.Nodup) (h2 : l2.Nodup)
    (hsub : l1 ⊆ l2) : l1.length = l2.length ↔ l2 ⊆ l1 := by
  constructor
  · intro hlen
    have hp := (List.subperm_of_subset h1 hsub).perm_of_length_le (le_of_eq hlen.symm)
    exact hp.symm.subset
  · intro hsub2
    exact le_antisymm (List.subperm_of_subset h1 hsub).length_le
      (List.subperm_of_subset h2 hsub2).length_le

mutual
theorem DeepEqual_eq_sameTree : ∀ (a b : JSON), uniqueKeys a = true → uniqueKeys b = true →
    DeepEqual a b = sameTree a b
  | JSON.null, b, _, _ => by cases b <;> rfl
  | JSON.bool _, b, _, _ => by cases b <;> rfl
  | JSON.num _, b, _, _ => by cases b <;> rfl
  | JSON.str _, b, _, _ => by cases b <;> rfl
  | JSON.arr xs, b, ha, hb => by
    cases b with
    | arr ys =>
      simp only [uniqueKeys] at ha hb
      simp only [DeepEqual, sameTree]
      exact DeepEqualSlice_eq_sameTreeList xs ys ha hb
    | _ => rfl
  | JSON.obj m1, b, ha, hb => by
    cases b with
    | obj m2 =>
      simp only [uniqueKeys, Bool.and_eq_true, decide_eq_true_eq] at ha hb
      simp only [DeepEqual, sameTree]
      rw [DeepEqualMap_eq_sameTreeFields m1 m2 ha.2 hb.2]
      cases hs : sameTreeFields m1 m2 with
      | false => simp
      | true =>
        have hsub := sameTreeFields_keys m1 m2 hs
        have hiff := length_eq_iff_subset (keys m1) (keys m2) ha.1 hb.1 hsub
        simp only [keys, List.length_map] at hiff
        have hall := all_isSome_iff_keys m1 m2
        simp only [Bool.and_true, Bool.true_and]
        rw [Bool.eq_iff_iff, hall, beq_iff_eq]
        exact hiff
    | _ => rfl
theorem DeepEqualSlice_eq_sameTreeList : ∀ (xs ys : List JSON), uniqueKeysList xs = true →
    uniqueKeysList ys = true → DeepEqualSlice xs ys = sameTreeList xs ys
  | [], _, _, _ => rfl
  | x :: xs, ys, hx, hy => by
    cases ys with
    | nil => rfl
    | cons y ys' =>
      simp only [uniqueKeysList, Bool.and_eq_true] at hx hy
      simp only [DeepEqualSlice, sameTreeList]
      rw [DeepEqual_eq_sameTree x y hx.1 hy.1, DeepEqualSlice_eq_sameTreeList xs ys' hx.2 hy.2]
theorem DeepEqualMap_eq_sameTreeFields : ∀ (m1 m2 : JMap), uniqueKeysFields m1 = true →
    uniqueKeysFields m2 = true → DeepEqualMap m1 m2 = sameTreeFields m1 m2
  | [], _, _, _ => rfl
  | (k, v) :: rest, m2, h1, h2 => by
    simp only [uniqueKeysFields, Bool.and_eq_true] at h1
    simp only [DeepEqualMap, sameTreeFields]
    rw [DeepEqualMap_eq_sameTreeFields rest m2 h1.2 h2]
    cases hl : mapIndex m2 k with
    | none => rfl
    | some v2 =>
      simp only
      rw [DeepEqual_eq_sameTree v v2 h1.1 (uniqueKeys_of_mapIndex m2 k v2 h2 hl)]
end

mutual
theorem sameTree_refl : ∀ (a : JSON), uniqueKeys a = true → sameTree a a = true
  | JSON.null, _ => rfl
  | JSON.bool _, _ => by simp [sameTree]
  | JSON.num _, _ => by simp [sameTree]
  | JSON.str _, _ => by simp [sameTree]
  | JSON.arr xs, ha => by
    simp only [uniqueKeys] at ha
    simp only [sameTree]
    exact sameTreeList_refl xs ha
  | JSON.obj m, ha => by
    simp only [uniqueKeys, Bool.and_eq_true, decide_eq_true_eq] at ha
    simp only [sameTree, Bool.and_eq_true]
    refine ⟨sameTreeFields_of_lookup m m ha.2 ?_, ?_⟩
    · intro e he
      rw [mapIndex_eq_lookup]
      exact lookup_of_mem_nodup m e.1 e.2 ha.1 he
    · rw [all_isSome_iff_keys]
      exact fun _ h => h
theorem sameTreeList_refl : ∀ (xs : List JSON), uniqueKeysList xs = true →
    sameTreeList xs xs = true
  | [], _ => rfl
  | x :: xs, hx => by
    simp only [uniqueKeysList, Bool.and_eq_true] at hx
    simp only [sameTreeList, Bool.and_eq_true]
    exact ⟨sameTree_refl x hx.1, sameTreeList_refl xs hx.2⟩
theorem sameTreeFields_of_lookup : ∀ (sub m : JMap), uniqueKeysFields sub = true →
    (∀ e ∈ sub, mapIndex m e.1 = some e.2) → sameTreeFields sub m = true
  | [], _, _, _ => rfl
  | (k, v) :: rest, m, hs, hl => by
    simp only [uniqueKeysFields, Bool.and_eq_true] at hs
    simp only [sameTreeFields, Bool.and_eq_true]
    refine ⟨?_, sameTreeFields_of_lookup rest m hs.2
      (fun e he => hl e (List.mem_cons_of_mem _ he))⟩
    rw [hl (k, v) (List.mem_cons_self _ _)]
    exact sameTree_refl v hs.1
end

theorem uniqueKeysFields_of_perm (m p : JMap) (hp : p.Perm m)
    (hm : uniqueKeysFields m = true) : uniqueKeysFields p = true := by
  induction hp with
  | nil => rfl
  | cons e _ ih =>
    obtain ⟨k, v⟩ := e
    simp only [uniqueKeysFields, Bool.and_eq_true] at hm ⊢
    exact ⟨hm.1, ih hm.2⟩
  | swap e1 e2 l =>
    obtain ⟨k1, v1⟩ := e1
    obtain ⟨k2, v2⟩ := e2
    simp only [uniqueKeysFields, Bool.and_eq_true] at hm ⊢
    exact ⟨hm.2.1, hm.1, hm.2.2⟩
  | trans _ _ ih1 ih2 => exact ih1 (ih2 hm)

theorem sameTree_obj_of_perm (m p : JMap) (hm : uniqueKeys (JSON.obj m) = true)
    (hp : p.Perm m) : sameTree (JSON.obj m) (JSON.obj p) = true := by
  simp only [uniqueKeys, Bool.and_eq_true, decide_eq_true_eq] at hm
  have hpn : (keys p).Nodup := (hp.map Prod.fst).nodup_iff.mpr hm.1
  simp only [sameTree, Bool.and_eq_true]
  refine ⟨sameTreeFields_of_lookup m p hm.2 ?_, ?_⟩
  · intro e he
    rw [mapIndex_eq_lookup]
    exact lookup_of_mem_nodup p e.1 e.2 hpn (hp.symm.subset he)
  · rw [all_isSome_iff_keys]
    exact (hp.map Prod.fst).subset

theorem sampleUnmarshal_uniqueKeys (s : String) (o : JSON) (h : sampleUnmarshal s = some o) :
    uniqueKeys o = true := by
  unfold sampleUnmarshal at h
  split_ifs at h <;> cases h <;> decide

theorem mem_keys_store {V : Type} (m : List (String × V)) (k k' : String) (v : V) :
    k' ∈ keys (store m k v) ↔ k' = k ∨ k' ∈ keys m := by
  induction m with
  | nil => simp [store, keys]
  | cons e rest ih =>
    obtain ⟨k0, v0⟩ := e
    by_cases h : k0 = k
    · subst h
      simp [store, keys]
    · simp only [keys] at ih
      simp only [store, h, if_false, keys, List.map_cons, List.mem_cons, ih]
      tauto

theorem nodup_keys_store {V : Type} (m : List (String × V)) (k : String) (v : V)
    (h : (keys m).Nodup) : (keys (store m k v)).Nodup := by
  induction m with
  | nil => simp [store, keys]
  | cons e rest ih =>
    obtain ⟨k0, v0⟩ := e
    simp only [keys, List.map_cons, List.nodup_cons] at h
    by_cases hk : k0 = k
    · subst hk
      simp only [store, if_true, keys, List.map_cons, List.nodup_cons]
      exact h
    · simp only [store, hk, if_false, keys, List.map_cons, List.nodup_cons]
      refine ⟨?_, ih h.2⟩
      intro hmem
      rcases (mem_keys_store rest k k0 v).mp hmem with h1 | h1
      · exact hk h1
      · exact h.1 h1

theorem lookup_eq_none_iff {V : Type} (m : List (String × V)) (k : String) :
    (lookup m k).isNone = true ↔ k ∉ keys m := by
  rw [← lookup_isSome_iff]
  cases lookup m k <;> simp

theorem mem_keys_cons {V : Type} (e : String × V) (l : List (String × V)) (k : String) :
    k ∈ keys (e :: l) ↔ k = e.1 ∨ k ∈ keys l := by
  simp [keys]

theorem sharedApplicationSkeleton_eq :
    sharedApplicationSkeleton =
      [("class", AS3Value.str "Application"), ("template", AS3Value.str "shared")] := rfl

theorem condStore_keys {V W : Type} (p : String → Bool) (f : String → V)
    (l : List (String × W)) (init : List (String × V)) (k : String) :
    k ∈ keys (l.foldl (fun adc e => if p e.1 then store adc e.1 (f e.1) else adc) init) ↔
      k ∈ keys init ∨ (k ∈ keys l ∧ p k = true) := by
  induction l generalizing init with
  | nil => simp [keys]
  | cons e rest ih =>
    rw [List.foldl_cons, ih]
    by_cases hp : p e.1 = true
    · simp only [hp, if_true, mem_keys_store, mem_keys_cons]
      constructor
      · rintro ((h | h) | h)
        · exact Or.inr ⟨Or.inl h, h ▸ hp⟩
        · exact Or.inl h
        · exact Or.inr ⟨Or.inr h.1, h.2⟩
      · rintro (h | ⟨h | h, hk⟩)
        · exact Or.inl (Or.inr h)
        · exact Or.inl (Or.inl h)
        · exact Or.inr ⟨h, hk⟩
    · simp only [hp, if_false, mem_keys_cons, Bool.false_eq_true]
      constructor
      · rintro (h | h)
        · exact Or.inl h
        · exact Or.inr ⟨Or.inr h.1, h.2⟩
      · rintro (h | ⟨h | h, hk⟩)
        · exact Or.inl h
        · exact absurd (h ▸ hk) hp
        · exact Or.inr ⟨h, hk⟩

theorem condStore_nodup {V W : Type} (p : String → Bool) (f : String → V)
    (l : List (String × W)) (init : List (String × V)) (h : (keys init).Nodup) :
    (keys (l.foldl (fun adc e => if p e.1 then store adc e.1 (f e.1) else adc) init)).Nodup := by
  induction l generalizing init with
  | nil => exact h
  | cons e rest ih =>
    rw [List.foldl_cons]
    apply ih
    split_ifs
    · exact nodup_keys_store _ _ _ h
    · exact h

theorem condStore_lookup {V W : Type} (p : String → Bool) (f : String → V)
    (l : List (String × W)) (init : List (String × V)) (k : String)
    (hk : k ∈ keys l) (hp : p k = true) :
    lookup (l.foldl (fun adc e => if p e.1 then store adc e.1 (f e.1) else adc) init) k =
      some (f k) := by
  induction l generalizing init with
  | nil => simp [keys] at hk
  | cons e rest ih =>
    rw [List.foldl_cons]
    by_cases hrest : k ∈ keys rest
    · exact ih _ hrest
    · have he : e.1 = k := by
        simp only [keys, List.map_cons, List.mem_cons] at hk hrest
        rcases hk with h | h
        · exact h.symm
        · exact absurd h hrest
      have hnone : ∀ (start : List (String × V)),
          lookup (rest.foldl (fun adc e => if p e.1 then store adc e.1 (f e.1) else adc) start) k =
            lookup start k := by
        intro start
        clear ih hk
        induction rest generalizing start with
        | nil => rfl
        | cons e2 rest2 ih2 =>
          simp only [keys, List.map_cons, List.mem_cons, not_or] at hrest
          rw [List.foldl_cons, ih2 hrest.2]
          split_ifs
          · exact lookup_store_ne _ _ _ _ hrest.1
          · rfl
      rw [hnone, he, hp, if_pos rfl, lookup_store_self]

theorem ltmLoop_returns (agent : Agent) (ext : External) (cfg : ResourceConfigRequest)
    (l : List (String × PartitionConfig)) (st : as3ADC × List (String × Int))
    (h : ∀ e ∈ l, (tenantDeclaration agent ext cfg e.1 e.2).isSome = true) :
    ∃ r, List.foldlM (ltmConfigStep agent ext cfg) st l = some r := by
  induction l generalizing st with
  | nil => exact ⟨st, rfl⟩
  | cons e rest ih =>
    obtain ⟨td, htd⟩ := Option.isSome_iff_exists.mp (h e (List.mem_cons_self _ _))
    simp only [List.foldlM_cons, ltmConfigStep, htd, Option.map_some', Option.bind_eq_bind,
      Option.some_bind]
    exact ih _ (fun e' he' => h e' (List.mem_cons_of_mem _ he'))

theorem ltmLoop_keys (agent : Agent) (ext : External) (cfg : ResourceConfigRequest)
    (l : List (String × PartitionConfig)) (st r : as3ADC × List (String × Int))
    (h : List.foldlM (ltmConfigStep agent ext cfg) st l = some r) (k : String) :
    k ∈ keys r.1 ↔ k ∈ keys st.1 ∨ k ∈ keys l := by
  induction l generalizing st with
  | nil =>
    simp only [List.foldlM_nil, Option.pure_def, Option.some.injEq] at h
    subst h
    simp [keys]
  | cons e rest ih =>
    simp only [List.foldlM_cons, ltmConfigStep, Option.bind_eq_bind] at h
    cases htd : tenantDeclaration agent ext cfg e.1 e.2 with
    | none => simp [htd] at h
    | some td =>
      simp only [htd, Option.map_some', Option.some_bind] at h
      rw [ih _ h]
      simp only [mem_keys_store, mem_keys_cons]
      tauto

theorem ltmLoop_nodup (agent : Agent) (ext : External) (cfg : ResourceConfigRequest)
    (l : List (String × PartitionConfig)) (st r : as3ADC × List (String × Int))
    (h : List.foldlM (ltmConfigStep agent ext cfg) st l = some r)
    (hnd : (keys st.1).Nodup) : (keys r.1).Nodup := by
  induction l generalizing st with
  | nil =>
    simp only [List.foldlM_nil, Option.pure_def, Option.some.injEq] at h
    subst h
    exact hnd
  | cons e rest ih =>
    simp only [List.foldlM_cons, ltmConfigStep, Option.bind_eq_bind] at h
    cases htd : tenantDeclaration agent ext cfg e.1 e.2 with
    | none => simp [htd] at h
    | some td =>
      simp only [htd, Option.map_some', Option.some_bind] at h
      exact ih _ h (nodup_keys_store _ _ _ hnd)

theorem ltmLoop_lookup_of_not_mem (agent : Agent) (ext : External) (cfg : ResourceConfigRequest)
    (l : List (String × PartitionConfig)) (st r : as3ADC × List (String × Int))
    (h : List.foldlM (ltmConfigStep agent ext cfg) st l = some r) (k : String)
    (hk : k ∉ keys l) : lookup r.1 k = lookup st.1 k := by
  induction l generalizing st with
  | nil =>
    simp only [List.foldlM_nil, Option.pure_def, Option.some.injEq] at h
    subst h
    rfl
  | cons e rest ih =>
    simp only [keys, List.map_cons, List.mem_cons, not_or] at hk
    simp only [List.foldlM_cons, ltmConfigStep, Option.bind_eq_bind] at h
    cases htd : tenantDeclaration agent ext cfg e.1 e.2 with
    | none => simp [htd] at h
    | some td =>
      simp only [htd, Option.map_some', Option.some_bind] at h
      rw [ih _ h hk.2]
      exact lookup_store_ne _ _ _ _ hk.1

theorem ltmLoop_lookup_of_mem (agent : Agent) (ext : External) (cfg : ResourceConfigRequest)
    (l : List (String × PartitionConfig)) (st r : as3ADC × List (String × Int))
    (h : List.foldlM (ltmConfigStep agent ext cfg) st l = some r)
    (hnd : (keys l).Nodup) (e : String × PartitionConfig) (he : e ∈ l) :
    ∃ td, tenantDeclaration agent ext cfg e.1 e.2 = some td ∧
      lookup r.1 e.1 = some (AS3Value.tenant td) := by
  induction l generalizing st with
  | nil => simp at he
  | cons e0 rest ih =>
    simp only [keys, List.map_cons, List.nodup_cons] at hnd
    simp only [List.foldlM_cons, ltmConfigStep, Option.bind_eq_bind] at h
    cases htd : tenantDeclaration agent ext cfg e0.1 e0.2 with
    | none => simp [htd] at h
    | some td =>
      simp only [htd, Option.map_some', Option.some_bind] at h
      rcases List.mem_cons.mp he with heq | hmem
      · subst heq
        refine ⟨td, htd, ?_⟩
        rw [ltmLoop_lookup_of_not_mem agent ext cfg rest _ r h e.1 hnd.1]
        exact lookup_store_self _ _ _
      · exact ih _ h hnd.2 hmem

theorem createLTMConfigADC_eq (agent : Agent) (ext : External) (config : ResourceConfigRequest)
    (r : as3ADC × List (String × Int))
    (h : List.foldlM (ltmConfigStep agent ext (requestAfterScan agent ext config))
      (cachedTenantsLoop agent (requestAfterScan agent ext config),
        agent.LTM.tenantPriorityMap)
      (requestAfterScan agent ext config).ltmConfig = some r) :
    createLTMConfigADC agent ext config =
      some (r.1, ⟨if deletionScanDue agent then false else agent.LTM.firstPost,
        agent.LTM.cachedTenantDeclMap, r.2⟩) := by
  simp only [createLTMConfigADC, h, Option.map_some']

theorem tenantDeclaration_isSome (agent : Agent) (ext : External) (cfg : ResourceConfigRequest)
    (e : String × PartitionConfig)
    (h : e.2.ResourceMap ≠ [] → (compileSharedApplication ext cfg e.1 e.2).isSome = true) :
    (tenantDeclaration agent ext cfg e.1 e.2).isSome = true := by
  unfold tenantDeclaration
  split_ifs with hlen
  · rfl
  · have hne : e.2.ResourceMap ≠ [] := fun hnil => hlen (by rw [hnil]; rfl)
    obtain ⟨app, happ⟩ := Option.isSome_iff_exists.mp (h hne)
    simp [happ]

theorem foldlM_lookup_preserved {α : Type} (f : as3Application → α → Option as3Application)
    (k : String) (l : List α)
    (hstep : ∀ a ∈ l, ∀ app app', f app a = some app' → lookup app' k = lookup app k)
    (app app' : as3Application) (h : List.foldlM f app l = some app') :
    lookup app' k = lookup app k := by
  induction l generalizing app with
  | nil =>
    simp only [List.foldlM_nil, Option.pure_def, Option.some.injEq] at h
    subst h
    rfl
  | cons a rest ih =>
    simp only [List.foldlM_cons, Option.bind_eq_bind] at h
    cases ha : f app a with
    | none => simp [ha] at h
    | some mid =>
      simp only [ha, Option.some_bind] at h
      rw [ih (fun b hb => hstep b (List.mem_cons_of_mem _ hb)) mid h]
      exact hstep a (List.mem_cons_self _ _) app mid ha

theorem foldl_lookup_preserved {α : Type} (f : as3Application → α → as3Application)
    (k : String) (l : List α)
    (hstep : ∀ a ∈ l, ∀ app, lookup (f app a) k = lookup app k)
    (app : as3Application) : lookup (l.foldl f app) k = lookup app k := by
  induction l generalizing app with
  | nil => rfl
  | cons a rest ih =>
    rw [List.foldl_cons, ih (fun b hb => hstep b (List.mem_cons_of_mem _ hb))]
    exact hstep a (List.mem_cons_self _ _) app

theorem processIRulesForAS3_lookup (rsMap : ResourceMap) (sharedApp : as3Application)
    (k : String) (h : ∀ rsCfg ∈ rsMap, ∀ v ∈ rsCfg.2.IRulesMap, v.2.Name ≠ k) :
    lookup (processIRulesForAS3 rsMap sharedApp) k = lookup sharedApp k := by
  unfold processIRulesForAS3
  apply foldl_lookup_preserved
  intro rsCfg hrs app
  apply foldl_lookup_preserved
  intro v hv app2
  exact lookup_store_ne _ _ _ _ (Ne.symm (h rsCfg hrs v hv))

theorem processDataGroup_lookup (sortRecordsByKey : List as3Record → List as3Record)
    (app app' : as3Application) (dg : InternalDataGroup) (k : String) (hne : dg.Name ≠ k)
    (h : processDataGroup sortRecordsByKey app dg = some app') :
    lookup app' k = lookup app k := by
  unfold processDataGroup at h
  split at h
  · simp only [Option.some.injEq] at h
    subst h
    exact lookup_store_ne _ _ _ _ (Ne.symm hne)
  · simp only [Option.some.injEq] at h
    subst h
    exact lookup_store_ne _ _ _ _ (Ne.symm hne)
  · simp at h

theorem processDataGroupForAS3_lookup (sortRecordsByKey : List as3Record → List as3Record)
    (rsMap : ResourceMap) (app app' : as3Application) (k : String)
    (hnames : ∀ rsCfg ∈ rsMap, ∀ idg ∈ rsCfg.2.IntDgMap, ∀ dg ∈ idg.2, dg.2.Name ≠ k)
    (h : processDataGroupForAS3 sortRecordsByKey rsMap app = some app') :
    lookup app' k = lookup app k := by
  unfold processDataGroupForAS3 at h
  refine foldlM_lookup_preserved _ k rsMap ?_ app app' h
  intro rsCfg hrs a1 a1' h1
  refine foldlM_lookup_preserved _ k rsCfg.2.IntDgMap ?_ a1 a1' h1
  intro idg hidg a2 a2' h2
  refine foldlM_lookup_preserved _ k idg.2 ?_ a2 a2' h2
  intro dg hdg a3 a3' h3
  exact processDataGroup_lookup sortRecordsByKey a3 a3' dg.2 k (hnames rsCfg hrs idg hidg dg hdg) h3

theorem compileSharedApplication_skeleton (ext : External) (config : ResourceConfigRequest)
    (tenantName : String) (partitionConfig : PartitionConfig) (sharedApp : as3Application)
    (hfree : reservedNamesFree ext config tenantName partitionConfig)
    (h : compileSharedApplication ext config tenantName partitionConfig = some sharedApp) :
    lookup sharedApp "class" = some (AS3Value.str "Application") ∧
      lookup sharedApp "template" = some (AS3Value.str "shared") := by
  obtain ⟨h1, h2, h3, hI, hD⟩ := hfree
  unfold compileSharedApplication at h
  cases e1 : ext.processResourcesForAS3 partitionConfig.ResourceMap sharedApplicationSkeleton
      config.shareNodes tenantName config.poolMemberType with
  | none => simp [e1] at h
  | some a1 =>
    simp only [e1, Option.some_bind] at h
    cases e2 : ext.processCustomProfilesForAS3 partitionConfig.ResourceMap a1 with
    | none => simp [e2] at h
    | some a2 =>
      simp only [e2, Option.some_bind] at h
      cases e3 : ext.processProfilesForAS3 partitionConfig.ResourceMap a2 with
      | none => simp [e3] at h
      | some a3 =>
        simp only [e3, Option.some_bind] at h
        have k1 := h1 _ _ e1
        have k2 := h2 _ _ e2
        have k3 := h3 _ _ e3
        have c4 := processIRulesForAS3_lookup partitionConfig.ResourceMap a3 "class"
          (fun rs hrs v hv => (hI rs hrs v hv).1)
        have t4 := processIRulesForAS3_lookup partitionConfig.ResourceMap a3 "template"
          (fun rs hrs v hv => (hI rs hrs v hv).2)
        have c5 := processDataGroupForAS3_lookup ext.sortRecordsByKey
          partitionConfig.ResourceMap _ sharedApp "class"
          (fun rs hrs idg hidg dg hdg => (hD rs hrs idg hidg dg hdg).1) h
        have t5 := processDataGroupForAS3_lookup ext.sortRecordsByKey
          partitionConfig.ResourceMap _ sharedApp "template"
          (fun rs hrs idg hidg dg hdg => (hD rs hrs idg hidg dg hdg).2) h
        constructor
        · rw [c5, c4, k3.1, k2.1, k1.1]
          rfl
        · rw [t5, t4, k3.2, k2.2, k1.2]
          rfl

theorem createLTMConfigADC_returns (agent : Agent) (ext : External)
    (config : ResourceConfigRequest)
    (hpass : ∀ e ∈ (requestAfterScan agent ext config).ltmConfig, e.2.ResourceMap ≠ [] →
      (compileSharedApplication ext (requestAfterScan agent ext config) e.1 e.2).isSome = true) :
    ∃ r, List.foldlM (ltmConfigStep agent ext (requestAfterScan agent ext config))
        (cachedTenantsLoop agent (requestAfterScan agent ext config),
          agent.LTM.tenantPriorityMap)
        (requestAfterScan agent ext config).ltmConfig = some r ∧
      createLTMConfigADC agent ext config =
        some (r.1, ⟨if deletionScanDue agent then false else agent.LTM.firstPost,
          agent.LTM.cachedTenantDeclMap, r.2⟩) := by
  obtain ⟨r, hr⟩ := ltmLoop_returns agent ext (requestAfterScan agent ext config)
    (requestAfterScan agent ext config).ltmConfig
    (cachedTenantsLoop agent (requestAfterScan agent ext config), agent.LTM.tenantPriorityMap)
    (fun e he => tenantDeclaration_isSome agent ext _ e (hpass e he))
  exact ⟨r, hr, createLTMConfigADC_eq agent ext config r hr⟩

theorem getDeletedTenantDeclaration_eq (defaultPartition tenant cisLabel : String)
    (config : ResourceConfigRequest) :
    getDeletedTenantDeclaration defaultPartition tenant cisLabel config =
      if tenant = defaultPartition then
        [("class", AS3Value.str "Tenant"),
         ("Shared", AS3Value.application
           [("class", AS3Value.str "Application"), ("template", AS3Value.str "shared")]),
         ("defaultRouteDomain", AS3Value.int config.defaultRouteDomain),
         ("label", AS3Value.str cisLabel)]
      else [("class", AS3Value.str "Tenant")] := by
  unfold getDeletedTenantDeclaration
  by_cases h : defaultPartition = tenant
  · rw [if_pos h, if_pos h.symm]
    rfl
  · rw [if_neg h, if_neg (fun e => h e.symm)]

theorem LastIndex_eq_none (s : List Char) (sep : Char) (h : sep ∉ s) :
    LastIndex s sep = none := by
  induction s with
  | nil => rfl
  | cons c cs ih =>
    have hc : c ≠ sep := fun e => h (by simp [e])
    have hcs : sep ∉ cs := fun e => h (by simp [e])
    simp only [LastIndex, ih hcs, if_neg hc]

theorem firstOccurrences_cons {α : Type} [DecidableEq α] (x : α) (xs : List α) :
    firstOccurrences (x :: xs) = x :: (firstOccurrences xs).filter (fun y => decide (y ≠ x)) :=
  rfl

theorem firstOccurrences_filter {α : Type} [DecidableEq α] (p : α → Bool) (l : List α) :
    (firstOccurrences l).filter p = firstOccurrences (l.filter p) := by
  induction l with
  | nil => rfl
  | cons x xs ih =>
    by_cases hp : p x = true
    · rw [List.filter_cons_of_pos hp, firstOccurrences_cons, firstOccurrences_cons,
        List.filter_cons_of_pos hp, ← ih, List.filter_filter, List.filter_filter]
      congr 1
      apply List.filter_congr
      intro y _
      exact Bool.and_comm _ _
    · rw [List.filter_cons_of_neg hp, ← ih, firstOccurrences_cons,
        List.filter_cons_of_neg hp, List.filter_filter]
      apply List.filter_congr
      intro y _
      by_cases hyx : y = x
      · subst hyx
        simp [hp]
      · simp [hyx]

theorem mem_firstOccurrences {α : Type} [DecidableEq α] (l : List α) (a : α) :
    a ∈ firstOccurrences l ↔ a ∈ l := by
  induction l with
  | nil => simp [firstOccurrences]
  | cons x xs ih =>
    simp only [firstOccurrences, List.mem_cons, List.mem_filter, ih, decide_eq_true_eq]
    by_cases h : a = x
    · simp [h]
    · simp [h]

theorem firstOccurrences_nodup {α : Type} [DecidableEq α] (l : List α) :
    (firstOccurrences l).Nodup := by
  induction l with
  | nil => simp [firstOccurrences]
  | cons x xs ih =>
    simp only [firstOccurrences, List.nodup_cons, List.mem_filter, decide_eq_true_eq]
    exact ⟨fun h => h.2 rfl, ih.filter _⟩

theorem firstOccurrences_of_nodup {α : Type} [DecidableEq α] (l : List α) (h : l.Nodup) :
    firstOccurrences l = l := by
  induction l with
  | nil => rfl
  | cons x xs ih =>
    rw [List.nodup_cons] at h
    rw [firstOccurrences_cons, ih h.2]
    congr 1
    rw [List.filter_eq_self]
    intro y hy
    simp only [decide_eq_true_eq]
    intro e
    exact h.1 (e ▸ hy)

theorem firstOccurrences_idem {α : Type} [DecidableEq α] (l : List α) :
    firstOccurrences (firstOccurrences l) = firstOccurrences l :=
  firstOccurrences_of_nodup _ (firstOccurrences_nodup l)

theorem firstOccurrences_append {α : Type} [DecidableEq α] (a b : List α) :
    firstOccurrences (a ++ b) =
      firstOccurrences a ++ (firstOccurrences b).filter (fun y => decide (y ∉ a)) := by
  induction a with
  | nil => simp [firstOccurrences]
  | cons x xs ih =>
    rw [List.cons_append, firstOccurrences_cons, ih, firstOccurrences_cons, List.filter_append,
      List.filter_filter, List.cons_append]
    congr 2
    apply List.filter_congr
    intro y _
    by_cases hyx : y = x <;> by_cases hys : y ∈ xs <;> simp [hyx, hys]

theorem firstOccurrences_append_congr {α : Type} [DecidableEq α] (x e e' : List α)
    (h : firstOccurrences e = firstOccurrences e') :
    firstOccurrences (x ++ e) = firstOccurrences (x ++ e') := by
  rw [firstOccurrences_append, firstOccurrences_append, h]

theorem filter_not_mem_firstOccurrences {α : Type} [DecidableEq α] (a : List α) :
    (firstOccurrences a).filter (fun y => decide (y ∉ a)) = [] := by
  rw [List.filter_eq_nil_iff]
  intro y hy
  simpa using (mem_firstOccurrences a y).1 hy

theorem firstOccurrences_append_absorb {α : Type} [DecidableEq α] (a b : List α) :
    firstOccurrences (a ++ firstOccurrences (a ++ b)) = firstOccurrences (a ++ b) := by
  rw [firstOccurrences_append a (firstOccurrences (a ++ b)), firstOccurrences_idem,
    firstOccurrences_append a b, List.filter_append, filter_not_mem_firstOccurrences,
    List.nil_append, List.filter_filter]
  congr 1
  apply List.filter_congr
  intro y _
  simp

theorem poolMemberStep_foldl (K : Constants) (shareNodes : Bool) (poolMemberType : String)
    (members seen : List PoolMember) (out : List as3PoolMember) :
    (members.foldl (poolMemberStep K shareNodes poolMemberType) (seen, out)).2 =
      out ++ ((firstOccurrences members).filter (fun y => decide (y ∉ seen))).map
        (poolMember K shareNodes poolMemberType) := by
  induction members generalizing seen out with
  | nil => simp [firstOccurrences]
  | cons x xs ih =>
    rw [List.foldl_cons]
    by_cases hx : x ∈ seen
    · have hstep : poolMemberStep K shareNodes poolMemberType (seen, out) x = (seen, out) := by
        simp [poolMemberStep, hx]
      rw [hstep, ih, firstOccurrences_cons, List.filter_cons_of_neg (by simpa using hx),
        List.filter_filter]
      congr 2
      apply List.filter_congr
      intro y _
      by_cases hyx : y = x
      · subst hyx
        simp [hx]
      · simp [hyx]
    · have hstep : poolMemberStep K shareNodes poolMemberType (seen, out) x =
          (x :: seen, out ++ [poolMember K shareNodes poolMemberType x]) := by
        simp [poolMemberStep, hx]
      rw [hstep, ih, firstOccurrences_cons, List.filter_cons_of_pos (by simpa using hx),
        List.filter_filter, List.map_cons, List.append_assoc, List.singleton_append]
      congr 3
      apply List.filter_congr
      intro y _
      by_cases hyx : y = x <;> by_cases hys : y ∈ seen <;> simp [hyx, hys]

theorem foldl_append_singleton {α β : Type} (f : α → β) (l : List α) (acc : List β) :
    l.foldl (fun acc a => acc ++ [f a]) acc = acc ++ l.map f := by
  induction l generalizing acc with
  | nil => simp
  | cons x xs ih => simp [ih]

theorem poolDecl_Members (K : Constants) (shareNodes : Bool) (tenant poolMemberType : String)
    (v : Pool) :
    (poolDecl K shareNodes tenant poolMemberType v).Members =
      (firstOccurrences v.Members).map (poolMember K shareNodes poolMemberType) := by
  simp only [poolDecl]
  rw [poolMemberStep_foldl]
  simp

theorem poolDecl_Monitors (K : Constants) (shareNodes : Bool) (tenant poolMemberType : String)
    (v : Pool) :
    (poolDecl K shareNodes tenant poolMemberType v).Monitors = poolMonitors K tenant v := by
  simp only [poolDecl, poolMonitors]
  rw [foldl_append_singleton]
  rfl

theorem poolDecl_MinimumMonitors (K : Constants) (shareNodes : Bool)
    (tenant poolMemberType : String) (v : Pool) :
    (poolDecl K shareNodes tenant poolMemberType v).MinimumMonitors =
      minimumMonitors (poolMonitors K tenant v) v := by
  simp only [poolDecl, poolMonitors]
  rw [foldl_append_singleton]
  rfl

theorem mergeMonitors_eq (monitors existing : List as3ResourcePointer) :
    mergeMonitors monitors existing =
      monitors ++ (firstOccurrences existing).filter (fun y => decide (y ∉ monitors)) := by
  induction existing generalizing monitors with
  | nil => simp [mergeMonitors, firstOccurrences]
  | cons x xs ih =>
    have hany : ∀ l : List as3ResourcePointer,
        (l.any (fun plMon => decide (x = plMon)) = true) ↔ x ∈ l := by
      intro l
      simp
    have hunfold : mergeMonitors monitors (x :: xs) =
        mergeMonitors (if monitors.any (fun plMon => decide (x = plMon)) then monitors
          else monitors ++ [x]) xs := rfl
    rw [hunfold]
    by_cases hx : x ∈ monitors
    · rw [if_pos ((hany monitors).2 hx), ih, firstOccurrences_cons,
        List.filter_cons_of_neg (by simpa using hx), List.filter_filter]
      congr 1
      apply List.filter_congr
      intro y _
      by_cases hyx : y = x
      · subst hyx
        simp [hx]
      · simp [hyx]
    · rw [if_neg (fun h => hx ((hany monitors).1 h)), ih, firstOccurrences_cons,
        List.filter_cons_of_pos (by simpa using hx), List.filter_filter, List.append_assoc,
        List.singleton_append]
      congr 2
      apply List.filter_congr
      intro y _
      by_cases hyx : y = x <;> by_cases hys : y ∈ monitors <;> simp [hyx, hys]

theorem mergeMonitors_nil (monitors : List as3ResourcePointer) :
    mergeMonitors monitors [] = monitors := rfl

theorem mem_mergeMonitors (monitors existing : List as3ResourcePointer)
    (x : as3ResourcePointer) :
    x ∈ mergeMonitors monitors existing ↔ x ∈ monitors ∨ x ∈ existing := by
  rw [mergeMonitors_eq]
  simp only [List.mem_append, List.mem_filter, mem_firstOccurrences, decide_eq_true_eq]
  by_cases h : x ∈ monitors <;> simp [h]

theorem nodup_mergeMonitors (monitors existing : List as3ResourcePointer)
    (h : monitors.Nodup) : (mergeMonitors monitors existing).Nodup := by
  rw [mergeMonitors_eq]
  refine List.Nodup.append h ((firstOccurrences_nodup existing).filter _) ?_
  intro x hx hx'
  simp only [List.mem_filter, decide_eq_true_eq] at hx'
  exact hx'.2 hx

theorem firstOccurrences_mergeMonitors (monitors existing : List as3ResourcePointer) :
    firstOccurrences (mergeMonitors monitors existing) =
      firstOccurrences (monitors ++ existing) := by
  rw [mergeMonitors_eq, firstOccurrences_append, firstOccurrences_append,
    ← firstOccurrences_filter, firstOccurrences_idem, List.filter_filter]
  congr 1
  apply List.filter_congr
  intro y _
  simp

theorem createPool_eq (K : Constants) (shareNodes : Bool) (tenant poolMemberType : String)
    (sharedApp : as3Application) (v : Pool)
    (h : poolOrAbsent (lookup sharedApp v.Name) = true) :
    createPool K shareNodes tenant poolMemberType sharedApp v =
      some (store sharedApp v.Name
        (AS3Value.pool (mergedPool K shareNodes tenant poolMemberType sharedApp v))) := by
  have hpool : ∀ l, ({ poolDecl K shareNodes tenant poolMemberType v with
        Monitors := mergeMonitors (poolDecl K shareNodes tenant poolMemberType v).Monitors l }
        : as3Pool) =
      { poolDecl K shareNodes tenant poolMemberType v with
        Monitors := mergeMonitors (poolMonitors K tenant v) l } := by
    intro l
    rw [poolDecl_Monitors]
  have hself : ({ poolDecl K shareNodes tenant poolMemberType v with
        Monitors := mergeMonitors (poolMonitors K tenant v) [] } : as3Pool) =
      poolDecl K shareNodes tenant poolMemberType v := by
    rw [mergeMonitors_nil, ← poolDecl_Monitors K shareNodes tenant poolMemberType v]
  unfold createPool mergedPool monitorsAt
  cases hl : lookup sharedApp v.Name with
  | none => simp only [hself]
  | some x =>
    rw [hl] at h
    cases x with
    | pool pl =>
      simp only
      by_cases hlen : pl.Monitors.length > 0
      · rw [if_pos hlen, hpool]
      · rw [if_neg hlen]
        have hnil : pl.Monitors = [] := by
          cases hm : pl.Monitors with
          | nil => rfl
          | cons a l => rw [hm] at hlen; simp at hlen
        rw [hnil, hself]
    | _ => simp [poolOrAbsent] at h

theorem storePools_cons (K : Constants) (shareNodes : Bool) (tenant poolMemberType : String)
    (sharedApp : as3Application) (v : Pool) (pools : List Pool) :
    storePools K shareNodes tenant poolMemberType sharedApp (v :: pools) =
      storePools K shareNodes tenant poolMemberType
        (store sharedApp v.Name
          (AS3Value.pool (mergedPool K shareNodes tenant poolMemberType sharedApp v))) pools :=
  rfl

theorem storePools_append (K : Constants) (shareNodes : Bool) (tenant poolMemberType : String)
    (sharedApp : as3Application) (pre post : List Pool) :
    storePools K shareNodes tenant poolMemberType sharedApp (pre ++ post) =
      storePools K shareNodes tenant poolMemberType
        (storePools K shareNodes tenant poolMemberType sharedApp pre) post := by
  simp only [storePools, List.foldl_append]

theorem poolOrAbsent_store_pool (sharedApp : as3Application) (k name : String) (p : as3Pool)
    (h : poolOrAbsent (lookup sharedApp name) = true) :
    poolOrAbsent (lookup (store sharedApp k (AS3Value.pool p)) name) = true := by
  by_cases hk : name = k
  · subst hk
    rw [lookup_store_self]
    rfl
  · rw [lookup_store_ne _ _ _ _ hk]
    exact h

theorem createPoolDecl_eq_storePools (K : Constants) (shareNodes : Bool)
    (tenant poolMemberType : String) (pools : List Pool) (sharedApp : as3Application)
    (h : ∀ v ∈ pools, poolOrAbsent (lookup sharedApp v.Name) = true) :
    pools.foldlM (createPool K shareNodes tenant poolMemberType) sharedApp =
      some (storePools K shareNodes tenant poolMemberType sharedApp pools) := by
  induction pools generalizing sharedApp with
  | nil => rfl
  | cons v pools ih =>
    rw [List.foldlM_cons, createPool_eq K shareNodes tenant poolMemberType sharedApp v
      (h v (List.mem_cons_self _ _)), storePools_cons]
    exact ih _ (fun w hw => poolOrAbsent_store_pool _ _ _ _ (h w (List.mem_cons_of_mem _ hw)))

theorem storePools_lookup_of_not_mem (K : Constants) (shareNodes : Bool)
    (tenant poolMemberType : String) (pools : List Pool) (sharedApp : as3Application)
    (name : String) (h : ∀ w ∈ pools, w.Name ≠ name) :
    lookup (storePools K shareNodes tenant poolMemberType sharedApp pools) name =
      lookup sharedApp name := by
  induction pools generalizing sharedApp with
  | nil => rfl
  | cons v pools ih =>
    rw [storePools_cons, ih _ (fun w hw => h w (List.mem_cons_of_mem _ hw)),
      lookup_store_ne _ _ _ _ (Ne.symm (h v (List.mem_cons_self _ _)))]

theorem storePools_lookup_last (K : Constants) (shareNodes : Bool)
    (tenant poolMemberType : String) (sharedApp : as3Application) (pre post : List Pool)
    (v : Pool) (h : ∀ w ∈ post, w.Name ≠ v.Name) :
    lookup (storePools K shareNodes tenant poolMemberType sharedApp (pre ++ v :: post))
        v.Name =
      some (AS3Value.pool (mergedPool K shareNodes tenant poolMemberType
        (storePools K shareNodes tenant poolMemberType sharedApp pre) v)) := by
  rw [storePools_append, storePools_cons, storePools_lookup_of_not_mem _ _ _ _ _ _ _ h,
    lookup_store_self]

theorem exists_last_named (pools : List Pool) (name : String)
    (h : ∃ w ∈ pools, w.Name = name) :
    ∃ pre v post, pools = pre ++ v :: post ∧ v.Name = name ∧ ∀ w ∈ post, w.Name ≠ name := by
  induction pools with
  | nil =>
    obtain ⟨w, hw, _⟩ := h
    cases hw
  | cons v pools ih =>
    by_cases hrest : ∃ w ∈ pools, w.Name = name
    · obtain ⟨pre, u, post, hsplit, hu, hpost⟩ := ih hrest
      exact ⟨v :: pre, u, post, by rw [hsplit, List.cons_append], hu, hpost⟩
    · obtain ⟨w, hw, hname⟩ := h
      rcases List.mem_cons.1 hw with rfl | hw'
      · exact ⟨[], w, pools, rfl, hname, fun u hu e => hrest ⟨u, hu, e⟩⟩
      · exact absurd ⟨w, hw', hname⟩ hrest

theorem monitorsAt_store_pool (sharedApp : as3Application) (k name : String) (p : as3Pool) :
    monitorsAt (store sharedApp k (AS3Value.pool p)) name =
      if k = name then p.Monitors else monitorsAt sharedApp name := by
  unfold monitorsAt
  by_cases hk : k = name
  · subst hk
    rw [lookup_store_self, if_pos rfl]
  · rw [lookup_store_ne _ _ _ _ (Ne.symm hk), if_neg hk]

theorem firstOccurrences_monitorsAt_storePools (K : Constants) (shareNodes : Bool)
    (tenant poolMemberType : String) (pools : List Pool) (sharedApp : as3Application)
    (name : String) :
    firstOccurrences
        (monitorsAt (storePools K shareNodes tenant poolMemberType sharedApp pools) name) =
      firstOccurrences (laterMonitorsFirst K tenant name pools ++ monitorsAt sharedApp name) := by
  induction pools generalizing sharedApp with
  | nil => rfl
  | cons v pools ih =>
    rw [storePools_cons, ih, laterMonitorsFirst, List.append_assoc]
    apply firstOccurrences_append_congr
    rw [monitorsAt_store_pool]
    by_cases hv : v.Name = name
    · rw [if_pos hv, if_pos hv]
      subst hv
      exact firstOccurrences_mergeMonitors _ _
    · rw [if_neg hv, if_neg hv]
      rfl

theorem mergeMonitors_storePools_twice (K : Constants) (shareNodes : Bool)
    (tenant poolMemberType : String) (pre : List Pool) (sharedApp app1 : as3Application)
    (v : Pool)
    (h1 : monitorsAt app1 v.Name = mergeMonitors (poolMonitors K tenant v)
      (monitorsAt (storePools K shareNodes tenant poolMemberType sharedApp pre) v.Name)) :
    mergeMonitors (poolMonitors K tenant v)
        (monitorsAt (storePools K shareNodes tenant poolMemberType app1 pre) v.Name) =
      mergeMonitors (poolMonitors K tenant v)
        (monitorsAt (storePools K shareNodes tenant poolMemberType sharedApp pre) v.Name) := by
  have hfilter : ∀ (m l : List as3ResourcePointer),
      List.filter (fun y => decide (y ∉ m)) (List.filter (fun y => decide (y ∉ m)) l) =
        List.filter (fun y => decide (y ∉ m)) l := by
    intro m l
    rw [List.filter_filter]
    apply List.filter_congr
    intro y _
    simp
  have hself : ∀ (m : List as3ResourcePointer), List.filter (fun y => decide (y ∉ m)) m = [] := by
    intro m
    rw [List.filter_eq_nil_iff]
    intro y hy
    simpa using hy
  rw [mergeMonitors_eq, mergeMonitors_eq (poolMonitors K tenant v)
    (monitorsAt (storePools K shareNodes tenant poolMemberType sharedApp pre) v.Name)]
  congr 1
  rw [firstOccurrences_monitorsAt_storePools, firstOccurrences_monitorsAt_storePools, h1,
    mergeMonitors_eq, firstOccurrences_monitorsAt_storePools, firstOccurrences_filter,
    firstOccurrences_filter, List.filter_append, List.filter_append, List.filter_append,
    hself, List.nil_append, firstOccurrences_filter, List.filter_append, hfilter, hfilter,
    firstOccurrences_append_absorb]

theorem storePools_twice_lookup (K : Constants) (shareNodes : Bool)
    (tenant poolMemberType : String) (pools : List Pool) (sharedApp : as3Application)
    (name : String) :
    lookup (storePools K shareNodes tenant poolMemberType
        (storePools K shareNodes tenant poolMemberType sharedApp pools) pools) name =
      lookup (storePools K shareNodes tenant poolMemberType sharedApp pools) name := by
  by_cases h : ∃ w ∈ pools, w.Name = name
  · obtain ⟨pre, v, post, hsplit, hv, hpost⟩ := exists_last_named pools name h
    subst hv
    have hfirst := storePools_lookup_last K shareNodes tenant poolMemberType sharedApp
      pre post v hpost
    rw [← hsplit] at hfirst
    have hsecond := storePools_lookup_last K shareNodes tenant poolMemberType
      (storePools K shareNodes tenant poolMemberType sharedApp pools) pre post v hpost
    rw [← hsplit] at hsecond
    rw [hsecond, hfirst]
    have hmon : monitorsAt (storePools K shareNodes tenant poolMemberType sharedApp pools)
        v.Name = mergeMonitors (poolMonitors K tenant v)
          (monitorsAt (storePools K shareNodes tenant poolMemberType sharedApp pre) v.Name) := by
      unfold monitorsAt
      rw [hfirst]
      rfl
    unfold mergedPool
    rw [mergeMonitors_storePools_twice K shareNodes tenant poolMemberType pre sharedApp _ v hmon]
  · have hne : ∀ w ∈ pools, w.Name ≠ name := fun w hw e => h ⟨w, hw, e⟩
    rw [storePools_lookup_of_not_mem _ _ _ _ _ _ _ hne]

theorem foldl_store_lookup_last {α V : Type} (key : α → String) (g : α → V)
    (pre post : List α) (x : α) (m : List (String × V))
    (h : ∀ w ∈ post, key w ≠ key x) :
    lookup ((pre ++ x :: post).foldl (fun m a => store m (key a) (g a)) m) (key x) =
      some (g x) := by
  rw [List.foldl_append, List.foldl_cons]
  generalize (List.foldl (fun m a => store m (key a) (g a)) m pre) = m0
  have hpost : ∀ (m1 : List (String × V)),
      lookup (post.foldl (fun m a => store m (key a) (g a)) m1) (key x) =
        lookup m1 (key x) := by
    induction post with
    | nil => intro m1; rfl
    | cons w ws ih =>
      intro m1
      rw [List.foldl_cons, ih (fun u hu => h u (List.mem_cons_of_mem _ hu)),
        lookup_store_ne _ _ _ _ (Ne.symm (h w (List.mem_cons_self _ _)))]
  rw [hpost, lookup_store_self]

theorem createRuleCondition_eq (rl : Rule) (rulesData : as3Rule) (port : Int) :
    createRuleCondition rl rulesData port =
      { rulesData with
        Conditions := rulesData.Conditions ++ rl.Conditions.map (fun c => ruleCondition c port) } := by
  unfold createRuleCondition
  generalize rl.Conditions = cs
  induction cs generalizing rulesData with
  | nil => simp
  | cons c cs ih => rw [List.foldl_cons, ih]; simp

theorem createRuleAction_eq (K : Constants) (rl : Rule) (rulesData : as3Rule) :
    createRuleAction K rl rulesData =
      { rulesData with Actions := rulesData.Actions ++ rl.Actions.map (ruleAction K) } := by
  unfold createRuleAction
  generalize rl.Actions = vs
  induction vs generalizing rulesData with
  | nil => simp
  | cons v vs ih => rw [List.foldl_cons, ih]; simp

theorem ruleCondition_host (c : Condition) (port : Int) (h : c.Host = true) :
    ∃ all, (ruleCondition c port).All = some all ∧
      all.Values =
        if port ≠ 80 ∧ port ≠ 443 then c.Values.map (fun v => v ++ ":" ++ Itoa port)
        else (c.Values.map (fun v => [v ++ ":" ++ Itoa port, v])).flatten := by
  have hflat : ∀ (l : List String) (acc : List String),
      l.foldl (fun values v => values ++ [v ++ ":" ++ Itoa port, v]) acc =
        acc ++ (l.map (fun v => [v ++ ":" ++ Itoa port, v])).flatten := by
    intro l
    induction l with
    | nil => intro acc; simp
    | cons x xs ih => intro acc; rw [List.foldl_cons, ih]; simp
  unfold ruleCondition
  simp only [h, if_true, foldl_append_singleton, hflat, List.nil_append]
  by_cases h1 : c.HTTPHost = true <;> by_cases h2 : c.Equals = true <;>
    by_cases h3 : c.EndsWith = true <;> by_cases h4 : c.Request = true <;>
    simp [h1, h2, h3, h4]

theorem persistBlocks_ite (c : Prop) [Decidable c] (a b : as3Action)
    (r : List (Option PersistMetaData)) (ha : persistBlocks a = r) (hb : persistBlocks b = r) :
    persistBlocks (if c then a else b) = r := by
  split
  · exact ha
  · exact hb

theorem persistBlocks_baseAction (v : Action) :
    persistBlocks (baseAction v) = List.replicate 10 none := by
  unfold baseAction
  lift_lets
  intro a0 a1 a2 a3 a4 a5 a6 a7 a8 a9 a10 p a11 a12 a13 a14
  have h0 : persistBlocks a0 = List.replicate 10 none := rfl
  have h1 : persistBlocks a1 = List.replicate 10 none := persistBlocks_ite _ _ _ _ h0 h0
  have h2 : persistBlocks a2 = List.replicate 10 none := persistBlocks_ite _ _ _ _ h1 h1
  have h3 : persistBlocks a3 = List.replicate 10 none := persistBlocks_ite _ _ _ _ h2 h2
  have h4 : persistBlocks a4 = List.replicate 10 none := persistBlocks_ite _ _ _ _ h3 h3
  have h5 : persistBlocks a5 = List.replicate 10 none := persistBlocks_ite _ _ _ _ h4 h4
  have h6 : persistBlocks a6 = List.replicate 10 none := persistBlocks_ite _ _ _ _ h5 h5
  have h7 : persistBlocks a7 = List.replicate 10 none := persistBlocks_ite _ _ _ _ h6 h6
  have h8 : persistBlocks a8 = List.replicate 10 none := persistBlocks_ite _ _ _ _ h7 h7
  have h9 : persistBlocks a9 = List.replicate 10 none := persistBlocks_ite _ _ _ _ h8 h8
  have h10 : persistBlocks a10 = List.replicate 10 none := persistBlocks_ite _ _ _ _ h9 h9
  have h11 : persistBlocks a11 = List.replicate 10 none := persistBlocks_ite _ _ _ _ h10 h10
  have h12 : persistBlocks a12 = List.replicate 10 none := persistBlocks_ite _ _ _ _ h11 h11
  have h13 : persistBlocks a13 = List.replicate 10 none := persistBlocks_ite _ _ _ _ h12 h12
  have h14 : persistBlocks a14 = List.replicate 10 none := persistBlocks_ite _ _ _ _ h13 h13
  exact persistBlocks_ite _ _ _ _ h14 h14

theorem persistAction_blocks (K : Constants) (v : Action) (a : as3Action)
    (ha : persistBlocks a = List.replicate 10 none) (hK : (persistKinds K).Nodup)
    (hne : v.PersistMethod ≠ "") :
    (v.PersistMethod = K.SourceAddress →
      (persistAction K v a).Type_ = "persist" ∧ (persistAction K v a).Event = "request" ∧
      persistBlocks (persistAction K v a) =
        [some { Netmask := v.Netmask, Timeout := v.Timeout }, none, none, none, none, none,
          none, none, none, none]) ∧
    (v.PersistMethod = K.DestinationAddress →
      (persistAction K v a).Type_ = "persist" ∧ (persistAction K v a).Event = "request" ∧
      persistBlocks (persistAction K v a) =
        [none, some { Netmask := v.Netmask, Timeout := v.Timeout }, none, none, none, none,
          none, none, none, none]) ∧
    (v.PersistMethod = K.CookieHash →
      (persistAction K v a).Type_ = "persist" ∧ (persistAction K v a).Event = "request" ∧
      persistBlocks (persistAction K v a) =
        [none, none,
          some { Timeout := v.Timeout, Offset := v.Offset, Length := v.Length, Name := v.Name },
          none, none, none, none, none, none, none]) ∧
    (v.PersistMethod = K.CookieInsert →
      (persistAction K v a).Type_ = "persist" ∧ (persistAction K v a).Event = "request" ∧
      persistBlocks (persistAction K v a) =
        [none, none, none, some { Name := v.Name, Expiry := v.Expiry }, none, none, none, none,
          none, none]) ∧
    (v.PersistMethod = K.CookieRewrite →
      (persistAction K v a).Type_ = "persist" ∧ (persistAction K v a).Event = "request" ∧
      persistBlocks (persistAction K v a) =
        [none, none, none, none, some { Name := v.Name, Expiry := v.Expiry }, none, none, none,
          none, none]) ∧
    (v.PersistMethod = K.CookiePassive →
      (persistAction K v a).Type_ = "persist" ∧ (persistAction K v a).Event = "request" ∧
      persistBlocks (persistAction K v a) =
        [none, none, none, none, none, some { Name := v.Name }, none, none, none, none]) ∧
    (v.PersistMethod = K.Universal →
      (persistAction K v a).Type_ = "persist" ∧ (persistAction K v a).Event = "request" ∧
      persistBlocks (persistAction K v a) =
        [none, none, none, none, none, none, some { Key := v.Key, Timeout := v.Timeout }, none,
          none, none]) ∧
    (v.PersistMethod = K.Carp →
      (persistAction K v a).Type_ = "persist" ∧ (persistAction K v a).Event = "request" ∧
      persistBlocks (persistAction K v a) =
        [none, none, none, none, none, none, none, some { Key := v.Key, Timeout := v.Timeout },
          none, none]) ∧
    (v.PersistMethod = K.Hash →
      (persistAction K v a).Type_ = "persist" ∧ (persistAction K v a).Event = "request" ∧
      persistBlocks (persistAction K v a) =
        [none, none, none, none, none, none, none, none,
          some { Key := v.Key, Timeout := v.Timeout }, none]) ∧
    (v.PersistMethod = K.Disable →
      (persistAction K v a).Type_ = "persist" ∧ (persistAction K v a).Event = "request" ∧
      persistBlocks (persistAction K v a) =
        [none, none, none, none, none, none, none, none, none, some {}]) ∧
    (v.PersistMethod ∉ persistKinds K →
      persistBlocks (persistAction K v a) = List.replicate 10 none) := by
  have hK' := List.nodup_reverse.2 hK
  simp only [persistKinds, List.reverse_cons, List.reverse_nil, List.nil_append,
    List.cons_append, List.nodup_cons, List.mem_cons, List.mem_singleton, not_or,
    List.not_mem_nil, not_false_eq_true, List.nodup_nil, and_true, List.singleton_append]
    at hK hK'
  simp only [persistBlocks, List.replicate, List.cons.injEq, and_true] at ha
  obtain ⟨e1, e2, e3, e4, e5, e6, e7, e8, e9, e10⟩ := ha
  refine ⟨?_, ?_, ?_, ?_, ?_, ?_, ?_, ?_, ?_, ?_, ?_⟩
  all_goals intro h
  all_goals have hne' := hne
  · rw [h] at hne'
    simp [persistAction, persistBlocks, h, hne', hK, hK', e1, e2, e3, e4, e5, e6, e7, e8, e9, e10]
  · rw [h] at hne'
    simp [persistAction, persistBlocks, h, hne', hK, hK', e1, e2, e3, e4, e5, e6, e7, e8, e9, e10]
  · rw [h] at hne'
    simp [persistAction, persistBlocks, h, hne', hK, hK', e1, e2, e3, e4, e5, e6, e7, e8, e9, e10]
  · rw [h] at hne'
    simp [persistAction, persistBlocks, h, hne', hK, hK', e1, e2, e3, e4, e5, e6, e7, e8, e9, e10]
  · rw [h] at hne'
    simp [persistAction, persistBlocks, h, hne', hK, hK', e1, e2, e3, e4, e5, e6, e7, e8, e9, e10]
  · rw [h] at hne'
    simp [persistAction, persistBlocks, h, hne', hK, hK', e1, e2, e3, e4, e5, e6, e7, e8, e9, e10]
  · rw [h] at hne'
    simp [persistAction, persistBlocks, h, hne', hK, hK', e1, e2, e3, e4, e5, e6, e7, e8, e9, e10]
  · rw [h] at hne'
    simp [persistAction, persistBlocks, h, hne', hK, hK', e1, e2, e3, e4, e5, e6, e7, e8, e9, e10]
  · rw [h] at hne'
    simp [persistAction, persistBlocks, h, hne', hK, hK', e1, e2, e3, e4, e5, e6, e7, e8, e9, e10]
  · rw [h] at hne'
    simp [persistAction, persistBlocks, h, hne', hK, hK', e1, e2, e3, e4, e5, e6, e7, e8, e9, e10]
  · simp only [persistKinds, List.mem_cons, List.mem_singleton, not_or, List.not_mem_nil,
      not_false_eq_true, and_true] at h
    simp [persistAction, persistBlocks, h, hne, e1, e2, e3, e4, e5, e6, e7, e8, e9, e10]

theorem list_of_three {α : Type} (l : List α) (b c : α) (hl : l.length = 3)
    (hb : l[1]? = some b) (hc : l[2]? = some c) : ∃ a, l = [a, b, c] := by
  match l, hl, hb, hc with
  | [x, y, z], _, hy, hz =>
    simp only [List.getElem?_cons_succ, List.getElem?_cons_zero, Option.some.injEq] at hy hz
    exact ⟨x, by rw [hy, hz]⟩

theorem foldl_preserves {α β γ : Type} (f : β → α → β) (proj : β → γ)
    (h : ∀ b a, proj (f b a) = proj b) (l : List α) (b : β) :
    proj (l.foldl f b) = proj b := by
  induction l generalizing b with
  | nil => rfl
  | cons x xs ih => rw [List.foldl_cons, ih, h]

theorem profilePair_ite (c : Prop) [Decidable c] (a b : as3Service)
    (r : Option as3MultiTypeParam × Option as3MultiTypeParam)
    (ha : profilePair a = r) (hb : profilePair b = r) :
    profilePair (if c then a else b) = r := by
  split
  · exact ha
  · exact hb

theorem serviceClass_fst (K : Constants) (cfg : ResourceConfig) (svc : as3Service) :
    (serviceClass K cfg svc).1.Virtual.Name = cfg.Virtual.Name ∧
      (serviceClass K cfg svc).1.Virtual.HTTP2 = cfg.Virtual.HTTP2 ∧
      (serviceClass K cfg svc).1.Virtual.TCP = cfg.Virtual.TCP ∧
      (serviceClass K cfg svc).1.MetaData = cfg.MetaData := by
  unfold serviceClass
  split
  · exact ⟨rfl, rfl, rfl, rfl⟩
  · split <;> exact ⟨rfl, rfl, rfl, rfl⟩

theorem servicePassthrough_profilePair {F : Type} (K : Constants) (H : Helpers F)
    (cfg : ResourceConfig) (bigipAs3Version : F) (svc : as3Service) :
    profilePair (servicePassthrough K H cfg bigipAs3Version svc) = profilePair svc := by
  unfold servicePassthrough
  lift_lets
  intro s1 name mapKey s2
  have h1 : profilePair s1 = profilePair svc := profilePair_ite _ _ _ _ rfl rfl
  have h2 : profilePair s2 = profilePair svc := profilePair_ite _ _ _ _ h1 h1
  exact profilePair_ite _ _ _ _ h2 h1

theorem serviceHTTPProfileAndWAF_profilePair {F : Type} (H : Helpers F)
    (cfg : ResourceConfig) (svc : as3Service) :
    profilePair (serviceHTTPProfileAndWAF H cfg svc) = profilePair svc := by
  unfold serviceHTTPProfileAndWAF
  lift_lets
  intro s1
  have h1 : profilePair s1 = profilePair svc := by
    apply foldl_preserves
    intro b a
    lift_lets
    intro name
    exact profilePair_ite _ _ _ _ (profilePair_ite _ _ _ _ rfl rfl) rfl
  exact profilePair_ite _ _ _ _ h1 h1

theorem serviceVirtualAddresses_profilePair {F : Type} (H : Helpers F) (cfg : ResourceConfig)
    (svc : as3Service) (sharedApp : as3Application) :
    profilePair (serviceVirtualAddresses H cfg svc sharedApp).1 = profilePair svc := by
  unfold serviceVirtualAddresses
  lift_lets
  intro virtualAddress port va va2 sa s1 st
  have hst : profilePair st.1 = profilePair svc :=
    foldl_preserves _ (fun st : as3Service × as3Application => profilePair st.1)
      (by intro b a; rfl) cfg.Virtual.AdditionalVirtualAddresses (s1, sa.2)
  split
  · split
    · rfl
    · exact hst
  · rfl

theorem serviceTrailingProfiles_profilePair (cfg : ResourceConfig) (svc : as3Service) :
    profilePair (serviceTrailingProfiles cfg svc) = profilePair svc := by
  unfold serviceTrailingProfiles
  lift_lets
  intro s1 s2 s3
  have h1 : profilePair s1 = profilePair svc := by
    show profilePair (match cfg.Virtual.HttpMrfRoutingEnabled with
      | some enabled => { svc with HttpMrfRoutingEnabled := enabled }
      | none => svc) = profilePair svc
    split <;> rfl
  have h2 : profilePair s2 = profilePair svc := h1
  have h3 : profilePair s3 = profilePair svc := profilePair_ite _ _ _ _ h2 h2
  exact profilePair_ite _ _ _ _ h3 h3

theorem processIrulesForCRD_profilePair (K : Constants) (cfg : ResourceConfig)
    (svc : as3Service) :
    profilePair (processIrulesForCRD K cfg svc) = profilePair svc := by
  unfold processIrulesForCRD
  exact foldl_preserves _ (fun st : List as3MultiTypeParam × as3Service => profilePair st.2)
    (by intro b a; split <;> rfl) cfg.Virtual.IRules ([], svc)

theorem processCommonDecl_profilePair (K : Constants) (cfg : ResourceConfig)
    (svc : as3Service) :
    profilePair (processCommonDecl K cfg svc) = profilePair svc := by
  unfold processCommonDecl
  lift_lets
  intro s1 s2 s3 s4 s5 s6 s7 s8 s9 s10
  have h1 : profilePair s1 = profilePair svc := profilePair_ite _ _ _ _ rfl rfl
  have h2 : profilePair s2 = profilePair svc := profilePair_ite _ _ _ _ h1 h1
  have h3 : profilePair s3 = profilePair svc :=
    (foldl_preserves _ profilePair (by intro b a; rfl) cfg.Virtual.AllowVLANs s2).trans h2
  have h4 : profilePair s4 = profilePair svc := profilePair_ite _ _ _ _ h3 h3
  have h5 : profilePair s5 = profilePair svc := profilePair_ite _ _ _ _ h4 h4
  have h6 : profilePair s6 = profilePair svc := h5
  have h7 : profilePair s7 = profilePair svc :=
    profilePair_ite _ _ _ _ (profilePair_ite _ _ _ _ h6 h6) h5
  have h8 : profilePair s8 = profilePair svc :=
    (foldl_preserves _ profilePair (by intro b a; rfl) cfg.Virtual.LogProfiles s7).trans h7
  have h9 : profilePair s9 = profilePair svc := profilePair_ite _ _ _ _ h8 h8
  have h10 : profilePair s10 = profilePair svc :=
    profilePair_ite _ _ _ _ (profilePair_ite _ _ _ _ h9 h9) h8
  exact (processIrulesForCRD_profilePair K cfg s10).trans h10

theorem serviceProfileTCP_ProfileHTTP2 (cfg : ResourceConfig) (svc : as3Service) :
    (serviceProfileTCP cfg svc).ProfileHTTP2 = svc.ProfileHTTP2 := by
  unfold serviceProfileTCP
  split
  · lift_lets
    intro s1
    have h1 : s1.ProfileHTTP2 = svc.ProfileHTTP2 := by
      show (if _ then _ else _ : as3Service).ProfileHTTP2 = _
      split <;> rfl
    split
    · exact h1
    · exact h1
  · rfl

theorem createServiceDecl_stored {F : Type} (K : Constants) (H : Helpers F)
    (cfg : ResourceConfig) (sharedApp : as3Application) (tenant : String)
    (bigipAs3Version : F) :
    ∃ svc, lookup (createServiceDecl K H cfg sharedApp tenant bigipAs3Version).2
        cfg.Virtual.Name = some (AS3Value.service svc) ∧
      profilePair svc =
        profilePair (serviceProfileTCP (serviceClass K cfg
            (serviceDefaultPool K cfg tenant (servicePolicyEndpoint cfg tenant {}))).1
          (serviceProfileHTTP2 (serviceClass K cfg
              (serviceDefaultPool K cfg tenant (servicePolicyEndpoint cfg tenant {}))).1
            (serviceSecurityProfiles (serviceClass K cfg
                (serviceDefaultPool K cfg tenant (servicePolicyEndpoint cfg tenant {}))).1
              (H.addPersistenceMethod
                (serviceClass K cfg
                  (serviceDefaultPool K cfg tenant (servicePolicyEndpoint cfg tenant {}))).2
                (serviceClass K cfg
                  (serviceDefaultPool K cfg tenant
                    (servicePolicyEndpoint cfg tenant {}))).1.Virtual.PersistenceProfile)))) := by
  refine ⟨processCommonDecl K (serviceBeforeCommon K H cfg sharedApp tenant bigipAs3Version).1
    (serviceBeforeCommon K H cfg sharedApp tenant bigipAs3Version).2.1, ?_, ?_⟩
  · have hname : (serviceBeforeCommon K H cfg sharedApp tenant bigipAs3Version).1.Virtual.Name =
        cfg.Virtual.Name := (serviceClass_fst K cfg _).1
    show lookup (store _ (serviceBeforeCommon K H cfg sharedApp tenant
      bigipAs3Version).1.Virtual.Name _) _ = _
    rw [hname, lookup_store_self]
  · rw [processCommonDecl_profilePair]
    show profilePair (serviceTrailingProfiles _ (serviceVirtualAddresses H _ _ _).1) = _
    rw [serviceTrailingProfiles_profilePair, serviceVirtualAddresses_profilePair,
      serviceHTTPProfileAndWAF_profilePair, servicePassthrough_profilePair]

theorem length_pos_iff_ne_empty (s : String) : s.length > 0 ↔ s ≠ "" := by
  constructor
  · intro h e
    rw [e] at h
    exact absurd h (by decide)
  · intro h
    cases hs : s.data with
    | nil => exact absurd (String.ext hs) h
    | cons c cs =>
      show s.data.length > 0
      rw [hs]
      exact Nat.succ_pos _

theorem serviceProfileHTTP2_value (cfg : ResourceConfig) (svc : as3Service)
    (hhttps : cfg.MetaData.Protocol = "https") :
    (cfg.Virtual.HTTP2.Client ≠ "" → cfg.Virtual.HTTP2.Server ≠ "" →
      (serviceProfileHTTP2 cfg svc).ProfileHTTP2 = some (as3MultiTypeParam.profileHTTP2
        { Ingress := some { BigIP := cfg.Virtual.HTTP2.Client, Use := "" },
          Egress := some { BigIP := cfg.Virtual.HTTP2.Server, Use := "" } })) ∧
    (cfg.Virtual.HTTP2.Client ≠ "" → cfg.Virtual.HTTP2.Server = "" →
      (serviceProfileHTTP2 cfg svc).ProfileHTTP2 = some (as3MultiTypeParam.pointer
        { BigIP := cfg.Virtual.HTTP2.Client, Use := "" })) ∧
    (cfg.Virtual.HTTP2.Client = "" → cfg.Virtual.HTTP2.Server ≠ "" →
      (serviceProfileHTTP2 cfg svc).ProfileHTTP2 = some (as3MultiTypeParam.profileHTTP2
        { Egress := some { BigIP := cfg.Virtual.HTTP2.Server, Use := "" } })) := by
  unfold serviceProfileHTTP2
  simp only [hhttps, if_true, length_pos_iff_ne_empty]
  refine ⟨?_, ?_, ?_⟩
  · intro hc hs
    simp [hc, hs]
  · intro hc hs
    simp [hc, hs]
  · intro hc hs
    simp [hc, hs]

theorem serviceProfileTCP_value (cfg : ResourceConfig) (svc : as3Service) :
    (cfg.Virtual.TCP.Client ≠ "" → cfg.Virtual.TCP.Server ≠ "" →
      (serviceProfileTCP cfg svc).ProfileTCP = some (as3MultiTypeParam.profileTCP
        { Ingress := some { BigIP := cfg.Virtual.TCP.Client, Use := "" },
          Egress := some { BigIP := cfg.Virtual.TCP.Server, Use := "" } })) ∧
    (cfg.Virtual.TCP.Client ≠ "" → cfg.Virtual.TCP.Server = "" →
      (serviceProfileTCP cfg svc).ProfileTCP = some (as3MultiTypeParam.pointer
        { BigIP := cfg.Virtual.TCP.Client, Use := "" })) ∧
    (cfg.Virtual.TCP.Client = "" →
      (serviceProfileTCP cfg svc).ProfileTCP = svc.ProfileTCP) := by
  unfold serviceProfileTCP
  simp only [length_pos_iff_ne_empty]
  refine ⟨?_, ?_, ?_⟩
  · intro hc hs
    simp [hc, hs]
  · intro hc hs
    simp [hc, hs]
  · intro hc
    by_cases hs : cfg.Virtual.TCP.Server = "" <;> simp [hc, hs]

theorem serviceProfileHTTP2_ProfileTCP (cfg : ResourceConfig) (svc : as3Service) :
    (serviceProfileHTTP2 cfg svc).ProfileTCP = svc.ProfileTCP := by
  unfold serviceProfileHTTP2
  split
  · split
    · lift_lets
      intro s1 s2
      have h1 : s1.ProfileTCP = svc.ProfileTCP := by
        show (if _ then _ else _ : as3Service).ProfileTCP = _
        split <;> rfl
      have h2 : s2.ProfileTCP = svc.ProfileTCP := by
        show (if _ then _ else _ : as3Service).ProfileTCP = _
        split
        · exact h1
        · exact h1
      split
      · exact h2
      · exact h2
    · rfl
  · rfl

theorem serviceSecurityProfiles_ProfileTCP (cfg : ResourceConfig) (svc : as3Service) :
    (serviceSecurityProfiles cfg svc).ProfileTCP = svc.ProfileTCP := by
  unfold serviceSecurityProfiles
  lift_lets
  intro s1 s2 s3
  have h1 : s1.ProfileTCP = svc.ProfileTCP := by
    show (if _ then _ else _ : as3Service).ProfileTCP = _
    split <;> rfl
  have h2 : s2.ProfileTCP = svc.ProfileTCP := by
    show (if _ then _ else _ : as3Service).ProfileTCP = _
    split
    · exact h1
    · exact h1
  have h3 : s3.ProfileTCP = svc.ProfileTCP := by
    show (if _ then _ else _ : as3Service).ProfileTCP = _
    split
    · exact h2
    · exact h2
  split
  · split
    · exact h3
    · exact h3
  · exact h3

theorem serviceClass_ProfileTCP (K : Constants) (cfg : ResourceConfig) (tenant : String) :
    (serviceClass K cfg
      (serviceDefaultPool K cfg tenant (servicePolicyEndpoint cfg tenant {}))).2.ProfileTCP =
      none := by
  have h1 : (servicePolicyEndpoint cfg tenant {}).ProfileTCP = none := by
    unfold servicePolicyEndpoint
    split <;> rfl
  have h2 : (serviceDefaultPool K cfg tenant (servicePolicyEndpoint cfg tenant {})).ProfileTCP =
      none := by
    unfold serviceDefaultPool
    split
    · split
      · exact h1
      · exact h1
    · exact h1
  unfold serviceClass
  split
  · exact h2
  · exact h2

theorem createPool_none (K : Constants) (shareNodes : Bool) (tenant poolMemberType : String)
    (sharedApp : as3Application) (v : Pool)
    (h : poolOrAbsent (lookup sharedApp v.Name) = false) :
    createPool K shareNodes tenant poolMemberType sharedApp v = none := by
  unfold createPool
  cases hl : lookup sharedApp v.Name with
  | none => simp [hl, poolOrAbsent] at h
  | some x =>
    rw [hl] at h
    cases x <;> first | rfl | simp [poolOrAbsent] at h

theorem createPool_lookup_ne (K : Constants) (shareNodes : Bool)
    (tenant poolMemberType : String) (sharedApp app : as3Application) (v : Pool)
    (name : String) (h : createPool K shareNodes tenant poolMemberType sharedApp v = some app)
    (hne : name ≠ v.Name) : lookup app name = lookup sharedApp name := by
  cases hp : poolOrAbsent (lookup sharedApp v.Name) with
  | false =>
    rw [createPool_none K shareNodes tenant poolMemberType sharedApp v hp] at h
    exact absurd h (by simp)
  | true =>
    rw [createPool_eq K shareNodes tenant poolMemberType sharedApp v hp] at h
    rw [← Option.some.inj h, lookup_store_ne _ _ _ _ hne]

theorem foldlM_createPool_none (K : Constants) (shareNodes : Bool)
    (tenant poolMemberType : String) (pools : List Pool) (sharedApp : as3Application)
    (v : Pool) (hv : v ∈ pools) (h : poolOrAbsent (lookup sharedApp v.Name) = false) :
    pools.foldlM (createPool K shareNodes tenant poolMemberType) sharedApp = none := by
  induction pools generalizing sharedApp with
  | nil => exact absurd hv (List.not_mem_nil _)
  | cons p pools ih =>
    rw [List.foldlM_cons]
    cases hp : createPool K shareNodes tenant poolMemberType sharedApp p with
    | none => rfl
    | some app =>
      have hne : v.Name ≠ p.Name := by
        intro he
        rw [he] at h
        rw [createPool_none K shareNodes tenant poolMemberType sharedApp p h] at hp
        exact absurd hp (by simp)
      have hvp : v ∈ pools := by
        rcases List.mem_cons.mp hv with hvp | hvp
        · exact absurd (congrArg Pool.Name hvp) hne
        · exact hvp
      show pools.foldlM (createPool K shareNodes tenant poolMemberType) app = none
      apply ih app hvp
      rw [createPool_lookup_ne K shareNodes tenant poolMemberType sharedApp app p v.Name hp hne]
      exact h

theorem length_eq_zero_iff_empty (s : String) : s.length = 0 ↔ s = "" := by
  constructor
  · intro h
    by_contra hne
    have := (length_pos_iff_ne_empty s).mpr hne
    omega
  · intro h
    rw [h]
    rfl

theorem createServiceDecl_fst {F : Type} (K : Constants) (H : Helpers F)
    (cfg : ResourceConfig) (sharedApp : as3Application) (tenant : String)
    (bigipAs3Version : F) :
    (createServiceDecl K H cfg sharedApp tenant bigipAs3Version).1 =
      (serviceClass K cfg
        (serviceDefaultPool K cfg tenant (servicePolicyEndpoint cfg tenant {}))).1 := rfl

theorem serviceClass_config (K : Constants) (cfg : ResourceConfig) (svc : as3Service) :
    (serviceClass K cfg svc).1 =
      if cfg.Virtual.TLSTermination = K.TLSPassthrough ∧ cfg.Virtual.PersistenceProfile = ""
      then { cfg with Virtual := { cfg.Virtual with PersistenceProfile := "tls-session-id" } }
      else cfg := by
  unfold serviceClass
  by_cases ht : cfg.Virtual.TLSTermination = K.TLSPassthrough
  · by_cases hp : cfg.Virtual.PersistenceProfile = ""
    · simp [ht, hp]
    · have hl : ¬ cfg.Virtual.PersistenceProfile.length = 0 :=
        fun h => hp ((length_eq_zero_iff_empty _).mp h)
      simp [ht, hp, hl]
  · simp [ht]

theorem classPair_ite (c : Prop) [Decidable c] (a b : as3Service)
    (r : String × Option as3MultiTypeParam)
    (ha : classPair a = r) (hb : classPair b = r) :
    classPair (if c then a else b) = r := by
  split
  · exact ha
  · exact hb

theorem serviceClass_fst_dg (K : Constants) (cfg : ResourceConfig) (svc : as3Service) :
    (serviceClass K cfg svc).1.IntDgMap = cfg.IntDgMap ∧
      (serviceClass K cfg svc).1.Virtual.Partition = cfg.Virtual.Partition := by
  unfold serviceClass
  split
  · exact ⟨rfl, rfl⟩
  · split <;> exact ⟨rfl, rfl⟩

theorem serviceClass_classPair (K : Constants) (cfg : ResourceConfig) (tenant : String) :
    classPair (serviceClass K cfg
      (serviceDefaultPool K cfg tenant (servicePolicyEndpoint cfg tenant {}))).2 =
      (if cfg.Virtual.TLSTermination = K.TLSPassthrough then "Service_TCP" else "Service_HTTP",
        none) := by
  have h1 : (servicePolicyEndpoint cfg tenant {}).ServerTLS = none := by
    unfold servicePolicyEndpoint
    split <;> rfl
  have h2 : (serviceDefaultPool K cfg tenant (servicePolicyEndpoint cfg tenant {})).ServerTLS =
      none := by
    unfold serviceDefaultPool
    split
    · split
      · exact h1
      · exact h1
    · exact h1
  unfold serviceClass
  by_cases ht : cfg.Virtual.TLSTermination = K.TLSPassthrough
  · rw [if_neg (not_not.mpr ht), if_pos ht]
    exact Prod.ext rfl h2
  · rw [if_pos ht, if_neg ht]
    exact Prod.ext rfl h2

theorem serviceSecurityProfiles_classPair (cfg : ResourceConfig) (svc : as3Service) :
    classPair (serviceSecurityProfiles cfg svc) = classPair svc := by
  unfold serviceSecurityProfiles
  lift_lets
  intro s1 s2 s3
  have h1 : classPair s1 = classPair svc := classPair_ite _ _ _ _ rfl rfl
  have h2 : classPair s2 = classPair svc := classPair_ite _ _ _ _ h1 h1
  have h3 : classPair s3 = classPair svc := classPair_ite _ _ _ _ h2 h2
  exact classPair_ite _ _ _ _ (classPair_ite _ _ _ _ h3 h3) h3

theorem serviceProfileHTTP2_classPair (cfg : ResourceConfig) (svc : as3Service) :
    classPair (serviceProfileHTTP2 cfg svc) = classPair svc := by
  unfold serviceProfileHTTP2
  lift_lets
  intro s1 s2
  have h1 : classPair s1 = classPair svc := classPair_ite _ _ _ _ rfl rfl
  have h2 : classPair s2 = classPair svc := classPair_ite _ _ _ _ h1 h1
  exact classPair_ite _ _ _ _
    (classPair_ite _ _ _ _ (classPair_ite _ _ _ _ h2 h2) rfl) rfl

theorem serviceProfileTCP_classPair (cfg : ResourceConfig) (svc : as3Service) :
    classPair (serviceProfileTCP cfg svc) = classPair svc := by
  unfold serviceProfileTCP
  lift_lets
  intro s1
  have h1 : classPair s1 = classPair svc := classPair_ite _ _ _ _ rfl rfl
  exact classPair_ite _ _ _ _ (classPair_ite _ _ _ _ h1 h1) rfl

theorem servicePassthrough_classPair {F : Type} (K : Constants) (H : Helpers F)
    (cfg : ResourceConfig) (bigipAs3Version : F) (svc : as3Service) :
    classPair (servicePassthrough K H cfg bigipAs3Version svc) =
      if passthroughHostsKey K H cfg ∈ cfg.IntDgMap.map Prod.fst then
        ("Service_HTTPS",
          if H.below352 bigipAs3Version = true then
            some (as3MultiTypeParam.pointer { BigIP := "/Common/clientssl", Use := "" })
          else svc.ServerTLS)
      else classPair svc := by
  unfold servicePassthrough
  lift_lets
  intro s1 name mapKey s2
  have h1 : classPair s1 = classPair svc := classPair_ite _ _ _ _ rfl rfl
  have hany : (cfg.IntDgMap.any (fun e => decide (e.1 = mapKey)) = true) ↔
      passthroughHostsKey K H cfg ∈ cfg.IntDgMap.map Prod.fst := by
    simp only [List.any_eq_true, decide_eq_true_eq, List.mem_map]
    constructor
    · rintro ⟨e, he, hk⟩
      exact ⟨e, he, hk⟩
    · rintro ⟨e, he, hk⟩
      exact ⟨e, he, hk⟩
  by_cases hp : passthroughHostsKey K H cfg ∈ cfg.IntDgMap.map Prod.fst
  · rw [if_pos (hany.mpr hp), if_pos hp]
    have hs1 : s1.ServerTLS = svc.ServerTLS := congrArg Prod.snd h1
    by_cases hv : H.below352 bigipAs3Version = true
    · have hs2 : s2 = { s1 with
          ServerTLS := some (as3MultiTypeParam.pointer
            { BigIP := "/Common/clientssl", Use := "" }) } := if_pos hv
      rw [if_pos hv, hs2]
      rfl
    · have hs2 : s2 = s1 := if_neg hv
      rw [if_neg hv, hs2]
      exact Prod.ext rfl hs1
  · rw [if_neg (fun h => hp (hany.mp h)), if_neg hp]
    exact h1

theorem serviceHTTPProfileAndWAF_classPair {F : Type} (H : Helpers F)
    (cfg : ResourceConfig) (svc : as3Service) :
    classPair (serviceHTTPProfileAndWAF H cfg svc) = classPair svc := by
  unfold serviceHTTPProfileAndWAF
  lift_lets
  intro s1
  have h1 : classPair s1 = classPair svc := by
    apply foldl_preserves
    intro b a
    lift_lets
    intro name
    exact classPair_ite _ _ _ _ (classPair_ite _ _ _ _ rfl rfl) rfl
  exact classPair_ite _ _ _ _ h1 h1

theorem serviceVirtualAddresses_classPair {F : Type} (H : Helpers F) (cfg : ResourceConfig)
    (svc : as3Service) (sharedApp : as3Application) :
    classPair (serviceVirtualAddresses H cfg svc sharedApp).1 = classPair svc := by
  unfold serviceVirtualAddresses
  lift_lets
  intro virtualAddress port va va2 sa s1 st
  have hst : classPair st.1 = classPair svc :=
    foldl_preserves _ (fun st : as3Service × as3Application => classPair st.1)
      (by intro b a; rfl) cfg.Virtual.AdditionalVirtualAddresses (s1, sa.2)
  split
  · split
    · rfl
    · exact hst
  · rfl

theorem serviceTrailingProfiles_classPair (cfg : ResourceConfig) (svc : as3Service) :
    classPair (serviceTrailingProfiles cfg svc) = classPair svc := by
  unfold serviceTrailingProfiles
  lift_lets
  intro s1 s2 s3
  have h1 : classPair s1 = classPair svc := by
    show classPair (match cfg.Virtual.HttpMrfRoutingEnabled with
      | some enabled => { svc with HttpMrfRoutingEnabled := enabled }
      | none => svc) = classPair svc
    split <;> rfl
  have h2 : classPair s2 = classPair svc := h1
  have h3 : classPair s3 = classPair svc := classPair_ite _ _ _ _ h2 h2
  exact classPair_ite _ _ _ _ h3 h3

theorem processIrulesForCRD_classPair (K : Constants) (cfg : ResourceConfig)
    (svc : as3Service) :
    classPair (processIrulesForCRD K cfg svc) = classPair svc := by
  unfold processIrulesForCRD
  exact foldl_preserves _ (fun st : List as3MultiTypeParam × as3Service => classPair st.2)
    (by intro b a; split <;> rfl) cfg.Virtual.IRules ([], svc)

theorem processCommonDecl_classPair (K : Constants) (cfg : ResourceConfig)
    (svc : as3Service) :
    classPair (processCommonDecl K cfg svc) = classPair svc := by
  unfold processCommonDecl
  lift_lets
  intro s1 s2 s3 s4 s5 s6 s7 s8 s9 s10
  have h1 : classPair s1 = classPair svc := classPair_ite _ _ _ _ rfl rfl
  have h2 : classPair s2 = classPair svc := classPair_ite _ _ _ _ h1 h1
  have h3 : classPair s3 = classPair svc :=
    (foldl_preserves _ classPair (by intro b a; rfl) cfg.Virtual.AllowVLANs s2).trans h2
  have h4 : classPair s4 = classPair svc := classPair_ite _ _ _ _ h3 h3
  have h5 : classPair s5 = classPair svc := classPair_ite _ _ _ _ h4 h4
  have h6 : classPair s6 = classPair svc := h5
  have h7 : classPair s7 = classPair svc :=
    classPair_ite _ _ _ _ (classPair_ite _ _ _ _ h6 h6) h5
  have h8 : classPair s8 = classPair svc :=
    (foldl_preserves _ classPair (by intro b a; rfl) cfg.Virtual.LogProfiles s7).trans h7
  have h9 : classPair s9 = classPair svc := classPair_ite _ _ _ _ h8 h8
  have h10 : classPair s10 = classPair svc :=
    classPair_ite _ _ _ _ (classPair_ite _ _ _ _ h9 h9) h8
  exact (processIrulesForCRD_classPair K cfg s10).trans h10

theorem passthroughHostsKey_serviceClass {F : Type} (K : Constants) (H : Helpers F)
    (cfg : ResourceConfig) (svc : as3Service) :
    passthroughHostsKey K H (serviceClass K cfg svc).1 ∈
        (serviceClass K cfg svc).1.IntDgMap.map Prod.fst ↔
      passthroughHostsKey K H cfg ∈ cfg.IntDgMap.map Prod.fst := by
  unfold passthroughHostsKey
  rw [(serviceClass_fst_dg K cfg svc).1, (serviceClass_fst_dg K cfg svc).2,
    (serviceClass_fst K cfg svc).1]

theorem createServiceDecl_classPair {F : Type} (K : Constants) (H : Helpers F)
    (cfg : ResourceConfig) (sharedApp : as3Application) (tenant : String)
    (bigipAs3Version : F)
    (hpersist : ∀ svc profile, classPair (H.addPersistenceMethod svc profile) = classPair svc) :
    ∃ svc, lookup (createServiceDecl K H cfg sharedApp tenant bigipAs3Version).2
        cfg.Virtual.Name = some (AS3Value.service svc) ∧
      classPair svc =
        if passthroughHostsKey K H cfg ∈ cfg.IntDgMap.map Prod.fst then
          ("Service_HTTPS",
            if H.below352 bigipAs3Version = true then
              some (as3MultiTypeParam.pointer { BigIP := "/Common/clientssl", Use := "" })
            else none)
        else
          (if cfg.Virtual.TLSTermination = K.TLSPassthrough then "Service_TCP"
            else "Service_HTTP", none) := by
  refine ⟨processCommonDecl K (serviceBeforeCommon K H cfg sharedApp tenant bigipAs3Version).1
    (serviceBeforeCommon K H cfg sharedApp tenant bigipAs3Version).2.1, ?_, ?_⟩
  · have hname : (serviceBeforeCommon K H cfg sharedApp tenant bigipAs3Version).1.Virtual.Name =
        cfg.Virtual.Name := (serviceClass_fst K cfg _).1
    show lookup (store _ (serviceBeforeCommon K H cfg sharedApp tenant
      bigipAs3Version).1.Virtual.Name _) _ = _
    rw [hname, lookup_store_self]
  · rw [processCommonDecl_classPair]
    show classPair (serviceTrailingProfiles _ (serviceVirtualAddresses H _ _ _).1) = _
    rw [serviceTrailingProfiles_classPair, serviceVirtualAddresses_classPair,
      serviceHTTPProfileAndWAF_classPair, servicePassthrough_classPair]
    have hkey := passthroughHostsKey_serviceClass K H cfg
      (serviceDefaultPool K cfg tenant (servicePolicyEndpoint cfg tenant {}))
    have hbase : classPair (serviceProfileTCP (serviceClass K cfg
            (serviceDefaultPool K cfg tenant (servicePolicyEndpoint cfg tenant {}))).1
          (serviceProfileHTTP2 (serviceClass K cfg
              (serviceDefaultPool K cfg tenant (servicePolicyEndpoint cfg tenant {}))).1
            (serviceSecurityProfiles (serviceClass K cfg
                (serviceDefaultPool K cfg tenant (servicePolicyEndpoint cfg tenant {}))).1
              (H.addPersistenceMethod
                (serviceClass K cfg
                  (serviceDefaultPool K cfg tenant (servicePolicyEndpoint cfg tenant {}))).2
                (serviceClass K cfg
                  (serviceDefaultPool K cfg tenant
                    (servicePolicyEndpoint cfg tenant {}))).1.Virtual.PersistenceProfile)))) =
        (if cfg.Virtual.TLSTermination = K.TLSPassthrough then "Service_TCP"
          else "Service_HTTP", none) := by
      rw [serviceProfileTCP_classPair, serviceProfileHTTP2_classPair,
        serviceSecurityProfiles_classPair, hpersist, serviceClass_classPair]
    by_cases hp : passthroughHostsKey K H cfg ∈ cfg.IntDgMap.map Prod.fst
    · rw [if_pos (hkey.mpr hp), if_pos hp]
      have hs := congrArg Prod.snd hbase
      simp only [classPair] at hs
      rw [hs]
    · rw [if_neg (fun h => hp (hkey.mp h)), if_neg hp]
      exact hbase

theorem sameKeys_map (R : JSON → JSON → Prop) (f : JSON → JSON) (h : ∀ v, R v (f v))
    (m : JMap) : sameKeys R m (m.map (fun e => (e.1, f e.2))) := by
  intro k
  rw [mapIndex_map_values]
  cases hk : mapIndex m k with
  | none => exact Or.inl ⟨rfl, rfl⟩
  | some v => exact Or.inr ⟨v, f v, rfl, rfl, h v⟩

theorem certificateBlanked_redactCertificate (obj : JSON) :
    certificateBlanked obj (redactCertificate obj) := by
  constructor
  · intro crt hobj hclass
    subst hobj
    refine ⟨mapAssign (mapAssign (mapAssign crt "certificate" (JSON.str ""))
      "privateKey" (JSON.str "")) "chainCA" (JSON.str ""), ?_, ?_⟩
    · simp [redactCertificate, asMap, hclass, asString]
    · intro field
      by_cases h3 : field = "chainCA"
      · subst h3
        simp [mapIndex_mapAssign_self]
      · rw [mapIndex_mapAssign_ne _ _ _ _ h3]
        by_cases h2 : field = "privateKey"
        · subst h2
          simp [mapIndex_mapAssign_self]
        · rw [mapIndex_mapAssign_ne _ _ _ _ h2]
          by_cases h1 : field = "certificate"
          · subst h1
            simp [mapIndex_mapAssign_self]
          · rw [mapIndex_mapAssign_ne _ _ _ _ h1]
            simp [h1, h2, h3]
  · intro hno
    cases obj with
    | obj crt =>
      have hclass : asString (mapIndex crt "class") ≠ some "Certificate" := by
        intro h
        apply hno crt rfl
        cases hc : mapIndex crt "class" with
        | none => simp [hc, asString] at h
        | some c =>
          rw [hc] at h
          cases c <;> simp [asString] at h
          rw [h]
      simp [redactCertificate, asMap, hclass]
    | _ => rfl

theorem applicationBlanked_redactApplication (value : JSON) :
    applicationBlanked value (redactApplication value) := by
  constructor
  · intro appMap hvalue
    subst hvalue
    exact ⟨_, rfl, sameKeys_map _ _ certificateBlanked_redactCertificate appMap⟩
  · intro hno
    cases value with
    | obj appMap => exact absurd rfl (hno appMap)
    | _ => rfl

theorem tenantBlanked_redactTenant (value : JSON) :
    tenantBlanked value (redactTenant value) := by
  constructor
  · intro tenantMap hvalue
    subst hvalue
    exact ⟨_, rfl, sameKeys_map _ _ applicationBlanked_redactApplication tenantMap⟩
  · intro hno
    cases value with
    | obj tenantMap => exact absurd rfl (hno tenantMap)
    | _ => rfl

theorem removeDeletedTenants_keep (cisLabel partition : String) (as3Config : JMap)
    (rsConfig : ResourceConfigRequest) (k : String) (c : PartitionConfig)
    (h : lookup rsConfig.ltmConfig k = some c) :
    lookup (removeDeletedTenantsForBigIP as3Config rsConfig cisLabel partition).ltmConfig k =
      some c := by
  unfold removeDeletedTenantsForBigIP
  induction as3Config generalizing rsConfig with
  | nil => exact h
  | cons e rest ih =>
    rw [List.foldl_cons]
    apply ih
    split
    · split
      · split
        · rename_i hnone
          have hne : k ≠ e.1 := by
            intro he
            rw [he] at h
            rw [h] at hnone
            simp at hnone
          show lookup (store _ _ _) k = _
          rw [lookup_store_ne _ _ _ _ hne]
          exact h
        · exact h
      · exact h
    · exact h

theorem removeDeletedTenants_none (cisLabel partition : String) (as3Config : JMap)
    (rsConfig : ResourceConfigRequest) (k : String)
    (h : lookup rsConfig.ltmConfig k = none)
    (hno : ∀ e ∈ as3Config, e.1 = k →
      ¬ ((∃ decl, e.2 = JSON.obj decl ∧ mapIndex decl "label" = some (JSON.str cisLabel)) ∧
        k ≠ partition ++ "_gtm")) :
    lookup (removeDeletedTenantsForBigIP as3Config rsConfig cisLabel partition).ltmConfig k =
      none := by
  unfold removeDeletedTenantsForBigIP
  induction as3Config generalizing rsConfig with
  | nil => exact h
  | cons e rest ih =>
    rw [List.foldl_cons]
    apply ih
    · split
      · rename_i decl hdecl
        split
        · rename_i hcond
          split
          · have hne : k ≠ e.1 := by
              intro he
              apply hno e (List.mem_cons_self _ _) he.symm
              refine ⟨⟨decl, Option.some.inj (asMap_eq_some hdecl), ?_⟩, he ▸ hcond.2⟩
              cases hl : mapIndex decl "label" with
              | none => simp [hl, asString] at hcond
              | some l =>
                have h1 := hcond.1
                rw [hl] at h1
                cases l <;> simp [asString] at h1
                rw [h1]
            show lookup (store _ _ _) k = _
            rw [lookup_store_ne _ _ _ _ hne]
            exact h
          · exact h
        · exact h
      · exact h
    · intro e' he'
      exact hno e' (List.mem_cons_of_mem _ he')

theorem removeDeletedTenants_add (cisLabel partition : String) (as3Config : JMap)
    (rsConfig : ResourceConfigRequest) (k : String)
    (h : lookup rsConfig.ltmConfig k = none)
    (hyes : ∃ e ∈ as3Config, e.1 = k ∧
      ∃ decl, e.2 = JSON.obj decl ∧ mapIndex decl "label" = some (JSON.str cisLabel))
    (hgtm : k ≠ partition ++ "_gtm") :
    lookup (removeDeletedTenantsForBigIP as3Config rsConfig cisLabel partition).ltmConfig k =
      some { ResourceMap := [], Priority := 1 } := by
  induction as3Config generalizing rsConfig with
  | nil =>
    obtain ⟨e, he, _⟩ := hyes
    exact absurd he (List.not_mem_nil _)
  | cons e rest ih =>
    have hstep : removeDeletedTenantsForBigIP (e :: rest) rsConfig cisLabel partition =
        removeDeletedTenantsForBigIP rest
          (removeDeletedTenantsForBigIP [e] rsConfig cisLabel partition) cisLabel partition :=
      rfl
    rw [hstep]
    by_cases hadd : e.1 = k ∧
        ∃ decl, e.2 = JSON.obj decl ∧ mapIndex decl "label" = some (JSON.str cisLabel)
    · obtain ⟨hk, decl, hdecl, hlabel⟩ := hadd
      apply removeDeletedTenants_keep
      simp only [removeDeletedTenantsForBigIP, List.foldl_cons, List.foldl_nil, hdecl, asMap,
        hlabel, asString, hk, h, Option.isNone_none]
      simp [hgtm, lookup_store_self]
    · apply ih
      · apply removeDeletedTenants_none
        · exact h
        · intro e' he' hk' hcond
          rw [List.mem_singleton] at he'
          subst he'
          exact hadd ⟨hk', hcond.1⟩
      · obtain ⟨e', he', hk', hcond⟩ := hyes
        rcases List.mem_cons.mp he' with heq | hrest
        · subst heq
          exact absurd ⟨hk', hcond⟩ hadd
        · exact ⟨e', hrest, hk', hcond⟩

theorem mapIndex_mem (m : JMap) (k : String) (v : JSON) (h : mapIndex m k = some v) :
    (k, v) ∈ m := by
  induction m with
  | nil => simp [mapIndex] at h
  | cons e rest ih =>
    obtain ⟨k', v'⟩ := e
    by_cases hk : k' = k
    · simp only [mapIndex, hk, if_true, Option.some.injEq] at h
      rw [hk, h]
      exact List.mem_cons_self _ _
    · simp only [mapIndex, hk, if_false] at h
      exact List.mem_cons_of_mem _ (ih h)

theorem mapIndex_of_mem_nodup (m : JMap) (k : String) (v : JSON) (hnd : (keys m).Nodup)
    (h : (k, v) ∈ m) : mapIndex m k = some v := by
  induction m with
  | nil => exact absurd h (List.not_mem_nil _)
  | cons e rest ih =>
    obtain ⟨k', v'⟩ := e
    have hnd' : k' ∉ keys rest ∧ (keys rest).Nodup := List.nodup_cons.mp hnd
    rcases List.mem_cons.mp h with heq | hrest
    · simp only [Prod.mk.injEq] at heq
      simp [mapIndex, heq.1, heq.2]
    · have hne : k' ≠ k := by
        intro he
        apply hnd'.1
        rw [he]
        exact List.mem_map.mpr ⟨(k, v), hrest, rfl⟩
      simp only [mapIndex, hne, if_false]
      exact ih hnd'.2 hrest

theorem removeDeletedTenants_fields (cisLabel partition : String) (as3Config : JMap)
    (rsConfig : ResourceConfigRequest) (ltmConfig : List (String × PartitionConfig)) :
    { removeDeletedTenantsForBigIP as3Config rsConfig cisLabel partition with
        ltmConfig := ltmConfig } = { rsConfig with ltmConfig := ltmConfig } := by
  unfold removeDeletedTenantsForBigIP
  induction as3Config generalizing rsConfig with
  | nil => rfl
  | cons e rest ih =>
    rw [List.foldl_cons, ih]
    split
    · split
      · split <;> rfl
      · rfl
    · rfl

theorem removeDeletedTenants_other_fields (cisLabel partition : String) (as3Config : JMap)
    (rsConfig : ResourceConfigRequest) :
    { removeDeletedTenantsForBigIP as3Config rsConfig cisLabel partition with
        ltmConfig := rsConfig.ltmConfig } = rsConfig :=
  removeDeletedTenants_fields cisLabel partition as3Config rsConfig rsConfig.ltmConfig

theorem insertFromRight_perm {α : Type} (less : α → α → Bool) (x : α) (l : List α) :
    (insertFromRight less x l).Perm (x :: l) := by
  induction l with
  | nil => exact List.Perm.refl _
  | cons y ys ih =>
    unfold insertFromRight
    split
    · exact (List.Perm.cons y ih).trans (List.Perm.swap x y ys)
    · exact List.Perm.refl _

theorem foldl_insertFromRight_perm {α : Type} (less : α → α → Bool) (l sorted : List α) :
    (l.foldl (fun sorted x => insertFromRight less x sorted) sorted).Perm (l.reverse ++ sorted) := by
  induction l generalizing sorted with
  | nil => exact List.Perm.refl _
  | cons x xs ih =>
    rw [List.foldl_cons, List.reverse_cons, List.append_assoc]
    exact (ih _).trans (List.Perm.append_left _ (insertFromRight_perm less x sorted))

theorem insertionSort_perm {α : Type} (l : List α) (less : α → α → Bool) :
    (insertionSort l less).Perm l := by
  unfold insertionSort
  have h := foldl_insertFromRight_perm less l []
  rw [List.append_nil] at h
  exact (List.reverse_perm _).trans (h.trans (List.reverse_perm l))

theorem insertFromRight_map {α : Type} (less : α → α → Bool) (f : α → α)
    (hless : ∀ a b, less (f a) (f b) = less a b) (x : α) (l : List α) :
    insertFromRight less (f x) (l.map f) = (insertFromRight less x l).map f := by
  induction l with
  | nil => rfl
  | cons y ys ih =>
    simp only [List.map_cons, insertFromRight, hless]
    split
    · rw [List.map_cons, ih]
    · rfl

theorem foldl_insertFromRight_map {α : Type} (less : α → α → Bool) (f : α → α)
    (hless : ∀ a b, less (f a) (f b) = less a b) (l sorted : List α) :
    (l.map f).foldl (fun sorted x => insertFromRight less x sorted) (sorted.map f) =
      (l.foldl (fun sorted x => insertFromRight less x sorted) sorted).map f := by
  induction l generalizing sorted with
  | nil => rfl
  | cons x xs ih =>
    rw [List.map_cons, List.foldl_cons, List.foldl_cons, insertFromRight_map less f hless, ih]

theorem insertionSort_map {α : Type} (less : α → α → Bool) (f : α → α)
    (hless : ∀ a b, less (f a) (f b) = less a b) (l : List α) :
    insertionSort (l.map f) less = (insertionSort l less).map f := by
  unfold insertionSort
  have h := foldl_insertFromRight_map less f hless l []
  rw [List.map_nil] at h
  rw [h, List.map_reverse]

theorem sortRecords_perm (records : List as3Record) : (sortRecords records).Perm records :=
  insertionSort_perm records _

theorem sortRecords_map (f : as3Record → as3Record) (hkey : ∀ r, (f r).Key = r.Key)
    (records : List as3Record) : sortRecords (records.map f) = (sortRecords records).map f :=
  insertionSort_map _ f (by intro a b; rw [hkey, hkey]) records

theorem pair_ne_map_swap {α : Type} (f : α → α) (a b : α) (ha : f a ≠ a) (hb : f b ≠ b)
    (l : List α) (hl : l.Perm [a, b]) : l ≠ l.map f := by
  intro h
  cases l with
  | nil => exact absurd hl.length_eq (by simp)
  | cons x xs =>
    have hx : x ∈ [a, b] := hl.subset (List.mem_cons_self _ _)
    rw [List.map_cons] at h
    have hfx : x = f x := (List.cons.inj h).1
    rcases List.mem_cons.mp hx with hxa | hxb
    · subst hxa
      exact ha hfx.symm
    · rw [List.mem_singleton] at hxb
      subst hxb
      exact hb hfx.symm

theorem lookupProfile_pair (k1 k2 : SecretKey) (prof1 prof2 : CustomProfile) (hk : k1 ≠ k2)
    (k : SecretKey) :
    lookupProfile [(k2, prof2), (k1, prof1)] k = lookupProfile [(k1, prof1), (k2, prof2)] k := by
  by_cases h1 : k1 = k
  · subst h1
    simp [lookupProfile, Ne.symm hk]
  · by_cases h2 : k2 = k
    · subst h2
      simp [lookupProfile, hk]
    · simp [lookupProfile, h1, h2]

theorem processDataGroupForAS3_two_resources
    (sortRecordsByKey : List as3Record → List as3Record)
    (hperm : ∀ records, (sortRecordsByKey records).Perm records)
    (nameA nameB group key a b : String) :
    recordsAt (processDataGroupForAS3 sortRecordsByKey
        [(nameA, oneRecordResource group key a), (nameB, oneRecordResource group key b)] [])
        group = some (sortRecordsByKey [⟨key, a⟩, ⟨key, b⟩]) := by
  have hone : sortRecordsByKey [⟨key, a⟩] = [⟨key, a⟩] := List.perm_singleton.mp (hperm _)
  simp [processDataGroupForAS3, oneRecordResource, processDataGroup, lookup, store, recordsAt,
    hone]

/-! ## The claims -/

/-- C1: on a multi-status response whose `results` is a list and whose `declaration` is
an object, `handleMultiStatus` returns and emits, in list order, exactly one update per
well-formed result entry, and that update is `multiStatusUpdate` of the entry alone (the
success update for code 200, the failure update with the diagnostic message for any other
code).  The emitted list splits at every entry into the updates of the entries before it,
its own update and the updates of the entries after it, so replacing one entry leaves the
updates of all the others as they were. -/
theorem handleMultiStatus_per_tenant (updateTenantDeletion : TenantDeletion)
    (responseMap : JMap) (id : Int) (results : List JSON) (declaration : JMap)
    (hres : asSlice (mapIndex responseMap "results") = some results)
    (hdecl : asMap (mapIndex responseMap "declaration") = some declaration) :
    ∃ out, handleMultiStatus updateTenantDeletion responseMap id = some out ∧
      out.1 = results.filterMap (multiStatusUpdate updateTenantDeletion declaration) ∧
      ∀ pre e post, results = pre ++ e :: post →
        out.1 =
          pre.filterMap (multiStatusUpdate updateTenantDeletion declaration) ++
            (multiStatusUpdate updateTenantDeletion declaration e).toList ++
            post.filterMap (multiStatusUpdate updateTenantDeletion declaration) := by
  have main : handleMultiStatus updateTenantDeletion responseMap id =
      some (results.filterMap (multiStatusUpdate updateTenantDeletion declaration),
        results.any (fun e => (wellFormedResult e).isNone)) := by
    simp only [handleMultiStatus, assertInterface_of_asMap hdecl, hres, asMap]
    rw [foldl_step_filterMap _ _ _ (handleMultiStatusStep_eq updateTenantDeletion declaration)]
    simp
  refine ⟨_, main, rfl, ?_⟩
  intro pre e post hsplit
  show results.filterMap (multiStatusUpdate updateTenantDeletion declaration) = _
  rw [hsplit, List.filterMap_append, List.filterMap_cons]
  cases multiStatusUpdate updateTenantDeletion declaration e <;> simp

/-- Witness for C1: the 207 scenario, tenant `A` converged and tenant `B` failed with code
422. -/
theorem handleMultiStatus_per_tenant_witness :
    asSlice (mapIndex partialFailureResponse "results") = some
        [JSON.obj [("code", JSON.num 200), ("tenant", JSON.str "A"),
           ("message", JSON.str "success")],
         JSON.obj [("code", JSON.num 422), ("tenant", JSON.str "B"),
           ("message", JSON.str "bad")]] ∧
      asMap (mapIndex partialFailureResponse "declaration") =
        some [("A", JSON.obj []), ("B", JSON.obj [])] ∧
      ∃ out, handleMultiStatus absentFromDeclaration partialFailureResponse 7 = some out ∧
        out.1 =
          [⟨200, "", "A", false, ""⟩,
           ⟨422, "", "B", false,
             "Big-IP Responded with error code: 422 -- verify the logs for detailed error"⟩] :=
  ⟨rfl, rfl,
    (handleMultiStatus_per_tenant absentFromDeclaration partialFailureResponse 7 _ _
      rfl rfl).imp (fun out h => ⟨h.1, h.2.1.trans (by decide)⟩)⟩

/-- C2 as stated fails: a body whose only result is well formed and whose `declaration` is
a list, not an object, gets no update at all for that result; the function returns with the
flag set. -/
theorem handleResponseStatusOK_declaration_not_object :
    asSlice (mapIndex responseWithListDeclaration "results") = some
        [JSON.obj [("code", JSON.num 200), ("tenant", JSON.str "A"),
           ("message", JSON.str "success")]] ∧
      wellFormedResult (JSON.obj [("code", JSON.num 200), ("tenant", JSON.str "A"),
           ("message", JSON.str "success")]) = some (200, "A") ∧
      handleResponseStatusOK absentFromDeclaration responseWithListDeclaration =
        some ([], true) :=
  ⟨rfl, by decide, by decide⟩

/-- C2 (amended): for every response body whose `declaration` is present and not `null`,
`handleResponseStatusOK` returns, with the unknown-response flag set if and only if
`results` is not a list, or `declaration` is not an object, or some result entry is not
well formed; and when `results` is a list and `declaration` is an object, it emits exactly
one update `(code, no task id, tenant, updateTenantDeletion(tenant, declaration), empty
message)` per well-formed entry, in list order, whether or not sibling entries are
malformed. -/
theorem handleResponseStatusOK_flag_and_updates (updateTenantDeletion : TenantDeletion)
    (responseMap : JMap) (d : JSON) (hd : mapIndex responseMap "declaration" = some d)
    (hnull : d ≠ JSON.null) :
    ∃ out, handleResponseStatusOK updateTenantDeletion responseMap = some out ∧
      (out.2 = true ↔
        (asSlice (mapIndex responseMap "results") = none ∨
          asMap (mapIndex responseMap "declaration") = none ∨
          ∃ results, asSlice (mapIndex responseMap "results") = some results ∧
            ∃ e ∈ results, wellFormedResult e = none)) ∧
      ∀ results declaration,
        asSlice (mapIndex responseMap "results") = some results →
        asMap (mapIndex responseMap "declaration") = some declaration →
        out.1 = results.filterMap (okUpdate updateTenantDeletion declaration) := by
  refine ⟨_, handleResponseStatusOK_of_present updateTenantDeletion responseMap d hd hnull,
    ?_, ?_⟩
  · cases hres : asSlice (mapIndex responseMap "results") with
    | none => simp
    | some results =>
      cases hdecl : asMap (mapIndex responseMap "declaration") with
      | none => simp
      | some declaration =>
        simp only []
        rw [foldl_step_filterMap _ _ _
          (handleResponseStatusOKStep_eq updateTenantDeletion declaration)]
        simp
  · intro results declaration hres hdecl
    simp only [hres, hdecl]
    rw [foldl_step_filterMap _ _ _
      (handleResponseStatusOKStep_eq updateTenantDeletion declaration)]
    simp

/-- Witness for C2 (amended): a malformed first entry sets the flag and the well-formed
second entry still gets its update. -/
theorem handleResponseStatusOK_flag_and_updates_witness :
    ∃ out, handleResponseStatusOK absentFromDeclaration mixedResponse = some out ∧
      out.2 = true ∧ out.1 = [⟨200, "", "A", false, ""⟩] :=
  (handleResponseStatusOK_flag_and_updates absentFromDeclaration mixedResponse
    (JSON.obj [("A", JSON.obj [])]) rfl (fun h => JSON.noConfusion h)).imp
    (fun out h =>
      ⟨h.1, h.2.1.mpr (Or.inr (Or.inr ⟨_, rfl, _, List.mem_cons_self _ _, rfl⟩)),
        (h.2.2 _ _ rfl rfl).trans (by decide)⟩)

/-- C3 as stated fails: with an in-progress entry in the results, the well-formed entries
met before the loop stops still get their update (tenant `A` below), and an in-progress
entry without a numeric code does not stop the loop at all (tenant `B` below). -/
theorem getTenantConfigStatus_in_progress_still_updates :
    (hasInProgressMessage (JSON.obj [("code", JSON.num 0), ("tenant", JSON.str "B"),
          ("message", JSON.str "in progress")]) = true ∧
        getTenantConfigStatus absentFromDeclaration false "1" 200 inProgressAfterSuccess =
          some ([⟨200, "", "A", false, ""⟩], false)) ∧
      (hasInProgressMessage (JSON.obj [("tenant", JSON.str "A"),
          ("message", JSON.str "in progress")]) = true ∧
        getTenantConfigStatus absentFromDeclaration false "1" 200 inProgressWithoutCode =
          some ([⟨200, "", "B", false, ""⟩], true)) :=
  ⟨⟨by decide, by decide⟩, ⟨by decide, by decide⟩⟩

/-- C3 (amended): on a status-200 polling response whose `declaration` is an object,
`getTenantConfigStatus` stops at the first well-formed polling result (numeric code, string
tenant, a message present) whose message is `"in progress"`: it emits no update for that
entry nor for any entry after it, makes no further call, and the updates it has emitted
are those of the well-formed polling results (numeric code, string tenant, a message
present) before that entry.  So it emits no update at all when no well-formed polling
result precedes the in-progress entry, whatever follows it. -/
theorem getTenantConfigStatus_stops_in_progress (updateTenantDeletion : TenantDeletion)
    (LogResponse : Bool) (id : String) (responseMap : JMap) (pre post : List JSON) (e : JSON)
    (declaration : JMap)
    (hres : asSlice (mapIndex responseMap "results") = some (pre ++ e :: post))
    (hdecl : asMap (mapIndex responseMap "declaration") = some declaration)
    (he : wellFormedPollResult e = true ∧ hasInProgressMessage e = true)
    (hpre : ∀ x ∈ pre, ¬ (wellFormedPollResult x = true ∧ hasInProgressMessage x = true)) :
    getTenantConfigStatus updateTenantDeletion LogResponse id StatusOK responseMap =
        some (pre.filterMap (pollUpdate updateTenantDeletion declaration), false) ∧
      ((∀ x ∈ pre, wellFormedPollResult x = false) →
        getTenantConfigStatus updateTenantDeletion LogResponse id StatusOK responseMap =
          some ([], false)) := by
  have main : getTenantConfigStatus updateTenantDeletion LogResponse id StatusOK responseMap =
      some (pre.filterMap (pollUpdate updateTenantDeletion declaration), false) := by
    simp only [getTenantConfigStatus, assertInterface_of_asMap hdecl, hres, asMap, if_true]
    rw [getTenantConfigStatusLoop_stop updateTenantDeletion declaration pre post e _ hpre he]
    simp
  refine ⟨main, ?_⟩
  intro hnone
  rw [main]
  have hnil : pre.filterMap (pollUpdate updateTenantDeletion declaration) = [] := by
    simp only [List.filterMap_eq_nil_iff]
    intro x hx
    simp [pollUpdate, hnone x hx]
  rw [hnil]

/-- Witness for C3 (amended): a malformed entry, then an in-progress entry, then a finished
tenant: no update at all. -/
theorem getTenantConfigStatus_stops_in_progress_witness :
    getTenantConfigStatus absentFromDeclaration false "1" StatusOK inProgressInTheMiddle =
      some ([], false) :=
  (getTenantConfigStatus_stops_in_progress absentFromDeclaration false "1"
    inProgressInTheMiddle
    [JSON.obj [("code", JSON.num 200), ("message", JSON.str "no tenant")]]
    [JSON.obj [("code", JSON.num 200), ("tenant", JSON.str "B"), ("message", JSON.str "success")]]
    (JSON.obj [("code", JSON.num 0), ("tenant", JSON.str "A"),
      ("message", JSON.str "in progress")])
    [("A", JSON.obj []), ("B", JSON.obj [])]
    rfl rfl (by decide) (by decide)).1

/-- C4: on a status-200 polling response whose `declaration` is an object and whose results
are all well formed (numeric code, string tenant, a message present) with no message equal
to `"in progress"`, `getTenantConfigStatus` and `handleResponseStatusOK` both return, and
`getTenantConfigStatus` emits exactly the sequence of updates that `handleResponseStatusOK`
emits on the same body, one per result, and every one of them carries an empty task id. -/
theorem getTenantConfigStatus_refines_statusOK (updateTenantDeletion : TenantDeletion)
    (LogResponse : Bool) (id : String) (responseMap : JMap) (results : List JSON)
    (declaration : JMap)
    (hres : asSlice (mapIndex responseMap "results") = some results)
    (hdecl : asMap (mapIndex responseMap "declaration") = some declaration)
    (hwf : ∀ x ∈ results, wellFormedPollResult x = true ∧ hasInProgressMessage x = false) :
    ∃ poll ok,
      getTenantConfigStatus updateTenantDeletion LogResponse id StatusOK responseMap =
        some poll ∧
      handleResponseStatusOK updateTenantDeletion responseMap = some ok ∧
      poll.1 = ok.1 ∧ poll.1.length = results.length ∧ ∀ u ∈ poll.1, u.id = "" := by
  have hrun := getTenantConfigStatusLoop_run updateTenantDeletion declaration results ([], false)
    (fun x hx h => by simp [(hwf x hx).2] at h)
  have hpoll : results.filterMap (pollUpdate updateTenantDeletion declaration) =
      results.filterMap (okUpdate updateTenantDeletion declaration) :=
    List.filterMap_congr (fun x hx => by simp [pollUpdate, (hwf x hx).1])
  have hok := statusOK_updates_eq updateTenantDeletion responseMap results declaration hres hdecl
  have hget : ∃ flag,
      getTenantConfigStatus updateTenantDeletion LogResponse id StatusOK responseMap =
        some (results.filterMap (okUpdate updateTenantDeletion declaration), flag) := by
    simp only [getTenantConfigStatus, assertInterface_of_asMap hdecl, hres, asMap, if_true]
    rw [hrun]
    simp [hpoll]
  have hsome : ∀ x ∈ results, ∃ u, okUpdate updateTenantDeletion declaration x = some u ∧
      u.id = "" := by
    intro x hx
    have h1 := (hwf x hx).1
    cases x with
    | obj v =>
      simp only [wellFormedPollResult, Bool.and_eq_true, Option.isSome_iff_exists] at h1
      obtain ⟨⟨ct, hct⟩, _⟩ := h1
      exact ⟨⟨ct.1, "", ct.2, updateTenantDeletion ct.2 declaration, ""⟩,
        by simp [okUpdate, hct], rfl⟩
    | _ => simp [wellFormedPollResult] at h1
  obtain ⟨flag, hflag⟩ := hget
  refine ⟨_, _, hflag, hok, rfl, ?_, ?_⟩
  · show (results.filterMap (okUpdate updateTenantDeletion declaration)).length = _
    clear hrun hpoll hok hflag hres hwf
    induction results with
    | nil => simp
    | cons x rest ih =>
      obtain ⟨u, hu, _⟩ := hsome x (List.mem_cons_self _ _)
      rw [List.filterMap_cons, hu]
      simp [ih (fun y hy => hsome y (List.mem_cons_of_mem _ hy))]
  · intro u hu
    have hu' : u ∈ results.filterMap (okUpdate updateTenantDeletion declaration) := hu
    rw [List.mem_filterMap] at hu'
    obtain ⟨x, hx, hxu⟩ := hu'
    obtain ⟨w, hw, hid⟩ := hsome x hx
    rw [hw] at hxu
    cases hxu
    exact hid

/-- Witness for C4: the final poll of the accepted/poll scenario marks tenant `A` with code
200 and an empty task id. -/
theorem getTenantConfigStatus_refines_statusOK_witness :
    ∃ poll ok,
      getTenantConfigStatus absentFromDeclaration false "1" StatusOK finalPollResponse =
        some poll ∧
      handleResponseStatusOK absentFromDeclaration finalPollResponse = some ok ∧
      poll.1 = ok.1 ∧ poll.1 = [⟨200, "", "A", false, ""⟩] := by
  obtain ⟨poll, ok, hpoll, hok, heq, _, _⟩ :=
    getTenantConfigStatus_refines_statusOK absentFromDeclaration false "1" finalPollResponse
      [JSON.obj [("code", JSON.num 200), ("tenant", JSON.str "A"), ("message", JSON.str "done")]]
      [("A", JSON.obj [])] rfl rfl (by decide)
  refine ⟨poll, ok, hpoll, hok, heq, ?_⟩
  have hvalue : getTenantConfigStatus absentFromDeclaration false "1" StatusOK
      finalPollResponse = some ([⟨200, "", "A", false, ""⟩], false) := by decide
  rw [hpoll] at hvalue
  rw [Option.some.inj hvalue]

/-- C5: when the accepted body carries a string `id`, `handleResponseAccepted` emits
exactly one update, `(202, task id = id, empty tenant, deletion false, empty message)`;
when it carries no string `id`, it emits no update. -/
theorem handleResponseAccepted_records_task (responseMap : JMap) :
    (∀ respId, asString (mapIndex responseMap "id") = some respId →
        (handleResponseAccepted responseMap).1 = [⟨202, respId, "", false, ""⟩]) ∧
      (asString (mapIndex responseMap "id") = none →
        (handleResponseAccepted responseMap).1 = []) := by
  constructor
  · intro respId h
    simp [handleResponseAccepted, h]
  · intro h
    simp [handleResponseAccepted, h]

/-- Witness for C5: the body `{"id":"task-123"}` records the task, a body whose `id` is a number records nothing. -/
theorem handleResponseAccepted_records_task_witness :
    (handleResponseAccepted acceptedResponse).1 = [⟨202, "task-123", "", false, ""⟩] ∧
      (handleResponseAccepted [("id", JSON.num 7)]).1 = [] :=
  ⟨(handleResponseAccepted_records_task acceptedResponse).1 "task-123" rfl,
    (handleResponseAccepted_records_task [("id", JSON.num 7)]).2 rfl⟩

/-- C6 (the code at the failing inputs): `handleResponseAccepted` returns the
unknown-response flag set exactly when the body carries a string `id`; it is set on the
well-formed body `{"id":"task-123"}` and unset on the empty body and on a body whose `id`
is not a string. -/
theorem handleResponseAccepted_flag_inverted :
    (∀ responseMap : JMap, (handleResponseAccepted responseMap).2 =
        (asString (mapIndex responseMap "id")).isSome) ∧
      (handleResponseAccepted acceptedResponse).2 = true ∧
      (handleResponseAccepted []).2 = false ∧
      (handleResponseAccepted [("id", JSON.num 7)]).2 = false := by
  refine ⟨?_, by decide, by decide, by decide⟩
  intro responseMap
  cases h : asString (mapIndex responseMap "id") <;> simp [handleResponseAccepted, h]

/-- C7: for every response body, `handleResponseStatusServiceUnavailable`,
`handleResponseStatusNotFound` and `handleResponseStatusUnAuthorized` each emit exactly one
update, carrying their own status code (503, 404, 401), an empty task id, an empty tenant
name and deletion false; so no update of theirs names a tenant or carries code 200. -/
theorem batch_failure_handlers_single_update (responseMap : JMap) (id : Int) :
    (∃ message, (handleResponseStatusServiceUnavailable responseMap id).1 =
        [⟨503, "", "", false, message⟩]) ∧
      (∃ message, (handleResponseStatusNotFound responseMap id).1 =
        [⟨404, "", "", false, message⟩]) ∧
      (∃ message, (handleResponseStatusUnAuthorized responseMap id).1 =
        [⟨401, "", "", false, message⟩]) ∧
      ∀ u, (u ∈ (handleResponseStatusServiceUnavailable responseMap id).1 ∨
          u ∈ (handleResponseStatusNotFound responseMap id).1 ∨
          u ∈ (handleResponseStatusUnAuthorized responseMap id).1) →
        u.tenant = "" ∧ u.code ≠ 200 := by
  have h503 : ∃ message, (handleResponseStatusServiceUnavailable responseMap id).1 =
      [⟨503, "", "", false, message⟩] := by
    unfold handleResponseStatusServiceUnavailable
    cases asMap (mapIndex responseMap "error") <;> exact ⟨_, rfl⟩
  have h404 : ∃ message, (handleResponseStatusNotFound responseMap id).1 =
      [⟨404, "", "", false, message⟩] := by
    unfold handleResponseStatusNotFound
    cases asMap (mapIndex responseMap "error") <;> exact ⟨_, rfl⟩
  have h401 : ∃ message, (handleResponseStatusUnAuthorized responseMap id).1 =
      [⟨401, "", "", false, message⟩] := by
    unfold handleResponseStatusUnAuthorized
    cases asFloat64 (mapIndex responseMap "code") <;> exact ⟨_, rfl⟩
  refine ⟨h503, h404, h401, ?_⟩
  obtain ⟨m1, e1⟩ := h503
  obtain ⟨m2, e2⟩ := h404
  obtain ⟨m3, e3⟩ := h401
  intro u hu
  rw [e1, e2, e3] at hu
  simp only [List.mem_singleton] at hu
  rcases hu with h | h | h <;> subst h <;> exact ⟨rfl, by simp⟩

/-- C8 as stated fails: a 404 body carrying the not-found code, `{"code":404,"message":...}`,
gets exactly the outcome of an opaque (empty) body, generic message included. -/
theorem handleResponseStatusNotFound_code_body_is_generic :
    asFloat64 (mapIndex notFoundCodeBody "code") = some 404 ∧
      handleResponseStatusNotFound notFoundCodeBody 0 = handleResponseStatusNotFound [] 0 ∧
      handleResponseStatusNotFound notFoundCodeBody 0 =
        ([⟨404, "", "", false,
          "Big-IP Responded with error -- verify the logs for detailed error"⟩], true) :=
  ⟨by decide, by decide, by decide⟩

/-- C8 (amended): `handleResponseStatusNotFound` tells 404 bodies apart by an `error`
object, not by the not-found code.  When the body carries an `error` object it records the
message naming `error.code` and returns the flag unset; otherwise (an opaque body, and
equally a `{"code":404,"message":...}` body) it records the generic failure message and
returns the flag set.  The two messages always differ. -/
theorem handleResponseStatusNotFound_messages (responseMap : JMap) (id : Int) :
    (∀ err, asMap (mapIndex responseMap "error") = some err →
        handleResponseStatusNotFound responseMap id =
            ([⟨404, "", "", false,
              "Big-IP Responded with error code: " ++ formatIndexed (mapIndex err "code") ++
                " -- verify the logs for detailed error"⟩], false) ∧
          "Big-IP Responded with error code: " ++ formatIndexed (mapIndex err "code") ++
              " -- verify the logs for detailed error" ≠
            "Big-IP Responded with error -- verify the logs for detailed error") ∧
      (asMap (mapIndex responseMap "error") = none →
        handleResponseStatusNotFound responseMap id =
          ([⟨404, "", "", false,
            "Big-IP Responded with error -- verify the logs for detailed error"⟩], true)) := by
  constructor
  · intro err h
    exact ⟨by simp [handleResponseStatusNotFound, h, errorCodeMessage],
      errorCodeMessage_ne_generic _⟩
  · intro h
    simp [handleResponseStatusNotFound, h]

/-- Witness for C8 (amended): a body with an `error` object against a body in the `code`/`message` shape. -/
theorem handleResponseStatusNotFound_messages_witness :
    handleResponseStatusNotFound notFoundErrorBody 3 =
        ([⟨404, "", "", false,
          "Big-IP Responded with error code: 404 -- verify the logs for detailed error"⟩],
          false) ∧
      handleResponseStatusNotFound notFoundCodeBody 3 =
        ([⟨404, "", "", false,
          "Big-IP Responded with error -- verify the logs for detailed error"⟩], true) :=
  ⟨(((handleResponseStatusNotFound_messages notFoundErrorBody 3).1
      [("code", JSON.num 404), ("message", JSON.str "not found")] rfl).1).trans (by decide),
    (handleResponseStatusNotFound_messages notFoundCodeBody 3).2 rfl⟩

/-- C9 as stated fails: `handleResponseOthers` returns the flag unset on a body whose
results are all well formed, and on a body whose `error` object has a numeric code. -/
theorem handleResponseOthers_flag_unset :
    handleResponseOthers unprocessableResponse 0 =
        ([⟨422, "", "A", false,
          "Big-IP Responded with error code: 422 -- verify the logs for detailed error"⟩],
          false) ∧
      handleResponseOthers serverErrorResponse 0 =
        ([⟨500, "", "", false,
          "Big-IP Responded with error code: 500 -- verify the logs for detailed error"⟩],
          false) :=
  ⟨by decide, by decide⟩

/-- C9 (amended): `handleResponseOthers` returns the unknown-response flag set exactly when
the body is in none of the shapes it recognises: its `results` list has an entry that is
not an object with a numeric code and a string tenant, or (there being no `results` list)
its `error` object has no numeric code, or it has neither a `results` list nor an `error`
object.  On a `results` list of well-formed entries and on an `error` object with a numeric
code the flag is unset. -/
theorem handleResponseOthers_flag (responseMap : JMap) (id : Int) :
    (handleResponseOthers responseMap id).2 = true ↔
      ((∃ results, asSlice (mapIndex responseMap "results") = some results ∧
          ∃ e ∈ results, wellFormedResult e = none) ∨
        (asSlice (mapIndex responseMap "results") = none ∧
          ∃ err, asMap (mapIndex responseMap "error") = some err ∧
            asFloat64 (mapIndex err "code") = none) ∨
        (asSlice (mapIndex responseMap "results") = none ∧
          asMap (mapIndex responseMap "error") = none)) := by
  cases hres : asSlice (mapIndex responseMap "results") with
  | some results =>
    simp only [handleResponseOthers, hres]
    rw [foldl_step_filterMap _ _ _ handleResponseOthersStep_eq]
    simp
  | none =>
    cases herr : asMap (mapIndex responseMap "error") with
    | some err =>
      cases hcode : asFloat64 (mapIndex err "code") <;>
        simp [handleResponseOthers, hres, herr, hcode]
    | none =>
      cases hcode : asFloat64 (mapIndex responseMap "code") <;>
        simp [handleResponseOthers, hres, herr, hcode]

/-- Witness for C9 (amended): a results list with a malformed entry, and the empty body. -/
theorem handleResponseOthers_flag_witness :
    (handleResponseOthers mixedResponse 0).2 = true ∧
      (handleResponseOthers [] 0).2 = true :=
  ⟨(handleResponseOthers_flag mixedResponse 0).mpr
      (Or.inl ⟨_, rfl, _, List.mem_cons_self _ _, rfl⟩),
    (handleResponseOthers_flag [] 0).mpr (Or.inr (Or.inr ⟨rfl, rfl⟩))⟩

/-- C10 as stated fails: `logRequest` walks exactly three levels below `declaration`, so a
`Certificate` object nested one level deeper is logged with its certificate, private key
and chain CA intact (while the one at application level is blanked). -/
theorem logRequest_leaves_nested_certificate :
    logRequest nestedCertificateRequest = some nestedCertificateLogged ∧
      certificatesRedacted (JSON.obj nestedCertificateLogged) = false :=
  ⟨rfl, by decide⟩

/-- C10 (amended): for every request document whose `declaration` is an object,
`logRequest` hands a document to the log sink, and in it every object of class
`Certificate` located at the declaration / tenant / application / object level has its
`certificate`, `privateKey` and `chainCA` fields equal to the empty string. -/
theorem logRequest_redacts_application_certificates (as3Config adc : JMap)
    (hdecl : asMap (mapIndex as3Config "declaration") = some adc) :
    ∃ logged loggedAdc, logRequest as3Config = some logged ∧
      asMap (mapIndex logged "declaration") = some loggedAdc ∧
      ∀ tenant tenantMap app appMap name crt,
        asMap (mapIndex loggedAdc tenant) = some tenantMap →
        asMap (mapIndex tenantMap app) = some appMap →
        asMap (mapIndex appMap name) = some crt →
        asString (mapIndex crt "class") = some "Certificate" →
        mapIndex crt "certificate" = some (JSON.str "") ∧
          mapIndex crt "privateKey" = some (JSON.str "") ∧
          mapIndex crt "chainCA" = some (JSON.str "") := by
  refine ⟨mapAssign as3Config "declaration"
      (JSON.obj (adc.map (fun e => (e.1, redactTenant e.2)))),
    adc.map (fun e => (e.1, redactTenant e.2)), ?_, ?_, ?_⟩
  · simp only [logRequest, hdecl]
  · rw [mapIndex_mapAssign_self]
    rfl
  · intro tenant tenantMap app appMap name crt hT hA hO hclass
    obtain ⟨x, _, hx⟩ := asMap_mapIndex_map hT
    obtain ⟨tm, _, htm⟩ := redactTenant_obj hx
    subst htm
    obtain ⟨y, _, hy⟩ := asMap_mapIndex_map hA
    obtain ⟨am, _, ham⟩ := redactApplication_obj hy
    subst ham
    obtain ⟨z, _, hz⟩ := asMap_mapIndex_map hO
    exact redactCertificate_fields z crt hz hclass

/-- Witness for C10 (amended): the request `nestedCertificateRequest`. -/
theorem logRequest_redacts_application_certificates_witness :
    asMap (mapIndex nestedCertificateRequest "declaration") =
        some nestedCertificateDeclaration ∧
      ∃ logged loggedAdc, logRequest nestedCertificateRequest = some logged ∧
        asMap (mapIndex logged "declaration") = some loggedAdc ∧
        ∀ tenant tenantMap app appMap name crt,
          asMap (mapIndex loggedAdc tenant) = some tenantMap →
          asMap (mapIndex tenantMap app) = some appMap →
          asMap (mapIndex appMap name) = some crt →
          asString (mapIndex crt "class") = some "Certificate" →
          mapIndex crt "certificate" = some (JSON.str "") ∧
            mapIndex crt "privateKey" = some (JSON.str "") ∧
            mapIndex crt "chainCA" = some (JSON.str "") :=
  ⟨rfl, logRequest_redacts_application_certificates nestedCertificateRequest _ rfl⟩

/-- C17 as stated fails: a port text beyond the range of the 64-bit `int` is a decimal
numeral, but the port returned is the largest `int`, not its decimal value. -/
theorem extractVirtualAddressAndPort_port_overflow :
    decimalValue "9223372036854775808".toList = some 9223372036854775808 ∧
      extractVirtualAddressAndPort "10.1.1.1:9223372036854775808" =
        ("10.1.1.1", 9223372036854775807) :=
  ⟨by decide, by decide⟩

/-- C17 (amended): when the last `/`-separated segment of the destination contains exactly
one `:`, `extractVirtualAddressAndPort` returns the text before the colon as the address
(a route-domain suffix such as `%2` is part of it) and, as the port, the decimal value of
the text after the colon when that value fits the 64-bit `int`, the nearest bound of the
`int` range when it does not, and 0 when that text is not an optionally signed decimal
numeral (for a text of at most 19 characters). -/
theorem extractVirtualAddressAndPort_colon (str : String) (before after : List Char)
    (hseg : (lastSegment str).toList = before ++ ':' :: after)
    (hb : ':' ∉ before) (ha : ':' ∉ after) :
    (extractVirtualAddressAndPort str).1 = String.mk before ∧
      (∀ v, decimalValue after = some v → -(2 ^ 63) ≤ v → v ≤ 2 ^ 63 - 1 →
        (extractVirtualAddressAndPort str).2 = v) ∧
      (∀ v, decimalValue after = some v → v > 2 ^ 63 - 1 →
        (extractVirtualAddressAndPort str).2 = 2 ^ 63 - 1) ∧
      (∀ v, decimalValue after = some v → v < -(2 ^ 63) →
        (extractVirtualAddressAndPort str).2 = -(2 ^ 63)) ∧
      (decimalValue after = none → after.length ≤ 19 →
        (extractVirtualAddressAndPort str).2 = 0) := by
  have hsplit := Split_one_separator (lastSegment str) ':' before after hseg hb ha
  have hres : extractVirtualAddressAndPort str = (String.mk before, (ParseInt after).1) := by
    simp only [extractVirtualAddressAndPort]
    rw [show (Split str '/').getLastD "" = lastSegment str from rfl, hsplit]
    simp [Atoi]
  rw [hres]
  refine ⟨rfl, ?_, ?_, ?_, ?_⟩
  · intro v hv h1 h2
    simp only [ParseInt_of_decimalValue after v hv]
    rw [if_neg (by omega), if_neg (by omega)]
  · intro v hv h1
    simp only [ParseInt_of_decimalValue after v hv]
    rw [if_pos h1]
  · intro v hv h1
    simp only [ParseInt_of_decimalValue after v hv]
    rw [if_neg (by omega), if_pos h1]
  · intro hv hlen
    exact ParseInt_of_malformed after hv hlen

/-- Witness for C17 (amended): the destination `/Common/10.1.1.1%2:443`. -/
theorem extractVirtualAddressAndPort_colon_witness :
    (lastSegment "/Common/10.1.1.1%2:443").toList = "10.1.1.1%2".toList ++ ':' :: "443".toList ∧
      (extractVirtualAddressAndPort "/Common/10.1.1.1%2:443").1 = "10.1.1.1%2" ∧
      (extractVirtualAddressAndPort "/Common/10.1.1.1%2:443").2 = 443 :=
  ⟨by decide,
    (extractVirtualAddressAndPort_colon "/Common/10.1.1.1%2:443" "10.1.1.1%2".toList
      "443".toList (by decide) (by decide) (by decide)).1,
    (extractVirtualAddressAndPort_colon "/Common/10.1.1.1%2:443" "10.1.1.1%2".toList
      "443".toList (by decide) (by decide) (by decide)).2.1 443 (by decide) (by decide)
      (by decide)⟩

/-- C18: when the last `/`-separated segment of the destination does not split into exactly
two parts on `:`, `extractVirtualAddressAndPort` splits that segment on `.` instead: if
that gives exactly two parts it returns the first part and the integer value of the second
(what `strconv.Atoi` gives for it, which is its decimal value whenever that fits the 64-bit
`int`), and otherwise it returns the empty address and port 0. -/
theorem extractVirtualAddressAndPort_fallback (str : String)
    (h : (Split (lastSegment str) ':').length ≠ 2) :
    (∀ a b, Split (lastSegment str) '.' = [a, b] →
        extractVirtualAddressAndPort str = (a, (Atoi b).1) ∧
          ∀ v, decimalValue b.toList = some v → -(2 ^ 63) ≤ v → v ≤ 2 ^ 63 - 1 →
            extractVirtualAddressAndPort str = (a, v)) ∧
      ((Split (lastSegment str) '.').length ≠ 2 →
        extractVirtualAddressAndPort str = ("", 0)) := by
  constructor
  · intro a b hab
    have hres : extractVirtualAddressAndPort str = (a, (Atoi b).1) := by
      simp only [extractVirtualAddressAndPort]
      rw [show (Split str '/').getLastD "" = lastSegment str from rfl, if_pos h, hab]
    refine ⟨hres, ?_⟩
    intro v hv h1 h2
    rw [hres]
    simp only [Atoi, ParseInt_of_decimalValue b.toList v hv]
    rw [if_neg (by omega), if_neg (by omega)]
  · intro hdot
    simp only [extractVirtualAddressAndPort]
    rw [show (Split str '/').getLastD "" = lastSegment str from rfl, if_pos h]
    generalize Split (lastSegment str) '.' = parts at hdot
    match parts, hdot with
    | [], _ => rfl
    | [_], _ => rfl
    | [_, _], hd => exact absurd rfl hd
    | _ :: _ :: _ :: _, _ => rfl

/-- Witness for C18: `/Common/10.80` falls back to the `.` split, `/Common/[::1]:80` splits
on neither separator. -/
theorem extractVirtualAddressAndPort_fallback_witness :
    extractVirtualAddressAndPort "/Common/10.80" = ("10", 80) ∧
      extractVirtualAddressAndPort "/Common/[::1]:80" = ("", 0) :=
  ⟨((extractVirtualAddressAndPort_fallback "/Common/10.80" (by decide)).1 "10" "80"
      (by decide)).2 80 (by decide) (by decide) (by decide),
    (extractVirtualAddressAndPort_fallback "/Common/[::1]:80" (by decide)).2 (by decide)⟩

/-- C20 (the code at the failing input): `UpdateApiVersion` first parses the whole version
string as a float and returns at once when that fails, so whenever `strconv.ParseFloat`
rejects the version (as it does every `major.minor.patch` string, which has two dots), the
tracker keeps its old release, schema version and coarse value. -/
theorem UpdateApiVersion_rejected_version {F : Type} (ParseFloat : String → F × ConvError)
    (am : VersionTracker F) (version build schemaVersion : String)
    (h : (ParseFloat version).2 ≠ ConvError.nil) :
    UpdateApiVersion ParseFloat am version build schemaVersion = some am := by
  unfold UpdateApiVersion
  split
  · rename_i floatValue heq
    rw [heq] at h
    exact absurd rfl h
  · rfl

/-- Witness for C20: the version `3.52.0` with build `5` and schema `3.52.0` leaves the
tracker of version 3.50 untouched. -/
theorem UpdateApiVersion_rejected_version_witness :
    (plainDecimalFloat "3.52.0").2 ≠ ConvError.nil ∧
      UpdateApiVersion plainDecimalFloat trackerBefore "3.52.0" "5" "3.52.0" =
        some trackerBefore :=
  ⟨by decide,
    UpdateApiVersion_rejected_version plainDecimalFloat trackerBefore "3.52.0" "5" "3.52.0"
      (by decide)⟩

/-- C11 (the code at the failing input): on a response in the documented shape, whose
`declaration` is an object, the type assertion `.([]interface{})` of `logResponse` fails and
the response is logged as it came, whatever `json.Marshal` does: the `Certificate` object
under declaration / tenant / application keeps its certificate and private key. -/
theorem logResponse_object_declaration_unredacted (Marshal : JSON → Option String) :
    asMap (mapIndex certificateResponse "declaration") = some nestedCertificateDeclaration ∧
      logResponse Marshal certificateResponse = some certificateResponse ∧
      certificatesRedacted (JSON.obj certificateResponse) = false :=
  ⟨rfl, rfl, by decide⟩

/-- C16 as stated fails: a tenant named `controls` takes the place of the `Controls` object,
and a tenant named `id` takes the place of the header field `id`. -/
theorem createAPIDeclaration_tenant_overwrites :
    createAPIDeclaration sampleTemplate
        [("controls", [("class", JSON.str "Tenant")]), ("id", [("class", JSON.str "Tenant")])]
        "CIS/v2.19" =
      some
        [("class", JSON.str "AS3"),
         ("declaration", JSON.obj
           [("class", JSON.str "ADC"),
            ("schemaVersion", JSON.str "3.52.0"),
            ("id", JSON.obj [("class", JSON.str "Tenant")]),
            ("label", JSON.str "CIS Declaration"),
            ("controls", JSON.obj [("class", JSON.str "Tenant")])])] :=
  rfl

/-- C16 (amended): when the template decodes to a document whose `declaration` is an object,
`createAPIDeclaration` returns a document whose declaration object has, for every tenant
name of the map, an entry equal to that tenant's compiled object; a `controls` entry equal
to `{class "Controls", userAgent = the given tag}` provided no tenant is named `controls`;
and each header field `class`, `schemaVersion`, `id` as the template set it provided no
tenant bears that name. -/
theorem createAPIDeclaration_contents (as3Config adc0 : JMap)
    (tenantDeclMap : List (String × JMap)) (userAgent : String)
    (hdecl : asMap (mapIndex as3Config "declaration") = some adc0)
    (hnd : (keys tenantDeclMap).Nodup) :
    ∃ doc adc, createAPIDeclaration as3Config tenantDeclMap userAgent = some doc ∧
      asMap (mapIndex doc "declaration") = some adc ∧
      ("controls" ∉ keys tenantDeclMap →
        mapIndex adc "controls" =
          some (JSON.obj [("class", JSON.str "Controls"), ("userAgent", JSON.str userAgent)])) ∧
      (∀ t decl, (t, decl) ∈ tenantDeclMap → mapIndex adc t = some (JSON.obj decl)) ∧
      (∀ k, k ∈ ["class", "schemaVersion", "id"] → k ∉ keys tenantDeclMap →
        mapIndex adc k = mapIndex adc0 k) := by
  refine ⟨mapAssign as3Config "declaration" (JSON.obj
      (tenantDeclMap.foldl (fun acc e => mapAssign acc e.1 (JSON.obj e.2))
        (mapAssign adc0 "controls" (JSON.obj
          (mapAssign (mapAssign [] "class" (JSON.str "Controls")) "userAgent"
            (JSON.str userAgent)))))),
    tenantDeclMap.foldl (fun acc e => mapAssign acc e.1 (JSON.obj e.2))
      (mapAssign adc0 "controls" (JSON.obj
        (mapAssign (mapAssign [] "class" (JSON.str "Controls")) "userAgent"
          (JSON.str userAgent)))), ?_, ?_, ?_, ?_, ?_⟩
  · simp only [createAPIDeclaration, hdecl]
  · rw [mapIndex_mapAssign_self]
    rfl
  · intro hc
    simp only [mapAssign_eq_store, mapIndex_eq_lookup]
    rw [foldl_store_lookup_of_not_mem JSON.obj tenantDeclMap _ _ hc, lookup_store_self]
    rfl
  · intro t decl hmem
    simp only [mapAssign_eq_store, mapIndex_eq_lookup]
    exact foldl_store_lookup_of_mem JSON.obj tenantDeclMap _ t decl hnd hmem
  · intro k hk hnot
    have hne : k ≠ "controls" := by
      simp only [List.mem_cons, List.mem_singleton, List.not_mem_nil, or_false] at hk
      rcases hk with h | h | h <;> subst h <;> decide
    simp only [mapAssign_eq_store, mapIndex_eq_lookup]
    rw [foldl_store_lookup_of_not_mem JSON.obj tenantDeclMap _ _ hnot,
      lookup_store_ne _ _ _ _ hne]

/-- Witness for C16 (amended): the sample template with one tenant `t1`. -/
theorem createAPIDeclaration_contents_witness :
    asMap (mapIndex sampleTemplate "declaration") =
        some [("class", JSON.str "ADC"), ("schemaVersion", JSON.str "3.52.0"),
          ("id", JSON.str "urn:uuid:85626792-9ee7-46bb-8fc8-4ba708cfdc1d"),
          ("label", JSON.str "CIS Declaration")] ∧
      (keys [("t1", ([("class", JSON.str "Tenant")] : JMap))]).Nodup ∧
      ∃ doc adc,
        createAPIDeclaration sampleTemplate [("t1", [("class", JSON.str "Tenant")])]
          "CIS/v2.19" = some doc ∧
        asMap (mapIndex doc "declaration") = some adc ∧
        ("controls" ∉ keys [("t1", ([("class", JSON.str "Tenant")] : JMap))] →
          mapIndex adc "controls" =
            some (JSON.obj [("class", JSON.str "Controls"),
              ("userAgent", JSON.str "CIS/v2.19")])) ∧
        (∀ t decl, (t, decl) ∈ [("t1", ([("class", JSON.str "Tenant")] : JMap))] →
          mapIndex adc t = some (JSON.obj decl)) ∧
        (∀ k, k ∈ ["class", "schemaVersion", "id"] →
          k ∉ keys [("t1", ([("class", JSON.str "Tenant")] : JMap))] →
          mapIndex adc k =
            mapIndex [("class", JSON.str "ADC"), ("schemaVersion", JSON.str "3.52.0"),
              ("id", JSON.str "urn:uuid:85626792-9ee7-46bb-8fc8-4ba708cfdc1d"),
              ("label", JSON.str "CIS Declaration")] k) :=
  ⟨rfl, by decide,
    createAPIDeclaration_contents sampleTemplate _ [("t1", [("class", JSON.str "Tenant")])]
      "CIS/v2.19" rfl (by decide)⟩

/-- C19: `DeepEqualJSON(d1, d2)` is true if and only if both declarations are the empty
string or both parse as JSON and their parsed trees are structurally equal; it is false
whenever one of them fails to parse and they are not both empty; and two objects whose
parsed fields are a rearrangement of one another are equal, so key order never matters.
(`json.Unmarshal` is a parameter; what it yields are Go maps, whose keys are distinct.) -/
theorem DeepEqualJSON_iff_sameTree (Unmarshal : String → Option JSON)
    (hU : ∀ s o, Unmarshal s = some o → uniqueKeys o = true) (decl1 decl2 : String) :
    (DeepEqualJSON Unmarshal decl1 decl2 = true ↔
        (decl1 = "" ∧ decl2 = "") ∨
          ∃ o1 o2, Unmarshal decl1 = some o1 ∧ Unmarshal decl2 = some o2 ∧
            sameTree o1 o2 = true) ∧
      ((Unmarshal decl1 = none ∨ Unmarshal decl2 = none) → ¬ (decl1 = "" ∧ decl2 = "") →
        DeepEqualJSON Unmarshal decl1 decl2 = false) ∧
      (∀ m p, Unmarshal decl1 = some (JSON.obj m) → Unmarshal decl2 = some (JSON.obj p) →
        p.Perm m → DeepEqualJSON Unmarshal decl1 decl2 = true) := by
  have main : DeepEqualJSON Unmarshal decl1 decl2 = true ↔
      (decl1 = "" ∧ decl2 = "") ∨
        ∃ o1 o2, Unmarshal decl1 = some o1 ∧ Unmarshal decl2 = some o2 ∧
          sameTree o1 o2 = true := by
    unfold DeepEqualJSON
    by_cases he : decl1 = "" ∧ decl2 = ""
    · simp [he]
    · rw [if_neg he]
      cases h1 : Unmarshal decl1 with
      | none => simp [he]
      | some o1 =>
        cases h2 : Unmarshal decl2 with
        | none => simp [he]
        | some o2 =>
          simp only [DeepEqual_eq_sameTree o1 o2 (hU _ _ h1) (hU _ _ h2), he, false_or,
            Option.some.injEq, exists_and_left, exists_eq_left']
  refine ⟨main, ?_, ?_⟩
  · intro hnone hne
    cases hd : DeepEqualJSON Unmarshal decl1 decl2 with
    | false => rfl
    | true =>
      rcases main.mp hd with h | ⟨o1, o2, h1, h2, _⟩
      · exact absurd h hne
      · rcases hnone with h | h
        · rw [h] at h1
          cases h1
        · rw [h] at h2
          cases h2
  · intro m p h1 h2 hp
    exact main.mpr (Or.inr ⟨_, _, h1, h2, sameTree_obj_of_perm m p (hU _ _ h1) hp⟩)

/-- Witness for C19: the sample object against itself written with the keys in the other
order (equal) and against an object with another value (not equal). -/
theorem DeepEqualJSON_iff_sameTree_witness :
    DeepEqualJSON sampleUnmarshal "\x7b\"a\":1,\"b\":[null]\x7d"
        "\x7b \"b\": [null], \"a\": 1 \x7d" = true ∧
      DeepEqualJSON sampleUnmarshal "\x7b\"a\":1,\"b\":[null]\x7d" "not json" = false :=
  ⟨(DeepEqualJSON_iff_sameTree sampleUnmarshal sampleUnmarshal_uniqueKeys
      "\x7b\"a\":1,\"b\":[null]\x7d" "\x7b \"b\": [null], \"a\": 1 \x7d").2.2
      [("a", JSON.num 1), ("b", JSON.arr [JSON.null])]
      [("b", JSON.arr [JSON.null]), ("a", JSON.num 1)] rfl rfl
      (List.Perm.swap _ _ _),
    (DeepEqualJSON_iff_sameTree sampleUnmarshal sampleUnmarshal_uniqueKeys
      "\x7b\"a\":1,\"b\":[null]\x7d" "not json").2.1 (Or.inr rfl) (by decide)⟩

/-- C15 (the code at the failing input): for a GTM partition that is not yet in the
document, `createGTMConfigADC` creates a tenant with `class` and the shared application
only: it has no `label` entry.  The stub created when there is no GTM configuration does
carry the label. -/
theorem createGTMConfigADC_created_tenant_unlabelled :
    createGTMConfigADC sampleAgent "Common" gtmRequest [] =
        some [("test_gtm", AS3Value.tenant
          [("class", AS3Value.str "Tenant"),
           ("Shared", AS3Value.application
             [("class", AS3Value.str "Application"),
              ("template", AS3Value.str "shared"),
              ("mon1", AS3Value.gslbMonitor ⟨"GSLB_Monitor", 10, "http", "GET /", "", 30⟩),
              ("pool1", AS3Value.gslbPool
                ⟨"GSLB_Pool", "A", "round-robin", "return-to-dns",
                  [⟨true, ⟨"/Common/bigip1", ""⟩, "/Common/vs1"⟩], [⟨"", "mon1"⟩]⟩),
              ("wildcard.example.com", AS3Value.gslbDomain
                ⟨"GSLB_Domain", "*.example.com", "A", "round-robin", true, 24, 64, 3600,
                  [⟨"pool1", 1⟩], none⟩)])])] ∧
      (∀ tenantDecl, createGTMConfigADC sampleAgent "Common" gtmRequest [] =
          some [("test_gtm", AS3Value.tenant tenantDecl)] →
        lookup tenantDecl "label" = none) ∧
      createGTMConfigADC sampleAgent "Common" noGtmRequest [] =
        some [("Common", AS3Value.tenant
          [("class", AS3Value.str "Tenant"),
           ("Shared", AS3Value.application
             [("class", AS3Value.str "Application"), ("template", AS3Value.str "shared")]),
           ("label", AS3Value.str "test")])] := by
  have h : createGTMConfigADC sampleAgent "Common" gtmRequest [] =
      some [("test_gtm", AS3Value.tenant
        [("class", AS3Value.str "Tenant"),
         ("Shared", AS3Value.application
           [("class", AS3Value.str "Application"),
            ("template", AS3Value.str "shared"),
            ("mon1", AS3Value.gslbMonitor ⟨"GSLB_Monitor", 10, "http", "GET /", "", 30⟩),
            ("pool1", AS3Value.gslbPool
              ⟨"GSLB_Pool", "A", "round-robin", "return-to-dns",
                [⟨true, ⟨"/Common/bigip1", ""⟩, "/Common/vs1"⟩], [⟨"", "mon1"⟩]⟩),
            ("wildcard.example.com", AS3Value.gslbDomain
              ⟨"GSLB_Domain", "*.example.com", "A", "round-robin", true, 24, 64, 3600,
                [⟨"pool1", 1⟩], none⟩)])])] := rfl
  refine ⟨h, ?_, rfl⟩
  intro tenantDecl ht
  rw [h] at ht
  simp only [Option.some.injEq, List.cons.injEq, Prod.mk.injEq, AS3Value.tenant.injEq,
    true_and, and_true] at ht
  subst ht
  rfl

/-- C12: for every tenant that `createLTMConfigADC` treats as deleted (cached, absent from
the desired `ltmConfig` and not a GTM tenant; or present in `ltmConfig` with an empty
resource map), the tenant object of the returned document is, for the default partition,
exactly `class` "Tenant", the `Shared` skeleton `{class "Application", template "shared"}`,
`defaultRouteDomain` of the request and the controller label, and for any other partition
exactly `{class "Tenant"}`.  The document is returned whenever the compile passes return on
the tenants that have resources; `ltmConfig` is a Go map (distinct keys), read after the
deletion scan of HA mode when that scan is due. -/
theorem createLTMConfigADC_deleted_tenants (agent : Agent) (ext : External)
    (config : ResourceConfigRequest)
    (hnd : (keys (requestAfterScan agent ext config).ltmConfig).Nodup)
    (hpass : ∀ e ∈ (requestAfterScan agent ext config).ltmConfig, e.2.ResourceMap ≠ [] →
      (compileSharedApplication ext (requestAfterScan agent ext config) e.1 e.2).isSome = true) :
    ∃ adc ltm, createLTMConfigADC agent ext config = some (adc, ltm) ∧
      ∀ tenant,
        ((tenant ∈ keys agent.LTM.cachedTenantDeclMap ∧
            tenant ∉ keys (requestAfterScan agent ext config).ltmConfig ∧
            agent.isGTMTenant tenant = false) ∨
          (∃ pc, (tenant, pc) ∈ (requestAfterScan agent ext config).ltmConfig ∧
            pc.ResourceMap = [])) →
        lookup adc tenant = some (AS3Value.tenant
          (if tenant = agent.Partition then
            [("class", AS3Value.str "Tenant"),
             ("Shared", AS3Value.application
               [("class", AS3Value.str "Application"), ("template", AS3Value.str "shared")]),
             ("defaultRouteDomain",
               AS3Value.int (requestAfterScan agent ext config).defaultRouteDomain),
             ("label", AS3Value.str agent.Partition)]
          else [("class", AS3Value.str "Tenant")])) := by
  obtain ⟨r, hr, hres⟩ := createLTMConfigADC_returns agent ext config hpass
  refine ⟨r.1, _, hres, ?_⟩
  intro tenant htenant
  rw [← getDeletedTenantDeclaration_eq]
  rcases htenant with ⟨hc, hnot, hgtm⟩ | ⟨pc, hmem, hempty⟩
  · rw [ltmLoop_lookup_of_not_mem agent ext _ _ _ r hr tenant hnot]
    unfold cachedTenantsLoop
    refine condStore_lookup
      (fun k => (lookup (requestAfterScan agent ext config).ltmConfig k).isNone &&
        !agent.isGTMTenant k)
      (fun k => AS3Value.tenant (getDeletedTenantDeclaration agent.Partition k agent.Partition
        (requestAfterScan agent ext config)))
      agent.LTM.cachedTenantDeclMap [] tenant hc ?_
    simp only [Bool.and_eq_true, Bool.not_eq_true', hgtm, and_true]
    exact (lookup_eq_none_iff _ _).mpr hnot
  · obtain ⟨td, htd, hlook⟩ := ltmLoop_lookup_of_mem agent ext _ _ _ r hr hnd (tenant, pc) hmem
    rw [hlook]
    unfold tenantDeclaration at htd
    simp only [hempty, List.length_nil, if_true, Option.some.injEq] at htd
    rw [← htd]

/-- Witness for C12: the default partition `test` gets the skeleton stub, the empty
partition `foo` and the cached tenant `old` get the bare stub. -/
theorem createLTMConfigADC_deleted_tenants_witness :
    ∃ adc ltm, createLTMConfigADC assemblerAgent iRulesOnlyExternal assemblerRequest =
        some (adc, ltm) ∧
      lookup adc "test" = some (AS3Value.tenant
        [("class", AS3Value.str "Tenant"),
         ("Shared", AS3Value.application
           [("class", AS3Value.str "Application"), ("template", AS3Value.str "shared")]),
         ("defaultRouteDomain", AS3Value.int 2),
         ("label", AS3Value.str "test")]) ∧
      lookup adc "foo" = some (AS3Value.tenant [("class", AS3Value.str "Tenant")]) ∧
      lookup adc "old" = some (AS3Value.tenant [("class", AS3Value.str "Tenant")]) := by
  obtain ⟨adc, ltm, h, hall⟩ :=
    createLTMConfigADC_deleted_tenants assemblerAgent iRulesOnlyExternal assemblerRequest
      (by decide) (by decide)
  exact ⟨adc, ltm, h,
    hall "test" (Or.inr ⟨⟨[], 1⟩, by decide, rfl⟩),
    hall "foo" (Or.inr ⟨⟨[], 0⟩, by decide, rfl⟩),
    hall "old" (Or.inl ⟨by decide, by decide, rfl⟩)⟩

/-- C13: with HA mode off, `createLTMConfigADC` returns (whenever the compile passes return
on the tenants that have resources) a document whose tenant names are exactly the tenants
of the desired `ltmConfig` together with the cached tenants that are absent from
`ltmConfig` and are not GTM tenants, each of them once. -/
theorem createLTMConfigADC_tenant_names (agent : Agent) (ext : External)
    (config : ResourceConfigRequest) (hha : agent.HAMode = false)
    (hpass : ∀ e ∈ config.ltmConfig, e.2.ResourceMap ≠ [] →
      (compileSharedApplication ext config e.1 e.2).isSome = true) :
    ∃ adc ltm, createLTMConfigADC agent ext config = some (adc, ltm) ∧
      (keys adc).Nodup ∧
      ∀ name, name ∈ keys adc ↔
        (name ∈ keys config.ltmConfig ∨
          (name ∈ keys agent.LTM.cachedTenantDeclMap ∧ name ∉ keys config.ltmConfig ∧
            agent.isGTMTenant name = false)) := by
  have hcfg : requestAfterScan agent ext config = config := by
    simp [requestAfterScan, deletionScanDue, hha]
  obtain ⟨r, hr, hres⟩ := createLTMConfigADC_returns agent ext config (by rw [hcfg]; exact hpass)
  rw [hcfg] at hr
  refine ⟨r.1, _, hres, ?_, ?_⟩
  · refine ltmLoop_nodup agent ext config _ _ r hr ?_
    exact condStore_nodup
      (fun k => (lookup config.ltmConfig k).isNone && !agent.isGTMTenant k)
      (fun k => AS3Value.tenant (getDeletedTenantDeclaration agent.Partition k agent.Partition
        config))
      agent.LTM.cachedTenantDeclMap [] (by simp [keys])
  · intro name
    rw [ltmLoop_keys agent ext config _ _ r hr name]
    have hc := condStore_keys
      (fun k => (lookup config.ltmConfig k).isNone && !agent.isGTMTenant k)
      (fun k => AS3Value.tenant (getDeletedTenantDeclaration agent.Partition k agent.Partition
        config))
      agent.LTM.cachedTenantDeclMap [] name
    have hc2 : name ∈ keys (cachedTenantsLoop agent config) ↔
        (name ∈ keys agent.LTM.cachedTenantDeclMap ∧ name ∉ keys config.ltmConfig ∧
          agent.isGTMTenant name = false) := by
      unfold cachedTenantsLoop
      rw [hc]
      simp only [keys, List.map_nil, List.not_mem_nil, false_or, Bool.and_eq_true,
        Bool.not_eq_true']
      rw [show (lookup config.ltmConfig name).isNone = true ↔
        name ∉ List.map Prod.fst config.ltmConfig from lookup_eq_none_iff _ _]
    show name ∈ keys (cachedTenantsLoop agent config) ∨ name ∈ keys config.ltmConfig ↔ _
    rw [hc2]
    tauto

/-- Witness for C13: the tenants `test`, `foo`, `app` of the request and the cached tenant
`old` are in the document, the cached GTM tenant `test_gtm` is not. -/
theorem createLTMConfigADC_tenant_names_witness :
    ∃ adc ltm, createLTMConfigADC assemblerAgent iRulesOnlyExternal assemblerRequest =
        some (adc, ltm) ∧
      (keys adc).Nodup ∧ "old" ∈ keys adc ∧ "app" ∈ keys adc ∧ "test_gtm" ∉ keys adc := by
  obtain ⟨adc, ltm, h, hnd, hall⟩ :=
    createLTMConfigADC_tenant_names assemblerAgent iRulesOnlyExternal assemblerRequest rfl
      (by decide)
  exact ⟨adc, ltm, h, hnd,
    (hall "old").mpr (Or.inr ⟨by decide, by decide, rfl⟩),
    (hall "app").mpr (Or.inl (by decide)),
    fun hmem => by
      rcases (hall "test_gtm").mp hmem with h1 | ⟨_, _, h3⟩
      · exact absurd h1 (by decide)
      · exact absurd h3 (by decide)⟩

/-- C14 as stated fails: a tenant whose resource has an iRule named `class` gets a `Shared`
application whose `class` entry is that iRule object, not the string "Application". -/
theorem createLTMConfigADC_class_named_rule :
    (createLTMConfigADC assemblerAgent iRulesOnlyExternal classRuleRequest).map
        (fun r => lookup r.1 "app") =
      some (some (AS3Value.tenant
        [("class", AS3Value.str "Tenant"),
         ("defaultRouteDomain", AS3Value.int 2),
         ("Shared", AS3Value.application
           [("class", AS3Value.iRules ⟨"iRule", "when CLIENT_ACCEPTED"⟩),
            ("template", AS3Value.str "shared")]),
         ("label", AS3Value.str "test")])) :=
  rfl

/-- C14 (amended): for every tenant of `ltmConfig` with a non-empty resource map, the tenant
object of the document `createLTMConfigADC` returns has `class` "Tenant", a `label` equal to
the controller's partition tag, `defaultRouteDomain` equal to the request's value, and as
`Shared` the application the compile passes build from the skeleton
`{class "Application", template "shared"}`; the class of that application is "Application"
and its template is "shared" provided no compile pass stores an object under the name
`class` or `template`. -/
theorem createLTMConfigADC_compiled_tenant (agent : Agent) (ext : External)
    (config : ResourceConfigRequest)
    (hnd : (keys (requestAfterScan agent ext config).ltmConfig).Nodup)
    (hpass : ∀ e ∈ (requestAfterScan agent ext config).ltmConfig, e.2.ResourceMap ≠ [] →
      (compileSharedApplication ext (requestAfterScan agent ext config) e.1 e.2).isSome = true) :
    ∃ adc ltm, createLTMConfigADC agent ext config = some (adc, ltm) ∧
      ∀ tenantName pc, (tenantName, pc) ∈ (requestAfterScan agent ext config).ltmConfig →
        pc.ResourceMap ≠ [] →
        ∃ sharedApp,
          compileSharedApplication ext (requestAfterScan agent ext config) tenantName pc =
            some sharedApp ∧
          lookup adc tenantName = some (AS3Value.tenant
            [("class", AS3Value.str "Tenant"),
             ("defaultRouteDomain",
               AS3Value.int (requestAfterScan agent ext config).defaultRouteDomain),
             ("Shared", AS3Value.application sharedApp),
             ("label", AS3Value.str agent.Partition)]) ∧
          (reservedNamesFree ext (requestAfterScan agent ext config) tenantName pc →
            lookup sharedApp "class" = some (AS3Value.str "Application") ∧
              lookup sharedApp "template" = some (AS3Value.str "shared")) := by
  obtain ⟨r, hr, hres⟩ := createLTMConfigADC_returns agent ext config hpass
  refine ⟨r.1, _, hres, ?_⟩
  intro tenantName pc hmem hne
  obtain ⟨td, htd, hlook⟩ :=
    ltmLoop_lookup_of_mem agent ext _ _ _ r hr hnd (tenantName, pc) hmem
  have hlen : ¬ pc.ResourceMap.length = 0 := fun h0 => hne (List.length_eq_zero.mp h0)
  unfold tenantDeclaration at htd
  simp only [hlen, if_false] at htd
  cases hc : compileSharedApplication ext (requestAfterScan agent ext config) tenantName pc with
  | none => simp [hc] at htd
  | some sharedApp =>
    simp only [hc, Option.map_some', Option.some.injEq] at htd
    refine ⟨sharedApp, rfl, ?_, ?_⟩
    · rw [hlook, ← htd]
      rfl
    · intro hfree
      exact compileSharedApplication_skeleton ext _ tenantName pc sharedApp hfree hc

/-- Witness for C14 (amended): the tenant `app` of the sample request, whose only compiled
object is the iRule `rule1`. -/
theorem createLTMConfigADC_compiled_tenant_witness :
    ∃ adc ltm, createLTMConfigADC assemblerAgent iRulesOnlyExternal assemblerRequest =
        some (adc, ltm) ∧
      ∃ sharedApp,
        lookup adc "app" = some (AS3Value.tenant
          [("class", AS3Value.str "Tenant"),
           ("defaultRouteDomain", AS3Value.int 2),
           ("Shared", AS3Value.application sharedApp),
           ("label", AS3Value.str "test")]) ∧
        lookup sharedApp "class" = some (AS3Value.str "Application") ∧
        lookup sharedApp "template" = some (AS3Value.str "shared") := by
  obtain ⟨adc, ltm, h, hall⟩ :=
    createLTMConfigADC_compiled_tenant assemblerAgent iRulesOnlyExternal assemblerRequest
      (by decide) (by decide)
  obtain ⟨sharedApp, _, hlook, hskel⟩ := hall "app"
    ⟨[("vs1", { IRulesMap := [(⟨"rule1", "app"⟩, ⟨"rule1", "when CLIENT_ACCEPTED"⟩)] })], 2⟩
    (by decide) (by decide)
  refine ⟨adc, ltm, h, sharedApp, hlook, hskel ?_⟩
  refine ⟨?_, ?_, ?_, ?_, ?_⟩
  · intro app app' happ
    cases happ
    exact ⟨rfl, rfl⟩
  · intro app app' happ
    cases happ
    exact ⟨rfl, rfl⟩
  · intro app app' happ
    cases happ
    exact ⟨rfl, rfl⟩
  · decide
  · decide

/-- C21 (the code at the failing input): when the version as a whole parses and contains a
`.`, `UpdateApiVersion` has already replaced the version info when it parses the prefix
before the last `.`, and it assigns the value `strconv.ParseFloat` returns for that prefix
to the coarse value without looking at the error: a failure of that second parse leaves
neither the version info nor the coarse value as it was. -/
theorem UpdateApiVersion_prefix_rejected {F : Type} (ParseFloat : String → F × ConvError)
    (am : VersionTracker F) (version build schemaVersion : String) (i : Nat)
    (h1 : (ParseFloat version).2 = ConvError.nil)
    (h2 : LastIndex version.toList '.' = some i)
    (h3 : (ParseFloat (String.mk (version.toList.take i))).2 ≠ ConvError.nil) :
    UpdateApiVersion ParseFloat am version build schemaVersion =
      some ⟨⟨(ParseFloat version).1, schemaVersion, version ++ "-" ++ build⟩,
        (ParseFloat (String.mk (version.toList.take i))).1⟩ := by
  unfold UpdateApiVersion
  split
  · rename_i floatValue heq
    rw [h2, heq]
  · rename_i hne
    exact absurd (Prod.ext rfl h1 : ParseFloat version = ((ParseFloat version).1, ConvError.nil))
      (hne (ParseFloat version).1)

/-- Witness for C21: the version `.5` parses, its prefix before the last `.` is empty and
does not; the tracker of version 3.50 comes out with the release `.5-5`, the schema
`3.52.0` and the coarse value 0. -/
theorem UpdateApiVersion_prefix_rejected_witness :
    (plainDecimalFloat (String.mk (".5".toList.take 0))).2 ≠ ConvError.nil ∧
      UpdateApiVersion plainDecimalFloat trackerBefore ".5" "5" "3.52.0" =
        some ⟨⟨(5, 1), "3.52.0", ".5-5"⟩, (0, 0)⟩ :=
  ⟨by decide,
    UpdateApiVersion_prefix_rejected plainDecimalFloat trackerBefore ".5" "5" "3.52.0" 0
      (by decide) (by decide) (by decide)⟩

/-- C22 (the code at the failing input): for a version that parses as a number and
contains no `.`, `strings.LastIndex` is -1 and the slice expression `version[:-1]` panics:
`UpdateApiVersion` does not return. -/
theorem UpdateApiVersion_no_dot_panics {F : Type} (ParseFloat : String → F × ConvError)
    (am : VersionTracker F) (version build schemaVersion : String)
    (h1 : (ParseFloat version).2 = ConvError.nil) (h2 : '.' ∉ version.toList) :
    UpdateApiVersion ParseFloat am version build schemaVersion = none := by
  unfold UpdateApiVersion
  split
  · rw [LastIndex_eq_none _ _ h2]
  · rename_i hne
    exact absurd (Prod.ext rfl h1 : ParseFloat version = ((ParseFloat version).1, ConvError.nil))
      (hne (ParseFloat version).1)

/-- Witness for C22: the version `3`. -/
theorem UpdateApiVersion_no_dot_panics_witness :
    (plainDecimalFloat "3").2 = ConvError.nil ∧
      UpdateApiVersion plainDecimalFloat trackerBefore "3" "5" "3.52.0" = none :=
  ⟨by decide,
    UpdateApiVersion_no_dot_panics plainDecimalFloat trackerBefore "3" "5" "3.52.0"
      (by decide) (by decide)⟩

/-- C23 as stated fails: the members of a pool are deduplicated by the whole `PoolMember`
value, of which the member type is a part.  Two members that agree on address, port,
ratio, admin state and connection limit and differ in member type are both declared, and
with node sharing on the two declared members are equal. -/
theorem createPoolDecl_members_differing_in_type :
    (twoMemberTypesConfig.Pools.map (fun v => v.Members.map (fun m =>
        (m.Address, m.Port, m.Ratio, m.AdminState, m.ConnectionLimit)))) =
      [[("10.0.0.1", 8080, 0, "", 0), ("10.0.0.1", 8080, 0, "", 0)]] ∧
    createPoolDecl sampleConstants twoMemberTypesConfig [] true "test" "cluster" =
      some [("pool1", AS3Value.pool
        { Class := "Pool",
          Members :=
            [{ AddressDiscovery := "static", ServerAddresses := ["10.0.0.1"],
               ServicePort := 8080, ShareNodes := true },
             { AddressDiscovery := "static", ServerAddresses := ["10.0.0.1"],
               ServicePort := 8080, ShareNodes := true }],
          MinimumMonitors := { Type_ := 1, StrVal := "all" } })] :=
  ⟨by decide, rfl⟩

/-- C23 (amended): when no object other than a pool is stored under the name of a pool of
the config, `createPoolDecl` returns, and the pool it leaves under a name (declared from
the last pool of that name) has one member per distinct `PoolMember` value of the input,
address, port, member type, ratio, admin state and connection limit taken together, in
the order of first occurrence. -/
theorem createPoolDecl_members (K : Constants) (cfg : ResourceConfig)
    (sharedApp : as3Application) (shareNodes : Bool) (tenant poolMemberType : String)
    (hpools : ∀ v ∈ cfg.Pools, poolOrAbsent (lookup sharedApp v.Name) = true) :
    ∃ app, createPoolDecl K cfg sharedApp shareNodes tenant poolMemberType = some app ∧
      ∀ pre v post, cfg.Pools = pre ++ v :: post → (∀ w ∈ post, w.Name ≠ v.Name) →
        ∃ pool, lookup app v.Name = some (AS3Value.pool pool) ∧
          pool.Members =
            (firstOccurrences v.Members).map (poolMember K shareNodes poolMemberType) ∧
          (firstOccurrences v.Members).Nodup ∧
          ∀ m, m ∈ firstOccurrences v.Members ↔ m ∈ v.Members := by
  refine ⟨_, createPoolDecl_eq_storePools K shareNodes tenant poolMemberType cfg.Pools
    sharedApp hpools, ?_⟩
  intro pre v post hsplit hlast
  rw [hsplit]
  exact ⟨_, storePools_lookup_last K shareNodes tenant poolMemberType sharedApp pre post v
    hlast, poolDecl_Members K shareNodes tenant poolMemberType v,
    firstOccurrences_nodup _, mem_firstOccurrences _⟩

/-- Witness for C23 (amended): of the members 10.0.0.1, 10.0.0.2, 10.0.0.1 the pool
declares the first and the second. -/
theorem createPoolDecl_members_witness :
    ∃ app pool,
      createPoolDecl sampleConstants repeatedMemberConfig [] false "test" "cluster" =
        some app ∧
      lookup app "pool1" = some (AS3Value.pool pool) ∧
      pool.Members =
        [{ AddressDiscovery := "static", ServerAddresses := ["10.0.0.1"], ServicePort := 8080 },
         { AddressDiscovery := "static", ServerAddresses := ["10.0.0.2"],
           ServicePort := 8080 }] := by
  obtain ⟨app, happ, hall⟩ :=
    createPoolDecl_members sampleConstants repeatedMemberConfig [] false "test" "cluster"
      (by decide)
  obtain ⟨pool, hlookup, hmembers, _⟩ := hall []
    { Name := "pool1",
      Members := [{ Address := "10.0.0.1", Port := 8080 },
                  { Address := "10.0.0.2", Port := 8080 },
                  { Address := "10.0.0.1", Port := 8080 }] } [] rfl (by simp)
  exact ⟨app, pool, happ, hlookup, by rw [hmembers]; decide⟩

/-- C24 as stated fails: a pool without monitors gets `all` for `minimumMonitors` even
when a minimum is configured. -/
theorem createPoolDecl_minimum_without_monitor :
    createPoolDecl sampleConstants minimumWithoutMonitorConfig [] false "test" "cluster" =
      some [("pool1", AS3Value.pool
        { Class := "Pool", MinimumMonitors := { Type_ := 1, StrVal := "all" } })] :=
  rfl

/-- C24 (amended): when no object other than a pool is stored under the name of a pool of
the config, `createPoolDecl` returns, and `minimumMonitors` of the pool it leaves under a
name is the sentinel `all` when the pool of the config lists no monitor; when it lists
one, it is the configured value if one is configured (a non-empty string or a non-zero
integer) and 1 otherwise. -/
theorem createPoolDecl_minimumMonitors (K : Constants) (cfg : ResourceConfig)
    (sharedApp : as3Application) (shareNodes : Bool) (tenant poolMemberType : String)
    (hpools : ∀ v ∈ cfg.Pools, poolOrAbsent (lookup sharedApp v.Name) = true) :
    ∃ app, createPoolDecl K cfg sharedApp shareNodes tenant poolMemberType = some app ∧
      ∀ pre v post, cfg.Pools = pre ++ v :: post → (∀ w ∈ post, w.Name ≠ v.Name) →
        ∃ pool, lookup app v.Name = some (AS3Value.pool pool) ∧
          (v.MonitorNames = [] → pool.MinimumMonitors = { Type_ := 1, StrVal := "all" }) ∧
          (v.MonitorNames ≠ [] →
            v.MinimumMonitors.StrVal ≠ "" ∨ v.MinimumMonitors.IntVal ≠ 0 →
            pool.MinimumMonitors = v.MinimumMonitors) ∧
          (v.MonitorNames ≠ [] →
            v.MinimumMonitors.StrVal = "" → v.MinimumMonitors.IntVal = 0 →
            pool.MinimumMonitors = { Type_ := 0, IntVal := 1 }) := by
  refine ⟨_, createPoolDecl_eq_storePools K shareNodes tenant poolMemberType cfg.Pools
    sharedApp hpools, ?_⟩
  intro pre v post hsplit hlast
  rw [hsplit]
  refine ⟨_, storePools_lookup_last K shareNodes tenant poolMemberType sharedApp pre post v
    hlast, ?_, ?_, ?_⟩
  · intro hnone
    show (poolDecl K shareNodes tenant poolMemberType v).MinimumMonitors = _
    rw [poolDecl_MinimumMonitors]
    simp [minimumMonitors, poolMonitors, hnone]
  · intro hsome hconf
    show (poolDecl K shareNodes tenant poolMemberType v).MinimumMonitors = _
    rw [poolDecl_MinimumMonitors]
    have hlen : (poolMonitors K tenant v).length > 0 := by
      simp only [poolMonitors, List.length_map]
      exact List.length_pos.2 hsome
    simp only [minimumMonitors, if_pos hlen, if_pos hconf]
  · intro hsome hstr hint
    show (poolDecl K shareNodes tenant poolMemberType v).MinimumMonitors = _
    rw [poolDecl_MinimumMonitors]
    have hlen : (poolMonitors K tenant v).length > 0 := by
      simp only [poolMonitors, List.length_map]
      exact List.length_pos.2 hsome
    have hconf : ¬ (v.MinimumMonitors.StrVal ≠ "" ∨ v.MinimumMonitors.IntVal ≠ 0) := by
      simp [hstr, hint]
    simp only [minimumMonitors, if_pos hlen, if_neg hconf]

/-- Witness for C24 (amended): a pool with two monitors and a configured minimum of 2
keeps that minimum. -/
theorem createPoolDecl_minimumMonitors_witness :
    ∃ app pool,
      createPoolDecl sampleConstants minimumWithMonitorsConfig [] false "test" "cluster" =
        some app ∧
      lookup app "pool1" = some (AS3Value.pool pool) ∧
      pool.MinimumMonitors = { Type_ := 0, IntVal := 2 } := by
  obtain ⟨app, happ, hall⟩ :=
    createPoolDecl_minimumMonitors sampleConstants minimumWithMonitorsConfig [] false "test"
      "cluster" (by decide)
  obtain ⟨pool, hlookup, _, hconfigured, _⟩ := hall []
    { Name := "pool1",
      MonitorNames := [{ Name := "/test/mon1" }, { Name := "/test/mon2" }],
      MinimumMonitors := { Type_ := 0, IntVal := 2 } } [] rfl (by simp)
  exact ⟨app, pool, happ, hlookup, hconfigured (by simp) (by decide)⟩

/-- C25: when no object other than a pool is stored under the name of a pool of the
config, `createPoolDecl` returns, a second run with the same config on the shared
application it left returns as well and leaves every entry, and so the monitor list of
every pool, as the first run left it; and every monitor of a pool that was in the shared
application under the name of a pool of the config is among the monitors of the pool
stored under that name. -/
theorem createPoolDecl_twice (K : Constants) (cfg : ResourceConfig)
    (sharedApp : as3Application) (shareNodes : Bool) (tenant poolMemberType : String)
    (hpools : ∀ v ∈ cfg.Pools, poolOrAbsent (lookup sharedApp v.Name) = true) :
    ∃ app1 app2,
      createPoolDecl K cfg sharedApp shareNodes tenant poolMemberType = some app1 ∧
      createPoolDecl K cfg app1 shareNodes tenant poolMemberType = some app2 ∧
      (∀ name, lookup app2 name = lookup app1 name) ∧
      ∀ v ∈ cfg.Pools, ∀ pl, lookup sharedApp v.Name = some (AS3Value.pool pl) →
        ∃ pool, lookup app1 v.Name = some (AS3Value.pool pool) ∧
          ∀ mon ∈ pl.Monitors, mon ∈ pool.Monitors := by
  have hstored : ∀ (app : as3Application), ∀ v ∈ cfg.Pools,
      ∃ pre u, lookup (storePools K shareNodes tenant poolMemberType app cfg.Pools) v.Name =
        some (AS3Value.pool (mergedPool K shareNodes tenant poolMemberType
          (storePools K shareNodes tenant poolMemberType app pre) u)) ∧ u.Name = v.Name := by
    intro app v hv
    obtain ⟨pre, u, post, hsplit, hu, hpost⟩ := exists_last_named cfg.Pools v.Name ⟨v, hv, rfl⟩
    refine ⟨pre, u, ?_, hu⟩
    rw [hsplit, ← hu]
    exact storePools_lookup_last K shareNodes tenant poolMemberType app pre post u
      (fun w hw => hu ▸ hpost w hw)
  refine ⟨_, _, createPoolDecl_eq_storePools K shareNodes tenant poolMemberType cfg.Pools
    sharedApp hpools, createPoolDecl_eq_storePools K shareNodes tenant poolMemberType cfg.Pools
    _ ?_, storePools_twice_lookup K shareNodes tenant poolMemberType cfg.Pools sharedApp, ?_⟩
  · intro v hv
    obtain ⟨pre, u, hlookup, _⟩ := hstored sharedApp v hv
    rw [hlookup]
    rfl
  · intro v hv pl hpl
    obtain ⟨pre, u, hlookup, hu⟩ := hstored sharedApp v hv
    refine ⟨_, hlookup, ?_⟩
    intro mon hmon
    show mon ∈ mergeMonitors _ _
    rw [mem_mergeMonitors]
    right
    rw [← mem_firstOccurrences, hu, firstOccurrences_monitorsAt_storePools,
      mem_firstOccurrences, List.mem_append]
    right
    unfold monitorsAt
    rw [hpl]
    exact hmon

/-- Witness for C25: the pool `pool1` with the monitors `mon1` and `mon2`, compiled into a
shared application whose `pool1` has the monitors `gslb_mon` and `mon1`. -/
theorem createPoolDecl_twice_witness :
    ∃ app1 app2,
      createPoolDecl sampleConstants minimumWithMonitorsConfig applicationWithPool false
        "test" "cluster" = some app1 ∧
      createPoolDecl sampleConstants minimumWithMonitorsConfig app1 false "test" "cluster" =
        some app2 ∧
      monitorsAt app1 "pool1" =
        [{ BigIP := "", Use := "/test/Shared/mon1" }, { BigIP := "", Use := "/test/Shared/mon2" },
         { BigIP := "/Common/gslb_mon", Use := "" }] ∧
      monitorsAt app2 "pool1" = monitorsAt app1 "pool1" := by
  obtain ⟨app1, app2, h1, h2, hsame, _⟩ :=
    createPoolDecl_twice sampleConstants minimumWithMonitorsConfig applicationWithPool false
      "test" "cluster" (by decide)
  refine ⟨app1, app2, h1, h2, ?_, ?_⟩
  · have hrun : createPoolDecl sampleConstants minimumWithMonitorsConfig applicationWithPool
        false "test" "cluster" = some (storePools sampleConstants false "test" "cluster"
          applicationWithPool minimumWithMonitorsConfig.Pools) :=
      createPoolDecl_eq_storePools _ _ _ _ _ _ (by decide)
    rw [h1] at hrun
    rw [Option.some.inj hrun]
    decide
  · unfold monitorsAt
    rw [hsame]

/-- C26 as stated fails: two monitors of different names with the same last segment, not
referenced from the BIG-IP, are declared as the same `use` reference twice. -/
theorem createPoolDecl_monitors_same_segment :
    (sameSegmentMonitorsConfig.Pools.map (fun v => v.MonitorNames.map (fun val => val.Name))) =
      [["/Common/mon1", "/test/mon1"]] ∧
    createPoolDecl sampleConstants sameSegmentMonitorsConfig [] false "test" "cluster" =
      some [("pool1", AS3Value.pool
        { Class := "Pool",
          Monitors := [{ BigIP := "", Use := "/test/Shared/mon1" },
                       { BigIP := "", Use := "/test/Shared/mon1" }],
          MinimumMonitors := { Type_ := 0, IntVal := 1 } })] :=
  ⟨by decide, rfl⟩

/-- C26 (amended): when no object other than a pool is stored under the name of a pool of
the config, and the monitor names of every pool of the config give pairwise distinct
references (the name itself for a reference from the BIG-IP, the last segment of the name
under the shared application of the tenant for any other), `createPoolDecl` returns and
the monitor list of every pool it stores has no two equal references, whatever the
monitors of the pools that were stored before. -/
theorem createPoolDecl_monitors_nodup (K : Constants) (cfg : ResourceConfig)
    (sharedApp : as3Application) (shareNodes : Bool) (tenant poolMemberType : String)
    (hpools : ∀ v ∈ cfg.Pools, poolOrAbsent (lookup sharedApp v.Name) = true)
    (hdistinct : ∀ v ∈ cfg.Pools, (v.MonitorNames.map (poolMonitor K tenant)).Nodup) :
    ∃ app, createPoolDecl K cfg sharedApp shareNodes tenant poolMemberType = some app ∧
      ∀ v ∈ cfg.Pools, ∃ pool, lookup app v.Name = some (AS3Value.pool pool) ∧
        pool.Monitors.Nodup := by
  refine ⟨_, createPoolDecl_eq_storePools K shareNodes tenant poolMemberType cfg.Pools
    sharedApp hpools, ?_⟩
  intro v hv
  obtain ⟨pre, u, post, hsplit, hu, hpost⟩ := exists_last_named cfg.Pools v.Name ⟨v, hv, rfl⟩
  have hmem : u ∈ cfg.Pools := by
    rw [hsplit]
    simp
  refine ⟨mergedPool K shareNodes tenant poolMemberType
    (storePools K shareNodes tenant poolMemberType sharedApp pre) u, ?_, ?_⟩
  · rw [hsplit, ← hu]
    exact storePools_lookup_last K shareNodes tenant poolMemberType sharedApp pre post u
      (fun w hw => hu ▸ hpost w hw)
  · exact nodup_mergeMonitors _ _ (hdistinct u hmem)

/-- Witness for C26 (amended): the monitors `mon1` and `mon2` merged with the stored
monitors `gslb_mon` and `mon1`. -/
theorem createPoolDecl_monitors_nodup_witness :
    ∃ app, createPoolDecl sampleConstants minimumWithMonitorsConfig applicationWithPool false
        "test" "cluster" = some app ∧
      ∀ v ∈ minimumWithMonitorsConfig.Pools, ∃ pool,
        lookup app v.Name = some (AS3Value.pool pool) ∧ pool.Monitors.Nodup :=
  createPoolDecl_monitors_nodup sampleConstants minimumWithMonitorsConfig applicationWithPool
    false "test" "cluster" (by decide) (by decide)

/-- C27: `createRuleCondition` appends one condition per condition of the rule, in order,
and the condition declared for a host condition with values `v1..vn` matches
`[v1:p, ..., vn:p]` when the port `p` is neither 80 nor 443, and
`[v1:p, v1, ..., vn:p, vn]`, twice as many values, when it is 80 or 443. -/
theorem createRuleCondition_host_values (rl : Rule) (rulesData : as3Rule) (port : Int) :
    ∃ conditions,
      (createRuleCondition rl rulesData port).Conditions = rulesData.Conditions ++ conditions ∧
      conditions.length = rl.Conditions.length ∧
      ∀ (i : Nat) (c : Condition), rl.Conditions[i]? = some c → c.Host = true →
        ∃ condition all, conditions[i]? = some condition ∧ condition.All = some all ∧
          (port ≠ 80 → port ≠ 443 →
            all.Values = c.Values.map (fun v => v ++ ":" ++ Itoa port)) ∧
          (port = 80 ∨ port = 443 →
            all.Values = (c.Values.map (fun v => [v ++ ":" ++ Itoa port, v])).flatten ∧
            all.Values.length = 2 * c.Values.length) := by
  refine ⟨rl.Conditions.map (fun c => ruleCondition c port), ?_, by simp, ?_⟩
  · rw [createRuleCondition_eq]
  · intro i c hi hhost
    obtain ⟨all, hall, hvalues⟩ := ruleCondition_host c port hhost
    refine ⟨ruleCondition c port, all, by rw [List.getElem?_map, hi]; rfl, hall, ?_, ?_⟩
    · intro h80 h443
      rw [hvalues, if_pos ⟨h80, h443⟩]
    · intro hport
      have hnot : ¬ (port ≠ 80 ∧ port ≠ 443) := by
        rcases hport with h | h <;> simp [h]
      rw [hvalues, if_neg hnot]
      refine ⟨rfl, ?_⟩
      generalize c.Values = l
      induction l with
      | nil => rfl
      | cons x xs ih =>
        simp only [List.map_cons, List.flatten_cons, List.length_append, List.length_cons,
          List.length_nil, ih]
        omega

/-- Witness for C27: the hosts `a.example.com` and `b.example.com` on port 8080 and on
port 443. -/
theorem createRuleCondition_host_values_witness :
    (∃ condition all,
      (createRuleCondition hostRule { Name := "rule1" } 8080).Conditions = [condition] ∧
      condition.All = some all ∧
      all.Values = ["a.example.com:8080", "b.example.com:8080"]) ∧
    ∃ condition all,
      (createRuleCondition hostRule { Name := "rule1" } 443).Conditions = [condition] ∧
      condition.All = some all ∧
      all.Values = ["a.example.com:443", "a.example.com", "b.example.com:443",
        "b.example.com"] := by
  constructor
  · obtain ⟨conditions, happend, hlength, hall⟩ :=
      createRuleCondition_host_values hostRule { Name := "rule1" } 8080
    obtain ⟨condition, all, hcondition, hsome, hother, _⟩ := hall 0
      { Host := true, HTTPHost := true, Equals := true, Request := true,
        Values := ["a.example.com", "b.example.com"] } rfl rfl
    refine ⟨condition, all, ?_, hsome, by rw [hother (by decide) (by decide)]; decide⟩
    rw [happend]
    match conditions, hlength, hcondition with
    | [x], _, hx =>
      simp only [List.getElem?_cons_zero, Option.some.injEq] at hx
      rw [hx]
      rfl
  · obtain ⟨conditions, happend, hlength, hall⟩ :=
      createRuleCondition_host_values hostRule { Name := "rule1" } 443
    obtain ⟨condition, all, hcondition, hsome, _, hboth⟩ := hall 0
      { Host := true, HTTPHost := true, Equals := true, Request := true,
        Values := ["a.example.com", "b.example.com"] } rfl rfl
    refine ⟨condition, all, ?_, hsome, by rw [(hboth (Or.inr rfl)).1]; decide⟩
    rw [happend]
    match conditions, hlength, hcondition with
    | [x], _, hx =>
      simp only [List.getElem?_cons_zero, Option.some.injEq] at hx
      rw [hx]
      rfl

/-- C28: `createRuleAction` appends one action per action of the rule, in order.  When the
ten recognised persist methods are pairwise distinct, the action declared for a non-empty
persist method that is one of them has type `persist`, event `request` and, of the ten
persistence blocks, the one of that method and no other, filled with the fields of that
method; for a non-empty persist method that is none of them no persistence block is
set. -/
theorem createRuleAction_persist (K : Constants) (rl : Rule) (rulesData : as3Rule)
    (hK : (persistKinds K).Nodup) :
    ∃ actions,
      (createRuleAction K rl rulesData).Actions = rulesData.Actions ++ actions ∧
      actions.length = rl.Actions.length ∧
      ∀ (i : Nat) (v : Action), rl.Actions[i]? = some v →
        ∃ action, actions[i]? = some action ∧
          (v.PersistMethod ≠ "" →
            (v.PersistMethod = K.SourceAddress →
              action.Type_ = "persist" ∧ action.Event = "request" ∧
              persistBlocks action =
                [some { Netmask := v.Netmask, Timeout := v.Timeout }, none, none, none, none,
                  none, none, none, none, none]) ∧
            (v.PersistMethod = K.DestinationAddress →
              action.Type_ = "persist" ∧ action.Event = "request" ∧
              persistBlocks action =
                [none, some { Netmask := v.Netmask, Timeout := v.Timeout }, none, none, none,
                  none, none, none, none, none]) ∧
            (v.PersistMethod = K.CookieHash →
              action.Type_ = "persist" ∧ action.Event = "request" ∧
              persistBlocks action =
                [none, none,
                  some { Timeout := v.Timeout, Offset := v.Offset, Length := v.Length,
                         Name := v.Name },
                  none, none, none, none, none, none, none]) ∧
            (v.PersistMethod = K.CookieInsert →
              action.Type_ = "persist" ∧ action.Event = "request" ∧
              persistBlocks action =
                [none, none, none, some { Name := v.Name, Expiry := v.Expiry }, none, none,
                  none, none, none, none]) ∧
            (v.PersistMethod = K.CookieRewrite →
              action.Type_ = "persist" ∧ action.Event = "request" ∧
              persistBlocks action =
                [none, none, none, none, some { Name := v.Name, Expiry := v.Expiry }, none,
                  none, none, none, none]) ∧
            (v.PersistMethod = K.CookiePassive →
              action.Type_ = "persist" ∧ action.Event = "request" ∧
              persistBlocks action =
                [none, none, none, none, none, some { Name := v.Name }, none, none, none,
                  none]) ∧
            (v.PersistMethod = K.Universal →
              action.Type_ = "persist" ∧ action.Event = "request" ∧
              persistBlocks action =
                [none, none, none, none, none, none,
                  some { Key := v.Key, Timeout := v.Timeout }, none, none, none]) ∧
            (v.PersistMethod = K.Carp →
              action.Type_ = "persist" ∧ action.Event = "request" ∧
              persistBlocks action =
                [none, none, none, none, none, none, none,
                  some { Key := v.Key, Timeout := v.Timeout }, none, none]) ∧
            (v.PersistMethod = K.Hash →
              action.Type_ = "persist" ∧ action.Event = "request" ∧
              persistBlocks action =
                [none, none, none, none, none, none, none, none,
                  some { Key := v.Key, Timeout := v.Timeout }, none]) ∧
            (v.PersistMethod = K.Disable →
              action.Type_ = "persist" ∧ action.Event = "request" ∧
              persistBlocks action =
                [none, none, none, none, none, none, none, none, none, some {}]) ∧
            (v.PersistMethod ∉ persistKinds K →
              persistBlocks action = List.replicate 10 none)) := by
  refine ⟨rl.Actions.map (ruleAction K), ?_, by simp, ?_⟩
  · rw [createRuleAction_eq]
  · intro i v hi
    refine ⟨ruleAction K v, by rw [List.getElem?_map, hi]; rfl, ?_⟩
    intro hne
    exact persistAction_blocks K v (baseAction v) (persistBlocks_baseAction v) hK hne

/-- Witness for C28: a forward action, a cookie-hash persistence action and an action with
the unknown persist method `sticky`. -/
theorem createRuleAction_persist_witness :
    ∃ forward persist unknown,
      (createRuleAction sampleConstants persistRule { Name := "rule1" }).Actions =
        [forward, persist, unknown] ∧
      persist.Type_ = "persist" ∧ persist.Event = "request" ∧
      persistBlocks persist =
        [none, none, some { Timeout := 30, Offset := 1, Length := 8, Name := "JSESSIONID" },
          none, none, none, none, none, none, none] ∧
      persistBlocks unknown = List.replicate 10 none := by
  obtain ⟨actions, happend, hlength, hall⟩ :=
    createRuleAction_persist sampleConstants persistRule { Name := "rule1" }
      (by simp [persistKinds, sampleConstants])
  obtain ⟨persist, hpersist, hblocks⟩ := hall 1
    { PersistMethod := "cookieHash", Timeout := 30, Offset := 1, Length := 8,
      Name := "JSESSIONID", Netmask := "255.255.255.0", Key := "k" } rfl
  obtain ⟨unknown, hunknown, hnone⟩ := hall 2
    { Forward := true, PersistMethod := "sticky", Timeout := 30 } rfl
  obtain ⟨htype, hevent, hhash⟩ := (hblocks (by decide)).2.2.1 rfl
  have hrest := (hnone (by decide)).2.2.2.2.2.2.2.2.2.2
    (by simp [persistKinds, sampleConstants])
  obtain ⟨forward, hthree⟩ := list_of_three actions persist unknown hlength hpersist hunknown
  rw [hthree] at happend
  exact ⟨forward, persist, unknown, happend, htype, hevent, hhash, hrest⟩

/-- C29 (the code at the failing input): `createPoliciesDecl` assigns the class and the
strategy of an endpoint policy inside its loop over the rules, so the object it stores
under the name of a policy without rules has neither: its class and its strategy are
empty, whatever the strategy of the policy. -/
theorem createPoliciesDecl_without_rules (K : Constants) (cfg : ResourceConfig)
    (sharedApp : as3Application) (pre post : List Policy) (pl : Policy)
    (hsplit : cfg.Policies = pre ++ pl :: post) (hlast : ∀ w ∈ post, w.Name ≠ pl.Name)
    (hrules : pl.Rules = []) :
    lookup (createPoliciesDecl K cfg sharedApp) pl.Name =
      some (AS3Value.endpointPolicy { Class := "", Strategy := "", Rules := [] }) := by
  unfold createPoliciesDecl
  simp only [hsplit]
  rw [foldl_store_lookup_last (fun pl : Policy => pl.Name)
    (fun pl => AS3Value.endpointPolicy (pl.Rules.foldl (policyRuleStep K pl
      (extractVirtualAddressAndPort cfg.Virtual.Destination).2) {})) pre post pl sharedApp hlast,
    hrules]
  rfl

/-- Witness for C29: the policy `policy1` of strategy `/Common/first-match`, without
rules. -/
theorem createPoliciesDecl_without_rules_witness :
    lookup (createPoliciesDecl sampleConstants policyWithoutRulesConfig []) "policy1" =
      some (AS3Value.endpointPolicy { Class := "", Strategy := "", Rules := [] }) :=
  createPoliciesDecl_without_rules sampleConstants policyWithoutRulesConfig [] [] []
    { Name := "policy1", Strategy := "/Common/first-match" } rfl (by simp) rfl

/-- C30 as stated fails: with only the client profile set, the service gets a plain
reference to the client profile, for HTTP/2 and for TCP; with only the server profile set,
the service gets no TCP profile at all. -/
theorem createServiceDecl_single_profile :
    (∃ svc,
      lookup (createServiceDecl sampleConstants sampleHelpers clientOnlyConfig [] "test"
        (352, 2)).2 "vs1" = some (AS3Value.service svc) ∧
      svc.ProfileHTTP2 =
        some (as3MultiTypeParam.pointer { BigIP := "/Common/http2-client", Use := "" }) ∧
      svc.ProfileTCP =
        some (as3MultiTypeParam.pointer { BigIP := "/Common/tcp-client", Use := "" })) ∧
    ∃ svc,
      lookup (createServiceDecl sampleConstants sampleHelpers serverOnlyConfig [] "test"
        (352, 2)).2 "vs1" = some (AS3Value.service svc) ∧
      svc.ProfileHTTP2 =
        some (as3MultiTypeParam.profileHTTP2
          { Egress := some { BigIP := "/Common/http2-server", Use := "" } }) ∧
      svc.ProfileTCP = none :=
  ⟨⟨_, rfl, rfl, rfl⟩, ⟨_, rfl, rfl, rfl⟩⟩

/-- C30 (amended): the service that `createServiceDecl` stores under the name of the
virtual has, for the HTTP/2 pair of an `https` virtual and for the TCP pair: with both
profiles set, a profile object with an ingress reference to the client profile and an
egress reference to the server profile; with only the client profile set, a plain
reference to the client profile; with only the server profile set, for HTTP/2 a profile
object holding a single egress reference to the server profile, and for TCP no profile
(provided `addPersistenceMethod` leaves the TCP profile alone). -/
theorem createServiceDecl_profile_pairs {F : Type} (K : Constants) (H : Helpers F)
    (cfg : ResourceConfig) (sharedApp : as3Application) (tenant : String)
    (bigipAs3Version : F) :
    ∃ svc,
      lookup (createServiceDecl K H cfg sharedApp tenant bigipAs3Version).2 cfg.Virtual.Name =
        some (AS3Value.service svc) ∧
      (cfg.MetaData.Protocol = "https" →
        (cfg.Virtual.HTTP2.Client ≠ "" → cfg.Virtual.HTTP2.Server ≠ "" →
          svc.ProfileHTTP2 = some (as3MultiTypeParam.profileHTTP2
            { Ingress := some { BigIP := cfg.Virtual.HTTP2.Client, Use := "" },
              Egress := some { BigIP := cfg.Virtual.HTTP2.Server, Use := "" } })) ∧
        (cfg.Virtual.HTTP2.Client ≠ "" → cfg.Virtual.HTTP2.Server = "" →
          svc.ProfileHTTP2 = some (as3MultiTypeParam.pointer
            { BigIP := cfg.Virtual.HTTP2.Client, Use := "" })) ∧
        (cfg.Virtual.HTTP2.Client = "" → cfg.Virtual.HTTP2.Server ≠ "" →
          svc.ProfileHTTP2 = some (as3MultiTypeParam.profileHTTP2
            { Egress := some { BigIP := cfg.Virtual.HTTP2.Server, Use := "" } }))) ∧
      (cfg.Virtual.TCP.Client ≠ "" → cfg.Virtual.TCP.Server ≠ "" →
        svc.ProfileTCP = some (as3MultiTypeParam.profileTCP
          { Ingress := some { BigIP := cfg.Virtual.TCP.Client, Use := "" },
            Egress := some { BigIP := cfg.Virtual.TCP.Server, Use := "" } })) ∧
      (cfg.Virtual.TCP.Client ≠ "" → cfg.Virtual.TCP.Server = "" →
        svc.ProfileTCP = some (as3MultiTypeParam.pointer
          { BigIP := cfg.Virtual.TCP.Client, Use := "" })) ∧
      (cfg.Virtual.TCP.Client = "" → cfg.Virtual.TCP.Server ≠ "" →
        (∀ s p, (H.addPersistenceMethod s p).ProfileTCP = s.ProfileTCP) →
        svc.ProfileTCP = none) := by
  obtain ⟨svc, hlookup, hpair⟩ :=
    createServiceDecl_stored K H cfg sharedApp tenant bigipAs3Version
  have hcfg := serviceClass_fst K cfg
    (serviceDefaultPool K cfg tenant (servicePolicyEndpoint cfg tenant {}))
  have h2 : svc.ProfileHTTP2 = _ := congrArg Prod.fst hpair
  have ht : svc.ProfileTCP = _ := congrArg Prod.snd hpair
  simp only [profilePair] at h2 ht
  rw [serviceProfileTCP_ProfileHTTP2] at h2
  refine ⟨svc, hlookup, ?_, ?_, ?_, ?_⟩
  · intro hhttps
    have hvalue := serviceProfileHTTP2_value
      (serviceClass K cfg (serviceDefaultPool K cfg tenant
        (servicePolicyEndpoint cfg tenant {}))).1
      (serviceSecurityProfiles (serviceClass K cfg (serviceDefaultPool K cfg tenant
          (servicePolicyEndpoint cfg tenant {}))).1
        (H.addPersistenceMethod
          (serviceClass K cfg (serviceDefaultPool K cfg tenant
            (servicePolicyEndpoint cfg tenant {}))).2
          (serviceClass K cfg (serviceDefaultPool K cfg tenant
            (servicePolicyEndpoint cfg tenant {}))).1.Virtual.PersistenceProfile))
      (by rw [hcfg.2.2.2]; exact hhttps)
    rw [hcfg.2.1] at hvalue
    rw [h2]
    exact hvalue
  · intro hc hs
    rw [ht]
    have hvalue := (serviceProfileTCP_value
      (serviceClass K cfg (serviceDefaultPool K cfg tenant
        (servicePolicyEndpoint cfg tenant {}))).1
      (serviceProfileHTTP2 (serviceClass K cfg (serviceDefaultPool K cfg tenant
          (servicePolicyEndpoint cfg tenant {}))).1
        (serviceSecurityProfiles (serviceClass K cfg (serviceDefaultPool K cfg tenant
            (servicePolicyEndpoint cfg tenant {}))).1
          (H.addPersistenceMethod
            (serviceClass K cfg (serviceDefaultPool K cfg tenant
              (servicePolicyEndpoint cfg tenant {}))).2
            (serviceClass K cfg (serviceDefaultPool K cfg tenant
              (servicePolicyEndpoint cfg tenant {}))).1.Virtual.PersistenceProfile)))).1
    rw [hcfg.2.2.1] at hvalue
    exact hvalue hc hs
  · intro hc hs
    rw [ht]
    have hvalue := (serviceProfileTCP_value
      (serviceClass K cfg (serviceDefaultPool K cfg tenant
        (servicePolicyEndpoint cfg tenant {}))).1
      (serviceProfileHTTP2 (serviceClass K cfg (serviceDefaultPool K cfg tenant
          (servicePolicyEndpoint cfg tenant {}))).1
        (serviceSecurityProfiles (serviceClass K cfg (serviceDefaultPool K cfg tenant
            (servicePolicyEndpoint cfg tenant {}))).1
          (H.addPersistenceMethod
            (serviceClass K cfg (serviceDefaultPool K cfg tenant
              (servicePolicyEndpoint cfg tenant {}))).2
            (serviceClass K cfg (serviceDefaultPool K cfg tenant
              (servicePolicyEndpoint cfg tenant {}))).1.Virtual.PersistenceProfile)))).2.1
    rw [hcfg.2.2.1] at hvalue
    exact hvalue hc hs
  · intro hc _ hpersist
    rw [ht]
    have hvalue := (serviceProfileTCP_value
      (serviceClass K cfg (serviceDefaultPool K cfg tenant
        (servicePolicyEndpoint cfg tenant {}))).1
      (serviceProfileHTTP2 (serviceClass K cfg (serviceDefaultPool K cfg tenant
          (servicePolicyEndpoint cfg tenant {}))).1
        (serviceSecurityProfiles (serviceClass K cfg (serviceDefaultPool K cfg tenant
            (servicePolicyEndpoint cfg tenant {}))).1
          (H.addPersistenceMethod
            (serviceClass K cfg (serviceDefaultPool K cfg tenant
              (servicePolicyEndpoint cfg tenant {}))).2
            (serviceClass K cfg (serviceDefaultPool K cfg tenant
              (servicePolicyEndpoint cfg tenant {}))).1.Virtual.PersistenceProfile)))).2.2
    rw [hcfg.2.2.1] at hvalue
    rw [hvalue hc, serviceProfileHTTP2_ProfileTCP, serviceSecurityProfiles_ProfileTCP, hpersist,
      serviceClass_ProfileTCP]

/-- Witness for C30 (amended): an `https` virtual with both profiles of both pairs. -/
theorem createServiceDecl_profile_pairs_witness :
    ∃ svc,
      lookup (createServiceDecl sampleConstants sampleHelpers bothProfilesConfig [] "test"
        (352, 2)).2 "vs1" = some (AS3Value.service svc) ∧
      svc.ProfileHTTP2 = some (as3MultiTypeParam.profileHTTP2
        { Ingress := some { BigIP := "/Common/http2-client", Use := "" },
          Egress := some { BigIP := "/Common/http2-server", Use := "" } }) ∧
      svc.ProfileTCP = some (as3MultiTypeParam.profileTCP
        { Ingress := some { BigIP := "/Common/tcp-client", Use := "" },
          Egress := some { BigIP := "/Common/tcp-server", Use := "" } }) := by
  obtain ⟨svc, hlookup, hhttp2, htcp, _, _⟩ :=
    createServiceDecl_profile_pairs sampleConstants sampleHelpers bothProfilesConfig [] "test"
      (352, 2)
  exact ⟨svc, hlookup, (hhttp2 rfl).1 (by decide) (by decide), htcp (by decide) (by decide)⟩

/-- C31: the service that `createServiceDecl` stores has the class `Service_HTTPS` when the
passthrough-hosts data group of the virtual is in the config, otherwise `Service_TCP` under
TLS passthrough and `Service_HTTP` under any other termination; its server TLS is the
pointer `/Common/clientssl` when the data group is in the config and the version is below
3.52, and is absent otherwise.  The helper `addPersistenceMethod`, which is declared
outside the translated files, is taken to leave the class and the server TLS alone. -/
theorem createServiceDecl_class {F : Type} (K : Constants) (H : Helpers F)
    (cfg : ResourceConfig) (sharedApp : as3Application) (tenant : String)
    (bigipAs3Version : F)
    (hpersist : ∀ svc profile,
      (H.addPersistenceMethod svc profile).Class = svc.Class ∧
        (H.addPersistenceMethod svc profile).ServerTLS = svc.ServerTLS) :
    ∃ svc, lookup (createServiceDecl K H cfg sharedApp tenant bigipAs3Version).2
        cfg.Virtual.Name = some (AS3Value.service svc) ∧
      svc.Class =
        (if passthroughHostsKey K H cfg ∈ cfg.IntDgMap.map Prod.fst then "Service_HTTPS"
          else if cfg.Virtual.TLSTermination = K.TLSPassthrough then "Service_TCP"
          else "Service_HTTP") ∧
      svc.ServerTLS =
        (if passthroughHostsKey K H cfg ∈ cfg.IntDgMap.map Prod.fst ∧
            H.below352 bigipAs3Version = true then
          some (as3MultiTypeParam.pointer { BigIP := "/Common/clientssl", Use := "" })
        else none) := by
  obtain ⟨svc, hsvc, hpair⟩ := createServiceDecl_classPair K H cfg sharedApp tenant
    bigipAs3Version (fun svc profile => Prod.ext (hpersist svc profile).1 (hpersist svc profile).2)
  refine ⟨svc, hsvc, ?_, ?_⟩
  · have h := congrArg Prod.fst hpair
    simp only [classPair] at h
    rw [h]
    split <;> rfl
  · have h := congrArg Prod.snd hpair
    simp only [classPair] at h
    rw [h]
    by_cases hp : passthroughHostsKey K H cfg ∈ cfg.IntDgMap.map Prod.fst
    · by_cases hv : H.below352 bigipAs3Version = true
      · simp [hp, hv]
      · simp [hp, hv]
    · simp [hp]

/-- Witness for C31: the passthrough virtual `vs1` with its passthrough-hosts data group, at
version 3.51. -/
theorem createServiceDecl_class_witness :
    ∃ svc, lookup (createServiceDecl sampleConstants sampleHelpers passthroughHostsConfig []
        "test" (351, 2)).2 "vs1" = some (AS3Value.service svc) ∧
      svc.Class = "Service_HTTPS" ∧
      svc.ServerTLS =
        some (as3MultiTypeParam.pointer { BigIP := "/Common/clientssl", Use := "" }) :=
  createServiceDecl_class sampleConstants sampleHelpers passthroughHostsConfig [] "test"
    (351, 2) (fun svc profile => by
      show (if profile = "" then svc else _ : as3Service).Class = _ ∧
        (if profile = "" then svc else _ : as3Service).ServerTLS = _
      split <;> exact ⟨rfl, rfl⟩)

/-- C32 as stated fails: on a passthrough virtual without a persistence
profile the config that `createServiceDecl` leaves behind is not the config it was given. -/
theorem createServiceDecl_changes_persistence_profile :
    (createServiceDecl sampleConstants sampleHelpers passthroughConfig [] "test" (352, 2)).1 ≠
      passthroughConfig := by
  intro h
  have hp := congrArg (fun cfg : ResourceConfig => cfg.Virtual.PersistenceProfile) h
  exact absurd hp (by decide)

/-- C32 (amended): `createServiceDecl` leaves its config unchanged except that, under TLS
passthrough, an empty persistence profile of the virtual is set to `tls-session-id`. -/
theorem createServiceDecl_config {F : Type} (K : Constants) (H : Helpers F)
    (cfg : ResourceConfig) (sharedApp : as3Application) (tenant : String)
    (bigipAs3Version : F) :
    (createServiceDecl K H cfg sharedApp tenant bigipAs3Version).1 =
      if cfg.Virtual.TLSTermination = K.TLSPassthrough ∧ cfg.Virtual.PersistenceProfile = ""
      then { cfg with Virtual := { cfg.Virtual with PersistenceProfile := "tls-session-id" } }
      else cfg := by
  rw [createServiceDecl_fst, serviceClass_config]

/-- C33 (the code on the failing inputs): when two keys of the map have profiles of the same
name, the sequence that `getSortedCustomProfileKeys` returns depends on the order in which the
map is iterated. This holds for every `sort.Slice` that permutes the slice and sees its
elements only through the comparison it is given (it commutes with a relabelling of the
elements that keeps every comparison). -/
theorem getSortedCustomProfileKeys_depends_on_iteration
    (Slice : List SecretKey → (SecretKey → SecretKey → Bool) → List SecretKey)
    (hperm : ∀ keys less, (Slice keys less).Perm keys)
    (hless : ∀ (f : SecretKey → SecretKey) keys less,
      (∀ a b, less (f a) (f b) = less a b) → Slice (keys.map f) less = (Slice keys less).map f)
    (k1 k2 : SecretKey) (prof1 prof2 : CustomProfile) (hk : k1 ≠ k2)
    (hname : prof1.Name = prof2.Name) :
    getSortedCustomProfileKeys Slice [(k1, prof1), (k2, prof2)] ≠
      getSortedCustomProfileKeys Slice [(k2, prof2), (k1, prof1)] := by
  unfold getSortedCustomProfileKeys
  have hfun : (fun ki kj => decide (((lookupProfile [(k2, prof2), (k1, prof1)] ki).getD {}).Name <
        ((lookupProfile [(k2, prof2), (k1, prof1)] kj).getD {}).Name)) =
      (fun ki kj => decide (((lookupProfile [(k1, prof1), (k2, prof2)] ki).getD {}).Name <
        ((lookupProfile [(k1, prof1), (k2, prof2)] kj).getD {}).Name)) := by
    funext ki kj
    rw [lookupProfile_pair k1 k2 prof1 prof2 hk ki, lookupProfile_pair k1 k2 prof1 prof2 hk kj]
  rw [hfun]
  have hswap : ∀ a, ((lookupProfile [(k1, prof1), (k2, prof2)]
        (if a = k1 then k2 else if a = k2 then k1 else a)).getD {}).Name =
      ((lookupProfile [(k1, prof1), (k2, prof2)] a).getD {}).Name := by
    intro a
    by_cases h1 : a = k1
    · subst h1
      simp [lookupProfile, hk, hname]
    · by_cases h2 : a = k2
      · subst h2
        simp [lookupProfile, Ne.symm hk, hk, hname]
      · simp [h1, h2]
  have hmap : List.map Prod.fst [(k2, prof2), (k1, prof1)] =
      (List.map Prod.fst [(k1, prof1), (k2, prof2)]).map
        (fun a => if a = k1 then k2 else if a = k2 then k1 else a) := by
    simp [Ne.symm hk]
  rw [hmap, hless _ _ _ (by intro a b; rw [hswap a, hswap b])]
  exact pair_ne_map_swap _ k1 k2 (by simp [Ne.symm hk]) (by simp [Ne.symm hk, hk]) _ (hperm _ _)

/-- Witness for C33: the secret `tls` attached to the resources `vs1` and `vs2`, with the
insertion sort that `sort.Slice` runs on a short slice. -/
theorem getSortedCustomProfileKeys_depends_on_iteration_witness :
    getSortedCustomProfileKeys insertionSort
        [({ Name := "tls", ResourceName := "vs1" }, { Name := "tls" }),
         ({ Name := "tls", ResourceName := "vs2" }, { Name := "tls" })] ≠
      getSortedCustomProfileKeys insertionSort
        [({ Name := "tls", ResourceName := "vs2" }, { Name := "tls" }),
         ({ Name := "tls", ResourceName := "vs1" }, { Name := "tls" })] :=
  getSortedCustomProfileKeys_depends_on_iteration insertionSort
    (fun keys less => insertionSort_perm keys less)
    (fun f keys less h => insertionSort_map less f h keys)
    { Name := "tls", ResourceName := "vs1" } { Name := "tls", ResourceName := "vs2" }
    { Name := "tls" } { Name := "tls" } (by decide) rfl

/-- C34 (the code at the failing input): a profile whose only certificate has a body and no
private key, attached to the service `vs1` that has no TLS server, leaves more than client-side
objects behind: `processCustomProfilesForAS3` also stores a `TLS_Server` without certificates
under `vs1_tls_server`, makes it the server TLS of the service and turns the service into an
HTTPS service, because `createUpdateTLSServer` does so before it looks at the certificates. -/
theorem processCustomProfilesForAS3_cert_only_profile :
    processCustomProfilesForAS3 sampleConstants sampleHelpers insertionSort
        [("vs1", certOnlyResource)] applicationWithService (344, 2) =
      some
        [("vs1", AS3Value.service
            { Class := "Service_HTTPS", Redirect80 := some false,
              ServerTLS := some (as3MultiTypeParam.str "vs1_tls_server"),
              ClientTLS := some (as3MultiTypeParam.str "vs1_tls_client") }),
         ("vs1_tls_server", AS3Value.tlsServer { Class := "TLS_Server", Certificates := [] }),
         ("serverssl_ca_bundle", AS3Value.caBundle { Class := "CA_Bundle", Bundle := "\nPEM" }),
         ("vs1_tls_client", AS3Value.tlsClient
            { Class := "TLS_Client",
              TrustCA := some { BigIP := "", Use := "serverssl_ca_bundle" } })] := rfl

/-- C35 (the code at the failing input): at version 3.44 the TLS server that the profile of
`mixedCertificatesResource` gives the service `vs1` holds two certificates and none of them is
marked as the SNI default, while the same profile without its third certificate has the first
of the two marked: `createUpdateTLSServer` appends the two certificates before it returns false
at the third, and the service is then not among those whose TLS server is marked. -/
theorem processCustomProfilesForAS3_unmarked_server :
    (processCustomProfilesForAS3 sampleConstants sampleHelpers insertionSort
        [("vs1", mixedCertificatesResource)] applicationWithService (344, 2)).map
        (fun sharedApp => lookup sharedApp "vs1_tls_server") =
      some (some (AS3Value.tlsServer
        { Class := "TLS_Server",
          Certificates := [{ Certificate := "tls_0", SNIDefault := false },
                           { Certificate := "tls_1", SNIDefault := false }] })) ∧
    (processCustomProfilesForAS3 sampleConstants sampleHelpers insertionSort
        [("vs1", twoCertificatesResource)] applicationWithService (344, 2)).map
        (fun sharedApp => lookup sharedApp "vs1_tls_server") =
      some (some (AS3Value.tlsServer
        { Class := "TLS_Server",
          Certificates := [{ Certificate := "tls_0", SNIDefault := true },
                           { Certificate := "tls_1", SNIDefault := false }] })) :=
  ⟨rfl, rfl⟩

/-- C36 (the code on the failing inputs): when two resources contribute to the same data group
records of the same key and of different values, the record sequence that
`processDataGroupForAS3` stores depends on the order in which the resource map is traversed:
both orders store the two records, in different sequences.  This holds for every `sort.Slice`
that permutes the records and sees them only through the comparison of their keys (it commutes
with a change of the records that keeps every key). -/
theorem processDataGroupForAS3_depends_on_traversal
    (sortRecordsByKey : List as3Record → List as3Record)
    (hperm : ∀ records, (sortRecordsByKey records).Perm records)
    (hkeys : ∀ (f : as3Record → as3Record) records, (∀ r, (f r).Key = r.Key) →
      sortRecordsByKey (records.map f) = (sortRecordsByKey records).map f)
    (nameA nameB group key a b : String) (hab : a ≠ b) :
    ∃ r1 r2,
      recordsAt (processDataGroupForAS3 sortRecordsByKey
          [(nameA, oneRecordResource group key a), (nameB, oneRecordResource group key b)] [])
          group = some r1 ∧
      recordsAt (processDataGroupForAS3 sortRecordsByKey
          [(nameB, oneRecordResource group key b), (nameA, oneRecordResource group key a)] [])
          group = some r2 ∧
      r1.Perm [⟨key, a⟩, ⟨key, b⟩] ∧ r2.Perm [⟨key, a⟩, ⟨key, b⟩] ∧
      r1 ≠ r2 := by
  refine ⟨_, _, processDataGroupForAS3_two_resources sortRecordsByKey hperm nameA nameB group
      key a b,
    processDataGroupForAS3_two_resources sortRecordsByKey hperm nameB nameA group key b a,
    hperm _, (hperm _).trans (List.Perm.swap _ _ _), ?_⟩
  have hne : (⟨key, a⟩ : as3Record) ≠ ⟨key, b⟩ := by
    intro h
    exact hab (congrArg as3Record.Value h)
  have hmap : ([⟨key, b⟩, ⟨key, a⟩] : List as3Record) =
      ([⟨key, a⟩, ⟨key, b⟩] : List as3Record).map
        (fun r =>
          if r = ⟨key, a⟩ then ⟨key, b⟩ else if r = ⟨key, b⟩ then ⟨key, a⟩ else r) := by
    simp [Ne.symm hne]
  rw [hmap, hkeys _ _ (by
    intro r
    by_cases h1 : r = ⟨key, a⟩
    · rw [if_pos h1, h1]
    · rw [if_neg h1]
      by_cases h2 : r = ⟨key, b⟩
      · rw [if_pos h2, h2]
      · rw [if_neg h2])]
  exact pair_ne_map_swap _ _ _ (by simp [Ne.symm hne]) (by simp [Ne.symm hne, hne]) _ (hperm _)

/-- Witness for C36: the resources `vs1` and `vs2` give the data group `dg1` the key `host`
with the values `pool1` and `pool2`; the sort is the insertion sort that `sort.Slice` runs
on a short slice. -/
theorem processDataGroupForAS3_depends_on_traversal_witness :
    ∃ r1 r2,
      recordsAt (processDataGroupForAS3 sortRecords
          [("vs1", oneRecordResource "dg1" "host" "pool1"),
           ("vs2", oneRecordResource "dg1" "host" "pool2")] []) "dg1" = some r1 ∧
      recordsAt (processDataGroupForAS3 sortRecords
          [("vs2", oneRecordResource "dg1" "host" "pool2"),
           ("vs1", oneRecordResource "dg1" "host" "pool1")] []) "dg1" = some r2 ∧
      r1.Perm [⟨"host", "pool1"⟩, ⟨"host", "pool2"⟩] ∧
      r2.Perm [⟨"host", "pool1"⟩, ⟨"host", "pool2"⟩] ∧ r1 ≠ r2 :=
  processDataGroupForAS3_depends_on_traversal sortRecords sortRecords_perm
    (fun f records h => sortRecords_map f h records) "vs1" "vs2" "dg1" "host" "pool1" "pool2"
    (by decide)

/-- C37 (the code on the failing inputs): when the shared application holds, under the name of
one of the pools of the config, an object that is not a pool, `createPoolDecl` does not return:
the unchecked assertion `pl.(*as3Pool)` panics, whatever the other pools are. -/
theorem createPoolDecl_panics_on_other_object (K : Constants) (cfg : ResourceConfig)
    (sharedApp : as3Application) (shareNodes : Bool) (tenant poolMemberType : String)
    (v : Pool) (hv : v ∈ cfg.Pools) (hother : poolOrAbsent (lookup sharedApp v.Name) = false) :
    createPoolDecl K cfg sharedApp shareNodes tenant poolMemberType = none :=
  foldlM_createPool_none K shareNodes tenant poolMemberType cfg.Pools sharedApp v hv hother

/-- Witness for C37: the config with the pool `pool1` on a shared application that holds an
endpoint policy under `pool1`. -/
theorem createPoolDecl_panics_on_other_object_witness :
    createPoolDecl sampleConstants twoMemberTypesConfig applicationWithPolicy false "test"
      "cluster" = none :=
  createPoolDecl_panics_on_other_object sampleConstants twoMemberTypesConfig
    applicationWithPolicy false "test" "cluster" _ (List.mem_singleton.mpr rfl) rfl

/-- C38: on a request whose `declaration` is an object, `logRequest` serialises a document
that differs from the request only under `declaration`, where every tenant keeps its keys,
every application keeps its keys, an object of class `Certificate` at declaration / tenant /
application / object has `certificate`, `privateKey` and `chainCA` set to the empty string
and its other fields unchanged, and every other value is unchanged. -/
theorem logRequest_blanks_certificates_only (as3Config adc : JMap)
    (hdecl : mapIndex as3Config "declaration" = some (JSON.obj adc)) :
    ∃ logged loggedAdc, logRequest as3Config = some logged ∧
      mapIndex logged "declaration" = some (JSON.obj loggedAdc) ∧
      sameKeys tenantBlanked adc loggedAdc ∧
      ∀ k, k ≠ "declaration" → mapIndex logged k = mapIndex as3Config k := by
  refine ⟨_, adc.map (fun e => (e.1, redactTenant e.2)), ?_, mapIndex_mapAssign_self _ _ _,
    sameKeys_map _ _ tenantBlanked_redactTenant adc,
    fun k hk => mapIndex_mapAssign_ne _ _ _ _ hk⟩
  simp [logRequest, hdecl, asMap]

/-- Witness for C38: the request `certificateRequest`, whose application holds a certificate
and a pool. -/
theorem logRequest_blanks_certificates_only_witness :
    ∃ logged loggedAdc, logRequest certificateRequest = some logged ∧
      mapIndex logged "declaration" = some (JSON.obj loggedAdc) ∧
      sameKeys tenantBlanked
        [("class", JSON.str "ADC"),
         ("test", JSON.obj
           [("Shared", JSON.obj
             [("cert1", JSON.obj [("class", JSON.str "Certificate"),
                                  ("certificate", JSON.str "PEM"),
                                  ("privateKey", JSON.str "KEY"),
                                  ("remark", JSON.str "kept")]),
              ("pool1", JSON.obj [("class", JSON.str "Pool"),
                                  ("certificate", JSON.str "not a secret")])])])]
        loggedAdc ∧
      ∀ k, k ≠ "declaration" → mapIndex logged k = mapIndex certificateRequest k :=
  logRequest_blanks_certificates_only certificateRequest _ rfl

/-- C39: `removeDeletedTenantsForBigIP` leaves every entry of `ltmConfig` as it was, adds
an empty partition config of priority 1 under every key of the device configuration that
is not in `ltmConfig`, differs from `partition + "_gtm"` and whose value is an object
labelled `cisLabel`, adds nothing under any other key, and leaves the other fields of the
request alone. -/
theorem removeDeletedTenantsForBigIP_adds_owned_tenants (as3Config : JMap)
    (rsConfig : ResourceConfigRequest) (cisLabel partition : String)
    (hmap : (keys as3Config).Nodup) :
    (∀ k c, lookup rsConfig.ltmConfig k = some c →
      lookup (removeDeletedTenantsForBigIP as3Config rsConfig cisLabel partition).ltmConfig k =
        some c) ∧
    (∀ k, lookup rsConfig.ltmConfig k = none → ownedTenant as3Config cisLabel k →
      k ≠ partition ++ "_gtm" →
      lookup (removeDeletedTenantsForBigIP as3Config rsConfig cisLabel partition).ltmConfig k =
        some { ResourceMap := [], Priority := 1 }) ∧
    (∀ k, lookup rsConfig.ltmConfig k = none →
      ¬ (ownedTenant as3Config cisLabel k ∧ k ≠ partition ++ "_gtm") →
      lookup (removeDeletedTenantsForBigIP as3Config rsConfig cisLabel partition).ltmConfig k =
        none) ∧
    { removeDeletedTenantsForBigIP as3Config rsConfig cisLabel partition with
        ltmConfig := rsConfig.ltmConfig } = rsConfig := by
  refine ⟨fun k c h => removeDeletedTenants_keep cisLabel partition as3Config rsConfig k c h,
    ?_, ?_, removeDeletedTenants_other_fields cisLabel partition as3Config rsConfig⟩
  · intro k h howned hgtm
    obtain ⟨decl, hdecl, hlabel⟩ := howned
    exact removeDeletedTenants_add cisLabel partition as3Config rsConfig k h
      ⟨(k, JSON.obj decl), mapIndex_mem _ _ _ hdecl, rfl, decl, rfl, hlabel⟩ hgtm
  · intro k h hno
    apply removeDeletedTenants_none cisLabel partition as3Config rsConfig k h
    intro e he hk hcond
    obtain ⟨⟨decl, hdecl, hlabel⟩, hgtm⟩ := hcond
    apply hno
    refine ⟨⟨decl, ?_, hlabel⟩, hgtm⟩
    apply mapIndex_of_mem_nodup _ _ _ hmap
    rw [← hk, ← hdecl]
    exact he

/-- Witness for C39: the device configuration `deviceConfiguration` and a request for the
tenant `test`, with the label `cis` and the partition `test`. -/
theorem removeDeletedTenantsForBigIP_adds_owned_tenants_witness :
    (keys deviceConfiguration).Nodup ∧
    (∀ k c, lookup deviceRequest.ltmConfig k = some c →
      lookup (removeDeletedTenantsForBigIP deviceConfiguration deviceRequest "cis"
        "test").ltmConfig k = some c) ∧
    (∀ k, lookup deviceRequest.ltmConfig k = none → ownedTenant deviceConfiguration "cis" k →
      k ≠ "test" ++ "_gtm" →
      lookup (removeDeletedTenantsForBigIP deviceConfiguration deviceRequest "cis"
        "test").ltmConfig k = some { ResourceMap := [], Priority := 1 }) ∧
    (∀ k, lookup deviceRequest.ltmConfig k = none →
      ¬ (ownedTenant deviceConfiguration "cis" k ∧ k ≠ "test" ++ "_gtm") →
      lookup (removeDeletedTenantsForBigIP deviceConfiguration deviceRequest "cis"
        "test").ltmConfig k = none) ∧
    { removeDeletedTenantsForBigIP deviceConfiguration deviceRequest "cis" "test" with
        ltmConfig := deviceRequest.ltmConfig } = deviceRequest :=
  ⟨by decide,
    removeDeletedTenantsForBigIP_adds_owned_tenants deviceConfiguration deviceRequest "cis"
      "test" (by decide)⟩

/-- C40 (the code on the failing inputs): a resource whose virtual lists the iRule `none` is
not skipped.  With one iRule and one data group in its maps, `processIRulesForAS3` stores the
iRule under its name and `processDataGroupForAS3` stores the data group under its name, as for
any other resource. -/
theorem processIRulesForAS3_none_not_skipped
    (sortRecordsByKey : List as3Record → List as3Record) (name : String)
    (rsCfg : ResourceConfig) (sharedApp : as3Application) (ref dgRef : NameRef)
    (rule : IRule) (key : String) (dg : InternalDataGroup)
    (hnone : "none" ∈ rsCfg.Virtual.IRules) (hrules : rsCfg.IRulesMap = [(ref, rule)])
    (hdg : rsCfg.IntDgMap = [(dgRef, [(key, dg)])])
    (hfree : lookup sharedApp dg.Name = none) :
    lookup (processIRulesForAS3 [(name, rsCfg)] sharedApp) rule.Name =
        some (AS3Value.iRules ⟨"iRule", rule.Code⟩) ∧
      ∃ app, processDataGroupForAS3 sortRecordsByKey [(name, rsCfg)] sharedApp = some app ∧
        lookup app dg.Name = some (AS3Value.dataGroup
          ⟨sortRecordsByKey (dg.Records.map (fun record => ⟨record.Name, record.Data⟩)),
            dg.Type_, "Data_Group"⟩) := by
  constructor
  · simp only [processIRulesForAS3, List.foldl_cons, List.foldl_nil, hrules, lookup_store_self]
  · refine ⟨_, ?_, lookup_store_self sharedApp dg.Name _⟩
    simp [processDataGroupForAS3, hdg, processDataGroup, hfree]

/-- Witness for C40: the resource `vs1`, whose virtual lists `none`, with the iRule `rule1`
and the data group `dg1`. -/
theorem processIRulesForAS3_none_not_skipped_witness :
    lookup (processIRulesForAS3 [("vs1", noneIRuleConfig)] []) "rule1" =
        some (AS3Value.iRules ⟨"iRule", "when HTTP_REQUEST"⟩) ∧
      ∃ app, processDataGroupForAS3 sortRecords [("vs1", noneIRuleConfig)] [] = some app ∧
        lookup app "dg1" = some (AS3Value.dataGroup
          ⟨sortRecords [⟨"k", "v"⟩], "string", "Data_Group"⟩) :=
  processIRulesForAS3_none_not_skipped sortRecords "vs1" noneIRuleConfig []
    { Name := "rule1", Partition := "test" } { Name := "dg1", Partition := "test" }
    { Name := "rule1", Code := "when HTTP_REQUEST" } "default"
    { Name := "dg1", Type_ := "string", Records := [{ Name := "k", Data := "v" }] }
    (List.mem_singleton.mpr rfl) rfl rfl rfl

end AS3Handler
